import Mathlib

/-!
# Coverage map (occlusion quad-tree) of `libraries/voxels/src/CoverageMap.cpp`

A shallow embedding of `CoverageRegion` and `CoverageMap`.

* A `float` is the rational number it stands for (`ℚ`), and `binary32` is the rounding of
  `float` arithmetic.  Where a `float` result is compared with a `float` constant the rounding
  is applied: the constants of lines 43-47 and `BoundingBox.area` are binary32 values.  The
  coordinates of the rectangles are added and halved exactly in `contains`, the halves,
  `getChildBoundingBox` and `checkMap`; `containsBinary32`, `getChildBoundingBoxBinary32` and
  `checkMapBinary32` are the same functions with every sum and halving rounded to binary32.
  The two agree where nothing is rounded (`getChildBoundingBoxBinary32_of_exact`,
  `findChildBinary32_of_exact`) and differ for rectangles whose size is lost when it is added to
  their corner.
* A polygon pointer is the polygon value it points to; the C++ arrays `_polygons` and
  `_polygonDistances` are the lists of their first `_polygonCount` entries, so that
  `_polygonCount` is the length of `_polygons`.  `_polygonSizes` is never written when
  `SORT_BY_SIZE` is `false` and is left out.
* The static debugging counters (`_mapCount`, `_checkMapRootCalls`, `_notAllInView`,
  `_totalPolygons`, `_occlusionTests`, `_regionSkips`, `_tooSmallSkips`, `_outOfOrderPolygon`,
  `_maxPolygonsUsed`) are process-wide statistics, not part of a tree, and are left out.
* `checkMap` recurses into a child that it may just have created, so its recursion is not
  structural in the tree: it takes a fuel argument that bounds the depth of the descent and
  returns `none` when the fuel runs out.  In exact arithmetic `descentBound` is fuel that
  suffices for a polygon of positive width or height (`checkMap_terminates`); for a rectangle
  of zero width and height the descent need not end (`checkMap_polygonPoint_none`).  In
  binary32 fuel for 150 levels suffices below a root over `ROOT_BOUNDING_BOX` for a rectangle
  whose width or height is kept in the sum `corner + size` (`checkMapBinary32_returns_level`),
  as is that of every rectangle of non-negative size with area above the minimum
  (`checkMapBinary32_returns_of_area`), and the descent need not end for one whose width and
  height are lost in the sums (`checkMapBinary32_at_corner_none`).
* What `src/` does not contain (`BoundingBox`, `VoxelProjectedPolygon`, `insertIntoSortedArrays`,
  `CoverageMap.h`) is modelled from the spec or taken as a parameter (`Externals`).
-/

namespace Hifi

/-! ## The arithmetic of `float` -/

/-- Rounding of a rational to the nearest integer, a tie going to the even one. -/
def roundHalfEven (x : ℚ) : ℤ :=
  if x - ⌊x⌋ < 1 / 2 then ⌊x⌋
  else if 1 / 2 < x - ⌊x⌋ then ⌊x⌋ + 1
  else if ⌊x⌋ % 2 = 0 then ⌊x⌋ else ⌊x⌋ + 1

/-- The exponent `k` of the spacing `2 ^ k` of the binary32 numbers around `q`: 23 below the
exponent of `q`, and -149 in the subnormal range. -/
def binary32Exponent (q : ℚ) : ℤ := max (Int.log 2 |q|) (-126) - 23

/-- The value of the `float` (IEEE 754 binary32) result of an operation whose exact value is
`q`: the nearest multiple of the spacing at `q`, a tie going to the even multiple.  It is the
rounding of the finite range, magnitudes below `2 ^ 128`. -/
def binary32 (q : ℚ) : ℚ :=
  (roundHalfEven (q / 2 ^ binary32Exponent q) : ℚ) * 2 ^ binary32Exponent q

/-! ## Rectangles and polygons -/

/-- The pair of floats `glm::vec2`. -/
structure Vec2 where
  x : ℚ
  y : ℚ
deriving DecidableEq

/-- Modelled from the spec: the class `BoundingBox` (declared with `VoxelProjectedPolygon`, not
under `src/`), the spec's Rectangle with `corner` and `size`.  `isSet` separates a rectangle that
was given a corner and a size from the default-constructed one, which is the union of no
rectangle at all (the initial `_currentCoveredBounds` of a region) and contains nothing. -/
structure BoundingBox where
  corner : Vec2
  size : Vec2
  isSet : Bool
deriving DecidableEq

namespace BoundingBox

/-- Modelled from the spec: the constructor `BoundingBox(corner, size)`. -/
def new (corner size : Vec2) : BoundingBox := ⟨corner, size, true⟩

/-- Modelled from the spec: the default constructor `BoundingBox()`, the empty union. -/
def unset : BoundingBox := ⟨⟨0, 0⟩, ⟨0, 0⟩, false⟩

/-- The area `size.x * size.y` of the rectangle as a set of points. -/
def exactArea (b : BoundingBox) : ℚ := b.size.x * b.size.y

/-- Modelled from the spec: `area = size.x * size.y`, the `float` product of the two `float`
members and so the binary32 value of the product. -/
def area (b : BoundingBox) : ℚ := binary32 (b.size.x * b.size.y)

/-- Modelled from the spec: `contains(other)` is true iff `other` lies entirely within
`[corner, corner + size]` on both axes, a closed-interval test. -/
def contains (b box : BoundingBox) : Bool :=
  b.isSet &&
  decide (b.corner.x ≤ box.corner.x) &&
  decide (b.corner.y ≤ box.corner.y) &&
  decide (box.corner.x + box.size.x ≤ b.corner.x + b.size.x) &&
  decide (box.corner.y + box.size.y ≤ b.corner.y + b.size.y)

/-- Modelled from the spec: `topHalf`, the half of the rectangle with the larger `y`
(in the screen mapping of the source `y = 1` is the top edge). -/
def topHalf (b : BoundingBox) : BoundingBox :=
  new ⟨b.corner.x, b.corner.y + b.size.y / 2⟩ ⟨b.size.x, b.size.y / 2⟩

/-- Modelled from the spec: `bottomHalf`, the half of the rectangle with the smaller `y`. -/
def bottomHalf (b : BoundingBox) : BoundingBox :=
  new b.corner ⟨b.size.x, b.size.y / 2⟩

/-- Modelled from the spec: `leftHalf`, the half of the rectangle with the smaller `x`
(in the screen mapping of the source `x = -1` is the left edge). -/
def leftHalf (b : BoundingBox) : BoundingBox :=
  new b.corner ⟨b.size.x / 2, b.size.y⟩

/-- Modelled from the spec: `rightHalf`, the half of the rectangle with the larger `x`. -/
def rightHalf (b : BoundingBox) : BoundingBox :=
  new ⟨b.corner.x + b.size.x / 2, b.corner.y⟩ ⟨b.size.x / 2, b.size.y⟩

/-- Modelled from the spec: `explandToInclude(other)` (the source's spelling) turns the
rectangle into the smallest rectangle containing both; the empty union becomes `other`. -/
def explandToInclude (b box : BoundingBox) : BoundingBox :=
  if b.isSet then
    let minX := min box.corner.x b.corner.x
    let minY := min box.corner.y b.corner.y
    let maxX := max (box.corner.x + box.size.x) (b.corner.x + b.size.x)
    let maxY := max (box.corner.y + box.size.y) (b.corner.y + b.size.y)
    ⟨⟨minX, minY⟩, ⟨maxX - minX, maxY - minY⟩, true⟩
  else
    ⟨box.corner, box.size, true⟩

end BoundingBox

/-- Modelled from the spec: the class `VoxelProjectedPolygon` (not under `src/`), read through
its getters `getBoundingBox()`, `getDistance()` and `getAllInView()`; `vertices` is its outline.
The test `occludes` is a field of `Externals`. -/
structure VoxelProjectedPolygon where
  vertices : List Vec2
  getBoundingBox : BoundingBox
  getDistance : ℚ
  getAllInView : Bool
deriving DecidableEq

/-- What `CoverageMap.cpp` uses and `src/` does not define: the outline test
`VoxelProjectedPolygon::occludes` and the constant `DEFAULT_GROW_SIZE` of `CoverageMap.h`. -/
structure Externals where
  occludes : VoxelProjectedPolygon → VoxelProjectedPolygon → Bool
  DEFAULT_GROW_SIZE : Nat

/-- The enum `CoverageMapStorageResult`. -/
inductive CoverageMapStorageResult where
  | STORED
  | OCCLUDED
  | DOESNT_FIT
  | NOT_STORED
deriving DecidableEq, Repr

/-- The enum `RegionName`; it also names the region `storeIn` points to in `checkMap`. -/
inductive RegionName where
  | TOP_HALF
  | BOTTOM_HALF
  | LEFT_HALF
  | RIGHT_HALF
  | REMAINDER
deriving DecidableEq, Repr

open CoverageMapStorageResult RegionName

/-- The constant `TYPICAL_SCREEN_WIDTH_IN_PIXELS` (line 43). -/
def TYPICAL_SCREEN_WIDTH_IN_PIXELS : ℚ := 1500

/-- The constant `MINIMUM_POLYGON_AREA_SIDE_IN_PIXELS` (line 44). -/
def MINIMUM_POLYGON_AREA_SIDE_IN_PIXELS : ℚ := 10

/-- The initialiser `2.0f / TYPICAL_SCREEN_WIDTH_IN_PIXELS` of line 45, with the rounding `fl`
of the arithmetic applied to the result of the division. -/
def screenPixelWidth (fl : ℚ → ℚ) : ℚ := fl (2 / TYPICAL_SCREEN_WIDTH_IN_PIXELS)

/-- The initialiser of lines 46-47, the product of two products of the pixel width and the
side in pixels, with the rounding `fl` of the arithmetic applied to the result of each
operation. -/
def minimumPolygonArea (fl : ℚ → ℚ) : ℚ :=
  fl (fl (screenPixelWidth fl * MINIMUM_POLYGON_AREA_SIDE_IN_PIXELS) *
    fl (screenPixelWidth fl * MINIMUM_POLYGON_AREA_SIDE_IN_PIXELS))

/-- The constant `TYPICAL_SCREEN_PIXEL_WIDTH`, a `const float`. -/
def TYPICAL_SCREEN_PIXEL_WIDTH : ℚ := screenPixelWidth binary32

/-- The constant `CoverageMap::MINIMUM_POLYGON_AREA_TO_STORE`, a `const float`: the value of
its initialiser in binary32 arithmetic, which is `3054199 / 2 ^ 34`
(`MINIMUM_POLYGON_AREA_TO_STORE_eq`). -/
def MINIMUM_POLYGON_AREA_TO_STORE : ℚ := minimumPolygonArea binary32

/-- The constant `NUMBER_OF_CHILDREN` of `CoverageMap.h`: the four quadrants. -/
def NUMBER_OF_CHILDREN : Nat := 4

/-- The constant `ROOT_BOUNDING_BOX`. -/
def ROOT_BOUNDING_BOX : BoundingBox := BoundingBox.new ⟨-1, -1⟩ ⟨2, 2⟩

/-! ## CoverageRegion -/

/-- The class `CoverageRegion`; `_polygonCount` is `_polygons.length`. -/
structure CoverageRegion where
  _isRoot : Bool
  _myBoundingBox : BoundingBox
  _managePolygons : Bool
  _regionName : RegionName
  _currentCoveredBounds : BoundingBox
  _polygonArraySize : Nat
  _polygons : List VoxelProjectedPolygon
  _polygonDistances : List ℚ
deriving DecidableEq

/-- Inserts `a` before position `i` of `l` (at the end when `i` is past the end): the shift
of the tail by `memmove` followed by the write at `i`. -/
def insertAt {α : Type} (i : Nat) (a : α) (l : List α) : List α :=
  l.take i ++ a :: l.drop i

/-- The position found by the scan of the key array: the number of leading keys that are
strictly smaller than `key`. -/
def insertionIndex (key : ℚ) : List ℚ → Nat
  | [] => 0
  | k :: ks => if key > k then insertionIndex key ks + 1 else 0

/-- Modelled from the spec: `insertIntoSortedArrays` of `SharedUtil` (not under `src/`), which
inserts the value and its key at the correct sorted position of the two parallel arrays,
keeping the keys ascending; the new count is the length of the new value array. -/
def insertIntoSortedArrays {α : Type} (value : α) (key : ℚ) (valueArray : List α)
    (keyArray : List ℚ) : List α × List ℚ :=
  let i := insertionIndex key keyArray
  (insertAt i value valueArray, insertAt i key keyArray)

namespace CoverageRegion

/-- The constructor `CoverageRegion::CoverageRegion` followed by `init()`. -/
def new (boundingBox : BoundingBox) (isRoot managePolygons : Bool) (regionName : RegionName) :
    CoverageRegion :=
  { _isRoot := isRoot
    _myBoundingBox := boundingBox
    _managePolygons := managePolygons
    _regionName := regionName
    _currentCoveredBounds := BoundingBox.unset
    _polygonArraySize := 0
    _polygons := []
    _polygonDistances := [] }

/-- Modelled from the spec: `getPolygonCount()` of `CoverageMap.h`, the stored count. -/
def getPolygonCount (r : CoverageRegion) : Nat := r._polygons.length

/-- Modelled from the spec: `CoverageRegion::contains` of `CoverageMap.h`, whether the bounds
of the region contain the rectangle. -/
def contains (r : CoverageRegion) (box : BoundingBox) : Bool := r._myBoundingBox.contains box

/-- The method `CoverageRegion::erase`: the arrays are released and the count and the array
size are zeroed; `_currentCoveredBounds` is not touched. -/
def erase (r : CoverageRegion) : CoverageRegion :=
  { r with _polygonArraySize := 0, _polygons := [], _polygonDistances := [] }

/-- The method `CoverageRegion::growPolygonArray`: the first `_polygonCount` entries are
copied into arrays that are `DEFAULT_GROW_SIZE` longer. -/
def growPolygonArray (E : Externals) (r : CoverageRegion) : CoverageRegion :=
  { r with _polygonArraySize := r._polygonArraySize + E.DEFAULT_GROW_SIZE }

/-- The method `CoverageRegion::storeInArray` (with `SORT_BY_SIZE` false). -/
def storeInArray (E : Externals) (r : CoverageRegion) (polygon : VoxelProjectedPolygon) :
    CoverageRegion :=
  let r1 := { r with
    _currentCoveredBounds := r._currentCoveredBounds.explandToInclude polygon.getBoundingBox }
  let r2 := if r1._polygonArraySize < r1.getPolygonCount + 1 then growPolygonArray E r1 else r1
  let inserted :=
    insertIntoSortedArrays polygon polygon.getDistance r2._polygons r2._polygonDistances
  { r2 with _polygons := inserted.1, _polygonDistances := inserted.2 }

/-- The `for` loop of `CoverageRegion::checkRegion` over the stored polygons that are still to
be visited; it ends with the `result` `NOT_STORED` when no stored polygon occludes. -/
def checkRegionLoop (E : Externals) (r : CoverageRegion) (polygon : VoxelProjectedPolygon)
    (storeIt : Bool) : List VoxelProjectedPolygon → CoverageMapStorageResult × CoverageRegion
  | [] => (NOT_STORED, r)
  | polygonAtThisLevel :: rest =>
    if E.occludes polygonAtThisLevel polygon then
      if polygonAtThisLevel.getDistance ≥ polygon.getDistance then
        if storeIt then
          if polygon.getBoundingBox.area > MINIMUM_POLYGON_AREA_TO_STORE then
            (STORED, storeInArray E r polygon)
          else
            (NOT_STORED, r)
        else
          (NOT_STORED, r)
      else
        (OCCLUDED, r)
    else
      checkRegionLoop E r polygon storeIt rest

/-- The method `CoverageRegion::checkRegion`: the result and the region afterwards. -/
def checkRegion (E : Externals) (r : CoverageRegion) (polygon : VoxelProjectedPolygon)
    (polygonBox : BoundingBox) (storeIt : Bool) : CoverageMapStorageResult × CoverageRegion :=
  if r._isRoot || r._myBoundingBox.contains polygonBox then
    if !r._currentCoveredBounds.contains polygonBox then
      (NOT_STORED, r)
    else
      checkRegionLoop E r polygon storeIt r._polygons
  else
    (DOESNT_FIT, r)

end CoverageRegion

/-- The four fields of a region that its constructor sets and no method changes: the region
was built with these arguments. -/
def CoverageRegion.Built (r : CoverageRegion) (boundingBox : BoundingBox)
    (isRoot managePolygons : Bool) (regionName : RegionName) : Prop :=
  r._myBoundingBox = boundingBox ∧ r._isRoot = isRoot ∧ r._managePolygons = managePolygons ∧
    r._regionName = regionName

/-! ## CoverageMap -/

/-- The class `CoverageMap`; the array `_childMaps` of four nullable child pointers is spelled
out as its four slots. -/
structure CoverageMap where
  _isRoot : Bool
  _myBoundingBox : BoundingBox
  _managePolygons : Bool
  _topHalf : CoverageRegion
  _bottomHalf : CoverageRegion
  _leftHalf : CoverageRegion
  _rightHalf : CoverageRegion
  _remainder : CoverageRegion
  _childMaps0 : Option CoverageMap
  _childMaps1 : Option CoverageMap
  _childMaps2 : Option CoverageMap
  _childMaps3 : Option CoverageMap

namespace CoverageMap

/-- The constructor `CoverageMap::CoverageMap` followed by `init()`. -/
def new (boundingBox : BoundingBox) (isRoot managePolygons : Bool) : CoverageMap :=
  { _isRoot := isRoot
    _myBoundingBox := boundingBox
    _managePolygons := managePolygons
    _topHalf := CoverageRegion.new boundingBox.topHalf false managePolygons TOP_HALF
    _bottomHalf := CoverageRegion.new boundingBox.bottomHalf false managePolygons BOTTOM_HALF
    _leftHalf := CoverageRegion.new boundingBox.leftHalf false managePolygons LEFT_HALF
    _rightHalf := CoverageRegion.new boundingBox.rightHalf false managePolygons RIGHT_HALF
    _remainder := CoverageRegion.new boundingBox isRoot managePolygons REMAINDER
    _childMaps0 := none
    _childMaps1 := none
    _childMaps2 := none
    _childMaps3 := none }

/-- The pointer `_childMaps[i]`; `none` is `NULL`. -/
def getChild (m : CoverageMap) (i : Nat) : Option CoverageMap :=
  match i with
  | 0 => m._childMaps0
  | 1 => m._childMaps1
  | 2 => m._childMaps2
  | 3 => m._childMaps3
  | _ => none

/-- The assignment `_childMaps[i] = c`. -/
def setChild (m : CoverageMap) (i : Nat) (c : Option CoverageMap) : CoverageMap :=
  match i with
  | 0 => { m with _childMaps0 := c }
  | 1 => { m with _childMaps1 := c }
  | 2 => { m with _childMaps2 := c }
  | 3 => { m with _childMaps3 := c }
  | _ => m

/-- The region of the node with the given name (the target of the pointer `storeIn`). -/
def getRegion (m : CoverageMap) (name : RegionName) : CoverageRegion :=
  match name with
  | TOP_HALF => m._topHalf
  | BOTTOM_HALF => m._bottomHalf
  | LEFT_HALF => m._leftHalf
  | RIGHT_HALF => m._rightHalf
  | REMAINDER => m._remainder

/-- The node with one of its regions replaced. -/
def setRegion (m : CoverageMap) (name : RegionName) (r : CoverageRegion) : CoverageMap :=
  match name with
  | TOP_HALF => { m with _topHalf := r }
  | BOTTOM_HALF => { m with _bottomHalf := r }
  | LEFT_HALF => { m with _leftHalf := r }
  | RIGHT_HALF => { m with _rightHalf := r }
  | REMAINDER => { m with _remainder := r }

/-- The method `CoverageMap::erase` (`clear()` in the spec): the five regions are erased and
the four children are deleted. -/
def erase (m : CoverageMap) : CoverageMap :=
  { m with
    _topHalf := m._topHalf.erase
    _bottomHalf := m._bottomHalf.erase
    _leftHalf := m._leftHalf.erase
    _rightHalf := m._rightHalf.erase
    _remainder := m._remainder.erase
    _childMaps0 := none
    _childMaps1 := none
    _childMaps2 := none
    _childMaps3 := none }

/-- The method `CoverageMap::getChildBoundingBox` (lines 118-132), with the halving and the two
sums computed exactly.  `getChildBoundingBoxBinary32` is the method with each of them rounded
to binary32; the two agree at a node where nothing is rounded
(`getChildBoundingBoxBinary32_of_exact`). -/
def getChildBoundingBox (m : CoverageMap) (childIndex : Nat) : BoundingBox :=
  let LEFT_BIT := 1
  let TOP_BIT := 2
  let result := BoundingBox.new m._myBoundingBox.corner
    ⟨m._myBoundingBox.size.x / 2, m._myBoundingBox.size.y / 2⟩
  let result :=
    if childIndex &&& LEFT_BIT = LEFT_BIT then
      { result with corner := ⟨result.corner.x + result.size.x, result.corner.y⟩ }
    else result
  let result :=
    if childIndex &&& TOP_BIT = TOP_BIT then
      { result with corner := ⟨result.corner.x, result.corner.y + result.size.y⟩ }
    else result
  result

/-- The method `CoverageMap::getPolygonCount`. -/
def getPolygonCount (m : CoverageMap) : Nat :=
  m._topHalf.getPolygonCount + m._bottomHalf.getPolygonCount + m._leftHalf.getPolygonCount +
    m._rightHalf.getPolygonCount + m._remainder.getPolygonCount

/-- Lines 194-215 of `checkMap`: the check of the first half, in the order top, bottom, left,
right, whose bounds contain the polygon.  The result, the node afterwards, and the region
`storeIn` points to. -/
def checkHalf (E : Externals) (m : CoverageMap) (polygon : VoxelProjectedPolygon)
    (polygonBox : BoundingBox) (storeIt : Bool) :
    CoverageMapStorageResult × CoverageMap × RegionName :=
  if m._topHalf.contains polygonBox then
    let c := m._topHalf.checkRegion E polygon polygonBox storeIt
    (c.1, { m with _topHalf := c.2 }, TOP_HALF)
  else if m._bottomHalf.contains polygonBox then
    let c := m._bottomHalf.checkRegion E polygon polygonBox storeIt
    (c.1, { m with _bottomHalf := c.2 }, BOTTOM_HALF)
  else if m._leftHalf.contains polygonBox then
    let c := m._leftHalf.checkRegion E polygon polygonBox storeIt
    (c.1, { m with _leftHalf := c.2 }, LEFT_HALF)
  else if m._rightHalf.contains polygonBox then
    let c := m._rightHalf.checkRegion E polygon polygonBox storeIt
    (c.1, { m with _rightHalf := c.2 }, RIGHT_HALF)
  else
    (NOT_STORED, m, REMAINDER)

/-- Lines 194-223 of `checkMap`: the check of a half, then, unless that check gave `STORED` or
`OCCLUDED`, the check of the remainder, whose result replaces the first one. -/
def checkRegions (E : Externals) (m : CoverageMap) (polygon : VoxelProjectedPolygon)
    (polygonBox : BoundingBox) (storeIt : Bool) :
    CoverageMapStorageResult × CoverageMap × RegionName :=
  let half := checkHalf E m polygon polygonBox storeIt
  if !(half.1 = STORED || half.1 = OCCLUDED) then
    let c := half.2.1._remainder.checkRegion E polygon polygonBox storeIt
    (c.1, { half.2.1 with _remainder := c.2 }, half.2.2)
  else
    half

/-- The index found by the loop over the children in `checkMap`: the first `i` below
`NUMBER_OF_CHILDREN` whose quadrant contains the rectangle. -/
def findChild (m : CoverageMap) (box : BoundingBox) : Option Nat :=
  (List.range NUMBER_OF_CHILDREN).find? (fun i => (m.getChildBoundingBox i).contains box)

/-- The child the loop of `checkMap` recurses into: `_childMaps[i]`, created first when it is
`NULL`. -/
def childOrNew (m : CoverageMap) (i : Nat) : CoverageMap :=
  match m.getChild i with
  | some c => c
  | none => CoverageMap.new (m.getChildBoundingBox i) false m._managePolygons

/-- Lines 273-287 of `checkMap`: the polygon fits no child and is stored here. -/
def storeHere (E : Externals) (m : CoverageMap) (storeIn : RegionName)
    (polygon : VoxelProjectedPolygon) (storeIt : Bool) : CoverageMapStorageResult × CoverageMap :=
  if storeIt then
    if polygon.getBoundingBox.area > MINIMUM_POLYGON_AREA_TO_STORE then
      (STORED, m.setRegion storeIn ((m.getRegion storeIn).storeInArray E polygon))
    else
      (NOT_STORED, m)
  else
    (NOT_STORED, m)

/-- The method `CoverageMap::checkMap`.  The first argument bounds the depth of the recursion
into the children; the value is `none` when it is used up, and otherwise the result and the
node afterwards.  The containment tests and `getChildBoundingBox` are exact here;
`checkMapBinary32` is the method with them in binary32. -/
def checkMap (E : Externals) :
    Nat → CoverageMap → VoxelProjectedPolygon → Bool →
      Option (CoverageMapStorageResult × CoverageMap)
  | fuel, m, polygon, storeIt =>
    if !polygon.getAllInView then
      some (DOESNT_FIT, m)
    else
      let polygonBox := polygon.getBoundingBox
      if m._isRoot || m._myBoundingBox.contains polygonBox then
        let checked := checkRegions E m polygon polygonBox storeIt
        if checked.1 = STORED || checked.1 = OCCLUDED then
          some (checked.1, checked.2.1)
        else
          match findChild checked.2.1 polygon.getBoundingBox with
          | some i =>
            match fuel with
            | 0 => none
            | fuel + 1 =>
              match checkMap E fuel (checked.2.1.childOrNew i) polygon storeIt with
              | some (result, child) => some (result, checked.2.1.setChild i (some child))
              | none => none
          | none => some (storeHere E checked.2.1 checked.2.2 polygon storeIt)
      else
        some (DOESNT_FIT, m)

/-- The node reached from `m` by following the child slots of `path`, when all of them are
occupied. -/
def nodeAt (m : CoverageMap) : List Nat → Option CoverageMap
  | [] => some m
  | i :: rest =>
    match m.getChild i with
    | some c => nodeAt c rest
    | none => none

/-- The stored polygons of the region `name` of the node at `path`; no polygon when there is
no node at `path`. -/
def storedAt (m : CoverageMap) (path : List Nat) (name : RegionName) :
    List VoxelProjectedPolygon :=
  match m.nodeAt path with
  | some n => (n.getRegion name)._polygons
  | none => []

/-- The region `name` of the node at `path`, when there is a node at `path`. -/
def regionAt (m : CoverageMap) (path : List Nat) (name : RegionName) : Option CoverageRegion :=
  match m.nodeAt path with
  | some n => some (n.getRegion name)
  | none => none

mutual
/-- The number of polygons stored in the whole tree: in the five regions of the node and in
all its descendants. -/
def totalPolygonCount : CoverageMap → Nat
  | ⟨_, _, _, t, b, l, r, rem, c0, c1, c2, c3⟩ =>
    t.getPolygonCount + b.getPolygonCount + l.getPolygonCount + r.getPolygonCount +
      rem.getPolygonCount + totalPolygonCountOpt c0 + totalPolygonCountOpt c1 +
      totalPolygonCountOpt c2 + totalPolygonCountOpt c3
/-- The number of polygons stored below a child pointer; none below `NULL`. -/
def totalPolygonCountOpt : Option CoverageMap → Nat
  | none => 0
  | some c => totalPolygonCount c
end

/-- Whether the node processes the polygon: the guard `_isRoot || _myBoundingBox.contains`. -/
def fits (m : CoverageMap) (p : VoxelProjectedPolygon) : Bool :=
  m._isRoot || m._myBoundingBox.contains p.getBoundingBox

/-- The polygons stored in the subtree of the child slot `i`; none when the slot is empty. -/
def childTotal (m : CoverageMap) (i : Nat) : Nat :=
  totalPolygonCountOpt (m.getChild i)

/-- A depth of descent that `checkMap` cannot exceed below a node with bounds `nodeBox` for a
polygon with bounding rectangle `box` of positive width or positive height: every level
halves the node, and a quadrant that contains the rectangle is at least as wide and as high. -/
def descentBound (nodeBox box : BoundingBox) : Nat :=
  if 0 < box.size.x then ⌈nodeBox.size.x / box.size.x⌉₊ else ⌈nodeBox.size.y / box.size.y⌉₊

/-- After `fuel` halvings the node is narrower or lower than the rectangle `box`. -/
def Shrinks (fuel : Nat) (nodeBox box : BoundingBox) : Prop :=
  (0 < box.size.x ∧ nodeBox.size.x < box.size.x * 2 ^ fuel) ∨
  (0 < box.size.y ∧ nodeBox.size.y < box.size.y * 2 ^ fuel)

/-- The shape the constructor gives a node and `checkMap` gives its child slots: the halves
and the remainder are as the constructor built them (only the remainder shares the root flag
of the node), and an occupied child slot holds a non-root node whose bounds are the quadrant
of the slot and whose `_managePolygons` is that of the node. -/
def NodeOK (m : CoverageMap) : Prop :=
  m._topHalf.Built m._myBoundingBox.topHalf false m._managePolygons TOP_HALF ∧
  m._bottomHalf.Built m._myBoundingBox.bottomHalf false m._managePolygons BOTTOM_HALF ∧
  m._leftHalf.Built m._myBoundingBox.leftHalf false m._managePolygons LEFT_HALF ∧
  m._rightHalf.Built m._myBoundingBox.rightHalf false m._managePolygons RIGHT_HALF ∧
  m._remainder.Built m._myBoundingBox m._isRoot m._managePolygons REMAINDER ∧
  ∀ i c, m.getChild i = some c →
    c._isRoot = false ∧ c._myBoundingBox = m.getChildBoundingBox i ∧
      c._managePolygons = m._managePolygons

/-- Every node of the tree has the shape `NodeOK`. -/
def WellFormed (m : CoverageMap) : Prop :=
  ∀ path n, m.nodeAt path = some n → NodeOK n

/-- The tree states that a caller can reach: a freshly constructed root, and what `checkMap`
and `erase` make of a reachable state. -/
inductive Reachable (E : Externals) : CoverageMap → Prop where
  | fresh (boundingBox : BoundingBox) (managePolygons : Bool) :
      Reachable E (CoverageMap.new boundingBox true managePolygons)
  | checkMap (m m' : CoverageMap) (fuel : Nat) (polygon : VoxelProjectedPolygon)
      (storeIt : Bool) (result : CoverageMapStorageResult) :
      Reachable E m → checkMap E fuel m polygon storeIt = some (result, m') → Reachable E m'
  | erase (m : CoverageMap) : Reachable E m → Reachable E m.erase

end CoverageMap

/-- The cached keys of the region are the distances of its stored polygons, and they are in
ascending order. -/
def CoverageRegion.Sorted (r : CoverageRegion) : Prop :=
  r._polygonDistances = r._polygons.map VoxelProjectedPolygon.getDistance ∧
  r._polygonDistances.Sorted (· ≤ ·)

/-- Every region of every node of the tree is `CoverageRegion.Sorted`. -/
def CoverageMap.AllSorted (m : CoverageMap) : Prop :=
  ∀ path n, m.nodeAt path = some n → ∀ name, (n.getRegion name).Sorted

/-! ## Accessors, storage target and bounds -/

/-- Modelled from the spec: `CoverageRegion::getPolygon(int)` of `CoverageMap.h`, the indexed
access to the stored polygons: the entry `_polygons[index]`.  `none` is the pointer `NULL`; an
index outside `0 .. _polygonCount - 1`, at which the array holds no stored polygon, gives
`none`. -/
def CoverageRegion.getPolygon (r : CoverageRegion) (index : Int) :
    Option VoxelProjectedPolygon :=
  if 0 ≤ index then r._polygons[index.toNat]? else none

/-- The method `CoverageMap::getPolygon`: the regions are walked in the order top, bottom,
left, right, remainder, `base` counting the polygons of the regions passed. -/
def CoverageMap.getPolygon (m : CoverageMap) (index : Int) : Option VoxelProjectedPolygon :=
  let base : Int := 0
  if index - base < m._topHalf.getPolygonCount then
    m._topHalf.getPolygon (index - base)
  else
    let base := base + m._topHalf.getPolygonCount
    if index - base < m._bottomHalf.getPolygonCount then
      m._bottomHalf.getPolygon (index - base)
    else
      let base := base + m._bottomHalf.getPolygonCount
      if index - base < m._leftHalf.getPolygonCount then
        m._leftHalf.getPolygon (index - base)
      else
        let base := base + m._leftHalf.getPolygonCount
        if index - base < m._rightHalf.getPolygonCount then
          m._rightHalf.getPolygon (index - base)
        else
          let base := base + m._rightHalf.getPolygonCount
          if index - base < m._remainder.getPolygonCount then
            m._remainder.getPolygon (index - base)
          else
            none

/-- The stored sequences of the five regions of a node, one after the other in the order
top, bottom, left, right, remainder. -/
def CoverageMap.allPolygons (m : CoverageMap) : List VoxelProjectedPolygon :=
  m._topHalf._polygons ++ m._bottomHalf._polygons ++ m._leftHalf._polygons ++
    m._rightHalf._polygons ++ m._remainder._polygons

/-- The storage target in the words of the spec: the first of the half-regions, in the order
top, bottom, left, right, whose bounds contain the rectangle, and the remainder when none
does. -/
def CoverageMap.storageTarget (m : CoverageMap) (box : BoundingBox) : RegionName :=
  if m._topHalf._myBoundingBox.contains box then TOP_HALF
  else if m._bottomHalf._myBoundingBox.contains box then BOTTOM_HALF
  else if m._leftHalf._myBoundingBox.contains box then LEFT_HALF
  else if m._rightHalf._myBoundingBox.contains box then RIGHT_HALF
  else REMAINDER

/-- The invariant of the spec's Rectangle: the rectangle was given a corner and a size, and
the size is non-negative. -/
def BoundingBox.IsRectangle (b : BoundingBox) : Prop :=
  b.isSet = true ∧ 0 ≤ b.size.x ∧ 0 ≤ b.size.y

/-- The rectangle that is the single point `pt`. -/
def BoundingBox.point (pt : Vec2) : BoundingBox := BoundingBox.new pt ⟨0, 0⟩

/-- The variant of `checkRegion` in the words of the spec's cheap-reject step: the same
method without the test of `_currentCoveredBounds`, which always scans the stored polygons. -/
def CoverageRegion.checkRegionAlwaysScan (E : Externals) (r : CoverageRegion)
    (polygon : VoxelProjectedPolygon) (polygonBox : BoundingBox) (storeIt : Bool) :
    CoverageMapStorageResult × CoverageRegion :=
  if r._isRoot || r._myBoundingBox.contains polygonBox then
    CoverageRegion.checkRegionLoop E r polygon storeIt r._polygons
  else
    (DOESNT_FIT, r)

/-- The rectangle `b` contains all that the rectangle (or empty union) `a` contains. -/
def BoundingBox.Within (a b : BoundingBox) : Prop :=
  ∀ box, a.contains box = true → b.contains box = true

/-- The covered bounds of the region contain the bounding rectangle of every polygon stored
in it. -/
def CoverageRegion.CoveredOK (r : CoverageRegion) : Prop :=
  ∀ S ∈ r._polygons, r._currentCoveredBounds.contains S.getBoundingBox = true

/-- The covered bounds of a non-root region lie within the bounds of the region. -/
def CoverageRegion.CoveredInside (r : CoverageRegion) : Prop :=
  r._isRoot = false → r._currentCoveredBounds.Within r._myBoundingBox

/-- Every polygon stored in the region is fully in view and has a bounding rectangle of area
above the minimum. -/
def CoverageRegion.StoredAdmissible (r : CoverageRegion) : Prop :=
  ∀ S ∈ r._polygons,
    S.getAllInView = true ∧ MINIMUM_POLYGON_AREA_TO_STORE < S.getBoundingBox.area

/-- Every region of every node of the tree satisfies `Q`. -/
def CoverageMap.AllRegions (Q : CoverageRegion → Prop) (m : CoverageMap) : Prop :=
  ∀ path n, m.nodeAt path = some n → ∀ name, Q (n.getRegion name)

/-! ## Trees that differ in covered bounds only, and sequences of calls -/

/-- The assumption on the outline test that makes the covered bounds a sound hint: a polygon
that occludes another has a bounding rectangle that contains the other's. -/
def Externals.OccludesWithinBounds (E : Externals) : Prop :=
  ∀ S P : VoxelProjectedPolygon, E.occludes S P = true →
    S.getBoundingBox.contains P.getBoundingBox = true

/-- The region with its covered bounds put back to the empty union. -/
def CoverageRegion.withoutCovered (r : CoverageRegion) : CoverageRegion :=
  { r with _currentCoveredBounds := BoundingBox.unset }

/-- Two regions that agree in every field except, possibly, `_currentCoveredBounds`. -/
def CoverageRegion.SameStored (a b : CoverageRegion) : Prop :=
  a.withoutCovered = b.withoutCovered

/-- Two nodes with the same root flag, bounds and `_managePolygons`, whose regions agree up
to their covered bounds. -/
def CoverageMap.NodeSame (a b : CoverageMap) : Prop :=
  a._isRoot = b._isRoot ∧ a._myBoundingBox = b._myBoundingBox ∧
    a._managePolygons = b._managePolygons ∧
    ∀ name, (a.getRegion name).SameStored (b.getRegion name)

/-- Two trees of the same shape whose nodes agree up to the covered bounds of their
regions. -/
def CoverageMap.SameUpToCovered (a b : CoverageMap) : Prop :=
  ∀ path, (∀ n, a.nodeAt path = some n → ∃ n', b.nodeAt path = some n' ∧ n.NodeSame n') ∧
    (a.nodeAt path = none → b.nodeAt path = none)

/-- Two trees that agree up to covered bounds, in both of which the covered bounds of every
region contain the rectangles of the polygons stored in the region. -/
def CoverageMap.Alike (a b : CoverageMap) : Prop :=
  a.SameUpToCovered b ∧ a.AllRegions CoverageRegion.CoveredOK ∧
    b.AllRegions CoverageRegion.CoveredOK

/-- A caller that submits the polygons of `calls` one after the other, each with its
`storeIt` flag, to the tree: the results in order and the tree at the end; `none` when the
fuel does not suffice for one of the calls. -/
def checkMapSeq (E : Externals) (fuel : Nat) :
    CoverageMap → List (VoxelProjectedPolygon × Bool) →
      Option (List CoverageMapStorageResult × CoverageMap)
  | m, [] => some ([], m)
  | m, call :: rest =>
    match CoverageMap.checkMap E fuel m call.1 call.2 with
    | none => none
    | some (result, m') =>
      match checkMapSeq E fuel m' rest with
      | none => none
      | some (results, last) => some (result :: results, last)

/-! ## The arrays behind the stored polygons -/

/-- The call `memcpy(dst, src, n * sizeof(entry))` on arrays of entries: the first `n` slots of
`dst` take the contents of the first `n` slots of `src`. -/
def memcpy {α : Type} (dst src : List α) (n : Nat) : List α :=
  src.take n ++ dst.drop n

/-- The storage fields of `CoverageRegion` with every slot of the arrays, used or not; `none`
is the `NULL` pointer that `init` and `erase` leave. -/
structure PolygonStorage where
  _polygonCount : Nat
  _polygonArraySize : Nat
  _polygons : Option (List VoxelProjectedPolygon)
  _polygonDistances : Option (List ℚ)

/-- The method `CoverageRegion::growPolygonArray` on the arrays themselves.  `newPolygons` and
`newDistances` are the arrays that `new` returns, with whatever their slots hold; both copies
are made when `_polygons` is not `NULL`. -/
def PolygonStorage.growPolygonArray (E : Externals) (st : PolygonStorage)
    (newPolygons : List VoxelProjectedPolygon) (newDistances : List ℚ) : PolygonStorage :=
  match st._polygons with
  | some polygons =>
    { _polygonCount := st._polygonCount
      _polygonArraySize := st._polygonArraySize + E.DEFAULT_GROW_SIZE
      _polygons := some (memcpy newPolygons polygons st._polygonCount)
      _polygonDistances :=
        some (memcpy newDistances (st._polygonDistances.getD []) st._polygonCount) }
  | none =>
    { _polygonCount := st._polygonCount
      _polygonArraySize := st._polygonArraySize + E.DEFAULT_GROW_SIZE
      _polygons := some newPolygons
      _polygonDistances := some newDistances }

/-- The used slots of the polygon array, in order. -/
def PolygonStorage.storedPolygons (st : PolygonStorage) : List VoxelProjectedPolygon :=
  (st._polygons.getD []).take st._polygonCount

/-- The used slots of the distance array, in order. -/
def PolygonStorage.storedDistances (st : PolygonStorage) : List ℚ :=
  (st._polygonDistances.getD []).take st._polygonCount

/-- The storage fields that a region of the model stands for: arrays of `_polygonArraySize`
slots whose used slots are the lists of the region, the unused slots holding `fill` and 0. -/
def CoverageRegion.storage (r : CoverageRegion) (fill : VoxelProjectedPolygon) :
    PolygonStorage :=
  { _polygonCount := r.getPolygonCount
    _polygonArraySize := r._polygonArraySize
    _polygons :=
      if r._polygonArraySize = 0 then none
      else some (r._polygons ++ List.replicate (r._polygonArraySize - r.getPolygonCount) fill)
    _polygonDistances :=
      if r._polygonArraySize = 0 then none
      else some (r._polygonDistances ++
        List.replicate (r._polygonArraySize - r.getPolygonCount) 0) }

/-! ## Containment, the quadrants and `checkMap` in binary32 -/

/-- The size of the nodes `d` levels below a root of size 2, as the halving in binary32 gives
it: `2^(1-d)` down to the least positive binary32 number `2^-149` at level 150, and 0 below,
because half of `2^-149` is rounded to 0. -/
def levelSize (d : Nat) : ℚ := if d ≤ 150 then (2 : ℚ) ^ (1 - (d : ℤ)) else 0

namespace BoundingBox

/-- Modelled from the spec: `contains(other)` as `float` arithmetic computes it, the far edges
`corner + size` of the two rectangles being binary32 sums. -/
def containsBinary32 (b box : BoundingBox) : Bool :=
  b.isSet &&
  decide (b.corner.x ≤ box.corner.x) &&
  decide (b.corner.y ≤ box.corner.y) &&
  decide (binary32 (box.corner.x + box.size.x) ≤ binary32 (b.corner.x + b.size.x)) &&
  decide (binary32 (box.corner.y + box.size.y) ≤ binary32 (b.corner.y + b.size.y))

/-- The far edges `corner + size` of the rectangle are binary32 numbers: the sums are not
rounded. -/
def FarEdgesExact (b : BoundingBox) : Prop :=
  binary32 (b.corner.x + b.size.x) = b.corner.x + b.size.x ∧
  binary32 (b.corner.y + b.size.y) = b.corner.y + b.size.y

/-- In binary32 the far edges of the rectangle lie beyond its corner: its width and its
height are positive and are not lost when they are added to the corner. -/
def HasExtentBinary32 (box : BoundingBox) : Prop :=
  box.corner.x < binary32 (box.corner.x + box.size.x) ∧
  box.corner.y < binary32 (box.corner.y + box.size.y)

/-- The rectangle is one of a node `d` levels below a root of size 2: its size is
`levelSize d` on both axes and its corner is a pair of binary32 numbers. -/
def AtLevel (d : Nat) (b : BoundingBox) : Prop :=
  b.size = ⟨levelSize d, levelSize d⟩ ∧ binary32 b.corner.x = b.corner.x ∧
    binary32 b.corner.y = b.corner.y

/-- In binary32 the far edge of the rectangle lies beyond its corner on one axis at least: its
width or its height is positive and is not lost when it is added to the corner. -/
def KeepsWidthOrHeight (box : BoundingBox) : Prop :=
  box.corner.x < binary32 (box.corner.x + box.size.x) ∨
    box.corner.y < binary32 (box.corner.y + box.size.y)

end BoundingBox

namespace CoverageRegion

/-- The method `CoverageRegion::checkRegion` with its two containment tests in binary32. -/
def checkRegionBinary32 (E : Externals) (r : CoverageRegion) (polygon : VoxelProjectedPolygon)
    (polygonBox : BoundingBox) (storeIt : Bool) : CoverageMapStorageResult × CoverageRegion :=
  if r._isRoot || r._myBoundingBox.containsBinary32 polygonBox then
    if !r._currentCoveredBounds.containsBinary32 polygonBox then
      (NOT_STORED, r)
    else
      checkRegionLoop E r polygon storeIt r._polygons
  else
    (DOESNT_FIT, r)

end CoverageRegion

namespace CoverageMap

/-- The method `CoverageMap::getChildBoundingBox` (lines 118-132) in binary32: the halving
`size / 2.0f` and the two sums `corner += size` are rounded. -/
def getChildBoundingBoxBinary32 (m : CoverageMap) (childIndex : Nat) : BoundingBox :=
  let LEFT_BIT := 1
  let TOP_BIT := 2
  let result := BoundingBox.new m._myBoundingBox.corner
    ⟨binary32 (m._myBoundingBox.size.x / 2), binary32 (m._myBoundingBox.size.y / 2)⟩
  let result :=
    if childIndex &&& LEFT_BIT = LEFT_BIT then
      { result with corner := ⟨binary32 (result.corner.x + result.size.x), result.corner.y⟩ }
    else result
  let result :=
    if childIndex &&& TOP_BIT = TOP_BIT then
      { result with corner := ⟨result.corner.x, binary32 (result.corner.y + result.size.y)⟩ }
    else result
  result

/-- At this node `getChildBoundingBox` rounds nothing: the halves of the size and the sums of
the corner and the halves are binary32 numbers. -/
def QuadrantsExact (m : CoverageMap) : Prop :=
  binary32 (m._myBoundingBox.size.x / 2) = m._myBoundingBox.size.x / 2 ∧
  binary32 (m._myBoundingBox.size.y / 2) = m._myBoundingBox.size.y / 2 ∧
  binary32 (m._myBoundingBox.corner.x + m._myBoundingBox.size.x / 2) =
    m._myBoundingBox.corner.x + m._myBoundingBox.size.x / 2 ∧
  binary32 (m._myBoundingBox.corner.y + m._myBoundingBox.size.y / 2) =
    m._myBoundingBox.corner.y + m._myBoundingBox.size.y / 2

/-- Lines 194-215 of `checkMap` with the containment tests in binary32. -/
def checkHalfBinary32 (E : Externals) (m : CoverageMap) (polygon : VoxelProjectedPolygon)
    (polygonBox : BoundingBox) (storeIt : Bool) :
    CoverageMapStorageResult × CoverageMap × RegionName :=
  if m._topHalf._myBoundingBox.containsBinary32 polygonBox then
    let c := m._topHalf.checkRegionBinary32 E polygon polygonBox storeIt
    (c.1, { m with _topHalf := c.2 }, TOP_HALF)
  else if m._bottomHalf._myBoundingBox.containsBinary32 polygonBox then
    let c := m._bottomHalf.checkRegionBinary32 E polygon polygonBox storeIt
    (c.1, { m with _bottomHalf := c.2 }, BOTTOM_HALF)
  else if m._leftHalf._myBoundingBox.containsBinary32 polygonBox then
    let c := m._leftHalf.checkRegionBinary32 E polygon polygonBox storeIt
    (c.1, { m with _leftHalf := c.2 }, LEFT_HALF)
  else if m._rightHalf._myBoundingBox.containsBinary32 polygonBox then
    let c := m._rightHalf.checkRegionBinary32 E polygon polygonBox storeIt
    (c.1, { m with _rightHalf := c.2 }, RIGHT_HALF)
  else
    (NOT_STORED, m, REMAINDER)

/-- Lines 194-223 of `checkMap` with the containment tests in binary32. -/
def checkRegionsBinary32 (E : Externals) (m : CoverageMap) (polygon : VoxelProjectedPolygon)
    (polygonBox : BoundingBox) (storeIt : Bool) :
    CoverageMapStorageResult × CoverageMap × RegionName :=
  let half := checkHalfBinary32 E m polygon polygonBox storeIt
  if !(half.1 = STORED || half.1 = OCCLUDED) then
    let c := half.2.1._remainder.checkRegionBinary32 E polygon polygonBox storeIt
    (c.1, { half.2.1 with _remainder := c.2 }, half.2.2)
  else
    half

/-- The index found by the loop over the children in `checkMap` (lines 242-244) in binary32:
the first `i` whose quadrant, as `getChildBoundingBox` computes it, contains the rectangle. -/
def findChildBinary32 (m : CoverageMap) (box : BoundingBox) : Option Nat :=
  (List.range NUMBER_OF_CHILDREN).find?
    (fun i => (m.getChildBoundingBoxBinary32 i).containsBinary32 box)

/-- The child the loop of `checkMap` recurses into (lines 245-249), a new child having the
bounds that `getChildBoundingBox` computes in binary32. -/
def childOrNewBinary32 (m : CoverageMap) (i : Nat) : CoverageMap :=
  match m.getChild i with
  | some c => c
  | none => CoverageMap.new (m.getChildBoundingBoxBinary32 i) false m._managePolygons

/-- The method `CoverageMap::checkMap` with the containment tests and the arithmetic of
`getChildBoundingBox` in binary32.  As in `checkMap`, the first argument bounds the depth of
the recursion and the value is `none` when it is used up. -/
def checkMapBinary32 (E : Externals) :
    Nat → CoverageMap → VoxelProjectedPolygon → Bool →
      Option (CoverageMapStorageResult × CoverageMap)
  | fuel, m, polygon, storeIt =>
    if !polygon.getAllInView then
      some (DOESNT_FIT, m)
    else
      let polygonBox := polygon.getBoundingBox
      if m._isRoot || m._myBoundingBox.containsBinary32 polygonBox then
        let checked := checkRegionsBinary32 E m polygon polygonBox storeIt
        if checked.1 = STORED || checked.1 = OCCLUDED then
          some (checked.1, checked.2.1)
        else
          match findChildBinary32 checked.2.1 polygon.getBoundingBox with
          | some i =>
            match fuel with
            | 0 => none
            | fuel + 1 =>
              match checkMapBinary32 E fuel (checked.2.1.childOrNewBinary32 i) polygon
                  storeIt with
              | some (result, child) => some (result, checked.2.1.setChild i (some child))
              | none => none
          | none => some (storeHere E checked.2.1 checked.2.2 polygon storeIt)
      else
        some (DOESNT_FIT, m)

/-- Whether the node processes the polygon, with the containment test in binary32: the guard
`_isRoot || _myBoundingBox.contains`. -/
def fitsBinary32 (m : CoverageMap) (p : VoxelProjectedPolygon) : Bool :=
  m._isRoot || m._myBoundingBox.containsBinary32 p.getBoundingBox

/-- Every child in the tree has the bounds that `getChildBoundingBox` computes in binary32 for
its slot, as the children that `checkMap` creates in binary32 have. -/
def WellFormedBinary32 (m : CoverageMap) : Prop :=
  ∀ path n, m.nodeAt path = some n → ∀ i c, n.getChild i = some c →
    c._myBoundingBox = n.getChildBoundingBoxBinary32 i

end CoverageMap

/-! ## Concrete inputs -/

/-- An instance of what `src/` leaves open: a polygon occludes another when its bounding
rectangle contains the other's, and the arrays grow by 100 entries. -/
def boxExternals : Externals :=
  ⟨fun a b => a.getBoundingBox.contains b.getBoundingBox, 100⟩

/-- A polygon that is in view and has the square of the given corner and side as its outline
and bounding rectangle. -/
def square (x y side distance : ℚ) : VoxelProjectedPolygon :=
  { vertices := [⟨x, y⟩, ⟨x + side, y⟩, ⟨x + side, y + side⟩, ⟨x, y + side⟩]
    getBoundingBox := BoundingBox.new ⟨x, y⟩ ⟨side, side⟩
    getDistance := distance
    getAllInView := true }

/-- Polygon A of the spec: corner (-0.5,-0.5), size (1,1), distance 10. -/
def polygonA : VoxelProjectedPolygon := square (-1 / 2) (-1 / 2) 1 10

/-- Polygon B of the spec: the rectangle of A, distance 20. -/
def polygonB : VoxelProjectedPolygon := square (-1 / 2) (-1 / 2) 1 20

/-- The polygon of the quadrant-routing example: corner (0,-1), size (0.5,0.5). -/
def polygonQ : VoxelProjectedPolygon := square 0 (-1) (1 / 2) 10

/-- A polygon of 0.01 by 0.01 across the centre of the screen, below the minimum area. -/
def polygonTiny : VoxelProjectedPolygon := square (-1 / 200) (-1 / 200) (1 / 100) 10

/-- A polygon whose outline and bounding rectangle are the single point (-1,-1), the corner of
the screen: its rectangle has width and height zero. -/
def polygonPoint : VoxelProjectedPolygon := square (-1) (-1) 0 10

/-- Polygon A with the in-view flag cleared. -/
def polygonOut : VoxelProjectedPolygon := { polygonA with getAllInView := false }

/-- A freshly constructed root over `ROOT_BOUNDING_BOX` that does not manage its polygons. -/
def freshRoot : CoverageMap := CoverageMap.new ROOT_BOUNDING_BOX true false

/-- The root after polygon A was stored in its remainder. -/
def rootWithA : CoverageMap :=
  freshRoot.setRegion REMAINDER ((freshRoot.getRegion REMAINDER).storeInArray boxExternals polygonA)

/-- The root after polygon B was stored in its remainder. -/
def rootWithB : CoverageMap :=
  freshRoot.setRegion REMAINDER ((freshRoot.getRegion REMAINDER).storeInArray boxExternals polygonB)

/-- The root after polygon B and then the nearer polygon A were stored in its remainder. -/
def rootWithAB : CoverageMap :=
  rootWithB.setRegion REMAINDER ((rootWithB.getRegion REMAINDER).storeInArray boxExternals polygonA)

/-- The child the root creates for polygon Q: slot 1, the quadrant at corner (0,-1). -/
def quadrantChild : CoverageMap :=
  CoverageMap.new (freshRoot.getChildBoundingBox 1) false false

/-- The child that `quadrantChild` creates for polygon Q: slot 0, with the rectangle of Q. -/
def quadrantGrandchild : CoverageMap :=
  CoverageMap.new (quadrantChild.getChildBoundingBox 0) false false

/-- The root after a query for polygon Q: two nodes were created, no polygon is stored. -/
def rootAfterQ : CoverageMap :=
  freshRoot.setChild 1 (some (quadrantChild.setChild 0 (some quadrantGrandchild)))

/-- A polygon whose bounding rectangle, corner (-1.5,-1.5) and size (3,3), reaches beyond the
root bounds on every side. -/
def polygonWide : VoxelProjectedPolygon := square (-3 / 2) (-3 / 2) 3 10

/-- The root after `polygonWide` was stored in its remainder. -/
def rootWithWide : CoverageMap :=
  freshRoot.setRegion REMAINDER
    ((freshRoot.getRegion REMAINDER).storeInArray boxExternals polygonWide)

/-- A degenerate polygon on the vertical midline of the screen: its outline is the segment
from (0,-0.5) to (0,-0.25), its bounding rectangle has width zero. -/
def polygonSliver : VoxelProjectedPolygon :=
  { vertices := [⟨0, -1 / 2⟩, ⟨0, -1 / 4⟩]
    getBoundingBox := BoundingBox.new ⟨0, -1 / 2⟩ ⟨0, 1 / 4⟩
    getDistance := 10
    getAllInView := true }

/-- A degenerate polygon on the horizontal midline of the screen: its outline is the segment
from (-0.5,0) to (-0.25,0), its bounding rectangle has height zero. -/
def polygonFlat : VoxelProjectedPolygon :=
  { vertices := [⟨-1 / 2, 0⟩, ⟨-1 / 4, 0⟩]
    getBoundingBox := BoundingBox.new ⟨-1 / 2, 0⟩ ⟨1 / 4, 0⟩
    getDistance := 10
    getAllInView := true }

/-- A polygon inside polygon A and inside quadrant 3 of the root, farther than A: corner
(0,0), size (0.25,0.25), distance 20. -/
def polygonSmall : VoxelProjectedPolygon := square 0 0 (1 / 4) 20

/-- A polygon whose bounding rectangle is exactly the top half of the root bounds: corner
(-1,0), size (2,1). -/
def polygonTopHalf : VoxelProjectedPolygon :=
  { vertices := [⟨-1, 0⟩, ⟨1, 0⟩, ⟨1, 1⟩, ⟨-1, 1⟩]
    getBoundingBox := ROOT_BOUNDING_BOX.topHalf
    getDistance := 10
    getAllInView := true }

/-- The root after `polygonTopHalf` was stored in its top half. -/
def rootWithTopHalf : CoverageMap :=
  freshRoot.setRegion TOP_HALF
    ((freshRoot.getRegion TOP_HALF).storeInArray boxExternals polygonTopHalf)

/-- A freshly constructed non-root node of the sixth level below the root: corner (0,0),
size (1/64,1/64). -/
def smallNode : CoverageMap :=
  CoverageMap.new (BoundingBox.new ⟨0, 0⟩ ⟨1 / 64, 1 / 64⟩) false false

/-- A polygon whose bounding rectangle is exactly the top half of the bounds of `smallNode`:
corner (0,1/128), size (1/64,1/128), area 1/8192. -/
def polygonSmallTop : VoxelProjectedPolygon :=
  { vertices := [⟨0, 1 / 128⟩, ⟨1 / 64, 1 / 128⟩, ⟨1 / 64, 1 / 64⟩, ⟨0, 1 / 64⟩]
    getBoundingBox := smallNode._myBoundingBox.topHalf
    getDistance := 10
    getAllInView := true }

/-- The full region of the given capacity: it holds `capacity` copies of polygon A. -/
def fullRegion (capacity : Nat) : CoverageRegion :=
  { freshRoot._remainder with
    _polygonArraySize := capacity
    _polygons := List.replicate capacity polygonA
    _polygonDistances := List.replicate capacity 10 }

/-- The storage of a region that holds polygon A and then polygon B in arrays of two slots. -/
def storageAB : PolygonStorage :=
  { _polygonCount := 2
    _polygonArraySize := 2
    _polygons := some [polygonA, polygonB]
    _polygonDistances := some [10, 20] }

/-- The polygon across the centre of the screen whose bounding rectangle, corner
(-0.5,-2^-14) and size (1, 3054199/2^34), has exactly the area of the compiled constant
`MINIMUM_POLYGON_AREA_TO_STORE`, which is above the value 1/5625 of the exact formula. -/
def polygonGap : VoxelProjectedPolygon :=
  { vertices := [⟨-1 / 2, -1 / 2 ^ 14⟩, ⟨1 / 2, -1 / 2 ^ 14⟩,
      ⟨1 / 2, -1 / 2 ^ 14 + 3054199 / 2 ^ 34⟩, ⟨-1 / 2, -1 / 2 ^ 14 + 3054199 / 2 ^ 34⟩]
    getBoundingBox := BoundingBox.new ⟨-1 / 2, -1 / 2 ^ 14⟩ ⟨1, 3054199 / 2 ^ 34⟩
    getDistance := 10
    getAllInView := true }

/-- A polygon of 2^-7 by 2^-7 across the centre of quadrant 1 of the root, below the minimum
area: corner (127/256,-129/256); its coordinates are binary32 numbers. -/
def polygonSpot : VoxelProjectedPolygon := square (127 / 256) (-129 / 256) (1 / 128) 10

/-- The root after `polygonSpot` was submitted: the child of slot 1 was created. -/
def rootAfterSpot : CoverageMap := freshRoot.setChild 1 (some quadrantChild)

/-- The square of side 2^-30 at the corner (-1,-1) of the screen: its width and height are
positive and are lost when they are added to the corner in binary32. -/
def polygonSpeck : VoxelProjectedPolygon := square (-1) (-1) (1 / 2 ^ 30) 10

/-- A node far below the root whose size is lost when half of it is added to its corner in
binary32: corner (1,1), size (2^-23,2^-23). -/
def deepNode : CoverageMap :=
  CoverageMap.new (BoundingBox.new ⟨1, 1⟩ ⟨1 / 2 ^ 23, 1 / 2 ^ 23⟩) false false

/-- The square of side 2^-24 at the corner (1,1) of `deepNode`. -/
def polygonDeep : VoxelProjectedPolygon := square 1 1 (1 / 2 ^ 24) 10

/-- A node with corner (1,0) and size (2^-24,1): its width is positive and is lost when it is
added to the corner in binary32. -/
def thinNode : CoverageMap :=
  CoverageMap.new (BoundingBox.new ⟨1, 0⟩ ⟨1 / 2 ^ 24, 1⟩) false false

/-- A node with corner (2^30,0) and size (64,1): its width is positive and is lost when it is
added to the corner in binary32, and its top half has area 32. -/
def farNode : CoverageMap :=
  CoverageMap.new (BoundingBox.new ⟨2 ^ 30, 0⟩ ⟨64, 1⟩) false false

/-- A polygon whose outline and bounding rectangle are the single point (0,0), the centre of
the screen. -/
def polygonOrigin : VoxelProjectedPolygon := square 0 0 0 10

/-- The freshly constructed non-root node with corner (-s,-s) and size (s,s), whose far corner
is the centre of the screen. -/
def originNode (s : ℚ) (manage : Bool) : CoverageMap :=
  CoverageMap.new (BoundingBox.new ⟨-s, -s⟩ ⟨s, s⟩) false manage

/-! ## Rounding to binary32 and the constants -/

theorem floor_le_roundHalfEven (x : ℚ) : ⌊x⌋ ≤ roundHalfEven x := by
  unfold roundHalfEven
  split_ifs <;> omega

theorem roundHalfEven_le_floor_add_one (x : ℚ) : roundHalfEven x ≤ ⌊x⌋ + 1 := by
  unfold roundHalfEven
  split_ifs <;> omega

theorem le_roundHalfEven {n : ℤ} {x : ℚ} (h : (n : ℚ) ≤ x) : n ≤ roundHalfEven x :=
  le_trans (Int.le_floor.mpr h) (floor_le_roundHalfEven x)

theorem roundHalfEven_le {n : ℤ} {x : ℚ} (h : x ≤ (n : ℚ)) : roundHalfEven x ≤ n := by
  by_cases hx : x = (⌊x⌋ : ℚ)
  · have h0 : roundHalfEven x = ⌊x⌋ := by
      unfold roundHalfEven
      rw [if_pos (by rw [← hx]; norm_num)]
    rw [h0]
    exact Int.floor_le_iff.mpr (lt_of_le_of_lt h (by linarith))
  · have h1 : (⌊x⌋ : ℚ) < x := lt_of_le_of_ne (Int.floor_le x) (Ne.symm hx)
    have h2 : ⌊x⌋ < n := by exact_mod_cast lt_of_lt_of_le h1 h
    exact le_trans (roundHalfEven_le_floor_add_one x) h2

theorem roundHalfEven_intCast (n : ℤ) : roundHalfEven (n : ℚ) = n :=
  le_antisymm (roundHalfEven_le (le_refl _)) (le_roundHalfEven (le_refl _))

/-- The nearest integer, when it is nearer than one half. -/
theorem roundHalfEven_eq_of_near (x : ℚ) (n : ℤ) (h1 : (n : ℚ) - 1 / 2 < x)
    (h2 : x < (n : ℚ) + 1 / 2) : roundHalfEven x = n := by
  have hf1 : n - 1 ≤ ⌊x⌋ := Int.le_floor.mpr (by push_cast; linarith)
  have hf2 : ⌊x⌋ ≤ n := by
    have : ⌊x⌋ < n + 1 := Int.floor_lt.mpr (by push_cast; linarith)
    omega
  have hfl := Int.floor_le x
  have hlt := Int.lt_floor_add_one x
  rcases (by omega : ⌊x⌋ = n ∨ ⌊x⌋ = n - 1) with hf | hf
  · unfold roundHalfEven
    rw [hf, if_pos (by linarith)]
  · unfold roundHalfEven
    rw [hf] at hlt hfl ⊢
    push_cast at hlt hfl ⊢
    rw [if_neg (by linarith), if_pos (by linarith)]
    ring

/-- A tie above an odd integer goes up. -/
theorem roundHalfEven_tie_odd (f : ℤ) (h : f % 2 = 1) :
    roundHalfEven ((f : ℚ) + 1 / 2) = f + 1 := by
  have hf : ⌊(f : ℚ) + 1 / 2⌋ = f := by
    rw [Int.floor_eq_iff]
    constructor <;> linarith
  unfold roundHalfEven
  rw [hf, if_neg (by norm_num), if_neg (by norm_num), if_neg (by omega)]

/-- A tie above an even integer goes down. -/
theorem roundHalfEven_tie_even (f : ℤ) (h : f % 2 = 0) :
    roundHalfEven ((f : ℚ) + 1 / 2) = f := by
  have hf : ⌊(f : ℚ) + 1 / 2⌋ = f := by
    rw [Int.floor_eq_iff]
    constructor <;> linarith
  unfold roundHalfEven
  rw [hf, if_neg (by norm_num), if_neg (by norm_num), if_pos h]

theorem roundHalfEven_mono {x y : ℚ} (h : x ≤ y) : roundHalfEven x ≤ roundHalfEven y := by
  have hfl : ⌊x⌋ ≤ ⌊y⌋ := Int.floor_mono h
  rcases lt_or_eq_of_le hfl with hlt | heq
  · exact le_trans (roundHalfEven_le_floor_add_one x) (le_trans hlt (floor_le_roundHalfEven y))
  · unfold roundHalfEven
    rw [← heq]
    split_ifs <;> first | omega | (exfalso; linarith)

theorem log_abs_eq (q : ℚ) (e : ℤ) (h1 : (2 : ℚ) ^ e ≤ |q|) (h2 : |q| < (2 : ℚ) ^ (e + 1)) :
    Int.log 2 |q| = e := by
  have hpos : 0 < |q| := lt_of_lt_of_le (zpow_pos (by norm_num) e) h1
  have a : e ≤ Int.log 2 |q| := by
    apply (Int.zpow_le_iff_le_log (by norm_num) hpos).mp
    simpa using h1
  have b : Int.log 2 |q| < e + 1 := by
    apply (Int.lt_zpow_iff_log_lt (by norm_num) hpos).mp
    simpa using h2
  omega

/-- The binary32 value of `q` from the binade of `q` and the rounded multiple of the spacing. -/
theorem binary32_eq (q : ℚ) (e n : ℤ) (he : -126 ≤ e) (h1 : (2 : ℚ) ^ e ≤ |q|)
    (h2 : |q| < (2 : ℚ) ^ (e + 1)) (hn : roundHalfEven (q / 2 ^ (e - 23)) = n) :
    binary32 q = (n : ℚ) * 2 ^ (e - 23) := by
  have hk : binary32Exponent q = e - 23 := by
    unfold binary32Exponent
    rw [log_abs_eq q e h1 h2, max_eq_left he]
  unfold binary32
  rw [hk, hn]

theorem binary32Exponent_le (q : ℚ) (k : ℤ) (hk : -149 ≤ k) (h0 : q ≠ 0)
    (hq : |q| < (2 : ℚ) ^ (k + 24)) : binary32Exponent q ≤ k := by
  unfold binary32Exponent
  have : Int.log 2 |q| < k + 24 := by
    apply (Int.lt_zpow_iff_log_lt (by norm_num) (abs_pos.mpr h0)).mp
    simpa using hq
  rcases max_cases (Int.log 2 |q|) (-126) with ⟨h, _⟩ | ⟨h, _⟩ <;> rw [h] <;> omega

theorem binary32_zero : binary32 0 = 0 := by
  unfold binary32
  rw [zero_div]
  have : roundHalfEven 0 = 0 := by
    have := roundHalfEven_intCast 0
    simpa using this
  rw [this]
  simp

/-- A multiple `n * 2 ^ k` of a spacing that is at least the binary32 spacing at its magnitude
is a binary32 number. -/
theorem binary32_of_multiple (n k : ℤ) (hk : binary32Exponent ((n : ℚ) * 2 ^ k) ≤ k) :
    binary32 ((n : ℚ) * 2 ^ k) = (n : ℚ) * 2 ^ k := by
  unfold binary32
  obtain ⟨d, hd⟩ := Int.eq_ofNat_of_zero_le (sub_nonneg.mpr hk)
  have hkd : k = binary32Exponent ((n : ℚ) * 2 ^ k) + d := by omega
  have h2 : (2 : ℚ) ^ k = 2 ^ binary32Exponent ((n : ℚ) * 2 ^ k) * 2 ^ d := by
    conv_lhs => rw [hkd]
    rw [zpow_add₀ (by norm_num), zpow_natCast]
  have hq : (n : ℚ) * 2 ^ k / 2 ^ binary32Exponent ((n : ℚ) * 2 ^ k) = ((n * 2 ^ d : ℤ) : ℚ) := by
    have hne : (2 : ℚ) ^ binary32Exponent ((n : ℚ) * 2 ^ k) ≠ 0 := zpow_ne_zero _ (by norm_num)
    rw [div_eq_iff hne]
    conv_lhs => rw [h2]
    push_cast
    ring
  rw [hq, roundHalfEven_intCast]
  conv_rhs => rw [h2]
  push_cast
  ring

/-- The dyadic rationals `n * 2 ^ k` with `|n| < 2 ^ 24` and `k ≥ -149` are binary32 numbers. -/
theorem binary32_dyadic (n k : ℤ) (hn : |n| < 2 ^ 24) (hk : -149 ≤ k) :
    binary32 ((n : ℚ) * 2 ^ k) = (n : ℚ) * 2 ^ k := by
  by_cases h0 : n = 0
  · rw [h0]
    simp [binary32_zero]
  apply binary32_of_multiple
  have hpos : (0 : ℚ) < 2 ^ k := zpow_pos (by norm_num) k
  apply binary32Exponent_le _ _ hk
  · exact mul_ne_zero (by exact_mod_cast h0) (ne_of_gt hpos)
  rw [abs_mul, abs_of_pos hpos, zpow_add₀ (by norm_num), mul_comm]
  have h24 : (|(n : ℚ)|) < 2 ^ (24 : ℤ) := by
    have : ((|n| : ℤ) : ℚ) < ((2 ^ 24 : ℤ) : ℚ) := by exact_mod_cast hn
    rw [Int.cast_abs] at this
    norm_num at this ⊢
    exact this
  exact mul_lt_mul_of_pos_left h24 hpos

theorem binary32_nonneg {q : ℚ} (h : 0 ≤ q) : 0 ≤ binary32 q := by
  unfold binary32
  apply mul_nonneg _ (le_of_lt (zpow_pos (by norm_num) _))
  have : (0 : ℤ) ≤ roundHalfEven (q / 2 ^ binary32Exponent q) := by
    apply le_roundHalfEven
    push_cast
    exact div_nonneg h (le_of_lt (zpow_pos (by norm_num) _))
  exact_mod_cast this

theorem binary32_neg_one : binary32 (-1) = -1 := by
  have := binary32_dyadic (-1) 0 (by norm_num) (by norm_num)
  simpa using this

/-- Rounding does not pass the binary32 number -1 from above. -/
theorem neg_one_le_binary32 {q : ℚ} (h : -1 ≤ q) : -1 ≤ binary32 q := by
  rcases le_or_lt 0 q with h0 | h0
  · linarith [binary32_nonneg h0]
  rcases eq_or_lt_of_le h with h1 | h1
  · rw [← h1, binary32_neg_one]
  · have habs : |q| < (2 : ℚ) ^ ((-24 : ℤ) + 24) := by
      rw [abs_of_neg h0]
      norm_num
      linarith
    have hk := binary32Exponent_le q (-24) (by norm_num) (ne_of_lt h0) habs
    obtain ⟨d, hd⟩ := Int.eq_ofNat_of_zero_le (by omega : 0 ≤ -24 - binary32Exponent q)
    have hK : binary32Exponent q = -(24 + d : ℤ) := by omega
    unfold binary32
    rw [hK]
    have hpow : (2 : ℚ) ^ (-(24 + d : ℤ)) = 1 / 2 ^ (24 + d) := by
      rw [zpow_neg, one_div]
      norm_cast
    rw [hpow]
    have hpos : (0 : ℚ) < 2 ^ (24 + d) := by positivity
    have hr : -(2 ^ (24 + d) : ℤ) ≤ roundHalfEven (q / (1 / 2 ^ (24 + d))) := by
      apply le_roundHalfEven
      push_cast
      rw [div_div_eq_mul_div, div_one]
      nlinarith
    have hr' : (-(2 ^ (24 + d)) : ℚ) ≤ (roundHalfEven (q / (1 / 2 ^ (24 + d))) : ℚ) := by
      exact_mod_cast hr
    rw [mul_one_div, le_div_iff₀ hpos]
    linarith

theorem TYPICAL_SCREEN_PIXEL_WIDTH_eq : TYPICAL_SCREEN_PIXEL_WIDTH = 5726623 / 2 ^ 32 := by
  unfold TYPICAL_SCREEN_PIXEL_WIDTH screenPixelWidth TYPICAL_SCREEN_WIDTH_IN_PIXELS
  rw [binary32_eq (2 / 1500) (-10) 11453246 (by norm_num) (by norm_num [abs_of_pos])
    (by norm_num [abs_of_pos])
    (roundHalfEven_eq_of_near _ _ (by norm_num) (by norm_num))]
  norm_num

theorem binary32_side : binary32 (TYPICAL_SCREEN_PIXEL_WIDTH *
    MINIMUM_POLYGON_AREA_SIDE_IN_PIXELS) = 7158279 / 2 ^ 29 := by
  rw [TYPICAL_SCREEN_PIXEL_WIDTH_eq]
  unfold MINIMUM_POLYGON_AREA_SIDE_IN_PIXELS
  have ht : (5726623 / 2 ^ 32 * 10 : ℚ) / 2 ^ ((-7 : ℤ) - 23) = ((14316557 : ℤ) : ℚ) + 1 / 2 := by
    norm_num
  rw [binary32_eq (5726623 / 2 ^ 32 * 10) (-7) 14316558 (by norm_num)
    (by norm_num [abs_of_pos]) (by norm_num [abs_of_pos])
    (by rw [ht, roundHalfEven_tie_odd _ (by norm_num)]; norm_num)]
  norm_num

theorem MINIMUM_POLYGON_AREA_TO_STORE_eq :
    MINIMUM_POLYGON_AREA_TO_STORE = 3054199 / 2 ^ 34 := by
  have h := binary32_side
  unfold TYPICAL_SCREEN_PIXEL_WIDTH at h
  unfold MINIMUM_POLYGON_AREA_TO_STORE minimumPolygonArea
  rw [h]
  rw [binary32_eq (7158279 / 2 ^ 29 * (7158279 / 2 ^ 29)) (-13) 12216796 (by norm_num)
    (by norm_num [abs_of_pos]) (by norm_num [abs_of_pos])
    (roundHalfEven_eq_of_near _ _ (by norm_num) (by norm_num))]
  norm_num

theorem minimumPolygonArea_exact : minimumPolygonArea id = 1 / 5625 := by
  norm_num [minimumPolygonArea, screenPixelWidth, TYPICAL_SCREEN_WIDTH_IN_PIXELS,
    MINIMUM_POLYGON_AREA_SIDE_IN_PIXELS]

/-- A value that is given as a dyadic rational within the binary32 range is not rounded. -/
theorem binary32_of_eq (q : ℚ) (n k : ℤ) (hn : |n| < 2 ^ 24) (hk : -149 ≤ k)
    (h : q = (n : ℚ) * 2 ^ k) : binary32 q = q := by
  rw [h]
  exact binary32_dyadic n k hn hk

theorem binary32_one : binary32 1 = 1 :=
  binary32_of_eq 1 1 0 (by norm_num) (by norm_num) (by norm_num)

theorem binary32_nonpos {q : ℚ} (h : q ≤ 0) : binary32 q ≤ 0 := by
  unfold binary32
  apply mul_nonpos_of_nonpos_of_nonneg _ (le_of_lt (zpow_pos (by norm_num) _))
  have : roundHalfEven (q / 2 ^ binary32Exponent q) ≤ (0 : ℤ) := by
    apply roundHalfEven_le
    push_cast
    exact div_nonpos_of_nonpos_of_nonneg h (le_of_lt (zpow_pos (by norm_num) _))
  exact_mod_cast this

theorem pos_of_binary32_pos {q : ℚ} (h : 0 < binary32 q) : 0 < q := by
  by_contra hq
  exact absurd h (not_lt.mpr (binary32_nonpos (not_lt.mp hq)))

theorem MINIMUM_POLYGON_AREA_TO_STORE_pos : 0 < MINIMUM_POLYGON_AREA_TO_STORE := by
  rw [MINIMUM_POLYGON_AREA_TO_STORE_eq]
  norm_num

/-- The compiled constant is above the value `1 / 5625` of its initialiser in exact
arithmetic. -/
theorem minimumPolygonArea_exact_lt :
    minimumPolygonArea id < MINIMUM_POLYGON_AREA_TO_STORE := by
  rw [MINIMUM_POLYGON_AREA_TO_STORE_eq, minimumPolygonArea_exact]
  norm_num

/-! ## Insertion lemmas -/

theorem length_insertAt {α : Type} (i : Nat) (a : α) (l : List α) :
    (insertAt i a l).length = l.length + 1 := by
  unfold insertAt
  have h := List.take_append_drop i l
  have h2 : (l.take i ++ l.drop i).length = l.length := by rw [h]
  simp only [List.length_append, List.length_cons] at h2 ⊢
  omega

theorem mem_insertAt {α : Type} (i : Nat) (a x : α) (l : List α) :
    x ∈ insertAt i a l ↔ x = a ∨ x ∈ l := by
  unfold insertAt
  have h : x ∈ l ↔ x ∈ l.take i ∨ x ∈ l.drop i := by
    rw [← List.mem_append, List.take_append_drop]
  rw [List.mem_append, List.mem_cons, h]
  tauto

theorem map_insertAt {α β : Type} (f : α → β) (i : Nat) (a : α) (l : List α) :
    (insertAt i a l).map f = insertAt i (f a) (l.map f) := by
  unfold insertAt
  simp [List.map_take, List.map_drop]

theorem insertAt_nil {α : Type} (i : Nat) (a : α) : insertAt i a [] = [a] := by
  simp [insertAt]

theorem insertAt_zero {α : Type} (a : α) (l : List α) : insertAt 0 a l = a :: l := by
  simp [insertAt]

theorem insertAt_succ_cons {α : Type} (i : Nat) (a b : α) (l : List α) :
    insertAt (i + 1) a (b :: l) = b :: insertAt i a l := by
  simp [insertAt]

theorem sorted_insertAt (key : ℚ) (l : List ℚ) (h : l.Sorted (· ≤ ·)) :
    (insertAt (insertionIndex key l) key l).Sorted (· ≤ ·) := by
  induction l with
  | nil => simp [insertionIndex, insertAt]
  | cons k ks ih =>
    have hk := List.sorted_cons.mp h
    unfold insertionIndex
    split_ifs with hlt
    · rw [insertAt_succ_cons]
      refine List.sorted_cons.mpr ⟨?_, ih hk.2⟩
      intro b hb
      rcases (mem_insertAt _ _ _ _).mp hb with hb | hb
      · rw [hb]
        exact le_of_lt hlt
      · exact hk.1 b hb
    · rw [insertAt_zero]
      refine List.sorted_cons.mpr ⟨?_, h⟩
      intro b hb
      have hle : key ≤ k := le_of_not_gt hlt
      rcases List.mem_cons.mp hb with hb | hb
      · rw [hb]
        exact hle
      · exact le_trans hle (hk.1 b hb)

/-! ## Region lemmas -/

namespace CoverageRegion

theorem storeInArray_polygons (E : Externals) (r : CoverageRegion) (p : VoxelProjectedPolygon) :
    (storeInArray E r p)._polygons =
      insertAt (insertionIndex p.getDistance r._polygonDistances) p r._polygons := by
  unfold storeInArray insertIntoSortedArrays growPolygonArray
  simp only
  split_ifs <;> rfl

theorem storeInArray_polygonDistances (E : Externals) (r : CoverageRegion)
    (p : VoxelProjectedPolygon) :
    (storeInArray E r p)._polygonDistances =
      insertAt (insertionIndex p.getDistance r._polygonDistances) p.getDistance
        r._polygonDistances := by
  unfold storeInArray insertIntoSortedArrays growPolygonArray
  simp only
  split_ifs <;> rfl

theorem storeInArray_myBoundingBox (E : Externals) (r : CoverageRegion)
    (p : VoxelProjectedPolygon) : (storeInArray E r p)._myBoundingBox = r._myBoundingBox := by
  unfold storeInArray insertIntoSortedArrays growPolygonArray
  simp only
  split_ifs <;> rfl

theorem storeInArray_isRoot (E : Externals) (r : CoverageRegion)
    (p : VoxelProjectedPolygon) : (storeInArray E r p)._isRoot = r._isRoot := by
  unfold storeInArray insertIntoSortedArrays growPolygonArray
  simp only
  split_ifs <;> rfl

theorem storeInArray_currentCoveredBounds (E : Externals) (r : CoverageRegion)
    (p : VoxelProjectedPolygon) :
    (storeInArray E r p)._currentCoveredBounds =
      r._currentCoveredBounds.explandToInclude p.getBoundingBox := by
  unfold storeInArray insertIntoSortedArrays growPolygonArray
  simp only
  split_ifs <;> rfl

theorem storeInArray_getPolygonCount (E : Externals) (r : CoverageRegion)
    (p : VoxelProjectedPolygon) :
    (storeInArray E r p).getPolygonCount = r.getPolygonCount + 1 := by
  unfold getPolygonCount
  rw [storeInArray_polygons, length_insertAt]

theorem mem_storeInArray (E : Externals) (r : CoverageRegion) (p S : VoxelProjectedPolygon) :
    S ∈ (storeInArray E r p)._polygons ↔ S = p ∨ S ∈ r._polygons := by
  rw [storeInArray_polygons, mem_insertAt]

theorem checkRegionLoop_unchanged (E : Externals) (r : CoverageRegion)
    (p : VoxelProjectedPolygon) (s : Bool) (l : List VoxelProjectedPolygon)
    (h : (checkRegionLoop E r p s l).1 ≠ STORED) : (checkRegionLoop E r p s l).2 = r := by
  induction l with
  | nil => rfl
  | cons a l ih =>
    simp only [checkRegionLoop] at h ⊢
    split_ifs at h ⊢ <;> first | rfl | exact ih h | exact absurd rfl h

theorem checkRegionLoop_stored (E : Externals) (r : CoverageRegion)
    (p : VoxelProjectedPolygon) (s : Bool) (l : List VoxelProjectedPolygon)
    (h : (checkRegionLoop E r p s l).1 = STORED) :
    (checkRegionLoop E r p s l).2 = storeInArray E r p ∧ s = true ∧
      MINIMUM_POLYGON_AREA_TO_STORE < p.getBoundingBox.area := by
  induction l with
  | nil => simp [checkRegionLoop] at h
  | cons a l ih =>
    simp only [checkRegionLoop] at h ⊢
    split_ifs at h ⊢ with h1 h2 h3 h4
    · exact ⟨rfl, h3, h4⟩
    · exact ih h

theorem checkRegionLoop_occluded (E : Externals) (r : CoverageRegion)
    (p : VoxelProjectedPolygon) (s : Bool) (l : List VoxelProjectedPolygon)
    (h : (checkRegionLoop E r p s l).1 = OCCLUDED) :
    ∃ S ∈ l, E.occludes S p = true ∧ S.getDistance < p.getDistance := by
  induction l with
  | nil => simp [checkRegionLoop] at h
  | cons a l ih =>
    simp only [checkRegionLoop] at h
    split_ifs at h with h1 h2 h3 h4
    · exact ⟨a, List.mem_cons_self _ _, h1, lt_of_not_ge h2⟩
    · obtain ⟨S, hS, hocc⟩ := ih h
      exact ⟨S, List.mem_cons_of_mem _ hS, hocc⟩

theorem checkRegionLoop_ne_doesnt_fit (E : Externals) (r : CoverageRegion)
    (p : VoxelProjectedPolygon) (s : Bool) (l : List VoxelProjectedPolygon) :
    (checkRegionLoop E r p s l).1 ≠ DOESNT_FIT := by
  induction l with
  | nil => simp [checkRegionLoop]
  | cons a l ih =>
    simp only [checkRegionLoop]
    split_ifs <;> first | exact ih | simp

theorem checkRegion_unchanged (E : Externals) (r : CoverageRegion)
    (p : VoxelProjectedPolygon) (box : BoundingBox) (s : Bool)
    (h : (checkRegion E r p box s).1 ≠ STORED) : (checkRegion E r p box s).2 = r := by
  unfold checkRegion at h ⊢
  split_ifs at h ⊢ <;> first | rfl | exact checkRegionLoop_unchanged E r p s _ h

theorem checkRegion_stored (E : Externals) (r : CoverageRegion)
    (p : VoxelProjectedPolygon) (box : BoundingBox) (s : Bool)
    (h : (checkRegion E r p box s).1 = STORED) :
    (checkRegion E r p box s).2 = storeInArray E r p ∧ s = true ∧
      MINIMUM_POLYGON_AREA_TO_STORE < p.getBoundingBox.area := by
  unfold checkRegion at h ⊢
  split_ifs at h ⊢
  · exact checkRegionLoop_stored E r p s _ h

theorem checkRegion_occluded (E : Externals) (r : CoverageRegion)
    (p : VoxelProjectedPolygon) (box : BoundingBox) (s : Bool)
    (h : (checkRegion E r p box s).1 = OCCLUDED) :
    ∃ S ∈ r._polygons, E.occludes S p = true ∧ S.getDistance < p.getDistance := by
  unfold checkRegion at h
  split_ifs at h
  · exact checkRegionLoop_occluded E r p s _ h

theorem checkRegion_query (E : Externals) (r : CoverageRegion)
    (p : VoxelProjectedPolygon) (box : BoundingBox) :
    (checkRegion E r p box false).2 = r := by
  apply checkRegion_unchanged
  intro h
  simpa using (checkRegion_stored E r p box false h).2.1

end CoverageRegion

/-! ## Node lemmas -/

namespace CoverageMap

theorem setRegion_getRegion (m : CoverageMap) (name : RegionName) :
    m.setRegion name (m.getRegion name) = m := by
  cases m; cases name <;> rfl

theorem getRegion_setRegion (m : CoverageMap) (name name' : RegionName) (r : CoverageRegion) :
    (m.setRegion name r).getRegion name' = if name' = name then r else m.getRegion name' := by
  cases name <;> cases name' <;> rfl

theorem getChild_setRegion (m : CoverageMap) (name : RegionName) (r : CoverageRegion) (i : Nat) :
    (m.setRegion name r).getChild i = m.getChild i := by
  cases name <;> rfl

theorem getChild_setChild (m : CoverageMap) (i j : Nat) (c : Option CoverageMap) (hi : i < 4) :
    (m.setChild i c).getChild j = if j = i then c else m.getChild j := by
  match i, hi with
  | 0, _ | 1, _ | 2, _ | 3, _ =>
    match j with
    | 0 | 1 | 2 | 3 => simp [setChild, getChild]
    | (k + 4) => simp [setChild, getChild]

theorem getRegion_setChild (m : CoverageMap) (i : Nat) (c : Option CoverageMap)
    (name : RegionName) : (m.setChild i c).getRegion name = m.getRegion name := by
  match i with
  | 0 | 1 | 2 | 3 => cases name <;> rfl
  | (k + 4) => rfl

theorem setChild_getChild (m : CoverageMap) (i : Nat) (c : CoverageMap)
    (h : m.getChild i = some c) : m.setChild i (some c) = m := by
  match i with
  | 0 | 1 | 2 | 3 =>
    cases m
    simp only [getChild] at h
    simp [setChild, h]
  | (k + 4) => rfl

theorem checkHalf_unchanged (E : Externals) (m : CoverageMap) (p : VoxelProjectedPolygon)
    (box : BoundingBox) (s : Bool) (h : (checkHalf E m p box s).1 ≠ STORED) :
    (checkHalf E m p box s).2.1 = m := by
  unfold checkHalf at h ⊢
  split_ifs at h ⊢ <;>
    first
    | rfl
    | (simp only at h ⊢
       rw [CoverageRegion.checkRegion_unchanged E _ p box s h]
       cases m
       rfl)

theorem checkHalf_stored (E : Externals) (m : CoverageMap) (p : VoxelProjectedPolygon)
    (box : BoundingBox) (s : Bool) (h : (checkHalf E m p box s).1 = STORED) :
    (checkHalf E m p box s).2.1 =
        m.setRegion (checkHalf E m p box s).2.2
          ((m.getRegion (checkHalf E m p box s).2.2).storeInArray E p) ∧
      s = true ∧ MINIMUM_POLYGON_AREA_TO_STORE < p.getBoundingBox.area := by
  unfold checkHalf at h ⊢
  split_ifs at h ⊢ <;>
    (simp only at h ⊢
     obtain ⟨h1, h2, h3⟩ := CoverageRegion.checkRegion_stored E _ p box s h
     rw [h1]
     exact ⟨rfl, h2, h3⟩)

theorem checkHalf_occluded (E : Externals) (m : CoverageMap) (p : VoxelProjectedPolygon)
    (box : BoundingBox) (s : Bool) (h : (checkHalf E m p box s).1 = OCCLUDED) :
    ∃ name, ∃ S ∈ (m.getRegion name)._polygons,
      E.occludes S p = true ∧ S.getDistance < p.getDistance := by
  unfold checkHalf at h
  split_ifs at h
  · exact ⟨TOP_HALF, CoverageRegion.checkRegion_occluded E _ p box s h⟩
  · exact ⟨BOTTOM_HALF, CoverageRegion.checkRegion_occluded E _ p box s h⟩
  · exact ⟨LEFT_HALF, CoverageRegion.checkRegion_occluded E _ p box s h⟩
  · exact ⟨RIGHT_HALF, CoverageRegion.checkRegion_occluded E _ p box s h⟩

theorem checkRegions_unchanged (E : Externals) (m : CoverageMap) (p : VoxelProjectedPolygon)
    (box : BoundingBox) (s : Bool) (h : (checkRegions E m p box s).1 ≠ STORED) :
    (checkRegions E m p box s).2.1 = m := by
  unfold checkRegions at h ⊢
  simp only at h ⊢
  split_ifs at h ⊢ with hd
  · have hh : (checkHalf E m p box s).1 ≠ STORED := by
      intro hs
      simp [hs] at hd
    rw [checkHalf_unchanged E m p box s hh] at h ⊢
    simp only at h ⊢
    rw [CoverageRegion.checkRegion_unchanged E _ p box s h]
    cases m
    rfl
  · exact checkHalf_unchanged E m p box s h

theorem checkRegions_stored (E : Externals) (m : CoverageMap) (p : VoxelProjectedPolygon)
    (box : BoundingBox) (s : Bool) (h : (checkRegions E m p box s).1 = STORED) :
    (∃ name, (checkRegions E m p box s).2.1 =
        m.setRegion name ((m.getRegion name).storeInArray E p)) ∧
      s = true ∧ MINIMUM_POLYGON_AREA_TO_STORE < p.getBoundingBox.area := by
  unfold checkRegions at h ⊢
  simp only at h ⊢
  split_ifs at h ⊢ with hd
  · have hh : (checkHalf E m p box s).1 ≠ STORED := by
      intro hs
      simp [hs] at hd
    rw [checkHalf_unchanged E m p box s hh] at h ⊢
    simp only at h ⊢
    obtain ⟨h1, h2, h3⟩ := CoverageRegion.checkRegion_stored E _ p box s h
    rw [h1]
    exact ⟨⟨REMAINDER, rfl⟩, h2, h3⟩
  · obtain ⟨h1, h2, h3⟩ := checkHalf_stored E m p box s h
    exact ⟨⟨_, h1⟩, h2, h3⟩

theorem checkRegions_occluded (E : Externals) (m : CoverageMap) (p : VoxelProjectedPolygon)
    (box : BoundingBox) (s : Bool) (h : (checkRegions E m p box s).1 = OCCLUDED) :
    ∃ name, ∃ S ∈ (m.getRegion name)._polygons,
      E.occludes S p = true ∧ S.getDistance < p.getDistance := by
  unfold checkRegions at h
  simp only at h
  split_ifs at h with hd
  · have hh : (checkHalf E m p box s).1 ≠ STORED := by
      intro hs
      simp [hs] at hd
    rw [checkHalf_unchanged E m p box s hh] at h
    exact ⟨REMAINDER, CoverageRegion.checkRegion_occluded E _ p box s h⟩
  · exact checkHalf_occluded E m p box s h

theorem checkRegions_storeIn (E : Externals) (m : CoverageMap) (p : VoxelProjectedPolygon)
    (box : BoundingBox) (s : Bool) :
    (checkRegions E m p box s).2.2 = (checkHalf E m p box s).2.2 := by
  unfold checkRegions
  simp only
  split_ifs <;> rfl

theorem checkMap_eq (E : Externals) (fuel : Nat) (m : CoverageMap)
    (polygon : VoxelProjectedPolygon) (storeIt : Bool) :
    checkMap E fuel m polygon storeIt =
      if !polygon.getAllInView then
        some (DOESNT_FIT, m)
      else
        if m._isRoot || m._myBoundingBox.contains polygon.getBoundingBox then
          if (checkRegions E m polygon polygon.getBoundingBox storeIt).1 = STORED ||
              (checkRegions E m polygon polygon.getBoundingBox storeIt).1 = OCCLUDED then
            some ((checkRegions E m polygon polygon.getBoundingBox storeIt).1,
              (checkRegions E m polygon polygon.getBoundingBox storeIt).2.1)
          else
            match findChild (checkRegions E m polygon polygon.getBoundingBox storeIt).2.1
                polygon.getBoundingBox with
            | some i =>
              match fuel with
              | 0 => none
              | fuel + 1 =>
                match checkMap E fuel
                    ((checkRegions E m polygon polygon.getBoundingBox storeIt).2.1.childOrNew i)
                    polygon storeIt with
                | some (result, child) =>
                  some (result,
                    (checkRegions E m polygon polygon.getBoundingBox storeIt).2.1.setChild i
                      (some child))
                | none => none
            | none =>
              some (storeHere E (checkRegions E m polygon polygon.getBoundingBox storeIt).2.1
                (checkRegions E m polygon polygon.getBoundingBox storeIt).2.2 polygon storeIt)
        else
          some (DOESNT_FIT, m) := by
  rw [checkMap]

theorem checkMap_not_in_view (E : Externals) (fuel : Nat) (m : CoverageMap)
    (p : VoxelProjectedPolygon) (s : Bool) (h : p.getAllInView = false) :
    checkMap E fuel m p s = some (DOESNT_FIT, m) := by
  rw [checkMap_eq]
  simp [h]

theorem checkMap_not_fits (E : Externals) (fuel : Nat) (m : CoverageMap)
    (p : VoxelProjectedPolygon) (s : Bool) (h : m.fits p = false) :
    checkMap E fuel m p s = some (DOESNT_FIT, m) := by
  simp only [fits] at h
  rw [checkMap_eq]
  simp only [h]
  split_ifs <;> first | rfl | contradiction

theorem checkMap_decided (E : Externals) (fuel : Nat) (m : CoverageMap)
    (p : VoxelProjectedPolygon) (s : Bool) (hv : p.getAllInView = true) (hf : m.fits p = true)
    (hd : (checkRegions E m p p.getBoundingBox s).1 = STORED ∨
      (checkRegions E m p p.getBoundingBox s).1 = OCCLUDED) :
    checkMap E fuel m p s = some ((checkRegions E m p p.getBoundingBox s).1,
      (checkRegions E m p p.getBoundingBox s).2.1) := by
  simp only [fits] at hf
  have hd' : (decide ((checkRegions E m p p.getBoundingBox s).1 = STORED) ||
      decide ((checkRegions E m p p.getBoundingBox s).1 = OCCLUDED)) = true := by
    simpa using hd
  rw [checkMap_eq]
  simp only [hv, hf, hd']
  simp

theorem checkMap_here (E : Externals) (fuel : Nat) (m : CoverageMap)
    (p : VoxelProjectedPolygon) (s : Bool) (hv : p.getAllInView = true) (hf : m.fits p = true)
    (h1 : (checkRegions E m p p.getBoundingBox s).1 ≠ STORED)
    (h2 : (checkRegions E m p p.getBoundingBox s).1 ≠ OCCLUDED)
    (hc : m.findChild p.getBoundingBox = none) :
    checkMap E fuel m p s =
      some (storeHere E m (checkHalf E m p p.getBoundingBox s).2.2 p s) := by
  simp only [fits] at hf
  have hm := checkRegions_unchanged E m p p.getBoundingBox s h1
  have hn := checkRegions_storeIn E m p p.getBoundingBox s
  have hd' : (decide ((checkRegions E m p p.getBoundingBox s).1 = STORED) ||
      decide ((checkRegions E m p p.getBoundingBox s).1 = OCCLUDED)) = false := by
    simp [h1, h2]
  rw [checkMap_eq]
  simp only [hv, hf, hd', hm, hn, hc]
  simp

theorem checkMap_descend_zero (E : Externals) (m : CoverageMap)
    (p : VoxelProjectedPolygon) (s : Bool) (hv : p.getAllInView = true) (hf : m.fits p = true)
    (h1 : (checkRegions E m p p.getBoundingBox s).1 ≠ STORED)
    (h2 : (checkRegions E m p p.getBoundingBox s).1 ≠ OCCLUDED)
    (i : Nat) (hc : m.findChild p.getBoundingBox = some i) :
    checkMap E 0 m p s = none := by
  simp only [fits] at hf
  have hm := checkRegions_unchanged E m p p.getBoundingBox s h1
  have hd' : (decide ((checkRegions E m p p.getBoundingBox s).1 = STORED) ||
      decide ((checkRegions E m p p.getBoundingBox s).1 = OCCLUDED)) = false := by
    simp [h1, h2]
  rw [checkMap_eq]
  simp only [hv, hf, hd', hm, hc]
  simp

theorem checkMap_descend_succ (E : Externals) (fuel : Nat) (m : CoverageMap)
    (p : VoxelProjectedPolygon) (s : Bool) (hv : p.getAllInView = true) (hf : m.fits p = true)
    (h1 : (checkRegions E m p p.getBoundingBox s).1 ≠ STORED)
    (h2 : (checkRegions E m p p.getBoundingBox s).1 ≠ OCCLUDED)
    (i : Nat) (hc : m.findChild p.getBoundingBox = some i) :
    checkMap E (fuel + 1) m p s =
      match checkMap E fuel (m.childOrNew i) p s with
      | some (result, child) => some (result, m.setChild i (some child))
      | none => none := by
  simp only [fits] at hf
  have hm := checkRegions_unchanged E m p p.getBoundingBox s h1
  have hd' : (decide ((checkRegions E m p p.getBoundingBox s).1 = STORED) ||
      decide ((checkRegions E m p p.getBoundingBox s).1 = OCCLUDED)) = false := by
    simp [h1, h2]
  rw [checkMap_eq]
  simp only [hv, hf, hd', hm, hc]
  simp

/-- The ways a call of `checkMap` returns: rejected before any check; decided by the regions
of the node; passed on to a child; or settled here because no quadrant contains the polygon. -/
theorem checkMap_cases (E : Externals) (fuel : Nat) (m m' : CoverageMap)
    (p : VoxelProjectedPolygon) (s : Bool) (r : CoverageMapStorageResult)
    (h : checkMap E fuel m p s = some (r, m')) :
    (r = DOESNT_FIT ∧ m' = m ∧ (p.getAllInView = false ∨ m.fits p = false)) ∨
    (p.getAllInView = true ∧ m.fits p = true ∧ (r = STORED ∨ r = OCCLUDED) ∧
      (checkRegions E m p p.getBoundingBox s).1 = r ∧
      (checkRegions E m p p.getBoundingBox s).2.1 = m') ∨
    (p.getAllInView = true ∧ m.fits p = true ∧
      (checkRegions E m p p.getBoundingBox s).1 ≠ STORED ∧
      (checkRegions E m p p.getBoundingBox s).1 ≠ OCCLUDED ∧
      ∃ i n child, m.findChild p.getBoundingBox = some i ∧ fuel = n + 1 ∧
        checkMap E n (m.childOrNew i) p s = some (r, child) ∧
        m' = m.setChild i (some child)) ∨
    (p.getAllInView = true ∧ m.fits p = true ∧
      (checkRegions E m p p.getBoundingBox s).1 ≠ STORED ∧
      (checkRegions E m p p.getBoundingBox s).1 ≠ OCCLUDED ∧
      m.findChild p.getBoundingBox = none ∧
      storeHere E m (checkHalf E m p p.getBoundingBox s).2.2 p s = (r, m')) := by
  by_cases hv : p.getAllInView = true
  swap
  · have hv' : p.getAllInView = false := by simpa using hv
    rw [checkMap_not_in_view E fuel m p s hv'] at h
    simp only [Option.some.injEq, Prod.mk.injEq] at h
    exact Or.inl ⟨h.1.symm, h.2.symm, Or.inl hv'⟩
  by_cases hf : m.fits p = true
  swap
  · have hf' : m.fits p = false := by simpa using hf
    rw [checkMap_not_fits E fuel m p s hf'] at h
    simp only [Option.some.injEq, Prod.mk.injEq] at h
    exact Or.inl ⟨h.1.symm, h.2.symm, Or.inr hf'⟩
  by_cases hd : (checkRegions E m p p.getBoundingBox s).1 = STORED ∨
      (checkRegions E m p p.getBoundingBox s).1 = OCCLUDED
  · rw [checkMap_decided E fuel m p s hv hf hd] at h
    simp only [Option.some.injEq, Prod.mk.injEq] at h
    refine Or.inr (Or.inl ⟨hv, hf, ?_, h.1, h.2⟩)
    rw [← h.1]
    exact hd
  have h1 : (checkRegions E m p p.getBoundingBox s).1 ≠ STORED := fun hh => hd (Or.inl hh)
  have h2 : (checkRegions E m p p.getBoundingBox s).1 ≠ OCCLUDED := fun hh => hd (Or.inr hh)
  cases hc : m.findChild p.getBoundingBox with
  | none =>
    rw [checkMap_here E fuel m p s hv hf h1 h2 hc] at h
    simp only [Option.some.injEq] at h
    exact Or.inr (Or.inr (Or.inr ⟨hv, hf, h1, h2, rfl, h⟩))
  | some i =>
    cases fuel with
    | zero =>
      rw [checkMap_descend_zero E m p s hv hf h1 h2 i hc] at h
      cases h
    | succ n =>
      rw [checkMap_descend_succ E n m p s hv hf h1 h2 i hc] at h
      cases hr : checkMap E n (m.childOrNew i) p s with
      | none =>
        rw [hr] at h
        cases h
      | some x =>
        obtain ⟨r0, child⟩ := x
        rw [hr] at h
        simp only [Option.some.injEq, Prod.mk.injEq] at h
        refine Or.inr (Or.inr (Or.inl ⟨hv, hf, h1, h2, i, n, child, rfl, rfl, ?_, h.2.symm⟩))
        rw [← h.1]
        exact hr

theorem findChild_some (m : CoverageMap) (box : BoundingBox) (i : Nat)
    (h : m.findChild box = some i) :
    i < 4 ∧ (m.getChildBoundingBox i).contains box = true := by
  unfold findChild at h
  have h1 := List.find?_some h
  have h2 := List.mem_of_find?_eq_some h
  simp only [NUMBER_OF_CHILDREN, List.mem_range] at h2
  exact ⟨h2, h1⟩

theorem getChild_new (box : BoundingBox) (isRoot manage : Bool) (i : Nat) :
    (CoverageMap.new box isRoot manage).getChild i = none := by
  match i with
  | 0 | 1 | 2 | 3 => rfl
  | (k + 4) => rfl

theorem getRegion_new_polygons (box : BoundingBox) (isRoot manage : Bool) (name : RegionName) :
    ((CoverageMap.new box isRoot manage).getRegion name)._polygons = [] := by
  cases name <;> rfl

theorem storedAt_nil (m : CoverageMap) (name : RegionName) :
    m.storedAt [] name = (m.getRegion name)._polygons := rfl

theorem storedAt_cons (m : CoverageMap) (i : Nat) (rest : List Nat) (name : RegionName) :
    m.storedAt (i :: rest) name =
      match m.getChild i with
      | some c => c.storedAt rest name
      | none => [] := by
  unfold storedAt
  simp only [nodeAt]
  cases m.getChild i <;> rfl

theorem storedAt_new (box : BoundingBox) (isRoot manage : Bool) (path : List Nat)
    (name : RegionName) : (CoverageMap.new box isRoot manage).storedAt path name = [] := by
  cases path with
  | nil => exact getRegion_new_polygons box isRoot manage name
  | cons i rest => rw [storedAt_cons, getChild_new]

theorem storedAt_childOrNew (m : CoverageMap) (i : Nat) (rest : List Nat) (name : RegionName) :
    (m.childOrNew i).storedAt rest name = m.storedAt (i :: rest) name := by
  rw [storedAt_cons]
  unfold childOrNew
  cases m.getChild i with
  | none => exact storedAt_new _ _ _ _ _
  | some c => rfl

theorem storedAt_setChild (m : CoverageMap) (i : Nat) (hi : i < 4) (c : CoverageMap)
    (path : List Nat) (name : RegionName) :
    (m.setChild i (some c)).storedAt path name =
      match path with
      | [] => m.storedAt [] name
      | j :: rest => if j = i then c.storedAt rest name else m.storedAt (j :: rest) name := by
  cases path with
  | nil => simp only [storedAt_nil, getRegion_setChild]
  | cons j rest =>
    simp only [storedAt_cons, getChild_setChild m i j (some c) hi]
    split_ifs <;> rfl

theorem nodeAt_cons (m : CoverageMap) (i : Nat) (rest : List Nat) :
    m.nodeAt (i :: rest) =
      match m.getChild i with
      | some c => c.nodeAt rest
      | none => none := rfl

theorem nodeAt_setChild_cons (m : CoverageMap) (i : Nat) (hi : i < 4) (c : CoverageMap)
    (j : Nat) (rest : List Nat) :
    (m.setChild i (some c)).nodeAt (j :: rest) =
      if j = i then c.nodeAt rest else m.nodeAt (j :: rest) := by
  simp only [nodeAt_cons, getChild_setChild m i j (some c) hi]
  split_ifs <;> rfl

theorem storeHere_unchanged (E : Externals) (m : CoverageMap) (name : RegionName)
    (p : VoxelProjectedPolygon) (s : Bool) (h : (storeHere E m name p s).1 ≠ STORED) :
    (storeHere E m name p s).2 = m := by
  unfold storeHere at h ⊢
  split_ifs at h ⊢ <;> first | rfl | exact absurd rfl h

theorem storeHere_stored (E : Externals) (m : CoverageMap) (name : RegionName)
    (p : VoxelProjectedPolygon) (s : Bool) (h : (storeHere E m name p s).1 = STORED) :
    (storeHere E m name p s).2 = m.setRegion name ((m.getRegion name).storeInArray E p) ∧
      s = true ∧ MINIMUM_POLYGON_AREA_TO_STORE < p.getBoundingBox.area := by
  unfold storeHere at h ⊢
  split_ifs at h ⊢ with h1 h2
  exact ⟨rfl, h1, h2⟩

theorem storeHere_fst (E : Externals) (m : CoverageMap) (name : RegionName)
    (p : VoxelProjectedPolygon) (s : Bool) :
    (storeHere E m name p s).1 = STORED ∨ (storeHere E m name p s).1 = NOT_STORED := by
  unfold storeHere
  split_ifs <;> simp

/-- Induction along the descent of `checkMap`: a property of (fuel, node before, result, node
after) that holds at every way of returning without recursion, and is passed from the child
to the parent, holds of every call that returns. -/
theorem checkMap_induction (E : Externals) (p : VoxelProjectedPolygon) (s : Bool)
    (P : Nat → CoverageMap → CoverageMapStorageResult → CoverageMap → Prop)
    (reject : ∀ fuel m, (p.getAllInView = false ∨ m.fits p = false) → P fuel m DOESNT_FIT m)
    (decided : ∀ fuel m, p.getAllInView = true → m.fits p = true →
      ((checkRegions E m p p.getBoundingBox s).1 = STORED ∨
        (checkRegions E m p p.getBoundingBox s).1 = OCCLUDED) →
      P fuel m (checkRegions E m p p.getBoundingBox s).1
        (checkRegions E m p p.getBoundingBox s).2.1)
    (descend : ∀ fuel m i r child, p.getAllInView = true → m.fits p = true →
      (checkRegions E m p p.getBoundingBox s).1 ≠ STORED →
      (checkRegions E m p p.getBoundingBox s).1 ≠ OCCLUDED →
      m.findChild p.getBoundingBox = some i →
      checkMap E fuel (m.childOrNew i) p s = some (r, child) →
      P fuel (m.childOrNew i) r child → P (fuel + 1) m r (m.setChild i (some child)))
    (here : ∀ fuel m, p.getAllInView = true → m.fits p = true →
      (checkRegions E m p p.getBoundingBox s).1 ≠ STORED →
      (checkRegions E m p p.getBoundingBox s).1 ≠ OCCLUDED →
      m.findChild p.getBoundingBox = none →
      P fuel m (storeHere E m (checkHalf E m p p.getBoundingBox s).2.2 p s).1
        (storeHere E m (checkHalf E m p p.getBoundingBox s).2.2 p s).2) :
    ∀ (fuel : Nat) (m m' : CoverageMap) (r : CoverageMapStorageResult),
      checkMap E fuel m p s = some (r, m') → P fuel m r m' := by
  intro fuel
  induction fuel with
  | zero =>
    intro m m' r h
    rcases checkMap_cases E 0 m m' p s r h with
      ⟨h0, hm, h1⟩ | ⟨hv, hf, hd, h1, h2⟩ | ⟨_, _, _, _, i, n, child, _, hn, _, _⟩ |
      ⟨hv, hf, h1, h2, hc, h6⟩
    · rw [h0, hm]
      exact reject 0 m h1
    · rw [← h1, ← h2]
      refine decided 0 m hv hf ?_
      rw [h1]
      exact hd
    · cases hn
    · have := here 0 m hv hf h1 h2 hc
      rw [h6] at this
      exact this
  | succ k ih =>
    intro m m' r h
    rcases checkMap_cases E (k + 1) m m' p s r h with
      ⟨h0, hm, h1⟩ | ⟨hv, hf, hd, h1, h2⟩ | ⟨hv, hf, h1, h2, i, n, child, hc, hn, hrec, hm⟩ |
      ⟨hv, hf, h1, h2, hc, h6⟩
    · rw [h0, hm]
      exact reject (k + 1) m h1
    · rw [← h1, ← h2]
      refine decided (k + 1) m hv hf ?_
      rw [h1]
      exact hd
    · have hn' : n = k := by omega
      subst hn'
      rw [hm]
      exact descend n m i r child hv hf h1 h2 hc hrec (ih _ _ _ hrec)
    · have := here (k + 1) m hv hf h1 h2 hc
      rw [h6] at this
      exact this

/-- A call that does not return `STORED` leaves the stored polygons of every region as they
were; the nodes it creates hold none. -/
theorem checkMap_storedAt_of_ne_stored (E : Externals) (p : VoxelProjectedPolygon) (s : Bool)
    (fuel : Nat) (m m' : CoverageMap) (r : CoverageMapStorageResult)
    (h : checkMap E fuel m p s = some (r, m')) :
    r ≠ STORED → ∀ path name, m'.storedAt path name = m.storedAt path name := by
  refine checkMap_induction E p s
    (fun _ m r m' => r ≠ STORED → ∀ path name, m'.storedAt path name = m.storedAt path name)
    ?_ ?_ ?_ ?_ fuel m m' r h
  · intro _ m _ _ path name
    rfl
  · intro _ m _ _ _ hr path name
    rw [checkRegions_unchanged E m p _ s hr]
  · intro _ m i r child _ _ _ _ hc _ ih hr path name
    have hi := (findChild_some m _ i hc).1
    rw [storedAt_setChild m i hi child path name]
    cases path with
    | nil => rfl
    | cons j rest =>
      simp only
      split_ifs with hj
      · rw [ih hr rest name, storedAt_childOrNew, hj]
      · rfl
  · intro _ m _ _ _ _ _ hr path name
    rw [storeHere_unchanged E m _ p s hr]

/-- A call that does not return `STORED` leaves every region of every node that was there
before exactly as it was (stored polygons, distances, covered bounds, array size). -/
theorem checkMap_regionAt_of_ne_stored (E : Externals) (p : VoxelProjectedPolygon) (s : Bool)
    (fuel : Nat) (m m' : CoverageMap) (r : CoverageMapStorageResult)
    (h : checkMap E fuel m p s = some (r, m')) :
    r ≠ STORED →
      ∀ path name reg, m.regionAt path name = some reg → m'.regionAt path name = some reg := by
  refine checkMap_induction E p s
    (fun _ m r m' => r ≠ STORED →
      ∀ path name reg, m.regionAt path name = some reg → m'.regionAt path name = some reg)
    ?_ ?_ ?_ ?_ fuel m m' r h
  · intro _ m _ _ path name reg hreg
    exact hreg
  · intro _ m _ _ _ hr path name reg hreg
    rw [checkRegions_unchanged E m p _ s hr]
    exact hreg
  · intro _ m i r child _ _ _ _ hc hrec ih hr path name reg hreg
    have hi := (findChild_some m _ i hc).1
    cases path with
    | nil =>
      simp only [regionAt, nodeAt, getRegion_setChild] at hreg ⊢
      exact hreg
    | cons j rest =>
      simp only [regionAt, nodeAt_setChild_cons m i hi child j rest] at hreg ⊢
      split_ifs with hj
      · subst hj
        rw [nodeAt_cons] at hreg
        cases hg : m.getChild j with
        | none => rw [hg] at hreg; cases hreg
        | some c =>
          rw [hg] at hreg
          have hcn : m.childOrNew j = c := by
            unfold childOrNew
            rw [hg]
          rw [hcn] at ih
          exact ih hr rest name reg hreg
      · exact hreg
  · intro _ m _ _ _ _ _ hr path name reg hreg
    rw [storeHere_unchanged E m _ p s hr]
    exact hreg

/-- An `OCCLUDED` verdict comes from a polygon stored in the tree that occludes the submitted
one and is strictly nearer. -/
theorem checkMap_occluded_stored (E : Externals) (p : VoxelProjectedPolygon) (s : Bool)
    (fuel : Nat) (m m' : CoverageMap) (r : CoverageMapStorageResult)
    (h : checkMap E fuel m p s = some (r, m')) :
    r = OCCLUDED →
      ∃ path name S, S ∈ m.storedAt path name ∧ E.occludes S p = true ∧
        S.getDistance < p.getDistance := by
  refine checkMap_induction E p s
    (fun _ m r _ => r = OCCLUDED →
      ∃ path name S, S ∈ m.storedAt path name ∧ E.occludes S p = true ∧
        S.getDistance < p.getDistance)
    ?_ ?_ ?_ ?_ fuel m m' r h
  · intro _ m _ h0
    cases h0
  · intro _ m _ _ _ h1
    obtain ⟨name, S, hS, hocc⟩ := checkRegions_occluded E m p _ s h1
    exact ⟨[], name, S, hS, hocc⟩
  · intro _ m i r child _ _ _ _ _ _ ih hr
    obtain ⟨path, name, S, hS, hocc⟩ := ih hr
    rw [storedAt_childOrNew] at hS
    exact ⟨i :: path, name, S, hS, hocc⟩
  · intro _ m _ _ _ _ _ h7
    rcases storeHere_fst E m (checkHalf E m p p.getBoundingBox s).2.2 p s with h8 | h8 <;>
      rw [h7] at h8 <;> cases h8

/-! ### Congruence under a change of a child slot -/

theorem fits_setChild (m : CoverageMap) (i : Nat) (c : Option CoverageMap)
    (p : VoxelProjectedPolygon) : (m.setChild i c).fits p = m.fits p := by
  match i with
  | 0 | 1 | 2 | 3 => rfl
  | (k + 4) => rfl

theorem checkRegions_setChild_fst (E : Externals) (m : CoverageMap) (i : Nat)
    (c : Option CoverageMap) (p : VoxelProjectedPolygon) (box : BoundingBox) (s : Bool) :
    (checkRegions E (m.setChild i c) p box s).1 = (checkRegions E m p box s).1 := by
  match i with
  | 0 | 1 | 2 | 3 =>
    simp only [checkRegions, checkHalf, setChild]
    split_ifs <;> rfl
  | (k + 4) => rfl

theorem checkHalf_setChild_storeIn (E : Externals) (m : CoverageMap) (i : Nat)
    (c : Option CoverageMap) (p : VoxelProjectedPolygon) (box : BoundingBox) (s : Bool) :
    (checkHalf E (m.setChild i c) p box s).2.2 = (checkHalf E m p box s).2.2 := by
  match i with
  | 0 | 1 | 2 | 3 =>
    simp only [checkHalf, setChild]
    split_ifs <;> rfl
  | (k + 4) => rfl

theorem getChildBoundingBox_setChild (m : CoverageMap) (i : Nat) (c : Option CoverageMap)
    (j : Nat) : (m.setChild i c).getChildBoundingBox j = m.getChildBoundingBox j := by
  match i with
  | 0 | 1 | 2 | 3 => rfl
  | (k + 4) => rfl

theorem findChild_setChild (m : CoverageMap) (i : Nat) (c : Option CoverageMap)
    (box : BoundingBox) : (m.setChild i c).findChild box = m.findChild box := by
  unfold findChild
  simp only [getChildBoundingBox_setChild]

theorem childOrNew_setChild (m : CoverageMap) (i : Nat) (hi : i < 4) (c : CoverageMap) :
    (m.setChild i (some c)).childOrNew i = c := by
  unfold childOrNew
  rw [getChild_setChild m i i (some c) hi]
  simp

theorem setChild_setChild (m : CoverageMap) (i : Nat) (a b : Option CoverageMap) :
    (m.setChild i a).setChild i b = m.setChild i b := by
  match i with
  | 0 | 1 | 2 | 3 => rfl
  | (k + 4) => rfl

/-- A query (`storeIt` false) returns a node on which the same query gives the same result
and changes nothing more. -/
theorem checkMap_query_fixpoint (E : Externals) (p : VoxelProjectedPolygon)
    (fuel : Nat) (m m' : CoverageMap) (r : CoverageMapStorageResult)
    (h : checkMap E fuel m p false = some (r, m')) :
    checkMap E fuel m' p false = some (r, m') := by
  refine checkMap_induction E p false
    (fun fuel _ r m' => checkMap E fuel m' p false = some (r, m')) ?_ ?_ ?_ ?_ fuel m m' r h
  · intro fuel m h1
    rcases h1 with h1 | h1
    · exact checkMap_not_in_view E fuel m p false h1
    · exact checkMap_not_fits E fuel m p false h1
  · intro fuel m hv hf hd
    have hne : (checkRegions E m p p.getBoundingBox false).1 ≠ STORED := by
      intro hs
      simpa using (checkRegions_stored E m p _ false hs).2.1
    rw [checkRegions_unchanged E m p _ false hne]
    have := checkMap_decided E fuel m p false hv hf hd
    rw [checkRegions_unchanged E m p _ false hne] at this
    exact this
  · intro fuel m i r child hv hf h1 h2 hc _ ih
    have hi := (findChild_some m _ i hc).1
    have e := checkMap_descend_succ E fuel (m.setChild i (some child)) p false hv
      (by rw [fits_setChild]; exact hf)
      (by rw [checkRegions_setChild_fst]; exact h1)
      (by rw [checkRegions_setChild_fst]; exact h2)
      i (by rw [findChild_setChild]; exact hc)
    rw [e, childOrNew_setChild m i hi child, ih]
    simp only [setChild_setChild]
  · intro fuel m hv hf h1 h2 hc
    have e := checkMap_here E fuel m p false hv hf h1 h2 hc
    have hs : storeHere E m (checkHalf E m p p.getBoundingBox false).2.2 p false =
        (NOT_STORED, m) := rfl
    rw [hs] at e ⊢
    exact e

/-! ### The total count -/

theorem totalPolygonCount_eq (m : CoverageMap) :
    m.totalPolygonCount =
      m.getPolygonCount + m.childTotal 0 + m.childTotal 1 + m.childTotal 2 + m.childTotal 3 := by
  cases m
  simp only [getPolygonCount, childTotal, getChild]
  rw [totalPolygonCount]

theorem totalPolygonCountOpt_some (c : CoverageMap) :
    totalPolygonCountOpt (some c) = c.totalPolygonCount := by
  rw [totalPolygonCountOpt]

theorem totalPolygonCountOpt_none : totalPolygonCountOpt none = 0 := by
  rw [totalPolygonCountOpt]

theorem totalPolygonCount_new (box : BoundingBox) (isRoot manage : Bool) :
    (CoverageMap.new box isRoot manage).totalPolygonCount = 0 := by
  rw [totalPolygonCount_eq]
  simp only [childTotal, getChild_new, totalPolygonCountOpt_none]
  rfl

theorem totalPolygonCount_childOrNew (m : CoverageMap) (i : Nat) :
    (m.childOrNew i).totalPolygonCount = m.childTotal i := by
  unfold childOrNew childTotal
  cases m.getChild i with
  | none =>
    rw [totalPolygonCountOpt_none]
    exact totalPolygonCount_new _ _ _
  | some c => rw [totalPolygonCountOpt_some]

theorem totalPolygonCount_setRegion (m : CoverageMap) (name : RegionName) (r : CoverageRegion) :
    (m.setRegion name r).totalPolygonCount + (m.getRegion name).getPolygonCount =
      m.totalPolygonCount + r.getPolygonCount := by
  rw [totalPolygonCount_eq, totalPolygonCount_eq m]
  simp only [childTotal, getChild_setRegion]
  cases name <;> (simp only [getPolygonCount, setRegion, getRegion]; omega)

theorem totalPolygonCount_setChild (m : CoverageMap) (i : Nat) (hi : i < 4) (c : CoverageMap) :
    (m.setChild i (some c)).totalPolygonCount + m.childTotal i =
      m.totalPolygonCount + c.totalPolygonCount := by
  rw [totalPolygonCount_eq, totalPolygonCount_eq m]
  have hp : (m.setChild i (some c)).getPolygonCount = m.getPolygonCount := by
    unfold getPolygonCount
    have h := getRegion_setChild m i (some c)
    have h1 := h TOP_HALF
    have h2 := h BOTTOM_HALF
    have h3 := h LEFT_HALF
    have h4 := h RIGHT_HALF
    have h5 := h REMAINDER
    simp only [getRegion] at h1 h2 h3 h4 h5
    rw [h1, h2, h3, h4, h5]
  have hc : ∀ j, (m.setChild i (some c)).childTotal j =
      if j = i then c.totalPolygonCount else m.childTotal j := by
    intro j
    unfold childTotal
    rw [getChild_setChild m i j (some c) hi]
    split_ifs
    · rw [totalPolygonCountOpt_some]
    · rfl
  rw [hp, hc 0, hc 1, hc 2, hc 3]
  match i, hi with
  | 0, _ | 1, _ | 2, _ | 3, _ => simp; omega

theorem totalPolygonCount_store (E : Externals) (m : CoverageMap) (name : RegionName)
    (p : VoxelProjectedPolygon) :
    (m.setRegion name ((m.getRegion name).storeInArray E p)).totalPolygonCount =
      m.totalPolygonCount + 1 := by
  have h := totalPolygonCount_setRegion m name ((m.getRegion name).storeInArray E p)
  rw [CoverageRegion.storeInArray_getPolygonCount] at h
  omega

/-- A call adds one to the number of polygons stored in the tree when it returns `STORED`
and leaves that number as it was otherwise. -/
theorem checkMap_totalPolygonCount (E : Externals) (p : VoxelProjectedPolygon) (s : Bool)
    (fuel : Nat) (m m' : CoverageMap) (r : CoverageMapStorageResult)
    (h : checkMap E fuel m p s = some (r, m')) :
    m'.totalPolygonCount = m.totalPolygonCount + (if r = STORED then 1 else 0) := by
  refine checkMap_induction E p s
    (fun _ m r m' =>
      m'.totalPolygonCount = m.totalPolygonCount + (if r = STORED then 1 else 0))
    ?_ ?_ ?_ ?_ fuel m m' r h
  · intro _ m _
    simp
  · intro _ m _ _ hd
    by_cases hs : (checkRegions E m p p.getBoundingBox s).1 = STORED
    · obtain ⟨⟨name, hm⟩, _, _⟩ := checkRegions_stored E m p _ s hs
      rw [hm, hs, totalPolygonCount_store]
      simp
    · rw [checkRegions_unchanged E m p _ s hs]
      simp [hs]
  · intro _ m i r child _ _ _ _ hc _ ih
    have hi := (findChild_some m _ i hc).1
    have h1 := totalPolygonCount_setChild m i hi child
    rw [ih, totalPolygonCount_childOrNew] at h1
    omega
  · intro _ m _ _ _ _ _
    by_cases hs : (storeHere E m (checkHalf E m p p.getBoundingBox s).2.2 p s).1 = STORED
    · rw [(storeHere_stored E m _ p s hs).1, hs, totalPolygonCount_store]
      simp
    · rw [storeHere_unchanged E m _ p s hs]
      simp [hs]

/-- Every polygon stored after a call was stored before it or is the submitted polygon. -/
theorem checkMap_mem_storedAt (E : Externals) (p : VoxelProjectedPolygon) (s : Bool)
    (fuel : Nat) (m m' : CoverageMap) (r : CoverageMapStorageResult)
    (h : checkMap E fuel m p s = some (r, m')) :
    ∀ path name S, S ∈ m'.storedAt path name → S = p ∨ S ∈ m.storedAt path name := by
  refine checkMap_induction E p s
    (fun _ m _ m' =>
      ∀ path name S, S ∈ m'.storedAt path name → S = p ∨ S ∈ m.storedAt path name)
    ?_ ?_ ?_ ?_ fuel m m' r h
  · intro _ m _ path name S hS
    exact Or.inr hS
  · intro _ m _ _ hd path name S hS
    by_cases hs : (checkRegions E m p p.getBoundingBox s).1 = STORED
    · obtain ⟨⟨n0, hm⟩, _, _⟩ := checkRegions_stored E m p _ s hs
      rw [hm] at hS
      cases path with
      | nil =>
        rw [storedAt_nil, getRegion_setRegion] at hS
        split_ifs at hS with hn
        · rw [CoverageRegion.mem_storeInArray] at hS
          rw [storedAt_nil, hn]
          exact hS
        · exact Or.inr hS
      | cons j rest =>
        rw [storedAt_cons, getChild_setRegion] at hS
        rw [storedAt_cons]
        exact Or.inr hS
    · rw [checkRegions_unchanged E m p _ s hs] at hS
      exact Or.inr hS
  · intro _ m i r child _ _ _ _ hc _ ih path name S hS
    have hi := (findChild_some m _ i hc).1
    rw [storedAt_setChild m i hi child path name] at hS
    cases path with
    | nil => exact Or.inr hS
    | cons j rest =>
      simp only at hS
      split_ifs at hS with hj
      · rcases ih rest name S hS with h1 | h1
        · exact Or.inl h1
        · rw [storedAt_childOrNew] at h1
          rw [hj]
          exact Or.inr h1
      · exact Or.inr hS
  · intro _ m _ _ _ _ _ path name S hS
    by_cases hs : (storeHere E m (checkHalf E m p p.getBoundingBox s).2.2 p s).1 = STORED
    · rw [(storeHere_stored E m _ p s hs).1] at hS
      cases path with
      | nil =>
        rw [storedAt_nil, getRegion_setRegion] at hS
        split_ifs at hS with hn
        · rw [CoverageRegion.mem_storeInArray] at hS
          rw [storedAt_nil, hn]
          exact hS
        · exact Or.inr hS
      | cons j rest =>
        rw [storedAt_cons, getChild_setRegion] at hS
        rw [storedAt_cons]
        exact Or.inr hS
    · rw [storeHere_unchanged E m _ p s hs] at hS
      exact Or.inr hS

/-! ### Well-formed trees -/

theorem wellFormed_here {m : CoverageMap} (h : m.WellFormed) : m.NodeOK := h [] m rfl

theorem wellFormed_child {m c : CoverageMap} {i : Nat} (h : m.WellFormed)
    (hg : m.getChild i = some c) : c.WellFormed := by
  intro path n hn
  refine h (i :: path) n ?_
  rw [nodeAt_cons, hg]
  exact hn

theorem wellFormed_intro {m : CoverageMap} (h : m.NodeOK)
    (hc : ∀ i c, m.getChild i = some c → c.WellFormed) : m.WellFormed := by
  intro path n hn
  cases path with
  | nil =>
    simp only [nodeAt, Option.some.injEq] at hn
    rw [← hn]
    exact h
  | cons i rest =>
    rw [nodeAt_cons] at hn
    cases hg : m.getChild i with
    | none => rw [hg] at hn; cases hn
    | some c =>
      rw [hg] at hn
      exact hc i c hg rest n hn

theorem wellFormed_new (box : BoundingBox) (isRoot manage : Bool) :
    (CoverageMap.new box isRoot manage).WellFormed := by
  refine wellFormed_intro ?_ ?_
  · refine ⟨⟨rfl, rfl, rfl, rfl⟩, ⟨rfl, rfl, rfl, rfl⟩, ⟨rfl, rfl, rfl, rfl⟩,
      ⟨rfl, rfl, rfl, rfl⟩, ⟨rfl, rfl, rfl, rfl⟩, ?_⟩
    intro i c hg
    rw [getChild_new] at hg
    cases hg
  · intro i c hg
    rw [getChild_new] at hg
    cases hg

theorem getChildBoundingBox_setRegion (m : CoverageMap) (name : RegionName)
    (r : CoverageRegion) (i : Nat) :
    (m.setRegion name r).getChildBoundingBox i = m.getChildBoundingBox i := by
  cases name <;> rfl

theorem isRoot_setRegion (m : CoverageMap) (name : RegionName) (r : CoverageRegion) :
    (m.setRegion name r)._isRoot = m._isRoot := by
  cases name <;> rfl

theorem myBoundingBox_setRegion (m : CoverageMap) (name : RegionName) (r : CoverageRegion) :
    (m.setRegion name r)._myBoundingBox = m._myBoundingBox := by
  cases name <;> rfl

theorem managePolygons_setRegion (m : CoverageMap) (name : RegionName) (r : CoverageRegion) :
    (m.setRegion name r)._managePolygons = m._managePolygons := by
  cases name <;> rfl

theorem isRoot_setChild (m : CoverageMap) (i : Nat) (c : Option CoverageMap) :
    (m.setChild i c)._isRoot = m._isRoot := by
  match i with
  | 0 | 1 | 2 | 3 => rfl
  | (k + 4) => rfl

theorem myBoundingBox_setChild (m : CoverageMap) (i : Nat) (c : Option CoverageMap) :
    (m.setChild i c)._myBoundingBox = m._myBoundingBox := by
  match i with
  | 0 | 1 | 2 | 3 => rfl
  | (k + 4) => rfl

theorem managePolygons_setChild (m : CoverageMap) (i : Nat) (c : Option CoverageMap) :
    (m.setChild i c)._managePolygons = m._managePolygons := by
  match i with
  | 0 | 1 | 2 | 3 => rfl
  | (k + 4) => rfl

theorem built_storeInArray (E : Externals) (r : CoverageRegion) (p : VoxelProjectedPolygon)
    (box : BoundingBox) (isRoot manage : Bool) (name : RegionName)
    (h : r.Built box isRoot manage name) : (r.storeInArray E p).Built box isRoot manage name := by
  obtain ⟨h1, h2, h3, h4⟩ := h
  refine ⟨(CoverageRegion.storeInArray_myBoundingBox E r p).trans h1,
    (CoverageRegion.storeInArray_isRoot E r p).trans h2, ?_, ?_⟩
  · rw [← h3]
    unfold CoverageRegion.storeInArray insertIntoSortedArrays CoverageRegion.growPolygonArray
    simp only
    split_ifs <;> rfl
  · rw [← h4]
    unfold CoverageRegion.storeInArray insertIntoSortedArrays CoverageRegion.growPolygonArray
    simp only
    split_ifs <;> rfl

theorem wellFormed_setRegion {m : CoverageMap} (h : m.WellFormed) (name : RegionName)
    (r : CoverageRegion)
    (hr : ∀ box isRoot manage n, (m.getRegion name).Built box isRoot manage n →
      r.Built box isRoot manage n) : (m.setRegion name r).WellFormed := by
  refine wellFormed_intro ?_ ?_
  · obtain ⟨h1, h2, h3, h4, h5, h6⟩ := wellFormed_here h
    have h6' : ∀ i c, (m.setRegion name r).getChild i = some c →
        c._isRoot = false ∧ c._myBoundingBox = (m.setRegion name r).getChildBoundingBox i ∧
          c._managePolygons = (m.setRegion name r)._managePolygons := by
      intro i c hg
      rw [getChild_setRegion] at hg
      rw [getChildBoundingBox_setRegion, managePolygons_setRegion]
      exact h6 i c hg
    cases name
    · exact ⟨hr _ _ _ _ h1, h2, h3, h4, h5, h6'⟩
    · exact ⟨h1, hr _ _ _ _ h2, h3, h4, h5, h6'⟩
    · exact ⟨h1, h2, hr _ _ _ _ h3, h4, h5, h6'⟩
    · exact ⟨h1, h2, h3, hr _ _ _ _ h4, h5, h6'⟩
    · exact ⟨h1, h2, h3, h4, hr _ _ _ _ h5, h6'⟩
  · intro i c hg
    rw [getChild_setRegion] at hg
    exact wellFormed_child h hg

theorem wellFormed_store (E : Externals) {m : CoverageMap} (h : m.WellFormed)
    (name : RegionName) (p : VoxelProjectedPolygon) :
    (m.setRegion name ((m.getRegion name).storeInArray E p)).WellFormed :=
  wellFormed_setRegion h name _ (fun box isRoot manage n hb =>
    built_storeInArray E _ p box isRoot manage n hb)

theorem wellFormed_setChild {m c : CoverageMap} (h : m.WellFormed) (hc : c.WellFormed)
    (i : Nat) (hi : i < 4) (hr : c._isRoot = false)
    (hb : c._myBoundingBox = m.getChildBoundingBox i)
    (hm : c._managePolygons = m._managePolygons) :
    (m.setChild i (some c)).WellFormed := by
  refine wellFormed_intro ?_ ?_
  · obtain ⟨h1, h2, h3, h4, h5, h6⟩ := wellFormed_here h
    have h6' : ∀ j c', (m.setChild i (some c)).getChild j = some c' →
        c'._isRoot = false ∧
          c'._myBoundingBox = (m.setChild i (some c)).getChildBoundingBox j ∧
          c'._managePolygons = (m.setChild i (some c))._managePolygons := by
      intro j c' hg
      rw [getChild_setChild m i j (some c) hi] at hg
      rw [getChildBoundingBox_setChild, managePolygons_setChild]
      split_ifs at hg with hj
      · simp only [Option.some.injEq] at hg
        rw [← hg, hj]
        exact ⟨hr, hb, hm⟩
      · exact h6 j c' hg
    match i, hi with
    | 0, _ | 1, _ | 2, _ | 3, _ => exact ⟨h1, h2, h3, h4, h5, h6'⟩
  · intro j c' hg
    rw [getChild_setChild m i j (some c) hi] at hg
    split_ifs at hg with hj
    · simp only [Option.some.injEq] at hg
      rw [← hg]
      exact hc
    · exact wellFormed_child h hg

theorem wellFormed_childOrNew {m : CoverageMap} (h : m.WellFormed) (i : Nat) :
    (m.childOrNew i).WellFormed ∧ (m.childOrNew i)._isRoot = false ∧
      (m.childOrNew i)._myBoundingBox = m.getChildBoundingBox i ∧
      (m.childOrNew i)._managePolygons = m._managePolygons := by
  unfold childOrNew
  cases hg : m.getChild i with
  | none => exact ⟨wellFormed_new _ _ _, rfl, rfl, rfl⟩
  | some c =>
    obtain ⟨h1, h2, h3⟩ := (wellFormed_here h).2.2.2.2.2 i c hg
    exact ⟨wellFormed_child h hg, h1, h2, h3⟩

/-- A call on a well-formed tree returns a well-formed tree with the same root flag, the same
bounds and the same `_managePolygons`. -/
theorem checkMap_wellFormed (E : Externals) (p : VoxelProjectedPolygon) (s : Bool)
    (fuel : Nat) (m m' : CoverageMap) (r : CoverageMapStorageResult)
    (h : checkMap E fuel m p s = some (r, m')) :
    m.WellFormed →
      m'.WellFormed ∧ m'._isRoot = m._isRoot ∧ m'._myBoundingBox = m._myBoundingBox ∧
        m'._managePolygons = m._managePolygons := by
  refine checkMap_induction E p s
    (fun _ m _ m' => m.WellFormed →
      m'.WellFormed ∧ m'._isRoot = m._isRoot ∧ m'._myBoundingBox = m._myBoundingBox ∧
        m'._managePolygons = m._managePolygons)
    ?_ ?_ ?_ ?_ fuel m m' r h
  · intro _ m _ hw
    exact ⟨hw, rfl, rfl, rfl⟩
  · intro _ m _ _ _ hw
    by_cases hs : (checkRegions E m p p.getBoundingBox s).1 = STORED
    · obtain ⟨⟨name, hm⟩, _, _⟩ := checkRegions_stored E m p _ s hs
      rw [hm]
      exact ⟨wellFormed_store E hw name p, isRoot_setRegion _ _ _,
        myBoundingBox_setRegion _ _ _, managePolygons_setRegion _ _ _⟩
    · rw [checkRegions_unchanged E m p _ s hs]
      exact ⟨hw, rfl, rfl, rfl⟩
  · intro _ m i r child _ _ _ _ hc _ ih hw
    have hi := (findChild_some m _ i hc).1
    obtain ⟨hw1, hr1, hb1, hm1⟩ := wellFormed_childOrNew hw i
    obtain ⟨hw2, hr2, hb2, hm2⟩ := ih hw1
    exact ⟨wellFormed_setChild hw hw2 i hi (hr2.trans hr1) (hb2.trans hb1) (hm2.trans hm1),
      isRoot_setChild _ _ _, myBoundingBox_setChild _ _ _, managePolygons_setChild _ _ _⟩
  · intro _ m _ _ _ _ _ hw
    by_cases hs : (storeHere E m (checkHalf E m p p.getBoundingBox s).2.2 p s).1 = STORED
    · rw [(storeHere_stored E m _ p s hs).1]
      exact ⟨wellFormed_store E hw _ p, isRoot_setRegion _ _ _,
        myBoundingBox_setRegion _ _ _, managePolygons_setRegion _ _ _⟩
    · rw [storeHere_unchanged E m _ p s hs]
      exact ⟨hw, rfl, rfl, rfl⟩

/-! ### Termination of the descent -/

theorem getChildBoundingBox_size (m : CoverageMap) (i : Nat) :
    (m.getChildBoundingBox i).size =
      ⟨m._myBoundingBox.size.x / 2, m._myBoundingBox.size.y / 2⟩ := by
  unfold getChildBoundingBox
  simp only
  split_ifs <;> rfl

theorem shrinks_of_descentBound (fuel : Nat) (nodeBox box : BoundingBox)
    (hpos : 0 < box.size.x ∨ 0 < box.size.y) (hb : descentBound nodeBox box ≤ fuel) :
    Shrinks fuel nodeBox box := by
  have key : ∀ W w : ℚ, 0 < w → ⌈W / w⌉₊ ≤ fuel → W < w * 2 ^ fuel := by
    intro W w hw hc
    have h1 : W / w ≤ (⌈W / w⌉₊ : ℚ) := Nat.le_ceil _
    have h2 : ((⌈W / w⌉₊ : ℕ) : ℚ) ≤ (fuel : ℚ) := by exact_mod_cast hc
    have h3 : (fuel : ℚ) < 2 ^ fuel := by exact_mod_cast Nat.lt_two_pow fuel
    have h4 : W / w < 2 ^ fuel := lt_of_le_of_lt (le_trans h1 h2) h3
    have h5 := (div_lt_iff₀ hw).mp h4
    linarith
  unfold descentBound at hb
  by_cases hx : 0 < box.size.x
  · rw [if_pos hx] at hb
    exact Or.inl ⟨hx, key _ _ hx hb⟩
  · rw [if_neg hx] at hb
    have hy : 0 < box.size.y := by
      rcases hpos with h | h
      · exact absurd h hx
      · exact h
    exact Or.inr ⟨hy, key _ _ hy hb⟩

theorem shrinks_child (fuel : Nat) (m : CoverageMap) (box : BoundingBox) (i : Nat)
    (h : Shrinks fuel m._myBoundingBox box)
    (hc : (m.getChildBoundingBox i).contains box = true) :
    ∃ k, fuel = k + 1 ∧ Shrinks k (m.getChildBoundingBox i) box := by
  have hsz := getChildBoundingBox_size m i
  unfold BoundingBox.contains at hc
  simp only [Bool.and_eq_true, decide_eq_true_eq] at hc
  obtain ⟨⟨⟨⟨_, hx1⟩, hy1⟩, hx2⟩, hy2⟩ := hc
  rw [hsz] at hx2 hy2
  simp only at hx2 hy2
  have hw : box.size.x ≤ m._myBoundingBox.size.x / 2 := by linarith
  have hh : box.size.y ≤ m._myBoundingBox.size.y / 2 := by linarith
  cases fuel with
  | zero =>
    exfalso
    unfold Shrinks at h
    simp only [pow_zero, mul_one] at h
    rcases h with ⟨h1, h2⟩ | ⟨h1, h2⟩ <;> linarith
  | succ k =>
    refine ⟨k, rfl, ?_⟩
    unfold Shrinks at h ⊢
    rw [hsz]
    simp only
    rcases h with ⟨h1, h2⟩ | ⟨h1, h2⟩
    · left
      refine ⟨h1, ?_⟩
      rw [pow_succ] at h2
      linarith
    · right
      refine ⟨h1, ?_⟩
      rw [pow_succ] at h2
      linarith

/-- On a well-formed tree the descent ends: with fuel for as many levels as it takes the
node to become narrower or lower than the polygon, `checkMap` returns. -/
theorem checkMap_terminates (E : Externals) (p : VoxelProjectedPolygon) (s : Bool) :
    ∀ (fuel : Nat) (m : CoverageMap), m.WellFormed →
      Shrinks fuel m._myBoundingBox p.getBoundingBox →
      ∃ r m', checkMap E fuel m p s = some (r, m') := by
  intro fuel
  induction fuel with
  | zero =>
    intro m hw hs
    by_cases hv : p.getAllInView = true
    swap
    · exact ⟨_, _, checkMap_not_in_view E 0 m p s (by simpa using hv)⟩
    by_cases hf : m.fits p = true
    swap
    · exact ⟨_, _, checkMap_not_fits E 0 m p s (by simpa using hf)⟩
    by_cases hd : (checkRegions E m p p.getBoundingBox s).1 = STORED ∨
        (checkRegions E m p p.getBoundingBox s).1 = OCCLUDED
    · exact ⟨_, _, checkMap_decided E 0 m p s hv hf hd⟩
    have h1 : (checkRegions E m p p.getBoundingBox s).1 ≠ STORED := fun hh => hd (Or.inl hh)
    have h2 : (checkRegions E m p p.getBoundingBox s).1 ≠ OCCLUDED := fun hh => hd (Or.inr hh)
    cases hc : m.findChild p.getBoundingBox with
    | none => exact ⟨_, _, checkMap_here E 0 m p s hv hf h1 h2 hc⟩
    | some i =>
      obtain ⟨k, hk, _⟩ := shrinks_child 0 m _ i hs (findChild_some m _ i hc).2
      cases hk
  | succ n ih =>
    intro m hw hs
    by_cases hv : p.getAllInView = true
    swap
    · exact ⟨_, _, checkMap_not_in_view E _ m p s (by simpa using hv)⟩
    by_cases hf : m.fits p = true
    swap
    · exact ⟨_, _, checkMap_not_fits E _ m p s (by simpa using hf)⟩
    by_cases hd : (checkRegions E m p p.getBoundingBox s).1 = STORED ∨
        (checkRegions E m p p.getBoundingBox s).1 = OCCLUDED
    · exact ⟨_, _, checkMap_decided E _ m p s hv hf hd⟩
    have h1 : (checkRegions E m p p.getBoundingBox s).1 ≠ STORED := fun hh => hd (Or.inl hh)
    have h2 : (checkRegions E m p p.getBoundingBox s).1 ≠ OCCLUDED := fun hh => hd (Or.inr hh)
    cases hc : m.findChild p.getBoundingBox with
    | none => exact ⟨_, _, checkMap_here E _ m p s hv hf h1 h2 hc⟩
    | some i =>
      obtain ⟨k, hk, hs'⟩ := shrinks_child (n + 1) m _ i hs (findChild_some m _ i hc).2
      have hkn : k = n := by omega
      subst hkn
      obtain ⟨hw1, _, hb1, _⟩ := wellFormed_childOrNew hw i
      rw [← hb1] at hs'
      obtain ⟨r, c', hrec⟩ := ih (m.childOrNew i) hw1 hs'
      rw [checkMap_descend_succ E k m p s hv hf h1 h2 i hc, hrec]
      exact ⟨_, _, rfl⟩

/-- On a well-formed tree, a polygon that is in view and passes the guard of the node is
never answered `DOESNT_FIT`; it is answered `STORED` only when `storeIt` is set and its area
is above the minimum, and then it is answered `STORED` or `OCCLUDED`. -/
theorem checkMap_result (E : Externals) (p : VoxelProjectedPolygon) (s : Bool)
    (fuel : Nat) (m m' : CoverageMap) (r : CoverageMapStorageResult)
    (h : checkMap E fuel m p s = some (r, m')) :
    m.WellFormed → p.getAllInView = true → m.fits p = true →
      r ≠ DOESNT_FIT ∧
      (r = STORED → s = true ∧ MINIMUM_POLYGON_AREA_TO_STORE < p.getBoundingBox.area) ∧
      (s = true → MINIMUM_POLYGON_AREA_TO_STORE < p.getBoundingBox.area →
        r = STORED ∨ r = OCCLUDED) := by
  refine checkMap_induction E p s
    (fun _ m r _ => m.WellFormed → p.getAllInView = true → m.fits p = true →
      r ≠ DOESNT_FIT ∧
      (r = STORED → s = true ∧ MINIMUM_POLYGON_AREA_TO_STORE < p.getBoundingBox.area) ∧
      (s = true → MINIMUM_POLYGON_AREA_TO_STORE < p.getBoundingBox.area →
        r = STORED ∨ r = OCCLUDED))
    ?_ ?_ ?_ ?_ fuel m m' r h
  · intro _ m h1 _ hv hf
    rcases h1 with h1 | h1
    · rw [h1] at hv; cases hv
    · rw [h1] at hf; cases hf
  · intro _ m _ _ hd _ _ _
    refine ⟨?_, ?_, fun _ _ => hd⟩
    · rcases hd with hd | hd <;> rw [hd] <;> decide
    · intro hs
      exact (checkRegions_stored E m p _ s hs).2
  · intro _ m i r child _ _ _ _ hc _ ih hw hv _
    obtain ⟨hw1, _, hb1, _⟩ := wellFormed_childOrNew hw i
    refine ih hw1 hv ?_
    unfold fits
    rw [hb1, (findChild_some m _ i hc).2]
    simp
  · intro _ m _ _ _ _ _ _ _ _
    unfold storeHere
    split_ifs with h1 h2
    · exact ⟨by simp, fun _ => ⟨h1, h2⟩, fun _ _ => Or.inl rfl⟩
    · exact ⟨by simp, by simp, fun _ h => absurd h h2⟩
    · exact ⟨by simp, by simp, fun h _ => absurd h h1⟩

/-! ### Nodes whose regions hold no polygon -/

theorem checkRegionLoop_decided_mem (E : Externals) (r : CoverageRegion)
    (p : VoxelProjectedPolygon) (s : Bool) (l : List VoxelProjectedPolygon)
    (h : (CoverageRegion.checkRegionLoop E r p s l).1 = STORED ∨
      (CoverageRegion.checkRegionLoop E r p s l).1 = OCCLUDED) :
    ∃ S ∈ l, E.occludes S p = true := by
  induction l with
  | nil => simp [CoverageRegion.checkRegionLoop] at h
  | cons a l ih =>
    simp only [CoverageRegion.checkRegionLoop] at h
    by_cases h1 : E.occludes a p = true
    · exact ⟨a, List.mem_cons_self _ _, h1⟩
    · rw [if_neg h1] at h
      obtain ⟨S, hS, hocc⟩ := ih h
      exact ⟨S, List.mem_cons_of_mem _ hS, hocc⟩

theorem checkRegion_decided_mem (E : Externals) (r : CoverageRegion)
    (p : VoxelProjectedPolygon) (box : BoundingBox) (s : Bool)
    (h : (CoverageRegion.checkRegion E r p box s).1 = STORED ∨
      (CoverageRegion.checkRegion E r p box s).1 = OCCLUDED) :
    ∃ S ∈ r._polygons, E.occludes S p = true := by
  unfold CoverageRegion.checkRegion at h
  split_ifs at h
  · simp at h
  · exact checkRegionLoop_decided_mem E r p s _ h
  · simp at h

theorem checkHalf_decided_mem (E : Externals) (m : CoverageMap) (p : VoxelProjectedPolygon)
    (box : BoundingBox) (s : Bool)
    (h : (checkHalf E m p box s).1 = STORED ∨ (checkHalf E m p box s).1 = OCCLUDED) :
    ∃ name, ∃ S ∈ (m.getRegion name)._polygons, E.occludes S p = true := by
  unfold checkHalf at h
  split_ifs at h
  · exact ⟨TOP_HALF, checkRegion_decided_mem E _ p box s h⟩
  · exact ⟨BOTTOM_HALF, checkRegion_decided_mem E _ p box s h⟩
  · exact ⟨LEFT_HALF, checkRegion_decided_mem E _ p box s h⟩
  · exact ⟨RIGHT_HALF, checkRegion_decided_mem E _ p box s h⟩
  · simp at h

theorem checkRegions_decided_mem (E : Externals) (m : CoverageMap) (p : VoxelProjectedPolygon)
    (box : BoundingBox) (s : Bool)
    (h : (checkRegions E m p box s).1 = STORED ∨ (checkRegions E m p box s).1 = OCCLUDED) :
    ∃ name, ∃ S ∈ (m.getRegion name)._polygons, E.occludes S p = true := by
  unfold checkRegions at h
  simp only at h
  split_ifs at h with hd
  · have hh : (checkHalf E m p box s).1 ≠ STORED := by
      intro hs
      simp [hs] at hd
    rw [checkHalf_unchanged E m p box s hh] at h
    exact ⟨REMAINDER, checkRegion_decided_mem E _ p box s h⟩
  · exact checkHalf_decided_mem E m p box s h

theorem checkRegions_of_empty (E : Externals) (m : CoverageMap) (p : VoxelProjectedPolygon)
    (box : BoundingBox) (s : Bool) (he : ∀ name, (m.getRegion name)._polygons = []) :
    (checkRegions E m p box s).1 ≠ STORED ∧ (checkRegions E m p box s).1 ≠ OCCLUDED := by
  have key : ¬((checkRegions E m p box s).1 = STORED ∨
      (checkRegions E m p box s).1 = OCCLUDED) := by
    intro h
    obtain ⟨name, S, hS, _⟩ := checkRegions_decided_mem E m p box s h
    rw [he name] at hS
    cases hS
  exact ⟨fun h => key (Or.inl h), fun h => key (Or.inr h)⟩

/-- A call returns `STORED` only when `storeIt` is set and the area of the bounding rectangle
is above the minimum. -/
theorem checkMap_stored_storeIt (E : Externals) (p : VoxelProjectedPolygon) (s : Bool)
    (fuel : Nat) (m m' : CoverageMap) (r : CoverageMapStorageResult)
    (h : checkMap E fuel m p s = some (r, m')) :
    r = STORED → s = true ∧ MINIMUM_POLYGON_AREA_TO_STORE < p.getBoundingBox.area := by
  refine checkMap_induction E p s
    (fun _ _ r _ => r = STORED →
      s = true ∧ MINIMUM_POLYGON_AREA_TO_STORE < p.getBoundingBox.area)
    ?_ ?_ ?_ ?_ fuel m m' r h
  · intro _ _ _ h0
    cases h0
  · intro _ m _ _ _ hs
    exact (checkRegions_stored E m p _ s hs).2
  · intro _ _ _ _ _ _ _ _ _ _ _ ih
    exact ih
  · intro _ m _ _ _ _ _ hs
    exact (storeHere_stored E m _ p s hs).2

/-- The four quadrant rectangles. -/
theorem getChildBoundingBox_zero (m : CoverageMap) :
    m.getChildBoundingBox 0 = BoundingBox.new m._myBoundingBox.corner
      ⟨m._myBoundingBox.size.x / 2, m._myBoundingBox.size.y / 2⟩ := by
  unfold getChildBoundingBox
  simp only
  rw [if_neg (by decide), if_neg (by decide)]

theorem getChildBoundingBox_one (m : CoverageMap) :
    m.getChildBoundingBox 1 =
      BoundingBox.new
        ⟨m._myBoundingBox.corner.x + m._myBoundingBox.size.x / 2, m._myBoundingBox.corner.y⟩
        ⟨m._myBoundingBox.size.x / 2, m._myBoundingBox.size.y / 2⟩ := by
  unfold getChildBoundingBox
  simp only
  rw [if_neg (by decide), if_pos (by decide)]
  rfl

theorem getChildBoundingBox_two (m : CoverageMap) :
    m.getChildBoundingBox 2 =
      BoundingBox.new
        ⟨m._myBoundingBox.corner.x, m._myBoundingBox.corner.y + m._myBoundingBox.size.y / 2⟩
        ⟨m._myBoundingBox.size.x / 2, m._myBoundingBox.size.y / 2⟩ := by
  unfold getChildBoundingBox
  simp only
  rw [if_pos (by decide), if_neg (by decide)]
  rfl

theorem getChildBoundingBox_three (m : CoverageMap) :
    m.getChildBoundingBox 3 =
      BoundingBox.new
        ⟨m._myBoundingBox.corner.x + m._myBoundingBox.size.x / 2,
          m._myBoundingBox.corner.y + m._myBoundingBox.size.y / 2⟩
        ⟨m._myBoundingBox.size.x / 2, m._myBoundingBox.size.y / 2⟩ := by
  unfold getChildBoundingBox
  simp only
  rw [if_pos (by decide), if_pos (by decide)]
  rfl

theorem findChild_eq (m : CoverageMap) (box : BoundingBox) :
    m.findChild box =
      if (m.getChildBoundingBox 0).contains box then some 0
      else if (m.getChildBoundingBox 1).contains box then some 1
      else if (m.getChildBoundingBox 2).contains box then some 2
      else if (m.getChildBoundingBox 3).contains box then some 3
      else none := by
  unfold findChild
  have h : List.range NUMBER_OF_CHILDREN = [0, 1, 2, 3] := by decide
  rw [h]
  simp only [List.find?_cons, List.find?_nil]
  split_ifs <;> simp_all

/-! ### A polygon stored in an empty region occludes a farther one of the same rectangle -/

theorem explandToInclude_contains (b box : BoundingBox) :
    (b.explandToInclude box).contains box = true := by
  unfold BoundingBox.explandToInclude BoundingBox.contains
  split_ifs <;> simp

theorem checkRegion_store_then_occluded (E : Externals) (r : CoverageRegion)
    (A B : VoxelProjectedPolygon) (sB : Bool) (hr : r._polygons = [])
    (hfit : (r._isRoot || r._myBoundingBox.contains B.getBoundingBox) = true)
    (hbox : B.getBoundingBox = A.getBoundingBox) (hocc : E.occludes A B = true)
    (hlt : A.getDistance < B.getDistance) :
    CoverageRegion.checkRegion E (CoverageRegion.storeInArray E r A) B B.getBoundingBox sB =
      (OCCLUDED, CoverageRegion.storeInArray E r A) := by
  unfold CoverageRegion.checkRegion
  rw [CoverageRegion.storeInArray_isRoot, CoverageRegion.storeInArray_myBoundingBox, if_pos hfit,
    CoverageRegion.storeInArray_currentCoveredBounds, hbox, explandToInclude_contains,
    CoverageRegion.storeInArray_polygons, hr, insertAt_nil]
  simp [CoverageRegion.checkRegionLoop, hocc, not_le.mpr hlt]

theorem checkHalf_storeIn_eq (E E' : Externals) (m : CoverageMap)
    (p p' : VoxelProjectedPolygon) (box : BoundingBox) (s s' : Bool) :
    (checkHalf E m p box s).2.2 = (checkHalf E' m p' box s').2.2 := by
  unfold checkHalf
  split_ifs <;> rfl

/-- The guard of the region `storeIn` points to holds for a polygon that passes the guard of
the node, when the remainder has the bounds and the root flag of the node. -/
theorem storeIn_fits (E : Externals) (m : CoverageMap) (p : VoxelProjectedPolygon) (s : Bool)
    (hf : m.fits p = true) (hb : m._remainder._myBoundingBox = m._myBoundingBox)
    (hr : m._remainder._isRoot = m._isRoot) :
    ((m.getRegion (checkHalf E m p p.getBoundingBox s).2.2)._isRoot ||
      (m.getRegion (checkHalf E m p p.getBoundingBox s).2.2)._myBoundingBox.contains
        p.getBoundingBox) = true := by
  unfold checkHalf
  unfold CoverageRegion.contains
  split_ifs with h1 h2 h3 h4
  · simp [getRegion, h1]
  · simp [getRegion, h2]
  · simp [getRegion, h3]
  · simp [getRegion, h4]
  · simp only [getRegion, hb, hr]
    exact hf

theorem checkRegions_after_store (E : Externals) (m : CoverageMap) (B : VoxelProjectedPolygon)
    (sB : Bool) (r' : CoverageRegion)
    (hb : r'._myBoundingBox =
      (m.getRegion (checkHalf E m B B.getBoundingBox sB).2.2)._myBoundingBox)
    (hocc : CoverageRegion.checkRegion E r' B B.getBoundingBox sB = (OCCLUDED, r')) :
    (checkRegions E (m.setRegion (checkHalf E m B B.getBoundingBox sB).2.2 r') B
        B.getBoundingBox sB).1 = OCCLUDED ∧
    (checkRegions E (m.setRegion (checkHalf E m B B.getBoundingBox sB).2.2 r') B
        B.getBoundingBox sB).2.1 = m.setRegion (checkHalf E m B B.getBoundingBox sB).2.2 r' := by
  have hfst : (checkRegions E (m.setRegion (checkHalf E m B B.getBoundingBox sB).2.2 r') B
        B.getBoundingBox sB).1 = OCCLUDED := by
    unfold checkHalf at hb ⊢
    unfold CoverageRegion.contains at hb ⊢
    split_ifs at hb ⊢ with h1 h2 h3 h4
    · simp only [getRegion] at hb
      simp [checkRegions, checkHalf, CoverageRegion.contains, setRegion, hb, h1, hocc]
    · simp only [getRegion] at hb
      simp [checkRegions, checkHalf, CoverageRegion.contains, setRegion, hb, h1, h2, hocc]
    · simp only [getRegion] at hb
      simp [checkRegions, checkHalf, CoverageRegion.contains, setRegion, hb, h1, h2, h3, hocc]
    · simp only [getRegion] at hb
      simp [checkRegions, checkHalf, CoverageRegion.contains, setRegion, hb, h1, h2, h3, h4,
        hocc]
    · simp [checkRegions, checkHalf, CoverageRegion.contains, setRegion, h1, h2, h3, h4, hocc]
  refine ⟨hfst, ?_⟩
  apply checkRegions_unchanged
  rw [hfst]
  simp

theorem fits_setRegion (m : CoverageMap) (name : RegionName) (r : CoverageRegion)
    (p : VoxelProjectedPolygon) : (m.setRegion name r).fits p = m.fits p := by
  cases name <;> rfl

theorem fits_congr (m : CoverageMap) (p q : VoxelProjectedPolygon)
    (h : q.getBoundingBox = p.getBoundingBox) : m.fits q = m.fits p := by
  unfold fits
  rw [h]

/-- A polygon stored at a node whose regions are empty, because no quadrant contains it,
occludes every farther polygon of the same bounding rectangle that it occludes. -/
theorem checkMap_store_here_then_occluded (E : Externals) (A : VoxelProjectedPolygon)
    (fuel : Nat) (m : CoverageMap)
    (hv : A.getAllInView = true) (ha : MINIMUM_POLYGON_AREA_TO_STORE < A.getBoundingBox.area)
    (hf : m.fits A = true) (he : ∀ name, (m.getRegion name)._polygons = [])
    (hb : m._remainder._myBoundingBox = m._myBoundingBox)
    (hr : m._remainder._isRoot = m._isRoot)
    (hc : m.findChild A.getBoundingBox = none) :
    ∃ m1, checkMap E fuel m A true = some (STORED, m1) ∧
      ∀ B sB fuelB, B.getBoundingBox = A.getBoundingBox → B.getAllInView = true →
        E.occludes A B = true → A.getDistance < B.getDistance →
        checkMap E fuelB m1 B sB = some (OCCLUDED, m1) := by
  obtain ⟨h1, h2⟩ := checkRegions_of_empty E m A A.getBoundingBox true he
  refine ⟨m.setRegion (checkHalf E m A A.getBoundingBox true).2.2
    ((m.getRegion (checkHalf E m A A.getBoundingBox true).2.2).storeInArray E A), ?_, ?_⟩
  · rw [checkMap_here E fuel m A true hv hf h1 h2 hc]
    simp [storeHere, ha]
  · intro B sB fuelB hbox hvB hocc hlt
    have hn : (checkHalf E m A A.getBoundingBox true).2.2 =
        (checkHalf E m B B.getBoundingBox sB).2.2 := by
      rw [hbox]
      exact checkHalf_storeIn_eq E E m A B _ true sB
    have hfit := storeIn_fits E m A true hf hb hr
    rw [hn, ← hbox] at hfit
    have hreg := checkRegion_store_then_occluded E
      (m.getRegion (checkHalf E m B B.getBoundingBox sB).2.2) A B sB (he _) hfit hbox hocc hlt
    have hcr := checkRegions_after_store E m B sB _
      (CoverageRegion.storeInArray_myBoundingBox E _ A) hreg
    rw [hn]
    have hfB : (m.setRegion (checkHalf E m B B.getBoundingBox sB).2.2
        ((m.getRegion (checkHalf E m B B.getBoundingBox sB).2.2).storeInArray E A)).fits B =
        true := by
      rw [fits_setRegion, fits_congr m A B hbox]
      exact hf
    rw [checkMap_decided E fuelB _ B sB hvB hfB (Or.inr hcr.1), hcr.1, hcr.2]

theorem fits_new (box : BoundingBox) (isRoot manage : Bool) (p : VoxelProjectedPolygon) :
    (CoverageMap.new box isRoot manage).fits p = (isRoot || box.contains p.getBoundingBox) := rfl

theorem childOrNew_new (box : BoundingBox) (isRoot manage : Bool) (i : Nat) :
    (CoverageMap.new box isRoot manage).childOrNew i =
      CoverageMap.new ((CoverageMap.new box isRoot manage).getChildBoundingBox i) false manage := by
  unfold childOrNew
  rw [getChild_new]
  rfl

/-- On a freshly constructed node a polygon with area above the minimum is stored, and in
the tree this leaves every farther polygon of the same bounding rectangle that the stored one
occludes is answered `OCCLUDED`, the tree staying as it is. -/
theorem checkMap_new_store_then_occluded (E : Externals) (A : VoxelProjectedPolygon)
    (hv : A.getAllInView = true) (ha : MINIMUM_POLYGON_AREA_TO_STORE < A.getBoundingBox.area) :
    ∀ (fuel : Nat) (box : BoundingBox) (isRoot manage : Bool),
      (isRoot || box.contains A.getBoundingBox) = true →
      Shrinks fuel box A.getBoundingBox →
      ∃ m1, checkMap E fuel (CoverageMap.new box isRoot manage) A true = some (STORED, m1) ∧
        ∀ B sB, B.getBoundingBox = A.getBoundingBox → B.getAllInView = true →
          E.occludes A B = true → A.getDistance < B.getDistance →
          checkMap E fuel m1 B sB = some (OCCLUDED, m1) := by
  intro fuel
  induction fuel with
  | zero =>
    intro box isRoot manage hfit0 hs
    have hfit : (CoverageMap.new box isRoot manage).fits A = true := hfit0
    cases hc : (CoverageMap.new box isRoot manage).findChild A.getBoundingBox with
    | none =>
      obtain ⟨m1, h1, h2⟩ := checkMap_store_here_then_occluded E A 0 _ hv ha hfit
        (getRegion_new_polygons box isRoot manage) rfl rfl hc
      exact ⟨m1, h1, fun B sB => h2 B sB 0⟩
    | some i =>
      obtain ⟨k, hk, _⟩ := shrinks_child 0 (CoverageMap.new box isRoot manage) _ i hs
        (findChild_some _ _ i hc).2
      cases hk
  | succ n ih =>
    intro box isRoot manage hfit0 hs
    have hfit : (CoverageMap.new box isRoot manage).fits A = true := hfit0
    cases hc : (CoverageMap.new box isRoot manage).findChild A.getBoundingBox with
    | none =>
      obtain ⟨m1, h1, h2⟩ := checkMap_store_here_then_occluded E A (n + 1) _ hv ha hfit
        (getRegion_new_polygons box isRoot manage) rfl rfl hc
      exact ⟨m1, h1, fun B sB => h2 B sB (n + 1)⟩
    | some i =>
      obtain ⟨hi, hcon⟩ := findChild_some _ _ i hc
      obtain ⟨k, hk, hs'⟩ := shrinks_child (n + 1) (CoverageMap.new box isRoot manage) _ i hs hcon
      have hkn : k = n := by omega
      subst hkn
      have he := getRegion_new_polygons box isRoot manage
      obtain ⟨h1, h2⟩ := checkRegions_of_empty E (CoverageMap.new box isRoot manage) A
        A.getBoundingBox true he
      obtain ⟨c1, hc1, hc2⟩ := ih ((CoverageMap.new box isRoot manage).getChildBoundingBox i)
        false manage (by rw [hcon]; rfl) hs'
      refine ⟨(CoverageMap.new box isRoot manage).setChild i (some c1), ?_, ?_⟩
      · rw [checkMap_descend_succ E k _ A true hv hfit h1 h2 i hc, childOrNew_new, hc1]
      · intro B sB hbox hvB hocc hlt
        obtain ⟨h1B, h2B⟩ := checkRegions_of_empty E (CoverageMap.new box isRoot manage) B
          B.getBoundingBox sB he
        rw [checkMap_descend_succ E k _ B sB hvB
          (by rw [fits_setChild, fits_congr _ A B hbox]; exact hfit)
          (by rw [checkRegions_setChild_fst]; exact h1B)
          (by rw [checkRegions_setChild_fst]; exact h2B)
          i (by rw [findChild_setChild, hbox]; exact hc),
          childOrNew_setChild _ i hi c1, hc2 B sB hbox hvB hocc hlt]
        simp only [setChild_setChild]

/-! ### More fuel changes nothing -/

theorem checkMap_add (E : Externals) (p : VoxelProjectedPolygon) (s : Bool)
    (fuel : Nat) (m m' : CoverageMap) (r : CoverageMapStorageResult)
    (h : checkMap E fuel m p s = some (r, m')) :
    ∀ k, checkMap E (fuel + k) m p s = some (r, m') := by
  refine checkMap_induction E p s
    (fun fuel m r m' => ∀ k, checkMap E (fuel + k) m p s = some (r, m'))
    ?_ ?_ ?_ ?_ fuel m m' r h
  · intro fuel m h1 k
    rcases h1 with h1 | h1
    · exact checkMap_not_in_view E _ m p s h1
    · exact checkMap_not_fits E _ m p s h1
  · intro fuel m hv hf hd k
    exact checkMap_decided E _ m p s hv hf hd
  · intro fuel m i r child hv hf h1 h2 hc _ ih k
    have e : fuel + 1 + k = (fuel + k) + 1 := by omega
    rw [e, checkMap_descend_succ E (fuel + k) m p s hv hf h1 h2 i hc, ih k]
  · intro fuel m hv hf h1 h2 hc k
    exact checkMap_here E _ m p s hv hf h1 h2 hc

theorem checkMap_mono (E : Externals) (p : VoxelProjectedPolygon) (s : Bool)
    (fuel fuel' : Nat) (m m' : CoverageMap) (r : CoverageMapStorageResult)
    (h : checkMap E fuel m p s = some (r, m')) (hle : fuel ≤ fuel') :
    checkMap E fuel' m p s = some (r, m') := by
  have := checkMap_add E p s fuel m m' r h (fuel' - fuel)
  rwa [Nat.add_sub_cancel' hle] at this

/-! ### Quadrants -/

theorem findChild_of_first (m : CoverageMap) (box : BoundingBox) (j : Nat) (hj : j < 4)
    (hc : (m.getChildBoundingBox j).contains box = true)
    (hfirst : ∀ i, i < j → (m.getChildBoundingBox i).contains box = false) :
    m.findChild box = some j := by
  rw [findChild_eq]
  match j, hj with
  | 0, _ => simp [hc]
  | 1, _ => simp [hc, hfirst 0 (by omega)]
  | 2, _ => simp [hc, hfirst 0 (by omega), hfirst 1 (by omega)]
  | 3, _ => simp [hc, hfirst 0 (by omega), hfirst 1 (by omega), hfirst 2 (by omega)]

theorem getChildBoundingBox_isSet (m : CoverageMap) (i : Nat) :
    (m.getChildBoundingBox i).isSet = true := by
  unfold getChildBoundingBox
  simp only
  split_ifs <;> rfl

/-- A rectangle inside a quadrant of a node whose bounds are a rectangle of non-negative
size is inside the bounds of the node. -/
theorem contains_of_quadrant (m : CoverageMap) (box : BoundingBox) (j : Nat) (hj : j < 4)
    (hset : m._myBoundingBox.isSet = true) (hx : 0 ≤ m._myBoundingBox.size.x)
    (hy : 0 ≤ m._myBoundingBox.size.y)
    (hc : (m.getChildBoundingBox j).contains box = true) :
    m._myBoundingBox.contains box = true := by
  match j, hj with
  | 0, _ =>
    rw [getChildBoundingBox_zero] at hc
    simp only [BoundingBox.contains, BoundingBox.new, Bool.and_eq_true, decide_eq_true_eq,
      true_and] at hc ⊢
    obtain ⟨⟨⟨h1, h2⟩, h3⟩, h4⟩ := hc
    refine ⟨⟨⟨⟨hset, ?_⟩, ?_⟩, ?_⟩, ?_⟩ <;> linarith
  | 1, _ =>
    rw [getChildBoundingBox_one] at hc
    simp only [BoundingBox.contains, BoundingBox.new, Bool.and_eq_true, decide_eq_true_eq,
      true_and] at hc ⊢
    obtain ⟨⟨⟨h1, h2⟩, h3⟩, h4⟩ := hc
    refine ⟨⟨⟨⟨hset, ?_⟩, ?_⟩, ?_⟩, ?_⟩ <;> linarith
  | 2, _ =>
    rw [getChildBoundingBox_two] at hc
    simp only [BoundingBox.contains, BoundingBox.new, Bool.and_eq_true, decide_eq_true_eq,
      true_and] at hc ⊢
    obtain ⟨⟨⟨h1, h2⟩, h3⟩, h4⟩ := hc
    refine ⟨⟨⟨⟨hset, ?_⟩, ?_⟩, ?_⟩, ?_⟩ <;> linarith
  | 3, _ =>
    rw [getChildBoundingBox_three] at hc
    simp only [BoundingBox.contains, BoundingBox.new, Bool.and_eq_true, decide_eq_true_eq,
      true_and] at hc ⊢
    obtain ⟨⟨⟨h1, h2⟩, h3⟩, h4⟩ := hc
    refine ⟨⟨⟨⟨hset, ?_⟩, ?_⟩, ?_⟩, ?_⟩ <;> linarith

/-! ### Sorted regions -/

theorem sorted_new (box : BoundingBox) (isRoot manage : Bool) (name : RegionName) :
    (CoverageRegion.new box isRoot manage name).Sorted :=
  ⟨rfl, List.sorted_nil⟩

theorem sorted_erase (r : CoverageRegion) : r.erase.Sorted :=
  ⟨rfl, List.sorted_nil⟩

theorem sorted_storeInArray (E : Externals) (r : CoverageRegion) (p : VoxelProjectedPolygon)
    (h : r.Sorted) : (r.storeInArray E p).Sorted := by
  unfold CoverageRegion.Sorted at h ⊢
  rw [CoverageRegion.storeInArray_polygons, CoverageRegion.storeInArray_polygonDistances,
    map_insertAt, ← h.1]
  exact ⟨rfl, sorted_insertAt _ _ h.2⟩

theorem allSorted_here {m : CoverageMap} (h : m.AllSorted) (name : RegionName) :
    (m.getRegion name).Sorted := h [] m rfl name

theorem allSorted_child {m c : CoverageMap} {i : Nat} (h : m.AllSorted)
    (hg : m.getChild i = some c) : c.AllSorted := by
  intro path n hn
  refine h (i :: path) n ?_
  rw [nodeAt_cons, hg]
  exact hn

theorem allSorted_intro {m : CoverageMap} (h : ∀ name, (m.getRegion name).Sorted)
    (hc : ∀ i c, m.getChild i = some c → c.AllSorted) : m.AllSorted := by
  intro path n hn
  cases path with
  | nil =>
    simp only [nodeAt, Option.some.injEq] at hn
    rw [← hn]
    exact h
  | cons i rest =>
    rw [nodeAt_cons] at hn
    cases hg : m.getChild i with
    | none => rw [hg] at hn; cases hn
    | some c =>
      rw [hg] at hn
      exact hc i c hg rest n hn

theorem allSorted_new (box : BoundingBox) (isRoot manage : Bool) :
    (CoverageMap.new box isRoot manage).AllSorted := by
  refine allSorted_intro ?_ ?_
  · intro name
    cases name <;> exact sorted_new _ _ _ _
  · intro i c hg
    rw [getChild_new] at hg
    cases hg

theorem getChild_erase (m : CoverageMap) (i : Nat) : m.erase.getChild i = none := by
  match i with
  | 0 | 1 | 2 | 3 => rfl
  | (k + 4) => rfl

theorem getRegion_erase (m : CoverageMap) (name : RegionName) :
    m.erase.getRegion name = (m.getRegion name).erase := by
  cases name <;> rfl

theorem allSorted_erase (m : CoverageMap) : m.erase.AllSorted := by
  refine allSorted_intro ?_ ?_
  · intro name
    rw [getRegion_erase]
    exact sorted_erase _
  · intro i c hg
    rw [getChild_erase] at hg
    cases hg

theorem allSorted_store (E : Externals) {m : CoverageMap} (h : m.AllSorted)
    (name : RegionName) (p : VoxelProjectedPolygon) :
    (m.setRegion name ((m.getRegion name).storeInArray E p)).AllSorted := by
  refine allSorted_intro ?_ ?_
  · intro name'
    rw [getRegion_setRegion]
    split_ifs
    · exact sorted_storeInArray E _ p (allSorted_here h name)
    · exact allSorted_here h name'
  · intro i c hg
    rw [getChild_setRegion] at hg
    exact allSorted_child h hg

theorem allSorted_childOrNew {m : CoverageMap} (h : m.AllSorted) (i : Nat) :
    (m.childOrNew i).AllSorted := by
  unfold childOrNew
  cases hg : m.getChild i with
  | none => exact allSorted_new _ _ _
  | some c => exact allSorted_child h hg

theorem allSorted_setChild {m c : CoverageMap} (h : m.AllSorted) (hc : c.AllSorted)
    (i : Nat) (hi : i < 4) : (m.setChild i (some c)).AllSorted := by
  refine allSorted_intro ?_ ?_
  · intro name
    rw [getRegion_setChild]
    exact allSorted_here h name
  · intro j c' hg
    rw [getChild_setChild m i j (some c) hi] at hg
    split_ifs at hg with hj
    · simp only [Option.some.injEq] at hg
      rw [← hg]
      exact hc
    · exact allSorted_child h hg

/-- A call keeps every region of the tree sorted. -/
theorem checkMap_allSorted (E : Externals) (p : VoxelProjectedPolygon) (s : Bool)
    (fuel : Nat) (m m' : CoverageMap) (r : CoverageMapStorageResult)
    (h : checkMap E fuel m p s = some (r, m')) : m.AllSorted → m'.AllSorted := by
  refine checkMap_induction E p s (fun _ m _ m' => m.AllSorted → m'.AllSorted)
    ?_ ?_ ?_ ?_ fuel m m' r h
  · intro _ m _ hs
    exact hs
  · intro _ m _ _ _ hs
    by_cases hst : (checkRegions E m p p.getBoundingBox s).1 = STORED
    · obtain ⟨⟨name, hm⟩, _, _⟩ := checkRegions_stored E m p _ s hst
      rw [hm]
      exact allSorted_store E hs name p
    · rw [checkRegions_unchanged E m p _ s hst]
      exact hs
  · intro _ m i r child _ _ _ _ hc _ ih hs
    exact allSorted_setChild hs (ih (allSorted_childOrNew hs i)) i (findChild_some m _ i hc).1
  · intro _ m _ _ _ _ _ hs
    by_cases hst : (storeHere E m (checkHalf E m p p.getBoundingBox s).2.2 p s).1 = STORED
    · rw [(storeHere_stored E m _ p s hst).1]
      exact allSorted_store E hs _ p
    · rw [storeHere_unchanged E m _ p s hst]
      exact hs

theorem reachable_allSorted {E : Externals} {m : CoverageMap} (h : Reachable E m) :
    m.AllSorted := by
  induction h with
  | fresh box manage => exact allSorted_new _ _ _
  | checkMap m m' fuel p s r _ hc ih => exact checkMap_allSorted E p s fuel m m' r hc ih
  | erase m _ _ => exact allSorted_erase m

theorem allSorted_storedAt {m : CoverageMap} (h : m.AllSorted) (path : List Nat)
    (name : RegionName) :
    ((m.storedAt path name).map VoxelProjectedPolygon.getDistance).Sorted (· ≤ ·) := by
  unfold CoverageMap.storedAt
  cases hn : m.nodeAt path with
  | none => exact List.sorted_nil
  | some n =>
    obtain ⟨h1, h2⟩ := h path n hn name
    simp only
    rw [← h1]
    exact h2

end CoverageMap

/-! ## Evaluation at the concrete inputs -/

theorem findChild_freshRoot_polygonA :
    freshRoot.findChild polygonA.getBoundingBox = none := by
  rw [CoverageMap.findChild_eq, CoverageMap.getChildBoundingBox_zero,
    CoverageMap.getChildBoundingBox_one, CoverageMap.getChildBoundingBox_two,
    CoverageMap.getChildBoundingBox_three]
  norm_num [freshRoot, CoverageMap.new, ROOT_BOUNDING_BOX, BoundingBox.new,
    BoundingBox.contains, polygonA, square]

theorem storeIn_freshRoot_polygonA :
    (CoverageMap.checkHalf boxExternals freshRoot polygonA polygonA.getBoundingBox true).2.2 =
      REMAINDER := by
  norm_num [CoverageMap.checkHalf, CoverageRegion.contains, freshRoot, CoverageMap.new,
    CoverageRegion.new, ROOT_BOUNDING_BOX, BoundingBox.new, BoundingBox.contains,
    BoundingBox.topHalf, BoundingBox.bottomHalf, BoundingBox.leftHalf, BoundingBox.rightHalf,
    polygonA, square]

theorem area_polygonA : MINIMUM_POLYGON_AREA_TO_STORE < polygonA.getBoundingBox.area := by
  have h : polygonA.getBoundingBox.area = 1 := by
    show binary32 ((1 : ℚ) * 1) = 1
    rw [mul_one, binary32_one]
  rw [h, MINIMUM_POLYGON_AREA_TO_STORE_eq]
  norm_num

theorem occludes_polygonA_polygonB : boxExternals.occludes polygonA polygonB = true := by
  norm_num [boxExternals, BoundingBox.contains, polygonA, polygonB, square, BoundingBox.new]

theorem distance_polygonA_polygonB : polygonA.getDistance < polygonB.getDistance := by
  norm_num [polygonA, polygonB, square]

/-- Polygon A is stored in the remainder of the fresh root. -/
theorem checkMap_freshRoot_polygonA (fuel : Nat) :
    CoverageMap.checkMap boxExternals fuel freshRoot polygonA true =
      some (STORED, rootWithA) := by
  obtain ⟨h1, h2⟩ := CoverageMap.checkRegions_of_empty boxExternals freshRoot polygonA
    polygonA.getBoundingBox true (CoverageMap.getRegion_new_polygons _ _ _)
  rw [CoverageMap.checkMap_here boxExternals fuel freshRoot polygonA true rfl rfl h1 h2
    findChild_freshRoot_polygonA, storeIn_freshRoot_polygonA]
  simp [CoverageMap.storeHere, area_polygonA, rootWithA]

/-- Polygon B is occluded by polygon A in the root that holds A. -/
theorem checkMap_rootWithA_polygonB (fuel : Nat) (storeIt : Bool) :
    CoverageMap.checkMap boxExternals fuel rootWithA polygonB storeIt =
      some (OCCLUDED, rootWithA) := by
  obtain ⟨m1, h1, h2⟩ := CoverageMap.checkMap_store_here_then_occluded boxExternals polygonA 0
    freshRoot rfl area_polygonA rfl (CoverageMap.getRegion_new_polygons _ _ _) rfl rfl
    findChild_freshRoot_polygonA
  rw [checkMap_freshRoot_polygonA] at h1
  simp only [Option.some.injEq, Prod.mk.injEq, true_and] at h1
  rw [h1]
  exact h2 polygonB storeIt fuel rfl rfl occludes_polygonA_polygonB distance_polygonA_polygonB

theorem storedAt_rootWithA : rootWithA.storedAt [] REMAINDER = [polygonA] := by
  have h : (freshRoot.getRegion REMAINDER)._polygons = [] :=
    CoverageMap.getRegion_new_polygons _ _ _ _
  rw [CoverageMap.storedAt_nil, rootWithA, CoverageMap.getRegion_setRegion, if_pos rfl,
    CoverageRegion.storeInArray_polygons, h, insertAt_nil]

theorem findChild_freshRoot_polygonQ :
    freshRoot.findChild polygonQ.getBoundingBox = some 1 := by
  rw [CoverageMap.findChild_eq, CoverageMap.getChildBoundingBox_zero,
    CoverageMap.getChildBoundingBox_one, CoverageMap.getChildBoundingBox_two,
    CoverageMap.getChildBoundingBox_three]
  norm_num [freshRoot, CoverageMap.new, ROOT_BOUNDING_BOX, BoundingBox.new,
    BoundingBox.contains, polygonQ, square]

theorem findChild_quadrantChild_polygonQ :
    quadrantChild.findChild polygonQ.getBoundingBox = some 0 := by
  rw [CoverageMap.findChild_eq, CoverageMap.getChildBoundingBox_zero,
    CoverageMap.getChildBoundingBox_one, CoverageMap.getChildBoundingBox_two,
    CoverageMap.getChildBoundingBox_three]
  unfold quadrantChild
  rw [CoverageMap.getChildBoundingBox_one]
  norm_num [freshRoot, CoverageMap.new, ROOT_BOUNDING_BOX, BoundingBox.new,
    BoundingBox.contains, polygonQ, square]

theorem findChild_quadrantGrandchild_polygonQ :
    quadrantGrandchild.findChild polygonQ.getBoundingBox = none := by
  rw [CoverageMap.findChild_eq, CoverageMap.getChildBoundingBox_zero,
    CoverageMap.getChildBoundingBox_one, CoverageMap.getChildBoundingBox_two,
    CoverageMap.getChildBoundingBox_three]
  unfold quadrantGrandchild
  rw [CoverageMap.getChildBoundingBox_zero]
  unfold quadrantChild
  rw [CoverageMap.getChildBoundingBox_one]
  norm_num [freshRoot, CoverageMap.new, ROOT_BOUNDING_BOX, BoundingBox.new,
    BoundingBox.contains, polygonQ, square]

theorem fits_quadrantChild_polygonQ : quadrantChild.fits polygonQ = true := by
  unfold quadrantChild
  rw [CoverageMap.fits_new, (CoverageMap.findChild_some _ _ _ findChild_freshRoot_polygonQ).2]
  rfl

theorem fits_quadrantGrandchild_polygonQ : quadrantGrandchild.fits polygonQ = true := by
  unfold quadrantGrandchild
  rw [CoverageMap.fits_new,
    (CoverageMap.findChild_some _ _ _ findChild_quadrantChild_polygonQ).2]
  rfl

/-- A query for polygon Q on the fresh root descends two levels, creating both nodes on the
way, and answers `NOT_STORED`. -/
theorem checkMap_freshRoot_polygonQ (fuel : Nat) :
    CoverageMap.checkMap boxExternals (fuel + 2) freshRoot polygonQ false =
      some (NOT_STORED, rootAfterQ) := by
  obtain ⟨h1, h2⟩ := CoverageMap.checkRegions_of_empty boxExternals freshRoot polygonQ
    polygonQ.getBoundingBox false (CoverageMap.getRegion_new_polygons _ _ _)
  obtain ⟨h3, h4⟩ := CoverageMap.checkRegions_of_empty boxExternals quadrantChild polygonQ
    polygonQ.getBoundingBox false (CoverageMap.getRegion_new_polygons _ _ _)
  obtain ⟨h5, h6⟩ := CoverageMap.checkRegions_of_empty boxExternals quadrantGrandchild polygonQ
    polygonQ.getBoundingBox false (CoverageMap.getRegion_new_polygons _ _ _)
  have e2 : CoverageMap.checkMap boxExternals fuel quadrantGrandchild polygonQ false =
      some (NOT_STORED, quadrantGrandchild) := by
    rw [CoverageMap.checkMap_here boxExternals fuel quadrantGrandchild polygonQ false rfl
      fits_quadrantGrandchild_polygonQ h5 h6 findChild_quadrantGrandchild_polygonQ]
    rfl
  have c1 : quadrantChild.childOrNew 0 = quadrantGrandchild := CoverageMap.childOrNew_new _ _ _ _
  have e1 : CoverageMap.checkMap boxExternals (fuel + 1) quadrantChild polygonQ false =
      some (NOT_STORED, quadrantChild.setChild 0 (some quadrantGrandchild)) := by
    rw [CoverageMap.checkMap_descend_succ boxExternals fuel quadrantChild polygonQ false rfl
      fits_quadrantChild_polygonQ h3 h4 0 findChild_quadrantChild_polygonQ, c1, e2]
  have c0 : freshRoot.childOrNew 1 = quadrantChild := CoverageMap.childOrNew_new _ _ _ _
  rw [CoverageMap.checkMap_descend_succ boxExternals (fuel + 1) freshRoot polygonQ false rfl
    rfl h1 h2 1 findChild_freshRoot_polygonQ, c0, e1]
  rfl

theorem findChild_freshRoot_polygonTiny :
    freshRoot.findChild polygonTiny.getBoundingBox = none := by
  rw [CoverageMap.findChild_eq, CoverageMap.getChildBoundingBox_zero,
    CoverageMap.getChildBoundingBox_one, CoverageMap.getChildBoundingBox_two,
    CoverageMap.getChildBoundingBox_three]
  norm_num [freshRoot, CoverageMap.new, ROOT_BOUNDING_BOX, BoundingBox.new,
    BoundingBox.contains, polygonTiny, square]

theorem area_polygonTiny : polygonTiny.getBoundingBox.area ≤ MINIMUM_POLYGON_AREA_TO_STORE := by
  have h : polygonTiny.getBoundingBox.area = 13743895 / 2 ^ 37 := by
    show binary32 ((1 / 100 : ℚ) * (1 / 100)) = _
    rw [binary32_eq _ (-14) 13743895 (by norm_num) (by norm_num [abs_of_pos])
      (by norm_num [abs_of_pos]) (roundHalfEven_eq_of_near _ _ (by norm_num) (by norm_num))]
    norm_num
  rw [h, MINIMUM_POLYGON_AREA_TO_STORE_eq]
  norm_num

/-- The tiny polygon is not stored in the fresh root, which stays as it is. -/
theorem checkMap_freshRoot_polygonTiny (fuel : Nat) :
    CoverageMap.checkMap boxExternals fuel freshRoot polygonTiny true =
      some (NOT_STORED, freshRoot) := by
  obtain ⟨h1, h2⟩ := CoverageMap.checkRegions_of_empty boxExternals freshRoot polygonTiny
    polygonTiny.getBoundingBox true (CoverageMap.getRegion_new_polygons _ _ _)
  rw [CoverageMap.checkMap_here boxExternals fuel freshRoot polygonTiny true rfl rfl h1 h2
    findChild_freshRoot_polygonTiny]
  simp [CoverageMap.storeHere, not_lt.mpr area_polygonTiny]

/-- A rectangle of non-negative size and area above the minimum has positive width. -/
theorem width_pos_of_area (box : BoundingBox) (hx : 0 ≤ box.size.x)
    (ha : MINIMUM_POLYGON_AREA_TO_STORE < box.area) : 0 < box.size.x := by
  rcases lt_or_eq_of_le hx with h | h
  · exact h
  · exfalso
    unfold BoundingBox.area at ha
    rw [← h, zero_mul, binary32_zero] at ha
    exact absurd ha (not_lt.mpr (le_of_lt MINIMUM_POLYGON_AREA_TO_STORE_pos))

theorem checkMap_freshRoot_polygonB (fuel : Nat) :
    CoverageMap.checkMap boxExternals fuel freshRoot polygonB true =
      some (STORED, rootWithB) := by
  have hc : freshRoot.findChild polygonB.getBoundingBox = none := findChild_freshRoot_polygonA
  have hs : (CoverageMap.checkHalf boxExternals freshRoot polygonB polygonB.getBoundingBox
      true).2.2 = REMAINDER :=
    (CoverageMap.checkHalf_storeIn_eq _ _ _ _ _ _ _ _).trans storeIn_freshRoot_polygonA
  have ha : MINIMUM_POLYGON_AREA_TO_STORE < polygonB.getBoundingBox.area := area_polygonA
  obtain ⟨h1, h2⟩ := CoverageMap.checkRegions_of_empty boxExternals freshRoot polygonB
    polygonB.getBoundingBox true (CoverageMap.getRegion_new_polygons _ _ _)
  rw [CoverageMap.checkMap_here boxExternals fuel freshRoot polygonB true rfl rfl h1 h2 hc, hs]
  simp [CoverageMap.storeHere, ha, rootWithB]

/-- The nearer polygon A, submitted after the farther polygon B that occludes it, is stored
by the out-of-order branch of the remainder's `checkRegion`. -/
theorem checkMap_rootWithB_polygonA (fuel : Nat) :
    CoverageMap.checkMap boxExternals fuel rootWithB polygonA true =
      some (STORED, rootWithAB) := by
  have h0 : (freshRoot.getRegion REMAINDER)._polygons = [] := rfl
  have h1 : rootWithB._remainder._polygons = [polygonB] := by
    show (CoverageRegion.storeInArray boxExternals (freshRoot.getRegion REMAINDER)
      polygonB)._polygons = _
    rw [CoverageRegion.storeInArray_polygons, h0, insertAt_nil]
  have h2 : rootWithB._remainder._currentCoveredBounds = polygonB.getBoundingBox := by
    show (CoverageRegion.storeInArray boxExternals (freshRoot.getRegion REMAINDER)
      polygonB)._currentCoveredBounds = _
    rw [CoverageRegion.storeInArray_currentCoveredBounds]
    rfl
  have h3 : rootWithB._remainder._isRoot = true := rfl
  have e : CoverageRegion.checkRegion boxExternals rootWithB._remainder polygonA
      polygonA.getBoundingBox true =
      (STORED, CoverageRegion.storeInArray boxExternals rootWithB._remainder polygonA) := by
    unfold CoverageRegion.checkRegion
    rw [h3, h2, h1]
    norm_num [CoverageRegion.checkRegionLoop, boxExternals, BoundingBox.contains, polygonA,
      polygonB, square, BoundingBox.new, MINIMUM_POLYGON_AREA_TO_STORE_eq, BoundingBox.area,
      binary32_one]
  have hh : CoverageMap.checkHalf boxExternals rootWithB polygonA polygonA.getBoundingBox true =
      (NOT_STORED, rootWithB, REMAINDER) := by
    norm_num [CoverageMap.checkHalf, CoverageRegion.contains, rootWithB, CoverageMap.setRegion,
      freshRoot, CoverageMap.new, CoverageRegion.new, ROOT_BOUNDING_BOX, BoundingBox.new,
      BoundingBox.contains, BoundingBox.topHalf, BoundingBox.bottomHalf, BoundingBox.leftHalf,
      BoundingBox.rightHalf, polygonA, square]
  have hr : CoverageMap.checkRegions boxExternals rootWithB polygonA polygonA.getBoundingBox
      true = (STORED, rootWithAB, REMAINDER) := by
    unfold CoverageMap.checkRegions
    simp only [hh, e]
    rfl
  rw [CoverageMap.checkMap_decided boxExternals fuel rootWithB polygonA true rfl rfl
    (Or.inl (by rw [hr])), hr]

theorem storedAt_rootWithAB : rootWithAB.storedAt [] REMAINDER = [polygonA, polygonB] := by
  have h0 : (freshRoot.getRegion REMAINDER)._polygons = [] := rfl
  have h0' : (freshRoot.getRegion REMAINDER)._polygonDistances = [] := rfl
  have h1 : (rootWithB.getRegion REMAINDER)._polygons = [polygonB] := by
    rw [rootWithB, CoverageMap.getRegion_setRegion, if_pos rfl,
      CoverageRegion.storeInArray_polygons, h0, insertAt_nil]
  have h2 : (rootWithB.getRegion REMAINDER)._polygonDistances = [20] := by
    rw [rootWithB, CoverageMap.getRegion_setRegion, if_pos rfl,
      CoverageRegion.storeInArray_polygonDistances, h0', insertAt_nil]
    rfl
  rw [CoverageMap.storedAt_nil, rootWithAB, CoverageMap.getRegion_setRegion, if_pos rfl,
    CoverageRegion.storeInArray_polygons, h1, h2]
  norm_num [insertionIndex, insertAt, polygonA, square]

theorem descentBound_root_polygonTiny :
    CoverageMap.descentBound freshRoot._myBoundingBox polygonTiny.getBoundingBox ≤ 200 := by
  unfold CoverageMap.descentBound
  rw [if_pos (by norm_num [polygonTiny, square, BoundingBox.new])]
  refine Nat.ceil_le.mpr ?_
  norm_num [freshRoot, CoverageMap.new, ROOT_BOUNDING_BOX, BoundingBox.new, polygonTiny, square]

theorem descentBound_root_polygonA :
    CoverageMap.descentBound ROOT_BOUNDING_BOX polygonA.getBoundingBox ≤ 2 := by
  unfold CoverageMap.descentBound
  rw [if_pos (by norm_num [polygonA, square, BoundingBox.new])]
  refine Nat.ceil_le.mpr ?_
  norm_num [ROOT_BOUNDING_BOX, BoundingBox.new, polygonA, square]

/-- The descent for the point polygon never ends: every node with corner (-1,-1) and
non-negative size passes it on to its quadrant 0, which is again such a node. -/
theorem checkMap_polygonPoint_none (E : Externals) (storeIt : Bool) :
    ∀ (fuel : Nat) (side : ℚ) (isRoot manage : Bool), 0 ≤ side →
      CoverageMap.checkMap E fuel
        (CoverageMap.new (BoundingBox.new ⟨-1, -1⟩ ⟨side, side⟩) isRoot manage) polygonPoint
        storeIt = none := by
  intro fuel
  induction fuel with
  | zero =>
    intro side isRoot manage hs
    have hf : (CoverageMap.new (BoundingBox.new ⟨-1, -1⟩ ⟨side, side⟩) isRoot manage).fits
        polygonPoint = true := by
      rw [CoverageMap.fits_new]
      simp [BoundingBox.contains, BoundingBox.new, polygonPoint, square, hs]
    have hc : (CoverageMap.new (BoundingBox.new ⟨-1, -1⟩ ⟨side, side⟩) isRoot manage).findChild
        polygonPoint.getBoundingBox = some 0 := by
      refine CoverageMap.findChild_of_first _ _ 0 (by decide) ?_ (fun i hi => by omega)
      rw [CoverageMap.getChildBoundingBox_zero]
      have hs2 : 0 ≤ side / 2 := by linarith
      simp [BoundingBox.contains, BoundingBox.new, CoverageMap.new, polygonPoint, square, hs2]
    obtain ⟨h1, h2⟩ := CoverageMap.checkRegions_of_empty E _ polygonPoint
      polygonPoint.getBoundingBox storeIt
      (CoverageMap.getRegion_new_polygons (BoundingBox.new ⟨-1, -1⟩ ⟨side, side⟩) isRoot manage)
    exact CoverageMap.checkMap_descend_zero E _ polygonPoint storeIt rfl hf h1 h2 0 hc
  | succ n ih =>
    intro side isRoot manage hs
    have hf : (CoverageMap.new (BoundingBox.new ⟨-1, -1⟩ ⟨side, side⟩) isRoot manage).fits
        polygonPoint = true := by
      rw [CoverageMap.fits_new]
      simp [BoundingBox.contains, BoundingBox.new, polygonPoint, square, hs]
    have hs2 : 0 ≤ side / 2 := by linarith
    have hc : (CoverageMap.new (BoundingBox.new ⟨-1, -1⟩ ⟨side, side⟩) isRoot manage).findChild
        polygonPoint.getBoundingBox = some 0 := by
      refine CoverageMap.findChild_of_first _ _ 0 (by decide) ?_ (fun i hi => by omega)
      rw [CoverageMap.getChildBoundingBox_zero]
      simp [BoundingBox.contains, BoundingBox.new, CoverageMap.new, polygonPoint, square, hs2]
    obtain ⟨h1, h2⟩ := CoverageMap.checkRegions_of_empty E _ polygonPoint
      polygonPoint.getBoundingBox storeIt
      (CoverageMap.getRegion_new_polygons (BoundingBox.new ⟨-1, -1⟩ ⟨side, side⟩) isRoot manage)
    have hb : (CoverageMap.new (BoundingBox.new ⟨-1, -1⟩ ⟨side, side⟩) isRoot
        manage).getChildBoundingBox 0 = BoundingBox.new ⟨-1, -1⟩ ⟨side / 2, side / 2⟩ := by
      rw [CoverageMap.getChildBoundingBox_zero]
      rfl
    rw [CoverageMap.checkMap_descend_succ E n _ polygonPoint storeIt rfl hf h1 h2 0 hc,
      CoverageMap.childOrNew_new, hb, ih (side / 2) false manage hs2]

/-- An erased region is the region its constructor built, once its covered bounds are
reset as well. -/
theorem erase_eq_new_of_built (r : CoverageRegion) (box : BoundingBox) (isRoot manage : Bool)
    (name : RegionName) (h : r.Built box isRoot manage name) :
    { r.erase with _currentCoveredBounds := BoundingBox.unset } =
      CoverageRegion.new box isRoot manage name := by
  obtain ⟨h1, h2, h3, h4⟩ := h
  cases r
  simp only at h1 h2 h3 h4
  subst h1 h2 h3 h4
  rfl

/-! ## The guards of a region and of a node -/

theorem checkRegion_doesnt_fit_iff (E : Externals) (r : CoverageRegion)
    (p : VoxelProjectedPolygon) (box : BoundingBox) (s : Bool) :
    (CoverageRegion.checkRegion E r p box s).1 = DOESNT_FIT ↔
      (r._isRoot = false ∧ r._myBoundingBox.contains box = false) := by
  unfold CoverageRegion.checkRegion
  by_cases hg : (r._isRoot || r._myBoundingBox.contains box) = true
  · rw [if_pos hg]
    constructor
    · intro h
      exfalso
      split_ifs at h
      exact CoverageRegion.checkRegionLoop_ne_doesnt_fit E r p s _ h
    · rintro ⟨h1, h2⟩
      rw [h1, h2] at hg
      cases hg
  · rw [if_neg hg]
    simp only [Bool.or_eq_true, not_or, Bool.not_eq_true] at hg
    exact ⟨fun _ => hg, fun _ => rfl⟩

theorem findChild_freshRoot_polygonWide :
    freshRoot.findChild polygonWide.getBoundingBox = none := by
  rw [CoverageMap.findChild_eq, CoverageMap.getChildBoundingBox_zero,
    CoverageMap.getChildBoundingBox_one, CoverageMap.getChildBoundingBox_two,
    CoverageMap.getChildBoundingBox_three]
  norm_num [freshRoot, CoverageMap.new, ROOT_BOUNDING_BOX, BoundingBox.new,
    BoundingBox.contains, polygonWide, square]

theorem storeIn_freshRoot_polygonWide :
    (CoverageMap.checkHalf boxExternals freshRoot polygonWide polygonWide.getBoundingBox
      true).2.2 = REMAINDER := by
  norm_num [CoverageMap.checkHalf, CoverageRegion.contains, freshRoot, CoverageMap.new,
    CoverageRegion.new, ROOT_BOUNDING_BOX, BoundingBox.new, BoundingBox.contains,
    BoundingBox.topHalf, BoundingBox.bottomHalf, BoundingBox.leftHalf, BoundingBox.rightHalf,
    polygonWide, square]

theorem area_polygonWide : MINIMUM_POLYGON_AREA_TO_STORE < polygonWide.getBoundingBox.area := by
  have h : polygonWide.getBoundingBox.area = 9 := by
    show binary32 ((3 : ℚ) * 3) = 9
    rw [binary32_of_eq _ 9 0 (by norm_num) (by norm_num) (by norm_num)]
    norm_num
  rw [h, MINIMUM_POLYGON_AREA_TO_STORE_eq]
  norm_num

theorem not_contains_root_polygonWide :
    freshRoot._myBoundingBox.contains polygonWide.getBoundingBox = false := by
  norm_num [freshRoot, CoverageMap.new, ROOT_BOUNDING_BOX, BoundingBox.new,
    BoundingBox.contains, polygonWide, square]

/-- The polygon that reaches beyond the screen is stored in the remainder of the fresh
root. -/
theorem checkMap_freshRoot_polygonWide (fuel : Nat) :
    CoverageMap.checkMap boxExternals fuel freshRoot polygonWide true =
      some (STORED, rootWithWide) := by
  obtain ⟨h1, h2⟩ := CoverageMap.checkRegions_of_empty boxExternals freshRoot polygonWide
    polygonWide.getBoundingBox true (CoverageMap.getRegion_new_polygons _ _ _)
  rw [CoverageMap.checkMap_here boxExternals fuel freshRoot polygonWide true rfl rfl h1 h2
    findChild_freshRoot_polygonWide, storeIn_freshRoot_polygonWide]
  simp [CoverageMap.storeHere, area_polygonWide, rootWithWide]

theorem isRectangle_ROOT_BOUNDING_BOX : ROOT_BOUNDING_BOX.IsRectangle := by
  refine ⟨rfl, ?_, ?_⟩ <;> norm_num [ROOT_BOUNDING_BOX, BoundingBox.new]

theorem checkHalf_storeIn_storageTarget (E : Externals) (m : CoverageMap)
    (p : VoxelProjectedPolygon) (box : BoundingBox) (s : Bool) :
    (CoverageMap.checkHalf E m p box s).2.2 = m.storageTarget box := by
  unfold CoverageMap.checkHalf CoverageMap.storageTarget CoverageRegion.contains
  split_ifs <;> rfl

theorem findChild_none_of_all (m : CoverageMap) (box : BoundingBox)
    (h : ∀ i, i < 4 → (m.getChildBoundingBox i).contains box = false) :
    m.findChild box = none := by
  rw [CoverageMap.findChild_eq, h 0 (by decide), h 1 (by decide), h 2 (by decide),
    h 3 (by decide)]
  rfl

theorem insertAt_min {α : Type} (i : Nat) (a : α) (l : List α) :
    insertAt i a l = insertAt (min i l.length) a l := by
  unfold insertAt
  rcases Nat.le_total i l.length with h | h
  · rw [Nat.min_eq_left h]
  · rw [Nat.min_eq_right h, List.take_of_length_le h, List.drop_of_length_le h,
      List.take_length, List.drop_length]

/-- Storing a polygon in the region `name` of a node inserts it into the stored sequence of
that region and leaves the stored sequence of every other region of the tree as it was. -/
theorem storedAt_store (E : Externals) (m : CoverageMap) (name : RegionName)
    (p : VoxelProjectedPolygon) :
    (∃ i, i ≤ (m.storedAt [] name).length ∧
      (m.setRegion name ((m.getRegion name).storeInArray E p)).storedAt [] name =
        insertAt i p (m.storedAt [] name)) ∧
    ∀ path name', (path ≠ [] ∨ name' ≠ name) →
      (m.setRegion name ((m.getRegion name).storeInArray E p)).storedAt path name' =
        m.storedAt path name' := by
  constructor
  · refine ⟨min (insertionIndex p.getDistance (m.getRegion name)._polygonDistances)
      (m.storedAt [] name).length, Nat.min_le_right _ _, ?_⟩
    rw [← insertAt_min, CoverageMap.storedAt_nil, CoverageMap.getRegion_setRegion, if_pos rfl,
      CoverageRegion.storeInArray_polygons, CoverageMap.storedAt_nil]
  · intro path name' hne
    cases path with
    | nil =>
      have hn : name' ≠ name := by
        rcases hne with h | h
        · exact absurd rfl h
        · exact h
      rw [CoverageMap.storedAt_nil, CoverageMap.getRegion_setRegion, if_neg hn,
        CoverageMap.storedAt_nil]
    | cons j rest =>
      rw [CoverageMap.storedAt_cons, CoverageMap.getChild_setRegion, CoverageMap.storedAt_cons]

/-- A call that returns `STORED` inserts the submitted polygon into the stored sequence of
one region of one node and leaves the stored sequence of every other region of the tree as it
was. -/
theorem checkMap_stored_one_region (E : Externals) (p : VoxelProjectedPolygon) (s : Bool)
    (fuel : Nat) (m m' : CoverageMap) (r : CoverageMapStorageResult)
    (h : CoverageMap.checkMap E fuel m p s = some (r, m')) :
    r = STORED →
      ∃ path name, (∃ i, i ≤ (m.storedAt path name).length ∧
          m'.storedAt path name = insertAt i p (m.storedAt path name)) ∧
        ∀ path' name', (path' ≠ path ∨ name' ≠ name) →
          m'.storedAt path' name' = m.storedAt path' name' := by
  refine CoverageMap.checkMap_induction E p s
    (fun _ m r m' => r = STORED →
      ∃ path name, (∃ i, i ≤ (m.storedAt path name).length ∧
          m'.storedAt path name = insertAt i p (m.storedAt path name)) ∧
        ∀ path' name', (path' ≠ path ∨ name' ≠ name) →
          m'.storedAt path' name' = m.storedAt path' name')
    ?_ ?_ ?_ ?_ fuel m m' r h
  · intro _ m _ h0
    cases h0
  · intro _ m _ _ _ hs
    obtain ⟨⟨name, hm⟩, _, _⟩ := CoverageMap.checkRegions_stored E m p _ s hs
    rw [hm]
    exact ⟨[], name, storedAt_store E m name p⟩
  · intro _ m i r child _ _ _ _ hc _ ih hr
    have hi := (CoverageMap.findChild_some m _ i hc).1
    obtain ⟨path, name, ⟨k, hk, hins⟩, hrest⟩ := ih hr
    rw [CoverageMap.storedAt_childOrNew] at hk hins
    refine ⟨i :: path, name, ⟨k, hk, ?_⟩, ?_⟩
    · rw [CoverageMap.storedAt_setChild m i hi child]
      simp only [if_true]
      exact hins
    · intro path' name' hne
      rw [CoverageMap.storedAt_setChild m i hi child]
      cases path' with
      | nil => rfl
      | cons j rest =>
        simp only
        split_ifs with hj
        · subst hj
          have hne' : rest ≠ path ∨ name' ≠ name := by
            rcases hne with h1 | h1
            · left
              intro h2
              exact h1 (by rw [h2])
            · exact Or.inr h1
          rw [hrest rest name' hne', CoverageMap.storedAt_childOrNew]
        · rfl
  · intro _ m _ _ _ _ _ hs
    rw [(CoverageMap.storeHere_stored E m _ p s hs).1]
    exact ⟨[], _, storedAt_store E m _ p⟩

theorem region_getPolygon_of_eq (r : CoverageRegion) (k : Int) (n : Nat) (h : k = n) :
    r.getPolygon k = r._polygons[n]? := by
  unfold CoverageRegion.getPolygon
  rw [h, if_pos (Int.natCast_nonneg n), Int.toNat_natCast]

theorem getPolygonCount_eq_length (m : CoverageMap) :
    m.getPolygonCount = m.allPolygons.length := by
  unfold CoverageMap.getPolygonCount CoverageMap.allPolygons CoverageRegion.getPolygonCount
  simp only [List.length_append]

/-- The accessor `getPolygon` reads the concatenation of the five stored sequences, and gives
`NULL` from its length on. -/
theorem getPolygon_natCast (m : CoverageMap) (i : Nat) :
    m.getPolygon (i : Int) = m.allPolygons[i]? := by
  unfold CoverageMap.getPolygon CoverageMap.allPolygons CoverageRegion.getPolygonCount
  simp only [sub_zero, zero_add, List.getElem?_append, List.length_append]
  split_ifs <;>
    first
    | exact region_getPolygon_of_eq _ _ _ (by omega)
    | exact (List.getElem?_eq_none (by omega)).symm
    | omega

theorem getPolygon_of_lt (m : CoverageMap) (index : Int) (h0 : 0 ≤ index)
    (hlt : index < m.getPolygonCount) :
    ∃ hi : index.toNat < m.allPolygons.length,
      m.getPolygon index = some (m.allPolygons.get ⟨index.toNat, hi⟩) := by
  obtain ⟨i, rfl⟩ := Int.eq_ofNat_of_zero_le h0
  rw [getPolygonCount_eq_length] at hlt
  have hi : i < m.allPolygons.length := by exact_mod_cast hlt
  refine ⟨by simpa using hi, ?_⟩
  rw [getPolygon_natCast, List.getElem?_eq_getElem hi]
  rfl

theorem getPolygon_of_ge (m : CoverageMap) (index : Int)
    (hge : (m.getPolygonCount : Int) ≤ index) : m.getPolygon index = none := by
  have h0 : 0 ≤ index := le_trans (Int.natCast_nonneg _) hge
  obtain ⟨i, rfl⟩ := Int.eq_ofNat_of_zero_le h0
  rw [getPolygonCount_eq_length] at hge
  have hi : m.allPolygons.length ≤ i := by exact_mod_cast hge
  rw [getPolygon_natCast, List.getElem?_eq_none hi]

theorem allPolygons_rootWithAB : rootWithAB.allPolygons = [polygonA, polygonB] := by
  have h : rootWithAB._remainder._polygons = [polygonA, polygonB] := storedAt_rootWithAB
  have h1 : rootWithAB._topHalf._polygons = [] := rfl
  have h2 : rootWithAB._bottomHalf._polygons = [] := rfl
  have h3 : rootWithAB._leftHalf._polygons = [] := rfl
  have h4 : rootWithAB._rightHalf._polygons = [] := rfl
  unfold CoverageMap.allPolygons
  rw [h, h1, h2, h3, h4]
  rfl

/-! ## Reachable trees are well formed -/

theorem built_erase (r : CoverageRegion) (box : BoundingBox) (isRoot manage : Bool)
    (name : RegionName) (h : r.Built box isRoot manage name) :
    r.erase.Built box isRoot manage name := h

theorem wellFormed_erase {m : CoverageMap} (h : m.WellFormed) : m.erase.WellFormed := by
  obtain ⟨h1, h2, h3, h4, h5, _⟩ := CoverageMap.wellFormed_here h
  refine CoverageMap.wellFormed_intro ⟨h1, h2, h3, h4, h5, ?_⟩ ?_
  · intro i c hg
    rw [CoverageMap.getChild_erase] at hg
    cases hg
  · intro i c hg
    rw [CoverageMap.getChild_erase] at hg
    cases hg

/-- A reachable tree is well formed, and its root node is a root. -/
theorem reachable_wellFormed {E : Externals} {m : CoverageMap}
    (h : CoverageMap.Reachable E m) : m.WellFormed ∧ m._isRoot = true := by
  induction h with
  | fresh box manage => exact ⟨CoverageMap.wellFormed_new _ _ _, rfl⟩
  | checkMap m m' fuel p s r _ hc ih =>
    obtain ⟨hw, hr, _, _⟩ := CoverageMap.checkMap_wellFormed E p s fuel m m' r hc ih.1
    exact ⟨hw, hr.trans ih.2⟩
  | erase m _ ih => exact ⟨wellFormed_erase ih.1, ih.2⟩

/-- In a well-formed tree every node below the root is non-root and has the
`_managePolygons` of the root. -/
theorem nodeAt_nonroot {m : CoverageMap} (hw : m.WellFormed) :
    ∀ (path : List Nat) (n : CoverageMap), m.nodeAt path = some n →
      n._managePolygons = m._managePolygons ∧ (path ≠ [] → n._isRoot = false) := by
  intro path
  induction path generalizing m with
  | nil =>
    intro n hn
    simp only [CoverageMap.nodeAt, Option.some.injEq] at hn
    rw [← hn]
    exact ⟨rfl, fun h => absurd rfl h⟩
  | cons i rest ih =>
    intro n hn
    rw [CoverageMap.nodeAt_cons] at hn
    cases hg : m.getChild i with
    | none => rw [hg] at hn; cases hn
    | some c =>
      rw [hg] at hn
      obtain ⟨hr, _, hm⟩ := (CoverageMap.wellFormed_here hw).2.2.2.2.2 i c hg
      obtain ⟨h1, h2⟩ := ih (CoverageMap.wellFormed_child hw hg) n hn
      refine ⟨h1.trans hm, fun _ => ?_⟩
      cases rest with
      | nil =>
        simp only [CoverageMap.nodeAt, Option.some.injEq] at hn
        rw [← hn]
        exact hr
      | cons j rest' => exact h2 (by simp)

theorem region_managePolygons_of_nodeOK {n : CoverageMap} (h : n.NodeOK) (name : RegionName) :
    (n.getRegion name)._managePolygons = n._managePolygons := by
  obtain ⟨h1, h2, h3, h4, h5, _⟩ := h
  cases name
  · exact h1.2.2.1
  · exact h2.2.2.1
  · exact h3.2.2.1
  · exact h4.2.2.1
  · exact h5.2.2.1

theorem half_isRoot_of_nodeOK {n : CoverageMap} (h : n.NodeOK) (name : RegionName)
    (hn : name ≠ REMAINDER) : (n.getRegion name)._isRoot = false := by
  obtain ⟨h1, h2, h3, h4, _, _⟩ := h
  cases name
  · exact h1.2.1
  · exact h2.2.1
  · exact h3.2.1
  · exact h4.2.1
  · exact absurd rfl hn

theorem reachable_rootAfterQ : CoverageMap.Reachable boxExternals rootAfterQ :=
  CoverageMap.Reachable.checkMap freshRoot rootAfterQ 2 polygonQ false NOT_STORED
    (CoverageMap.Reachable.fresh ROOT_BOUNDING_BOX false) (checkMap_freshRoot_polygonQ 0)

theorem checkRegion_stored_guard (E : Externals) (r : CoverageRegion)
    (p : VoxelProjectedPolygon) (box : BoundingBox) (s : Bool)
    (h : (CoverageRegion.checkRegion E r p box s).1 = STORED) :
    (r._isRoot || r._myBoundingBox.contains box) = true := by
  by_contra hg
  simp only [Bool.or_eq_true, not_or, Bool.not_eq_true] at hg
  have := (checkRegion_doesnt_fit_iff E r p box s).mpr hg
  rw [h] at this
  cases this

theorem checkHalf_stored_guard (E : Externals) (m : CoverageMap) (p : VoxelProjectedPolygon)
    (box : BoundingBox) (s : Bool) (h : (CoverageMap.checkHalf E m p box s).1 = STORED) :
    (m.getRegion (CoverageMap.checkHalf E m p box s).2.2)._myBoundingBox.contains box =
      true := by
  unfold CoverageMap.checkHalf at h ⊢
  unfold CoverageRegion.contains at h ⊢
  split_ifs at h ⊢ with h1 h2 h3 h4
  · exact h1
  · exact h2
  · exact h3
  · exact h4

theorem contains_self (b : BoundingBox) (h : b.isSet = true) : b.contains b = true := by
  unfold BoundingBox.contains
  simp [h]

/-- A node whose bounds are a rectangle of non-negative size contains each of its four
quadrant rectangles, which are again rectangles of non-negative size. -/
theorem contains_getChildBoundingBox (m : CoverageMap) (i : Nat) (hi : i < 4)
    (hrect : m._myBoundingBox.IsRectangle) :
    m._myBoundingBox.contains (m.getChildBoundingBox i) = true ∧
      (m.getChildBoundingBox i).IsRectangle := by
  obtain ⟨h1, h2, h3⟩ := hrect
  refine ⟨CoverageMap.contains_of_quadrant m _ i hi h1 h2 h3
    (contains_self _ (CoverageMap.getChildBoundingBox_isSet m i)), ?_⟩
  refine ⟨CoverageMap.getChildBoundingBox_isSet m i, ?_, ?_⟩
  · rw [CoverageMap.getChildBoundingBox_size]
    simp only
    linarith
  · rw [CoverageMap.getChildBoundingBox_size]
    simp only
    linarith

/-- Two quadrants that both contain a rectangle of positive width and positive height are
the same quadrant. -/
theorem quadrant_unique (m : CoverageMap) (box : BoundingBox)
    (hw : 0 < box.size.x) (hh : 0 < box.size.y) (i j : Nat) (hi : i < 4) (hj : j < 4)
    (h1 : (m.getChildBoundingBox i).contains box = true)
    (h2 : (m.getChildBoundingBox j).contains box = true) : i = j := by
  interval_cases i <;> interval_cases j <;>
    first
    | rfl
    | (exfalso
       simp only [CoverageMap.getChildBoundingBox_zero, CoverageMap.getChildBoundingBox_one,
         CoverageMap.getChildBoundingBox_two, CoverageMap.getChildBoundingBox_three,
         BoundingBox.contains, BoundingBox.new, Bool.and_eq_true, decide_eq_true_eq,
         true_and] at h1 h2
       obtain ⟨⟨⟨a1, a2⟩, a3⟩, a4⟩ := h1
       obtain ⟨⟨⟨b1, b2⟩, b3⟩, b4⟩ := h2
       linarith)

/-- The four quadrants cover the bounds of a node that are a rectangle of non-negative size:
a point lies in the bounds exactly when it lies in one of the quadrants. -/
theorem quadrants_cover (m : CoverageMap) (hrect : m._myBoundingBox.IsRectangle) (pt : Vec2) :
    m._myBoundingBox.contains (BoundingBox.point pt) = true ↔
      ∃ i, i < 4 ∧ (m.getChildBoundingBox i).contains (BoundingBox.point pt) = true := by
  constructor
  · intro h
    obtain ⟨hs, hx, hy⟩ := hrect
    simp only [BoundingBox.contains, BoundingBox.point, BoundingBox.new, Bool.and_eq_true,
      decide_eq_true_eq, add_zero] at h
    obtain ⟨⟨⟨⟨_, a1⟩, a2⟩, a3⟩, a4⟩ := h
    by_cases cx : pt.x ≤ m._myBoundingBox.corner.x + m._myBoundingBox.size.x / 2
    · by_cases cy : pt.y ≤ m._myBoundingBox.corner.y + m._myBoundingBox.size.y / 2
      · refine ⟨0, by decide, ?_⟩
        rw [CoverageMap.getChildBoundingBox_zero]
        simp only [BoundingBox.contains, BoundingBox.point, BoundingBox.new, Bool.and_eq_true,
          decide_eq_true_eq, add_zero, true_and]
        exact ⟨⟨⟨a1, a2⟩, cx⟩, cy⟩
      · refine ⟨2, by decide, ?_⟩
        rw [CoverageMap.getChildBoundingBox_two]
        simp only [BoundingBox.contains, BoundingBox.point, BoundingBox.new, Bool.and_eq_true,
          decide_eq_true_eq, add_zero, true_and]
        refine ⟨⟨⟨a1, ?_⟩, cx⟩, ?_⟩ <;> linarith
    · by_cases cy : pt.y ≤ m._myBoundingBox.corner.y + m._myBoundingBox.size.y / 2
      · refine ⟨1, by decide, ?_⟩
        rw [CoverageMap.getChildBoundingBox_one]
        simp only [BoundingBox.contains, BoundingBox.point, BoundingBox.new, Bool.and_eq_true,
          decide_eq_true_eq, add_zero, true_and]
        refine ⟨⟨⟨?_, a2⟩, ?_⟩, cy⟩ <;> linarith
      · refine ⟨3, by decide, ?_⟩
        rw [CoverageMap.getChildBoundingBox_three]
        simp only [BoundingBox.contains, BoundingBox.point, BoundingBox.new, Bool.and_eq_true,
          decide_eq_true_eq, add_zero, true_and]
        refine ⟨⟨⟨?_, ?_⟩, ?_⟩, ?_⟩ <;> linarith
  · rintro ⟨i, hi, h⟩
    exact CoverageMap.contains_of_quadrant m _ i hi hrect.1 hrect.2.1 hrect.2.2 h

/-! ## The scan of a region -/

/-- The scan is decided by the first stored polygon that occludes the submitted one. -/
theorem checkRegionLoop_of_find (E : Externals) (r : CoverageRegion)
    (p : VoxelProjectedPolygon) (s : Bool) (l : List VoxelProjectedPolygon)
    (S : VoxelProjectedPolygon) (h : l.find? (fun T => E.occludes T p) = some S) :
    CoverageRegion.checkRegionLoop E r p s l =
      if S.getDistance ≥ p.getDistance then
        if s then
          if p.getBoundingBox.area > MINIMUM_POLYGON_AREA_TO_STORE then
            (STORED, CoverageRegion.storeInArray E r p)
          else (NOT_STORED, r)
        else (NOT_STORED, r)
      else (OCCLUDED, r) := by
  induction l with
  | nil => cases h
  | cons a l ih =>
    rw [List.find?_cons] at h
    by_cases ha : E.occludes a p = true
    · rw [ha] at h
      simp only [Option.some.injEq] at h
      rw [CoverageRegion.checkRegionLoop, if_pos ha, h]
    · have ha' : E.occludes a p = false := by simpa using ha
      rw [ha'] at h
      rw [CoverageRegion.checkRegionLoop, if_neg ha]
      exact ih h

/-- When no stored polygon occludes the submitted one, the scan ends with `NOT_STORED`. -/
theorem checkRegionLoop_of_none (E : Externals) (r : CoverageRegion)
    (p : VoxelProjectedPolygon) (s : Bool) (l : List VoxelProjectedPolygon)
    (h : ∀ S ∈ l, E.occludes S p = false) :
    CoverageRegion.checkRegionLoop E r p s l = (NOT_STORED, r) := by
  induction l with
  | nil => rfl
  | cons a l ih =>
    have ha : ¬ E.occludes a p = true := by
      rw [h a (List.mem_cons_self _ _)]
      simp
    rw [CoverageRegion.checkRegionLoop, if_neg ha]
    exact ih (fun S hS => h S (List.mem_cons_of_mem _ hS))

theorem checkRegion_scan (E : Externals) (r : CoverageRegion) (p : VoxelProjectedPolygon)
    (box : BoundingBox) (s : Bool)
    (hfit : (r._isRoot || r._myBoundingBox.contains box) = true)
    (hcov : r._currentCoveredBounds.contains box = true) :
    CoverageRegion.checkRegion E r p box s =
      CoverageRegion.checkRegionLoop E r p s r._polygons := by
  unfold CoverageRegion.checkRegion
  rw [if_pos hfit, hcov]
  rfl

theorem first_occluder_rootWithB :
    rootWithB._remainder._polygons.find? (fun T => boxExternals.occludes T polygonA) =
      some polygonB := by
  have h0 : (freshRoot.getRegion REMAINDER)._polygons = [] := rfl
  have h1 : rootWithB._remainder._polygons = [polygonB] := by
    show (CoverageRegion.storeInArray boxExternals (freshRoot.getRegion REMAINDER)
      polygonB)._polygons = _
    rw [CoverageRegion.storeInArray_polygons, h0, insertAt_nil]
  have hB : boxExternals.occludes polygonB polygonA = true := occludes_polygonA_polygonB
  rw [h1, List.find?_cons, hB]

theorem covered_rootWithB :
    rootWithB._remainder._currentCoveredBounds = polygonB.getBoundingBox := by
  show (CoverageRegion.storeInArray boxExternals (freshRoot.getRegion REMAINDER)
    polygonB)._currentCoveredBounds = _
  rw [CoverageRegion.storeInArray_currentCoveredBounds]
  rfl

/-! ## Invariants of all regions of a tree -/

theorem contains_trans (a b c : BoundingBox) (h1 : a.contains b = true)
    (h2 : b.contains c = true) : a.contains c = true := by
  simp only [BoundingBox.contains, Bool.and_eq_true, decide_eq_true_eq] at h1 h2 ⊢
  obtain ⟨⟨⟨⟨a0, a1⟩, a2⟩, a3⟩, a4⟩ := h1
  obtain ⟨⟨⟨⟨_, b1⟩, b2⟩, b3⟩, b4⟩ := h2
  refine ⟨⟨⟨⟨a0, ?_⟩, ?_⟩, ?_⟩, ?_⟩ <;> linarith

/-- Expanding a rectangle loses nothing of what it contained. -/
theorem explandToInclude_within (b q : BoundingBox) : b.Within (b.explandToInclude q) := by
  intro box h
  unfold BoundingBox.explandToInclude
  simp only [BoundingBox.contains, Bool.and_eq_true, decide_eq_true_eq] at h
  obtain ⟨⟨⟨⟨h0, h1⟩, h2⟩, h3⟩, h4⟩ := h
  rw [if_pos h0]
  simp only [BoundingBox.contains, Bool.and_eq_true, decide_eq_true_eq, true_and]
  have m1 := min_le_right q.corner.x b.corner.x
  have m2 := min_le_right q.corner.y b.corner.y
  have m3 := le_max_right (q.corner.x + q.size.x) (b.corner.x + b.size.x)
  have m4 := le_max_right (q.corner.y + q.size.y) (b.corner.y + b.size.y)
  refine ⟨⟨⟨?_, ?_⟩, ?_⟩, ?_⟩ <;> linarith

/-- The expanded rectangle lies within every rectangle that contains both parts. -/
theorem explandToInclude_least (b q R : BoundingBox) (hb : b.Within R)
    (hq : R.contains q = true) : (b.explandToInclude q).Within R := by
  intro box h
  unfold BoundingBox.explandToInclude at h
  by_cases h0 : b.isSet = true
  · rw [if_pos h0] at h
    have hRb := hb b (contains_self b h0)
    simp only [BoundingBox.contains, Bool.and_eq_true, decide_eq_true_eq, true_and] at h hq hRb ⊢
    obtain ⟨⟨⟨h1, h2⟩, h3⟩, h4⟩ := h
    obtain ⟨⟨⟨⟨q0, q1⟩, q2⟩, q3⟩, q4⟩ := hq
    obtain ⟨⟨⟨⟨_, b1⟩, b2⟩, b3⟩, b4⟩ := hRb
    have m1 := le_min q1 b1
    have m2 := le_min q2 b2
    have m3 := max_le q3 b3
    have m4 := max_le q4 b4
    refine ⟨⟨⟨⟨q0, ?_⟩, ?_⟩, ?_⟩, ?_⟩ <;> linarith
  · rw [if_neg h0] at h
    have e : ({ corner := q.corner, size := q.size, isSet := true } : BoundingBox).contains box =
        true := h
    refine contains_trans R _ box ?_ e
    simp only [BoundingBox.contains, Bool.and_eq_true, decide_eq_true_eq] at hq ⊢
    exact hq

theorem allRegions_here {Q : CoverageRegion → Prop} {m : CoverageMap}
    (h : m.AllRegions Q) (name : RegionName) : Q (m.getRegion name) := h [] m rfl name

theorem allRegions_child {Q : CoverageRegion → Prop} {m c : CoverageMap} {i : Nat}
    (h : m.AllRegions Q) (hg : m.getChild i = some c) : c.AllRegions Q := by
  intro path n hn
  refine h (i :: path) n ?_
  rw [CoverageMap.nodeAt_cons, hg]
  exact hn

theorem allRegions_intro {Q : CoverageRegion → Prop} {m : CoverageMap}
    (h : ∀ name, Q (m.getRegion name))
    (hc : ∀ i c, m.getChild i = some c → c.AllRegions Q) : m.AllRegions Q := by
  intro path n hn
  cases path with
  | nil =>
    simp only [CoverageMap.nodeAt, Option.some.injEq] at hn
    rw [← hn]
    exact h
  | cons i rest =>
    rw [CoverageMap.nodeAt_cons] at hn
    cases hg : m.getChild i with
    | none => rw [hg] at hn; cases hn
    | some c =>
      rw [hg] at hn
      exact hc i c hg rest n hn

theorem allRegions_new {Q : CoverageRegion → Prop}
    (hnew : ∀ box isRoot manage name, Q (CoverageRegion.new box isRoot manage name))
    (box : BoundingBox) (isRoot manage : Bool) :
    (CoverageMap.new box isRoot manage).AllRegions Q := by
  refine allRegions_intro ?_ ?_
  · intro name
    cases name <;> exact hnew _ _ _ _
  · intro i c hg
    rw [CoverageMap.getChild_new] at hg
    cases hg

theorem allRegions_erase {Q : CoverageRegion → Prop} (herase : ∀ r, Q r → Q r.erase)
    {m : CoverageMap} (h : m.AllRegions Q) : m.erase.AllRegions Q := by
  refine allRegions_intro ?_ ?_
  · intro name
    rw [CoverageMap.getRegion_erase]
    exact herase _ (allRegions_here h name)
  · intro i c hg
    rw [CoverageMap.getChild_erase] at hg
    cases hg

theorem allRegions_setRegion {Q : CoverageRegion → Prop} {m : CoverageMap}
    (h : m.AllRegions Q) (name : RegionName) (r : CoverageRegion) (hr : Q r) :
    (m.setRegion name r).AllRegions Q := by
  refine allRegions_intro ?_ ?_
  · intro name'
    rw [CoverageMap.getRegion_setRegion]
    split_ifs
    · exact hr
    · exact allRegions_here h name'
  · intro i c hg
    rw [CoverageMap.getChild_setRegion] at hg
    exact allRegions_child h hg

theorem allRegions_childOrNew {Q : CoverageRegion → Prop}
    (hnew : ∀ box isRoot manage name, Q (CoverageRegion.new box isRoot manage name))
    {m : CoverageMap} (h : m.AllRegions Q) (i : Nat) : (m.childOrNew i).AllRegions Q := by
  unfold CoverageMap.childOrNew
  cases hg : m.getChild i with
  | none => exact allRegions_new hnew _ _ _
  | some c => exact allRegions_child h hg

theorem allRegions_setChild {Q : CoverageRegion → Prop} {m c : CoverageMap}
    (h : m.AllRegions Q) (hc : c.AllRegions Q) (i : Nat) (hi : i < 4) :
    (m.setChild i (some c)).AllRegions Q := by
  refine allRegions_intro ?_ ?_
  · intro name
    rw [CoverageMap.getRegion_setChild]
    exact allRegions_here h name
  · intro j c' hg
    rw [CoverageMap.getChild_setChild m i j (some c) hi] at hg
    split_ifs at hg with hj
    · simp only [Option.some.injEq] at hg
      rw [← hg]
      exact hc
    · exact allRegions_child h hg

/-- When the regions of a node store the polygon, the region that stores it is one whose
guard the rectangle passes. -/
theorem checkRegions_stored_fits (E : Externals) (m : CoverageMap)
    (p : VoxelProjectedPolygon) (box : BoundingBox) (s : Bool)
    (h : (CoverageMap.checkRegions E m p box s).1 = STORED) :
    ∃ name, (CoverageMap.checkRegions E m p box s).2.1 =
        m.setRegion name ((m.getRegion name).storeInArray E p) ∧
      ((m.getRegion name)._isRoot || (m.getRegion name)._myBoundingBox.contains box) =
        true := by
  unfold CoverageMap.checkRegions at h ⊢
  simp only at h ⊢
  split_ifs at h ⊢ with hd
  · have hh : (CoverageMap.checkHalf E m p box s).1 ≠ STORED := by
      intro hs
      simp [hs] at hd
    rw [CoverageMap.checkHalf_unchanged E m p box s hh] at h ⊢
    simp only at h ⊢
    obtain ⟨h1, _, _⟩ := CoverageRegion.checkRegion_stored E _ p box s h
    rw [h1]
    exact ⟨REMAINDER, rfl, checkRegion_stored_guard E _ p box s h⟩
  · obtain ⟨h1, _, _⟩ := CoverageMap.checkHalf_stored E m p box s h
    refine ⟨_, h1, ?_⟩
    rw [checkHalf_stored_guard E m p box s h]
    simp

/-- A property of regions that holds of freshly constructed regions and is kept by the
stores that `checkMap` performs (of a polygon in view with area above the minimum, into a
region whose guard it passes) holds of all regions after a call on a well-formed tree when it
held before. -/
theorem checkMap_allRegions (E : Externals) (p : VoxelProjectedPolygon) (s : Bool)
    (Q : CoverageRegion → Prop)
    (hnew : ∀ box isRoot manage name, Q (CoverageRegion.new box isRoot manage name))
    (hstore : ∀ r, Q r → (r._isRoot || r._myBoundingBox.contains p.getBoundingBox) = true →
      p.getAllInView = true → MINIMUM_POLYGON_AREA_TO_STORE < p.getBoundingBox.area →
      Q (r.storeInArray E p))
    (fuel : Nat) (m m' : CoverageMap) (r : CoverageMapStorageResult)
    (h : CoverageMap.checkMap E fuel m p s = some (r, m')) :
    m.WellFormed → m.AllRegions Q → m'.AllRegions Q := by
  refine CoverageMap.checkMap_induction E p s
    (fun _ m _ m' => m.WellFormed → m.AllRegions Q → m'.AllRegions Q)
    ?_ ?_ ?_ ?_ fuel m m' r h
  · intro _ m _ _ hq
    exact hq
  · intro _ m hv _ _ _ hq
    by_cases hst : (CoverageMap.checkRegions E m p p.getBoundingBox s).1 = STORED
    · obtain ⟨name, hm, hg⟩ := checkRegions_stored_fits E m p _ s hst
      obtain ⟨_, _, ha⟩ := CoverageMap.checkRegions_stored E m p _ s hst
      rw [hm]
      exact allRegions_setRegion hq name _ (hstore _ (allRegions_here hq name) hg hv ha)
    · rw [CoverageMap.checkRegions_unchanged E m p _ s hst]
      exact hq
  · intro _ m i r child _ _ _ _ hc _ ih hw hq
    exact allRegions_setChild hq
      (ih (CoverageMap.wellFormed_childOrNew hw i).1 (allRegions_childOrNew hnew hq i)) i
      (CoverageMap.findChild_some m _ i hc).1
  · intro _ m hv hf _ _ _ hw hq
    by_cases hst : (CoverageMap.storeHere E m
        (CoverageMap.checkHalf E m p p.getBoundingBox s).2.2 p s).1 = STORED
    · obtain ⟨hm, _, ha⟩ := CoverageMap.storeHere_stored E m _ p s hst
      have hok := CoverageMap.wellFormed_here hw
      rw [hm]
      exact allRegions_setRegion hq _ _ (hstore _ (allRegions_here hq _)
        (CoverageMap.storeIn_fits E m p s hf hok.2.2.2.2.1.1 hok.2.2.2.2.1.2.1) hv ha)
    · rw [CoverageMap.storeHere_unchanged E m _ p s hst]
      exact hq

theorem reachable_allRegions (E : Externals) (Q : CoverageRegion → Prop)
    (hnew : ∀ box isRoot manage name, Q (CoverageRegion.new box isRoot manage name))
    (herase : ∀ r, Q r → Q r.erase)
    (hstore : ∀ (p : VoxelProjectedPolygon) r, Q r →
      (r._isRoot || r._myBoundingBox.contains p.getBoundingBox) = true →
      p.getAllInView = true → MINIMUM_POLYGON_AREA_TO_STORE < p.getBoundingBox.area →
      Q (r.storeInArray E p))
    {m : CoverageMap} (h : CoverageMap.Reachable E m) : m.AllRegions Q := by
  induction h with
  | fresh box manage => exact allRegions_new hnew _ _ _
  | checkMap m m' fuel p s r hm hc ih =>
    exact checkMap_allRegions E p s Q hnew (hstore p) fuel m m' r hc
      (reachable_wellFormed hm).1 ih
  | erase m _ ih => exact allRegions_erase herase ih

/-! ## Covered bounds, sorted scans and admissible stored polygons -/

theorem coveredOK_new (box : BoundingBox) (isRoot manage : Bool) (name : RegionName) :
    (CoverageRegion.new box isRoot manage name).CoveredOK := by
  intro S hS
  cases hS

theorem coveredOK_erase (r : CoverageRegion) : r.erase.CoveredOK := by
  intro S hS
  cases hS

theorem coveredOK_store (E : Externals) (r : CoverageRegion) (p : VoxelProjectedPolygon)
    (h : r.CoveredOK) : (r.storeInArray E p).CoveredOK := by
  intro S hS
  rw [CoverageRegion.storeInArray_currentCoveredBounds]
  rcases (CoverageRegion.mem_storeInArray E r p S).mp hS with hS | hS
  · rw [hS]
    exact CoverageMap.explandToInclude_contains _ _
  · exact explandToInclude_within _ _ _ (h S hS)

theorem coveredInside_new (box : BoundingBox) (isRoot manage : Bool) (name : RegionName) :
    (CoverageRegion.new box isRoot manage name).CoveredInside := by
  intro _ b hb
  simp [CoverageRegion.new, BoundingBox.unset, BoundingBox.contains] at hb

theorem coveredInside_erase (r : CoverageRegion) (h : r.CoveredInside) :
    r.erase.CoveredInside := h

theorem coveredInside_store (E : Externals) (r : CoverageRegion) (p : VoxelProjectedPolygon)
    (h : r.CoveredInside)
    (hg : (r._isRoot || r._myBoundingBox.contains p.getBoundingBox) = true) :
    (r.storeInArray E p).CoveredInside := by
  intro hr
  rw [CoverageRegion.storeInArray_isRoot] at hr
  rw [CoverageRegion.storeInArray_currentCoveredBounds, CoverageRegion.storeInArray_myBoundingBox]
  rw [hr] at hg
  exact explandToInclude_least _ _ _ (h hr) hg

theorem storedAdmissible_new (box : BoundingBox) (isRoot manage : Bool) (name : RegionName) :
    (CoverageRegion.new box isRoot manage name).StoredAdmissible := by
  intro S hS
  cases hS

theorem storedAdmissible_erase (r : CoverageRegion) : r.erase.StoredAdmissible := by
  intro S hS
  cases hS

theorem storedAdmissible_store (E : Externals) (r : CoverageRegion)
    (p : VoxelProjectedPolygon) (h : r.StoredAdmissible) (hv : p.getAllInView = true)
    (ha : MINIMUM_POLYGON_AREA_TO_STORE < p.getBoundingBox.area) :
    (r.storeInArray E p).StoredAdmissible := by
  intro S hS
  rcases (CoverageRegion.mem_storeInArray E r p S).mp hS with hS | hS
  · rw [hS]
    exact ⟨hv, ha⟩
  · exact h S hS

theorem reachable_coveredOK {E : Externals} {m : CoverageMap}
    (h : CoverageMap.Reachable E m) : m.AllRegions CoverageRegion.CoveredOK :=
  reachable_allRegions E _ coveredOK_new (fun r _ => coveredOK_erase r)
    (fun p r hq _ _ _ => coveredOK_store E r p hq) h

theorem reachable_coveredInside {E : Externals} {m : CoverageMap}
    (h : CoverageMap.Reachable E m) : m.AllRegions CoverageRegion.CoveredInside :=
  reachable_allRegions E _ coveredInside_new coveredInside_erase
    (fun p r hq hg _ _ => coveredInside_store E r p hq hg) h

theorem reachable_storedAdmissible {E : Externals} {m : CoverageMap}
    (h : CoverageMap.Reachable E m) : m.AllRegions CoverageRegion.StoredAdmissible :=
  reachable_allRegions E _ storedAdmissible_new (fun r _ => storedAdmissible_erase r)
    (fun p r hq _ hv ha => storedAdmissible_store E r p hq hv ha) h

theorem mem_storedAt (m : CoverageMap) (path : List Nat) (name : RegionName)
    (S : VoxelProjectedPolygon) (h : S ∈ m.storedAt path name) :
    ∃ n, m.nodeAt path = some n ∧ S ∈ (n.getRegion name)._polygons := by
  unfold CoverageMap.storedAt at h
  cases hn : m.nodeAt path with
  | none =>
    rw [hn] at h
    cases h
  | some n =>
    rw [hn] at h
    exact ⟨n, rfl, h⟩

/-- In a list sorted by distance the first polygon that occludes is at most as far as every
polygon of the list that occludes. -/
theorem first_occluder_nearest (E : Externals) (p : VoxelProjectedPolygon)
    (l : List VoxelProjectedPolygon)
    (hs : (l.map VoxelProjectedPolygon.getDistance).Sorted (· ≤ ·))
    (S : VoxelProjectedPolygon) (hS : S ∈ l) (hocc : E.occludes S p = true) :
    ∃ S0, l.find? (fun T => E.occludes T p) = some S0 ∧ S0.getDistance ≤ S.getDistance := by
  induction l with
  | nil => cases hS
  | cons a l ih =>
    rw [List.map_cons, List.sorted_cons] at hs
    rw [List.find?_cons]
    by_cases ha : E.occludes a p = true
    · rw [ha]
      refine ⟨a, rfl, ?_⟩
      rcases List.mem_cons.mp hS with h | h
      · rw [h]
      · exact hs.1 _ (List.mem_map_of_mem _ h)
    · have ha' : E.occludes a p = false := by simpa using ha
      rw [ha']
      rcases List.mem_cons.mp hS with h | h
      · rw [h, ha'] at hocc
        cases hocc
      · exact ih hs.2 h

/-- Stopping at the first occluder loses nothing in a region sorted by distance. -/
theorem checkRegion_occluded_iff (E : Externals) (r : CoverageRegion)
    (p : VoxelProjectedPolygon) (box : BoundingBox) (s : Bool)
    (hs : (r._polygons.map VoxelProjectedPolygon.getDistance).Sorted (· ≤ ·))
    (hfit : (r._isRoot || r._myBoundingBox.contains box) = true)
    (hcov : r._currentCoveredBounds.contains box = true) :
    (CoverageRegion.checkRegion E r p box s).1 = OCCLUDED ↔
      ∃ S ∈ r._polygons, E.occludes S p = true ∧ S.getDistance < p.getDistance := by
  constructor
  · exact CoverageRegion.checkRegion_occluded E r p box s
  · rintro ⟨S, hS, hocc, hlt⟩
    obtain ⟨S0, hfind, hle⟩ := first_occluder_nearest E p _ hs S hS hocc
    rw [checkRegion_scan E r p box s hfit hcov, checkRegionLoop_of_find E r p s _ S0 hfind,
      if_neg (not_le.mpr (lt_of_le_of_lt hle hlt))]

theorem insertionIndex_le (key : ℚ) (keys : List ℚ) :
    insertionIndex key keys ≤ keys.length := by
  induction keys with
  | nil => exact Nat.le_refl _
  | cons k ks ih =>
    unfold insertionIndex
    split_ifs
    · simp only [List.length_cons]
      omega
    · exact Nat.zero_le _

theorem regionAt_nil (m : CoverageMap) (name : RegionName) :
    m.regionAt [] name = some (m.getRegion name) := rfl

theorem regionAt_cons_setRegion (m : CoverageMap) (name0 : RegionName) (r : CoverageRegion)
    (j : Nat) (rest : List Nat) (name : RegionName) :
    (m.setRegion name0 r).regionAt (j :: rest) name = m.regionAt (j :: rest) name := by
  unfold CoverageMap.regionAt
  rw [CoverageMap.nodeAt_cons, CoverageMap.nodeAt_cons, CoverageMap.getChild_setRegion]

/-- A relation between a region before and after that holds when nothing happens and when a
polygon is stored relates every region of the tree before a store to the region at the same
place afterwards. -/
theorem regionAt_store_rel (E : Externals) (p : VoxelProjectedPolygon)
    (R : CoverageRegion → CoverageRegion → Prop) (hrefl : ∀ r, R r r)
    (hstore : ∀ r, R r (r.storeInArray E p)) (m : CoverageMap) (name0 : RegionName) :
    ∀ path name reg, m.regionAt path name = some reg →
      ∃ reg', (m.setRegion name0 ((m.getRegion name0).storeInArray E p)).regionAt path name =
        some reg' ∧ R reg reg' := by
  intro path name reg hreg
  cases path with
  | nil =>
    rw [regionAt_nil] at hreg ⊢
    simp only [Option.some.injEq] at hreg
    rw [CoverageMap.getRegion_setRegion]
    split_ifs with hn
    · refine ⟨_, rfl, ?_⟩
      rw [← hreg, hn]
      exact hstore _
    · exact ⟨_, rfl, hreg ▸ hrefl _⟩
  | cons j rest =>
    rw [regionAt_cons_setRegion]
    exact ⟨reg, hreg, hrefl _⟩

/-- The same for a call of `checkMap`: every region that was in the tree is afterwards at
the same place and related to what it was. -/
theorem checkMap_regionAt_rel (E : Externals) (p : VoxelProjectedPolygon) (s : Bool)
    (R : CoverageRegion → CoverageRegion → Prop) (hrefl : ∀ r, R r r)
    (hstore : ∀ r, R r (r.storeInArray E p))
    (fuel : Nat) (m m' : CoverageMap) (res : CoverageMapStorageResult)
    (h : CoverageMap.checkMap E fuel m p s = some (res, m')) :
    ∀ path name reg, m.regionAt path name = some reg →
      ∃ reg', m'.regionAt path name = some reg' ∧ R reg reg' := by
  refine CoverageMap.checkMap_induction E p s
    (fun _ m _ m' => ∀ path name reg, m.regionAt path name = some reg →
      ∃ reg', m'.regionAt path name = some reg' ∧ R reg reg')
    ?_ ?_ ?_ ?_ fuel m m' res h
  · intro _ m _ path name reg hreg
    exact ⟨reg, hreg, hrefl _⟩
  · intro _ m _ _ _ path name reg hreg
    by_cases hst : (CoverageMap.checkRegions E m p p.getBoundingBox s).1 = STORED
    · obtain ⟨⟨name0, hm⟩, _, _⟩ := CoverageMap.checkRegions_stored E m p _ s hst
      rw [hm]
      exact regionAt_store_rel E p R hrefl hstore m name0 path name reg hreg
    · rw [CoverageMap.checkRegions_unchanged E m p _ s hst]
      exact ⟨reg, hreg, hrefl _⟩
  · intro _ m i r child _ _ _ _ hc _ ih path name reg hreg
    have hi := (CoverageMap.findChild_some m _ i hc).1
    cases path with
    | nil =>
      rw [regionAt_nil] at hreg ⊢
      rw [CoverageMap.getRegion_setChild]
      exact ⟨reg, hreg, hrefl _⟩
    | cons j rest =>
      simp only [CoverageMap.regionAt, CoverageMap.nodeAt_setChild_cons m i hi child j rest]
        at hreg ⊢
      split_ifs with hj
      · subst hj
        rw [CoverageMap.nodeAt_cons] at hreg
        cases hg : m.getChild j with
        | none => rw [hg] at hreg; cases hreg
        | some c =>
          rw [hg] at hreg
          have hcn : m.childOrNew j = c := by
            unfold CoverageMap.childOrNew
            rw [hg]
          rw [hcn] at ih
          exact ih rest name reg hreg
      · exact ⟨reg, hreg, hrefl _⟩
  · intro _ m _ _ _ _ _ path name reg hreg
    by_cases hst : (CoverageMap.storeHere E m
        (CoverageMap.checkHalf E m p p.getBoundingBox s).2.2 p s).1 = STORED
    · rw [(CoverageMap.storeHere_stored E m _ p s hst).1]
      exact regionAt_store_rel E p R hrefl hstore m _ path name reg hreg
    · rw [CoverageMap.storeHere_unchanged E m _ p s hst]
      exact ⟨reg, hreg, hrefl _⟩

/-! ## More evaluation at the concrete inputs -/

theorem reachable_rootWithA : CoverageMap.Reachable boxExternals rootWithA :=
  CoverageMap.Reachable.checkMap freshRoot rootWithA 0 polygonA true STORED
    (CoverageMap.Reachable.fresh ROOT_BOUNDING_BOX false) (checkMap_freshRoot_polygonA 0)

theorem reachable_rootWithB : CoverageMap.Reachable boxExternals rootWithB :=
  CoverageMap.Reachable.checkMap freshRoot rootWithB 0 polygonB true STORED
    (CoverageMap.Reachable.fresh ROOT_BOUNDING_BOX false) (checkMap_freshRoot_polygonB 0)

theorem reachable_rootWithAB : CoverageMap.Reachable boxExternals rootWithAB :=
  CoverageMap.Reachable.checkMap rootWithB rootWithAB 0 polygonA true STORED
    reachable_rootWithB (checkMap_rootWithB_polygonA 0)

theorem covered_rootWithA :
    (rootWithA.getRegion REMAINDER)._currentCoveredBounds = polygonA.getBoundingBox := by
  rw [rootWithA, CoverageMap.getRegion_setRegion, if_pos rfl,
    CoverageRegion.storeInArray_currentCoveredBounds]
  rfl

theorem polygons_rootWithA : (rootWithA.getRegion REMAINDER)._polygons = [polygonA] :=
  storedAt_rootWithA

theorem polygons_rootWithB : (rootWithB.getRegion REMAINDER)._polygons = [polygonB] := by
  have h0 : (freshRoot.getRegion REMAINDER)._polygons = [] := rfl
  rw [rootWithB, CoverageMap.getRegion_setRegion, if_pos rfl,
    CoverageRegion.storeInArray_polygons, h0, insertAt_nil]

theorem not_covered_rootWithA_polygonQ :
    (rootWithA.getRegion REMAINDER)._currentCoveredBounds.contains polygonQ.getBoundingBox =
      false := by
  rw [covered_rootWithA]
  norm_num [BoundingBox.contains, polygonA, polygonQ, square, BoundingBox.new]

/-! ## Decisions of the regions, and the top half -/

theorem getChild_checkRegions (E : Externals) (m : CoverageMap) (p : VoxelProjectedPolygon)
    (box : BoundingBox) (s : Bool) (i : Nat) :
    (CoverageMap.checkRegions E m p box s).2.1.getChild i = m.getChild i := by
  by_cases hst : (CoverageMap.checkRegions E m p box s).1 = STORED
  · obtain ⟨⟨name, hm⟩, _, _⟩ := CoverageMap.checkRegions_stored E m p box s hst
    rw [hm, CoverageMap.getChild_setRegion]
  · rw [CoverageMap.checkRegions_unchanged E m p box s hst]

/-- When the four halves of a node hold no polygon, the result of the region checks is the
result of the check of the remainder. -/
theorem checkRegions_fst_of_halves_empty (E : Externals) (m : CoverageMap)
    (p : VoxelProjectedPolygon) (box : BoundingBox) (s : Bool)
    (he : ∀ name, name ≠ REMAINDER → (m.getRegion name)._polygons = []) :
    (CoverageMap.checkRegions E m p box s).1 =
      (CoverageRegion.checkRegion E m._remainder p box s).1 := by
  have hnd : ¬((CoverageMap.checkHalf E m p box s).1 = STORED ∨
      (CoverageMap.checkHalf E m p box s).1 = OCCLUDED) := by
    intro h
    unfold CoverageMap.checkHalf at h
    split_ifs at h
    · obtain ⟨S, hS, _⟩ := CoverageMap.checkRegion_decided_mem E _ p box s h
      have := he TOP_HALF (by decide)
      simp only [CoverageMap.getRegion] at this
      rw [this] at hS
      cases hS
    · obtain ⟨S, hS, _⟩ := CoverageMap.checkRegion_decided_mem E _ p box s h
      have := he BOTTOM_HALF (by decide)
      simp only [CoverageMap.getRegion] at this
      rw [this] at hS
      cases hS
    · obtain ⟨S, hS, _⟩ := CoverageMap.checkRegion_decided_mem E _ p box s h
      have := he LEFT_HALF (by decide)
      simp only [CoverageMap.getRegion] at this
      rw [this] at hS
      cases hS
    · obtain ⟨S, hS, _⟩ := CoverageMap.checkRegion_decided_mem E _ p box s h
      have := he RIGHT_HALF (by decide)
      simp only [CoverageMap.getRegion] at this
      rw [this] at hS
      cases hS
    · simp at h
  have h1 : (CoverageMap.checkHalf E m p box s).1 ≠ STORED := fun hh => hnd (Or.inl hh)
  have h2 : (CoverageMap.checkHalf E m p box s).1 ≠ OCCLUDED := fun hh => hnd (Or.inr hh)
  unfold CoverageMap.checkRegions
  simp only
  rw [if_pos (by simp [h1, h2]), CoverageMap.checkHalf_unchanged E m p box s h1]

theorem findChild_freshRoot_polygonSmall :
    freshRoot.findChild polygonSmall.getBoundingBox = some 3 := by
  rw [CoverageMap.findChild_eq, CoverageMap.getChildBoundingBox_zero,
    CoverageMap.getChildBoundingBox_one, CoverageMap.getChildBoundingBox_two,
    CoverageMap.getChildBoundingBox_three]
  norm_num [freshRoot, CoverageMap.new, ROOT_BOUNDING_BOX, BoundingBox.new,
    BoundingBox.contains, polygonSmall, square]

theorem occludes_polygonA_polygonSmall :
    boxExternals.occludes polygonA polygonSmall = true := by
  norm_num [boxExternals, BoundingBox.contains, polygonA, polygonSmall, square,
    BoundingBox.new]

/-- The regions of the root that holds polygon A answer `OCCLUDED` for the small polygon
inside A. -/
theorem checkRegions_rootWithA_polygonSmall (s : Bool) :
    (CoverageMap.checkRegions boxExternals rootWithA polygonSmall polygonSmall.getBoundingBox
      s).1 = OCCLUDED := by
  have he : ∀ name, name ≠ REMAINDER → (rootWithA.getRegion name)._polygons = [] := by
    intro name hn
    cases name
    · rfl
    · rfl
    · rfl
    · rfl
    · exact absurd rfl hn
  rw [checkRegions_fst_of_halves_empty boxExternals rootWithA polygonSmall _ s he]
  have hp : rootWithA._remainder._polygons = [polygonA] := storedAt_rootWithA
  have hc : rootWithA._remainder._currentCoveredBounds = polygonA.getBoundingBox :=
    covered_rootWithA
  refine (checkRegion_occluded_iff boxExternals rootWithA._remainder polygonSmall _ s ?_ rfl
    ?_).mpr ⟨polygonA, ?_, occludes_polygonA_polygonSmall, ?_⟩
  · rw [hp]
    exact List.sorted_singleton _
  · rw [hc]
    exact occludes_polygonA_polygonSmall
  · rw [hp]
    exact List.mem_singleton_self _
  · norm_num [polygonA, polygonSmall, square]

theorem topHalf_isSet (b : BoundingBox) : b.topHalf.isSet = true := rfl

/-- A node whose bounds are a rectangle of non-negative size contains its top half. -/
theorem contains_topHalf (b : BoundingBox) (h : b.IsRectangle) :
    b.contains b.topHalf = true := by
  obtain ⟨h0, _, hy⟩ := h
  simp only [BoundingBox.contains, BoundingBox.topHalf, BoundingBox.new, Bool.and_eq_true,
    decide_eq_true_eq]
  refine ⟨⟨⟨⟨h0, ?_⟩, ?_⟩, ?_⟩, ?_⟩ <;> linarith

/-- No quadrant of a node of positive width contains the top half of its bounds. -/
theorem topHalf_in_no_quadrant (m : CoverageMap) (hx : 0 < m._myBoundingBox.size.x) :
    ∀ i, i < 4 → (m.getChildBoundingBox i).contains m._myBoundingBox.topHalf = false := by
  intro i hi
  by_contra hcon
  simp only [Bool.not_eq_false] at hcon
  interval_cases i <;>
    (simp only [CoverageMap.getChildBoundingBox_zero, CoverageMap.getChildBoundingBox_one,
       CoverageMap.getChildBoundingBox_two, CoverageMap.getChildBoundingBox_three,
       BoundingBox.contains, BoundingBox.topHalf, BoundingBox.new, Bool.and_eq_true,
       decide_eq_true_eq, true_and] at hcon
     obtain ⟨⟨⟨a1, a2⟩, a3⟩, a4⟩ := hcon
     linarith)

theorem storageTarget_topHalf (m : CoverageMap) (box : BoundingBox)
    (h : m._topHalf._myBoundingBox.contains box = true) :
    m.storageTarget box = TOP_HALF := by
  unfold CoverageMap.storageTarget
  rw [if_pos h]

theorem area_polygonSmallTop :
    polygonSmallTop.getBoundingBox.area ≤ MINIMUM_POLYGON_AREA_TO_STORE := by
  have h : polygonSmallTop.getBoundingBox.area = 1 / 8192 := by
    show binary32 ((1 / 64 : ℚ) * (1 / 64 / 2)) = _
    rw [binary32_of_eq _ 1 (-13) (by norm_num) (by norm_num) (by norm_num)]
    norm_num
  rw [h, MINIMUM_POLYGON_AREA_TO_STORE_eq]
  norm_num

theorem area_polygonTopHalf :
    MINIMUM_POLYGON_AREA_TO_STORE < polygonTopHalf.getBoundingBox.area := by
  have h : polygonTopHalf.getBoundingBox.area = 2 := by
    show binary32 ((2 : ℚ) * (2 / 2)) = 2
    rw [binary32_of_eq _ 2 0 (by norm_num) (by norm_num) (by norm_num)]
    norm_num
  rw [h, MINIMUM_POLYGON_AREA_TO_STORE_eq]
  norm_num

theorem isRectangle_smallNode : smallNode._myBoundingBox.IsRectangle := by
  refine ⟨rfl, ?_, ?_⟩ <;> norm_num [smallNode, CoverageMap.new, BoundingBox.new]

theorem nodeOK_new (box : BoundingBox) (isRoot manage : Bool) :
    (CoverageMap.new box isRoot manage).NodeOK :=
  CoverageMap.wellFormed_here (CoverageMap.wellFormed_new box isRoot manage)

/-- Every node of a well-formed tree is the root of a well-formed tree. -/
theorem wellFormed_nodeAt {m : CoverageMap} (hw : m.WellFormed) :
    ∀ (path : List Nat) (n : CoverageMap), m.nodeAt path = some n → n.WellFormed := by
  intro path
  induction path generalizing m with
  | nil =>
    intro n hn
    simp only [CoverageMap.nodeAt, Option.some.injEq] at hn
    rw [← hn]
    exact hw
  | cons j rest ih =>
    intro n hn
    rw [CoverageMap.nodeAt_cons] at hn
    cases hg : m.getChild j with
    | none => rw [hg] at hn; cases hn
    | some c =>
      rw [hg] at hn
      exact ih (CoverageMap.wellFormed_child hw hg) n hn

/-! ## The capacity of the arrays -/

theorem storeInArray_polygonArraySize (E : Externals) (r : CoverageRegion)
    (p : VoxelProjectedPolygon) :
    (CoverageRegion.storeInArray E r p)._polygonArraySize =
      if r._polygonArraySize < r.getPolygonCount + 1 then
        r._polygonArraySize + E.DEFAULT_GROW_SIZE
      else r._polygonArraySize := by
  unfold CoverageRegion.storeInArray insertIntoSortedArrays CoverageRegion.growPolygonArray
    CoverageRegion.getPolygonCount
  simp only
  split_ifs <;> rfl

theorem fullRegion_full (capacity : Nat) :
    (fullRegion capacity)._polygonArraySize < (fullRegion capacity).getPolygonCount + 1 := by
  show capacity < (List.replicate capacity polygonA).length + 1
  rw [List.length_replicate]
  exact Nat.lt_succ_self _

theorem storeInArray_fullRegion (capacity : Nat) (p : VoxelProjectedPolygon) :
    (CoverageRegion.storeInArray boxExternals (fullRegion capacity) p)._polygonArraySize =
      capacity + 100 := by
  rw [storeInArray_polygonArraySize, if_pos (fullRegion_full capacity)]
  rfl

/-! ## Regions that differ in covered bounds only -/

theorem sameStored_isRoot {a b : CoverageRegion} (h : a.SameStored b) :
    a._isRoot = b._isRoot := by
  have h' : a.withoutCovered._isRoot = b.withoutCovered._isRoot := by
    rw [show a.withoutCovered = b.withoutCovered from h]
  exact h'

theorem sameStored_myBoundingBox {a b : CoverageRegion} (h : a.SameStored b) :
    a._myBoundingBox = b._myBoundingBox := by
  have h' : a.withoutCovered._myBoundingBox = b.withoutCovered._myBoundingBox := by
    rw [show a.withoutCovered = b.withoutCovered from h]
  exact h'

theorem sameStored_polygons {a b : CoverageRegion} (h : a.SameStored b) :
    a._polygons = b._polygons := by
  have h' : a.withoutCovered._polygons = b.withoutCovered._polygons := by
    rw [show a.withoutCovered = b.withoutCovered from h]
  exact h'

theorem withoutCovered_storeInArray (E : Externals) (r : CoverageRegion)
    (p : VoxelProjectedPolygon) :
    (CoverageRegion.storeInArray E r p).withoutCovered =
      (CoverageRegion.storeInArray E r.withoutCovered p).withoutCovered := by
  unfold CoverageRegion.storeInArray insertIntoSortedArrays CoverageRegion.growPolygonArray
    CoverageRegion.withoutCovered CoverageRegion.getPolygonCount
  simp only
  split_ifs <;> rfl

theorem sameStored_storeInArray (E : Externals) {a b : CoverageRegion} (h : a.SameStored b)
    (p : VoxelProjectedPolygon) :
    (CoverageRegion.storeInArray E a p).SameStored (CoverageRegion.storeInArray E b p) := by
  unfold CoverageRegion.SameStored at h ⊢
  rw [withoutCovered_storeInArray E a p, withoutCovered_storeInArray E b p, h]

/-- The scan of the same stored polygons gives the same result on two regions that differ in
covered bounds only, and leaves two such regions. -/
theorem checkRegionLoop_sameStored (E : Externals) {a b : CoverageRegion}
    (h : a.SameStored b) (p : VoxelProjectedPolygon) (s : Bool)
    (l : List VoxelProjectedPolygon) :
    (CoverageRegion.checkRegionLoop E a p s l).1 =
        (CoverageRegion.checkRegionLoop E b p s l).1 ∧
      (CoverageRegion.checkRegionLoop E a p s l).2.SameStored
        (CoverageRegion.checkRegionLoop E b p s l).2 := by
  induction l with
  | nil => exact ⟨rfl, h⟩
  | cons x l ih =>
    simp only [CoverageRegion.checkRegionLoop]
    split_ifs
    · exact ⟨rfl, sameStored_storeInArray E h p⟩
    · exact ⟨rfl, h⟩
    · exact ⟨rfl, h⟩
    · exact ⟨rfl, h⟩
    · exact ih

theorem checkRegion_coveredOK (E : Externals) (r : CoverageRegion)
    (p : VoxelProjectedPolygon) (box : BoundingBox) (s : Bool) (h : r.CoveredOK) :
    (CoverageRegion.checkRegion E r p box s).2.CoveredOK := by
  by_cases hst : (CoverageRegion.checkRegion E r p box s).1 = STORED
  · rw [(CoverageRegion.checkRegion_stored E r p box s hst).1]
    exact coveredOK_store E r p h
  · rw [CoverageRegion.checkRegion_unchanged E r p box s hst]
    exact h

/-- With covered bounds that contain the stored rectangles, and an outline test that implies
containment of the bounding rectangles, the test of the covered bounds changes nothing. -/
theorem checkRegion_eq_alwaysScan (E : Externals) (hE : E.OccludesWithinBounds)
    (r : CoverageRegion) (p : VoxelProjectedPolygon) (s : Bool) (hcov : r.CoveredOK) :
    CoverageRegion.checkRegion E r p p.getBoundingBox s =
      CoverageRegion.checkRegionAlwaysScan E r p p.getBoundingBox s := by
  unfold CoverageRegion.checkRegion CoverageRegion.checkRegionAlwaysScan
  by_cases hg : (r._isRoot || r._myBoundingBox.contains p.getBoundingBox) = true
  · rw [if_pos hg, if_pos hg]
    cases hc : r._currentCoveredBounds.contains p.getBoundingBox with
    | true => rfl
    | false =>
      have hnone : ∀ S ∈ r._polygons, E.occludes S p = false := by
        intro S hS
        by_contra ho
        have ho' : E.occludes S p = true := by simpa using ho
        rw [contains_trans _ _ _ (hcov S hS) (hE S p ho')] at hc
        cases hc
      rw [checkRegionLoop_of_none E r p s _ hnone]
      rfl
  · rw [if_neg hg, if_neg hg]

/-- Two regions that differ in covered bounds only answer alike and stay alike. -/
theorem checkRegion_sameStored (E : Externals) (hE : E.OccludesWithinBounds)
    {a b : CoverageRegion} (h : a.SameStored b) (ha : a.CoveredOK) (hb : b.CoveredOK)
    (p : VoxelProjectedPolygon) (s : Bool) :
    (CoverageRegion.checkRegion E a p p.getBoundingBox s).1 =
        (CoverageRegion.checkRegion E b p p.getBoundingBox s).1 ∧
      (CoverageRegion.checkRegion E a p p.getBoundingBox s).2.SameStored
        (CoverageRegion.checkRegion E b p p.getBoundingBox s).2 := by
  rw [checkRegion_eq_alwaysScan E hE a p s ha, checkRegion_eq_alwaysScan E hE b p s hb]
  unfold CoverageRegion.checkRegionAlwaysScan
  rw [sameStored_isRoot h, sameStored_myBoundingBox h, sameStored_polygons h]
  split_ifs
  · exact checkRegionLoop_sameStored E h p s _
  · exact ⟨rfl, h⟩

/-! ## Trees that differ in covered bounds only -/

theorem nodeSame_refl (a : CoverageMap) : a.NodeSame a := ⟨rfl, rfl, rfl, fun _ => rfl⟩

theorem nodeSame_symm {a b : CoverageMap} (h : a.NodeSame b) : b.NodeSame a :=
  ⟨h.1.symm, h.2.1.symm, h.2.2.1.symm, fun name => (h.2.2.2 name).symm⟩

theorem sameUpToCovered_refl (a : CoverageMap) : a.SameUpToCovered a :=
  fun _ => ⟨fun n hn => ⟨n, hn, nodeSame_refl n⟩, fun hn => hn⟩

theorem sameUpToCovered_symm {a b : CoverageMap} (h : a.SameUpToCovered b) :
    b.SameUpToCovered a := by
  intro path
  obtain ⟨h1, h2⟩ := h path
  constructor
  · intro n hn
    cases ha : a.nodeAt path with
    | none =>
      rw [h2 ha] at hn
      cases hn
    | some n' =>
      obtain ⟨n'', hn'', hs⟩ := h1 n' ha
      rw [hn] at hn''
      simp only [Option.some.injEq] at hn''
      rw [hn'']
      exact ⟨n', rfl, nodeSame_symm hs⟩
  · intro hn
    cases ha : a.nodeAt path with
    | none => rfl
    | some n' =>
      obtain ⟨n'', hn'', _⟩ := h1 n' ha
      rw [hn] at hn''
      cases hn''

theorem sameUpToCovered_here {a b : CoverageMap} (h : a.SameUpToCovered b) : a.NodeSame b := by
  obtain ⟨n', hn', hs⟩ := (h []).1 a rfl
  simp only [CoverageMap.nodeAt, Option.some.injEq] at hn'
  rw [hn']
  exact hs

theorem nodeAt_singleton (m : CoverageMap) (i : Nat) : m.nodeAt [i] = m.getChild i := by
  rw [CoverageMap.nodeAt_cons]
  cases m.getChild i <;> rfl

theorem sameUpToCovered_child_none {a b : CoverageMap} (h : a.SameUpToCovered b) (i : Nat)
    (hg : a.getChild i = none) : b.getChild i = none := by
  have := (h [i]).2 (by rw [nodeAt_singleton, hg])
  rw [nodeAt_singleton] at this
  exact this

theorem sameUpToCovered_child_some {a b c : CoverageMap} (h : a.SameUpToCovered b) (i : Nat)
    (hg : a.getChild i = some c) :
    ∃ c', b.getChild i = some c' ∧ c.SameUpToCovered c' := by
  obtain ⟨c', hc', _⟩ := (h [i]).1 c (by rw [nodeAt_singleton, hg])
  rw [nodeAt_singleton] at hc'
  refine ⟨c', hc', ?_⟩
  intro path
  have hp := h (i :: path)
  rw [CoverageMap.nodeAt_cons, CoverageMap.nodeAt_cons, hg, hc'] at hp
  exact hp

theorem sameUpToCovered_intro {a b : CoverageMap} (hn : a.NodeSame b)
    (hsome : ∀ i c, a.getChild i = some c →
      ∃ c', b.getChild i = some c' ∧ c.SameUpToCovered c')
    (hnone : ∀ i, a.getChild i = none → b.getChild i = none) : a.SameUpToCovered b := by
  intro path
  cases path with
  | nil =>
    constructor
    · intro n h
      simp only [CoverageMap.nodeAt, Option.some.injEq] at h
      rw [← h]
      exact ⟨b, rfl, hn⟩
    · intro h
      cases h
  | cons i rest =>
    rw [CoverageMap.nodeAt_cons, CoverageMap.nodeAt_cons]
    cases hg : a.getChild i with
    | none =>
      rw [hnone i hg]
      exact ⟨fun n h => (by cases h), fun _ => rfl⟩
    | some c =>
      obtain ⟨c', hc', hs⟩ := hsome i c hg
      rw [hc']
      exact hs rest

theorem alike_symm {a b : CoverageMap} (h : a.Alike b) : b.Alike a :=
  ⟨sameUpToCovered_symm h.1, h.2.2, h.2.1⟩

theorem alike_refl (a : CoverageMap) (h : a.AllRegions CoverageRegion.CoveredOK) : a.Alike a :=
  ⟨sameUpToCovered_refl a, h, h⟩

theorem getChildBoundingBox_same {a b : CoverageMap} (h : a._myBoundingBox = b._myBoundingBox)
    (i : Nat) : a.getChildBoundingBox i = b.getChildBoundingBox i := by
  unfold CoverageMap.getChildBoundingBox
  rw [h]

theorem findChild_same {a b : CoverageMap} (h : a._myBoundingBox = b._myBoundingBox)
    (box : BoundingBox) : a.findChild box = b.findChild box := by
  unfold CoverageMap.findChild
  simp only [getChildBoundingBox_same h]

theorem fits_same {a b : CoverageMap} (h : a.NodeSame b) (p : VoxelProjectedPolygon) :
    a.fits p = b.fits p := by
  unfold CoverageMap.fits
  rw [h.1, h.2.1]

theorem alike_setRegion {a b : CoverageMap} (h : a.Alike b) (name : RegionName)
    (r r' : CoverageRegion) (hs : r.SameStored r') (hr : r.CoveredOK) (hr' : r'.CoveredOK) :
    (a.setRegion name r).Alike (b.setRegion name r') := by
  obtain ⟨h1, h2, h3, h4⟩ := sameUpToCovered_here h.1
  refine ⟨sameUpToCovered_intro ?_ ?_ ?_, allRegions_setRegion h.2.1 name r hr,
    allRegions_setRegion h.2.2 name r' hr'⟩
  · refine ⟨?_, ?_, ?_, ?_⟩
    · rw [CoverageMap.isRoot_setRegion, CoverageMap.isRoot_setRegion]
      exact h1
    · rw [CoverageMap.myBoundingBox_setRegion, CoverageMap.myBoundingBox_setRegion]
      exact h2
    · rw [CoverageMap.managePolygons_setRegion, CoverageMap.managePolygons_setRegion]
      exact h3
    · intro name'
      rw [CoverageMap.getRegion_setRegion, CoverageMap.getRegion_setRegion]
      split_ifs
      · exact hs
      · exact h4 name'
  · intro i c hg
    rw [CoverageMap.getChild_setRegion] at hg ⊢
    exact sameUpToCovered_child_some h.1 i hg
  · intro i hg
    rw [CoverageMap.getChild_setRegion] at hg ⊢
    exact sameUpToCovered_child_none h.1 i hg

theorem alike_childOrNew {a b : CoverageMap} (h : a.Alike b) (i : Nat) :
    (a.childOrNew i).Alike (b.childOrNew i) := by
  obtain ⟨_, h2, h3, _⟩ := sameUpToCovered_here h.1
  unfold CoverageMap.childOrNew
  cases hg : a.getChild i with
  | none =>
    rw [sameUpToCovered_child_none h.1 i hg, getChildBoundingBox_same h2, h3]
    exact alike_refl _ (allRegions_new coveredOK_new _ _ _)
  | some c =>
    obtain ⟨c', hc', hs⟩ := sameUpToCovered_child_some h.1 i hg
    rw [hc']
    exact ⟨hs, allRegions_child h.2.1 hg, allRegions_child h.2.2 hc'⟩

theorem alike_setChild {a b c c' : CoverageMap} (h : a.Alike b) (hc : c.Alike c') (i : Nat)
    (hi : i < 4) : (a.setChild i (some c)).Alike (b.setChild i (some c')) := by
  obtain ⟨h1, h2, h3, h4⟩ := sameUpToCovered_here h.1
  refine ⟨sameUpToCovered_intro ?_ ?_ ?_, allRegions_setChild h.2.1 hc.2.1 i hi,
    allRegions_setChild h.2.2 hc.2.2 i hi⟩
  · refine ⟨?_, ?_, ?_, ?_⟩
    · rw [CoverageMap.isRoot_setChild, CoverageMap.isRoot_setChild]
      exact h1
    · rw [CoverageMap.myBoundingBox_setChild, CoverageMap.myBoundingBox_setChild]
      exact h2
    · rw [CoverageMap.managePolygons_setChild, CoverageMap.managePolygons_setChild]
      exact h3
    · intro name
      rw [CoverageMap.getRegion_setChild, CoverageMap.getRegion_setChild]
      exact h4 name
  · intro j x hg
    rw [CoverageMap.getChild_setChild a i j (some c) hi] at hg
    rw [CoverageMap.getChild_setChild b i j (some c') hi]
    split_ifs at hg ⊢ with hj
    · simp only [Option.some.injEq] at hg
      rw [← hg]
      exact ⟨c', rfl, hc.1⟩
    · exact sameUpToCovered_child_some h.1 j hg
  · intro j hg
    rw [CoverageMap.getChild_setChild a i j (some c) hi] at hg
    rw [CoverageMap.getChild_setChild b i j (some c') hi]
    split_ifs at hg ⊢ with hj
    · exact sameUpToCovered_child_none h.1 j hg

theorem alike_region {a b : CoverageMap} (h : a.Alike b) (name : RegionName) :
    (a.getRegion name).SameStored (b.getRegion name) ∧ (a.getRegion name).CoveredOK ∧
      (b.getRegion name).CoveredOK :=
  ⟨(sameUpToCovered_here h.1).2.2.2 name, allRegions_here h.2.1 name,
    allRegions_here h.2.2 name⟩

theorem alike_storedAt {a b : CoverageMap} (h : a.Alike b) (path : List Nat)
    (name : RegionName) : a.storedAt path name = b.storedAt path name := by
  unfold CoverageMap.storedAt
  obtain ⟨h1, h2⟩ := h.1 path
  cases ha : a.nodeAt path with
  | none => rw [h2 ha]
  | some n =>
    obtain ⟨n', hn', hs⟩ := h1 n ha
    rw [hn']
    exact sameStored_polygons (hs.2.2.2 name)

/-! ## The simulation between trees that differ in covered bounds only -/

theorem checkHalf_alike (E : Externals) (hE : E.OccludesWithinBounds) {a b : CoverageMap}
    (h : a.Alike b) (p : VoxelProjectedPolygon) (s : Bool) :
    (CoverageMap.checkHalf E a p p.getBoundingBox s).1 =
        (CoverageMap.checkHalf E b p p.getBoundingBox s).1 ∧
      (CoverageMap.checkHalf E a p p.getBoundingBox s).2.2 =
        (CoverageMap.checkHalf E b p p.getBoundingBox s).2.2 ∧
      (CoverageMap.checkHalf E a p p.getBoundingBox s).2.1.Alike
        (CoverageMap.checkHalf E b p p.getBoundingBox s).2.1 := by
  have ht := alike_region h TOP_HALF
  have hb := alike_region h BOTTOM_HALF
  have hl := alike_region h LEFT_HALF
  have hr := alike_region h RIGHT_HALF
  have et : a._topHalf._myBoundingBox = b._topHalf._myBoundingBox := sameStored_myBoundingBox ht.1
  have eb : a._bottomHalf._myBoundingBox = b._bottomHalf._myBoundingBox :=
    sameStored_myBoundingBox hb.1
  have el : a._leftHalf._myBoundingBox = b._leftHalf._myBoundingBox :=
    sameStored_myBoundingBox hl.1
  have er : a._rightHalf._myBoundingBox = b._rightHalf._myBoundingBox :=
    sameStored_myBoundingBox hr.1
  unfold CoverageMap.checkHalf CoverageRegion.contains
  rw [et, eb, el, er]
  split_ifs
  · have hc := checkRegion_sameStored E hE ht.1 ht.2.1 ht.2.2 p s
    exact ⟨hc.1, rfl, alike_setRegion h TOP_HALF _ _ hc.2
      (checkRegion_coveredOK E _ p _ s ht.2.1) (checkRegion_coveredOK E _ p _ s ht.2.2)⟩
  · have hc := checkRegion_sameStored E hE hb.1 hb.2.1 hb.2.2 p s
    exact ⟨hc.1, rfl, alike_setRegion h BOTTOM_HALF _ _ hc.2
      (checkRegion_coveredOK E _ p _ s hb.2.1) (checkRegion_coveredOK E _ p _ s hb.2.2)⟩
  · have hc := checkRegion_sameStored E hE hl.1 hl.2.1 hl.2.2 p s
    exact ⟨hc.1, rfl, alike_setRegion h LEFT_HALF _ _ hc.2
      (checkRegion_coveredOK E _ p _ s hl.2.1) (checkRegion_coveredOK E _ p _ s hl.2.2)⟩
  · have hc := checkRegion_sameStored E hE hr.1 hr.2.1 hr.2.2 p s
    exact ⟨hc.1, rfl, alike_setRegion h RIGHT_HALF _ _ hc.2
      (checkRegion_coveredOK E _ p _ s hr.2.1) (checkRegion_coveredOK E _ p _ s hr.2.2)⟩
  · exact ⟨rfl, rfl, h⟩

theorem checkRegions_alike (E : Externals) (hE : E.OccludesWithinBounds) {a b : CoverageMap}
    (h : a.Alike b) (p : VoxelProjectedPolygon) (s : Bool) :
    (CoverageMap.checkRegions E a p p.getBoundingBox s).1 =
        (CoverageMap.checkRegions E b p p.getBoundingBox s).1 ∧
      (CoverageMap.checkRegions E a p p.getBoundingBox s).2.2 =
        (CoverageMap.checkRegions E b p p.getBoundingBox s).2.2 ∧
      (CoverageMap.checkRegions E a p p.getBoundingBox s).2.1.Alike
        (CoverageMap.checkRegions E b p p.getBoundingBox s).2.1 := by
  obtain ⟨h1, h2, h3⟩ := checkHalf_alike E hE h p s
  have hm := alike_region h3 REMAINDER
  have hc := checkRegion_sameStored E hE hm.1 hm.2.1 hm.2.2 p s
  unfold CoverageMap.checkRegions
  simp only
  rw [h1]
  split_ifs
  · exact ⟨hc.1, h2, alike_setRegion h3 REMAINDER _ _ hc.2
      (checkRegion_coveredOK E _ p _ s hm.2.1) (checkRegion_coveredOK E _ p _ s hm.2.2)⟩
  · exact ⟨h1, h2, h3⟩

theorem storeHere_alike (E : Externals) {a b : CoverageMap} (h : a.Alike b) (name : RegionName)
    (p : VoxelProjectedPolygon) (s : Bool) :
    (CoverageMap.storeHere E a name p s).1 = (CoverageMap.storeHere E b name p s).1 ∧
      (CoverageMap.storeHere E a name p s).2.Alike (CoverageMap.storeHere E b name p s).2 := by
  have hr := alike_region h name
  unfold CoverageMap.storeHere
  split_ifs
  · exact ⟨rfl, alike_setRegion h name _ _ (sameStored_storeInArray E hr.1 p)
      (coveredOK_store E _ p hr.2.1) (coveredOK_store E _ p hr.2.2)⟩
  · exact ⟨rfl, h⟩
  · exact ⟨rfl, h⟩

/-- A call of `checkMap` on two trees that differ in covered bounds only gives the same result
and leaves two such trees, when the outline test implies containment of the rectangles. -/
theorem alike_checkMap (E : Externals) (hE : E.OccludesWithinBounds)
    (p : VoxelProjectedPolygon) (s : Bool) :
    ∀ (fuel : Nat) (a a' : CoverageMap) (r : CoverageMapStorageResult),
      CoverageMap.checkMap E fuel a p s = some (r, a') →
      ∀ b, a.Alike b → ∃ b', CoverageMap.checkMap E fuel b p s = some (r, b') ∧ a'.Alike b' := by
  refine CoverageMap.checkMap_induction E p s
    (fun fuel a r a' => ∀ b, a.Alike b →
      ∃ b', CoverageMap.checkMap E fuel b p s = some (r, b') ∧ a'.Alike b') ?_ ?_ ?_ ?_
  · intro fuel a hrej b hab
    refine ⟨b, ?_, hab⟩
    rcases hrej with hv | hf
    · exact CoverageMap.checkMap_not_in_view E fuel b p s hv
    · rw [fits_same (sameUpToCovered_here hab.1) p] at hf
      exact CoverageMap.checkMap_not_fits E fuel b p s hf
  · intro fuel a hv hf hd b hab
    obtain ⟨h1, _, h3⟩ := checkRegions_alike E hE hab p s
    rw [fits_same (sameUpToCovered_here hab.1) p] at hf
    rw [h1] at hd
    have hrun := CoverageMap.checkMap_decided E fuel b p s hv hf hd
    rw [← h1] at hrun
    exact ⟨_, hrun, h3⟩
  · intro fuel a i r child hv hf h1 h2 hc _ ih b hab
    obtain ⟨e1, _, _⟩ := checkRegions_alike E hE hab p s
    rw [fits_same (sameUpToCovered_here hab.1) p] at hf
    rw [e1] at h1 h2
    rw [findChild_same (sameUpToCovered_here hab.1).2.1] at hc
    obtain ⟨child', hrun, hchild⟩ := ih (b.childOrNew i) (alike_childOrNew hab i)
    have hi : i < 4 := (CoverageMap.findChild_some _ _ _ hc).1
    refine ⟨b.setChild i (some child'), ?_, alike_setChild hab hchild i hi⟩
    rw [CoverageMap.checkMap_descend_succ E fuel b p s hv hf h1 h2 i hc, hrun]
  · intro fuel a hv hf h1 h2 hc b hab
    obtain ⟨e1, _, _⟩ := checkRegions_alike E hE hab p s
    obtain ⟨_, e2, _⟩ := checkHalf_alike E hE hab p s
    rw [fits_same (sameUpToCovered_here hab.1) p] at hf
    rw [e1] at h1 h2
    rw [findChild_same (sameUpToCovered_here hab.1).2.1] at hc
    have hrun := CoverageMap.checkMap_here E fuel b p s hv hf h1 h2 hc
    have hst := storeHere_alike E hab (CoverageMap.checkHalf E a p p.getBoundingBox s).2.2 p s
    rw [← e2] at hrun
    refine ⟨_, ?_, hst.2⟩
    rw [hrun, hst.1]

/-- When the call runs out of fuel on one of two trees that differ in covered bounds only, it
runs out of fuel on the other. -/
theorem alike_checkMap_none (E : Externals) (hE : E.OccludesWithinBounds)
    (p : VoxelProjectedPolygon) (s : Bool) (fuel : Nat) {a b : CoverageMap} (h : a.Alike b)
    (ha : CoverageMap.checkMap E fuel a p s = none) :
    CoverageMap.checkMap E fuel b p s = none := by
  cases hb : CoverageMap.checkMap E fuel b p s with
  | none => rfl
  | some x =>
    obtain ⟨r, b'⟩ := x
    obtain ⟨a', hrun, _⟩ := alike_checkMap E hE p s fuel b b' r hb a (alike_symm h)
    rw [ha] at hrun
    cases hrun

/-- A sequence of calls on two trees that differ in covered bounds only gives the same results
and leaves two such trees. -/
theorem alike_checkMapSeq (E : Externals) (hE : E.OccludesWithinBounds) (fuel : Nat)
    (calls : List (VoxelProjectedPolygon × Bool)) :
    ∀ (a b : CoverageMap), a.Alike b →
      ∀ rs a', checkMapSeq E fuel a calls = some (rs, a') →
        ∃ b', checkMapSeq E fuel b calls = some (rs, b') ∧ a'.Alike b' := by
  induction calls with
  | nil =>
    intro a b hab rs a' hrun
    simp only [checkMapSeq, Option.some.injEq, Prod.mk.injEq] at hrun
    obtain ⟨h1, h2⟩ := hrun
    subst h1 h2
    exact ⟨b, rfl, hab⟩
  | cons call rest ih =>
    intro a b hab rs a' hrun
    simp only [checkMapSeq] at hrun ⊢
    cases h1 : CoverageMap.checkMap E fuel a call.1 call.2 with
    | none => rw [h1] at hrun; cases hrun
    | some x =>
      obtain ⟨r, a1⟩ := x
      rw [h1] at hrun
      simp only at hrun
      obtain ⟨b1, hb1, hab1⟩ := alike_checkMap E hE call.1 call.2 fuel a a1 r h1 b hab
      rw [hb1]
      simp only
      cases h2 : checkMapSeq E fuel a1 rest with
      | none => rw [h2] at hrun; cases hrun
      | some y =>
        obtain ⟨rs1, a2⟩ := y
        rw [h2] at hrun
        simp only [Option.some.injEq, Prod.mk.injEq] at hrun
        obtain ⟨e1, e2⟩ := hrun
        subst e1 e2
        obtain ⟨b2, hb2, hab2⟩ := ih a1 b1 hab1 rs1 a2 h2
        rw [hb2]
        exact ⟨b2, rfl, hab2⟩

theorem alike_erase_new {m : CoverageMap} (h : m.WellFormed) :
    m.erase.Alike (CoverageMap.new m._myBoundingBox m._isRoot m._managePolygons) := by
  obtain ⟨ht, hb, hl, hr, hm, _⟩ := CoverageMap.wellFormed_here h
  refine ⟨sameUpToCovered_intro ⟨rfl, rfl, rfl, ?_⟩ ?_ ?_, ?_,
    allRegions_new coveredOK_new _ _ _⟩
  · intro name
    rw [CoverageMap.getRegion_erase]
    cases name
    · exact erase_eq_new_of_built _ _ _ _ _ ht
    · exact erase_eq_new_of_built _ _ _ _ _ hb
    · exact erase_eq_new_of_built _ _ _ _ _ hl
    · exact erase_eq_new_of_built _ _ _ _ _ hr
    · exact erase_eq_new_of_built _ _ _ _ _ hm
  · intro i c hg
    rw [CoverageMap.getChild_erase] at hg
    cases hg
  · intro i _
    exact CoverageMap.getChild_new _ _ _ i
  · refine allRegions_intro ?_ ?_
    · intro name
      rw [CoverageMap.getRegion_erase]
      exact coveredOK_erase _
    · intro i c hg
      rw [CoverageMap.getChild_erase] at hg
      cases hg

/-- A sequence of calls returns on a well-formed tree when every polygon has a bounding
rectangle of positive width or height and the fuel covers the depth of descent of each. -/
theorem checkMapSeq_terminates (E : Externals) (fuel : Nat)
    (calls : List (VoxelProjectedPolygon × Bool)) :
    ∀ m : CoverageMap, m.WellFormed →
      (∀ c ∈ calls, (0 < c.1.getBoundingBox.size.x ∨ 0 < c.1.getBoundingBox.size.y) ∧
        CoverageMap.descentBound m._myBoundingBox c.1.getBoundingBox ≤ fuel) →
      ∃ rs m', checkMapSeq E fuel m calls = some (rs, m') := by
  induction calls with
  | nil =>
    intro m _ _
    exact ⟨[], m, rfl⟩
  | cons call rest ih =>
    intro m hw hc
    obtain ⟨hpos, hb⟩ := hc call (List.mem_cons_self _ _)
    obtain ⟨r, m1, h1⟩ := CoverageMap.checkMap_terminates E call.1 call.2 fuel m hw
      (CoverageMap.shrinks_of_descentBound fuel _ _ hpos hb)
    obtain ⟨hw1, _, hbox, _⟩ := CoverageMap.checkMap_wellFormed E call.1 call.2 fuel m m1 r h1 hw
    obtain ⟨rs, m2, h2⟩ := ih m1 hw1 (by
      intro c hmem
      rw [hbox]
      exact hc c (List.mem_cons_of_mem _ hmem))
    refine ⟨r :: rs, m2, ?_⟩
    simp only [checkMapSeq, h1, h2]

theorem occludesWithinBounds_boxExternals : boxExternals.OccludesWithinBounds :=
  fun _ _ h => h

theorem checkMapSeq_freshRoot_B_A (fuel : Nat) :
    checkMapSeq boxExternals fuel freshRoot [(polygonB, true), (polygonA, true)] =
      some ([STORED, STORED], rootWithAB) := by
  simp only [checkMapSeq, checkMap_freshRoot_polygonB, checkMap_rootWithB_polygonA]

/-! ## The arrays behind the stored polygons -/

theorem memcpy_getElem? {α : Type} (dst src : List α) (n i : Nat) (hi : i < n)
    (hn : n ≤ src.length) : (memcpy dst src n)[i]? = src[i]? := by
  unfold memcpy
  rw [List.getElem?_append_left (by rw [List.length_take]; omega), List.getElem?_take, if_pos hi]

theorem memcpy_take {α : Type} (dst src : List α) (n : Nat) (hn : n ≤ src.length) :
    (memcpy dst src n).take n = src.take n := by
  unfold memcpy
  rw [List.take_append_of_le_length (by rw [List.length_take]; omega), List.take_take]
  simp

theorem memcpy_length {α : Type} (dst src : List α) (n : Nat) (hn : n ≤ src.length)
    (hd : n ≤ dst.length) : (memcpy dst src n).length = dst.length := by
  unfold memcpy
  rw [List.length_append, List.length_take, List.length_drop]
  omega

theorem growPolygonArray_polygonArraySize (E : Externals) (st : PolygonStorage)
    (newPolygons : List VoxelProjectedPolygon) (newDistances : List ℚ) :
    (st.growPolygonArray E newPolygons newDistances)._polygonArraySize =
      st._polygonArraySize + E.DEFAULT_GROW_SIZE := by
  unfold PolygonStorage.growPolygonArray
  cases st._polygons <;> rfl

theorem growPolygonArray_polygonCount (E : Externals) (st : PolygonStorage)
    (newPolygons : List VoxelProjectedPolygon) (newDistances : List ℚ) :
    (st.growPolygonArray E newPolygons newDistances)._polygonCount = st._polygonCount := by
  unfold PolygonStorage.growPolygonArray
  cases st._polygons <;> rfl

theorem growPolygonArray_polygons_some (E : Externals) (st : PolygonStorage)
    (newPolygons : List VoxelProjectedPolygon) (newDistances : List ℚ)
    (polygons : List VoxelProjectedPolygon) (h : st._polygons = some polygons) :
    (st.growPolygonArray E newPolygons newDistances)._polygons =
        some (memcpy newPolygons polygons st._polygonCount) ∧
      (st.growPolygonArray E newPolygons newDistances)._polygonDistances =
        some (memcpy newDistances (st._polygonDistances.getD []) st._polygonCount) := by
  unfold PolygonStorage.growPolygonArray
  rw [h]
  exact ⟨rfl, rfl⟩

theorem growPolygonArray_polygons_none (E : Externals) (st : PolygonStorage)
    (newPolygons : List VoxelProjectedPolygon) (newDistances : List ℚ)
    (h : st._polygons = none) :
    (st.growPolygonArray E newPolygons newDistances)._polygons = some newPolygons ∧
      (st.growPolygonArray E newPolygons newDistances)._polygonDistances =
        some newDistances := by
  unfold PolygonStorage.growPolygonArray
  rw [h]
  exact ⟨rfl, rfl⟩

/-- The used slots after the growth of the arrays of a region of the model are the lists of
the region, which the growth of the model leaves as they are. -/
theorem storage_growPolygonArray (E : Externals) (r : CoverageRegion)
    (fill : VoxelProjectedPolygon) (newPolygons : List VoxelProjectedPolygon)
    (newDistances : List ℚ) (hc : r.getPolygonCount ≤ r._polygonArraySize)
    (hl : r._polygonDistances.length = r._polygons.length) :
    ((r.storage fill).growPolygonArray E newPolygons newDistances).storedPolygons =
        (CoverageRegion.growPolygonArray E r)._polygons ∧
      ((r.storage fill).growPolygonArray E newPolygons newDistances).storedDistances =
        (CoverageRegion.growPolygonArray E r)._polygonDistances ∧
      ((r.storage fill).growPolygonArray E newPolygons newDistances)._polygonArraySize =
        (CoverageRegion.growPolygonArray E r)._polygonArraySize := by
  have hg1 : (CoverageRegion.growPolygonArray E r)._polygons = r._polygons := rfl
  have hg2 : (CoverageRegion.growPolygonArray E r)._polygonDistances = r._polygonDistances := rfl
  rw [hg1, hg2]
  refine ⟨?_, ?_, growPolygonArray_polygonArraySize E _ _ _⟩
  · unfold PolygonStorage.storedPolygons
    rw [growPolygonArray_polygonCount]
    by_cases h0 : r._polygonArraySize = 0
    · have hp : (r.storage fill)._polygons = none := if_pos h0
      have hn : r._polygons = [] := by
        apply List.eq_nil_of_length_eq_zero
        unfold CoverageRegion.getPolygonCount at hc
        omega
      rw [(growPolygonArray_polygons_none E _ newPolygons newDistances hp).1]
      show newPolygons.take r._polygons.length = r._polygons
      rw [hn]
      rfl
    · have hp : (r.storage fill)._polygons = some (r._polygons ++
          List.replicate (r._polygonArraySize - r.getPolygonCount) fill) := if_neg h0
      rw [(growPolygonArray_polygons_some E _ newPolygons newDistances _ hp).1]
      show (memcpy newPolygons _ r._polygons.length).take r._polygons.length = r._polygons
      rw [memcpy_take _ _ _ (by rw [List.length_append]; omega), List.take_left]
  · unfold PolygonStorage.storedDistances
    rw [growPolygonArray_polygonCount]
    by_cases h0 : r._polygonArraySize = 0
    · have hp : (r.storage fill)._polygons = none := if_pos h0
      have hn : r._polygonDistances = [] := by
        apply List.eq_nil_of_length_eq_zero
        unfold CoverageRegion.getPolygonCount at hc
        omega
      rw [(growPolygonArray_polygons_none E _ newPolygons newDistances hp).2]
      show newDistances.take r._polygons.length = r._polygonDistances
      rw [← hl, hn]
      rfl
    · have hp : (r.storage fill)._polygons = some (r._polygons ++
          List.replicate (r._polygonArraySize - r.getPolygonCount) fill) := if_neg h0
      have hd : (r.storage fill)._polygonDistances = some (r._polygonDistances ++
          List.replicate (r._polygonArraySize - r.getPolygonCount) 0) := if_neg h0
      rw [(growPolygonArray_polygons_some E _ newPolygons newDistances _ hp).2, hd]
      show (memcpy newDistances _ r._polygons.length).take r._polygons.length =
        r._polygonDistances
      rw [memcpy_take _ _ _ (by
        show r._polygons.length ≤
          (r._polygonDistances ++ List.replicate (r._polygonArraySize - r.getPolygonCount)
            0).length
        rw [List.length_append]; omega), ← hl, Option.getD_some, List.take_left]

/-! ## Binary32 quadrants -/

theorem getChildBoundingBoxBinary32_zero (m : CoverageMap) :
    m.getChildBoundingBoxBinary32 0 = BoundingBox.new m._myBoundingBox.corner
      ⟨binary32 (m._myBoundingBox.size.x / 2), binary32 (m._myBoundingBox.size.y / 2)⟩ := by
  unfold CoverageMap.getChildBoundingBoxBinary32
  simp only
  rw [if_neg (by decide), if_neg (by decide)]

theorem getChildBoundingBoxBinary32_one (m : CoverageMap) :
    m.getChildBoundingBoxBinary32 1 =
      BoundingBox.new
        ⟨binary32 (m._myBoundingBox.corner.x + binary32 (m._myBoundingBox.size.x / 2)),
          m._myBoundingBox.corner.y⟩
        ⟨binary32 (m._myBoundingBox.size.x / 2), binary32 (m._myBoundingBox.size.y / 2)⟩ := by
  unfold CoverageMap.getChildBoundingBoxBinary32
  simp only
  rw [if_neg (by decide), if_pos (by decide)]
  rfl

theorem getChildBoundingBoxBinary32_two (m : CoverageMap) :
    m.getChildBoundingBoxBinary32 2 =
      BoundingBox.new
        ⟨m._myBoundingBox.corner.x,
          binary32 (m._myBoundingBox.corner.y + binary32 (m._myBoundingBox.size.y / 2))⟩
        ⟨binary32 (m._myBoundingBox.size.x / 2), binary32 (m._myBoundingBox.size.y / 2)⟩ := by
  unfold CoverageMap.getChildBoundingBoxBinary32
  simp only
  rw [if_pos (by decide), if_neg (by decide)]
  rfl

theorem getChildBoundingBoxBinary32_three (m : CoverageMap) :
    m.getChildBoundingBoxBinary32 3 =
      BoundingBox.new
        ⟨binary32 (m._myBoundingBox.corner.x + binary32 (m._myBoundingBox.size.x / 2)),
          binary32 (m._myBoundingBox.corner.y + binary32 (m._myBoundingBox.size.y / 2))⟩
        ⟨binary32 (m._myBoundingBox.size.x / 2), binary32 (m._myBoundingBox.size.y / 2)⟩ := by
  unfold CoverageMap.getChildBoundingBoxBinary32
  simp only
  rw [if_pos (by decide), if_pos (by decide)]
  rfl

/-- Where `getChildBoundingBox` rounds nothing, its binary32 value is the exact one. -/
theorem getChildBoundingBoxBinary32_of_exact (m : CoverageMap) (h : m.QuadrantsExact)
    (i : Nat) : m.getChildBoundingBoxBinary32 i = m.getChildBoundingBox i := by
  obtain ⟨h1, h2, h3, h4⟩ := h
  unfold CoverageMap.getChildBoundingBoxBinary32 CoverageMap.getChildBoundingBox
  simp only [BoundingBox.new]
  split_ifs <;> simp only [h1, h2, h3, h4]

theorem containsBinary32_of_exact (b box : BoundingBox) (hb : b.FarEdgesExact)
    (hbox : box.FarEdgesExact) : b.containsBinary32 box = b.contains box := by
  unfold BoundingBox.containsBinary32 BoundingBox.contains
  rw [hb.1, hb.2, hbox.1, hbox.2]

theorem findChildBinary32_eq (m : CoverageMap) (box : BoundingBox) :
    m.findChildBinary32 box =
      if (m.getChildBoundingBoxBinary32 0).containsBinary32 box then some 0
      else if (m.getChildBoundingBoxBinary32 1).containsBinary32 box then some 1
      else if (m.getChildBoundingBoxBinary32 2).containsBinary32 box then some 2
      else if (m.getChildBoundingBoxBinary32 3).containsBinary32 box then some 3
      else none := by
  unfold CoverageMap.findChildBinary32
  have h : List.range NUMBER_OF_CHILDREN = [0, 1, 2, 3] := by decide
  rw [h]
  simp only [List.find?_cons, List.find?_nil]
  split_ifs <;> simp_all

theorem findChildBinary32_some (m : CoverageMap) (box : BoundingBox) (i : Nat)
    (h : m.findChildBinary32 box = some i) :
    i < 4 ∧ (m.getChildBoundingBoxBinary32 i).containsBinary32 box = true := by
  unfold CoverageMap.findChildBinary32 at h
  have h1 := List.find?_some h
  have h2 := List.mem_of_find?_eq_some h
  simp only [NUMBER_OF_CHILDREN, List.mem_range] at h2
  exact ⟨h2, h1⟩

/-- Where neither `getChildBoundingBox` nor the far edges of the quadrants and of the
rectangle are rounded, the scan in binary32 is the exact scan. -/
theorem findChildBinary32_of_exact (m : CoverageMap) (box : BoundingBox)
    (hq : m.QuadrantsExact) (hf : ∀ i, i < 4 → (m.getChildBoundingBox i).FarEdgesExact)
    (hb : box.FarEdgesExact) : m.findChildBinary32 box = m.findChild box := by
  rw [findChildBinary32_eq, CoverageMap.findChild_eq]
  simp only [getChildBoundingBoxBinary32_of_exact m hq]
  rw [containsBinary32_of_exact _ _ (hf 0 (by decide)) hb,
    containsBinary32_of_exact _ _ (hf 1 (by decide)) hb,
    containsBinary32_of_exact _ _ (hf 2 (by decide)) hb,
    containsBinary32_of_exact _ _ (hf 3 (by decide)) hb]

/-- In binary32 at most one quadrant contains a rectangle whose far edges lie beyond its
corner: a quadrant with the other value of a bit starts where the first one ends. -/
theorem quadrant_unique_binary32 (m : CoverageMap) (box : BoundingBox)
    (h : box.HasExtentBinary32) (i j : Nat) (hi : i < 4) (hj : j < 4)
    (h1 : (m.getChildBoundingBoxBinary32 i).containsBinary32 box = true)
    (h2 : (m.getChildBoundingBoxBinary32 j).containsBinary32 box = true) : i = j := by
  obtain ⟨hx, hy⟩ := h
  interval_cases i <;> interval_cases j <;>
    first
    | rfl
    | (exfalso
       simp only [getChildBoundingBoxBinary32_zero, getChildBoundingBoxBinary32_one,
         getChildBoundingBoxBinary32_two, getChildBoundingBoxBinary32_three,
         BoundingBox.containsBinary32, BoundingBox.new, Bool.and_eq_true, decide_eq_true_eq,
         true_and] at h1 h2
       obtain ⟨⟨⟨a1, a2⟩, a3⟩, a4⟩ := h1
       obtain ⟨⟨⟨b1, b2⟩, b3⟩, b4⟩ := h2
       linarith)

/-! ## The descent in binary32 -/

theorem checkRegionBinary32_of_empty (E : Externals) (r : CoverageRegion)
    (p : VoxelProjectedPolygon) (box : BoundingBox) (s : Bool) (he : r._polygons = []) :
    (r.checkRegionBinary32 E p box s).2 = r ∧
      (r.checkRegionBinary32 E p box s).1 ≠ STORED ∧
      (r.checkRegionBinary32 E p box s).1 ≠ OCCLUDED := by
  unfold CoverageRegion.checkRegionBinary32
  rw [he]
  split_ifs <;> simp [CoverageRegion.checkRegionLoop]

theorem checkHalfBinary32_of_empty (E : Externals) (m : CoverageMap)
    (p : VoxelProjectedPolygon) (box : BoundingBox) (s : Bool)
    (he : ∀ name, (m.getRegion name)._polygons = []) :
    (CoverageMap.checkHalfBinary32 E m p box s).2.1 = m ∧
      (CoverageMap.checkHalfBinary32 E m p box s).1 ≠ STORED ∧
      (CoverageMap.checkHalfBinary32 E m p box s).1 ≠ OCCLUDED := by
  have ht := checkRegionBinary32_of_empty E m._topHalf p box s (he TOP_HALF)
  have hb := checkRegionBinary32_of_empty E m._bottomHalf p box s (he BOTTOM_HALF)
  have hl := checkRegionBinary32_of_empty E m._leftHalf p box s (he LEFT_HALF)
  have hr := checkRegionBinary32_of_empty E m._rightHalf p box s (he RIGHT_HALF)
  unfold CoverageMap.checkHalfBinary32
  split_ifs
  · refine ⟨?_, ht.2.1, ht.2.2⟩
    simp only [ht.1]
    cases m
    rfl
  · refine ⟨?_, hb.2.1, hb.2.2⟩
    simp only [hb.1]
    cases m
    rfl
  · refine ⟨?_, hl.2.1, hl.2.2⟩
    simp only [hl.1]
    cases m
    rfl
  · refine ⟨?_, hr.2.1, hr.2.2⟩
    simp only [hr.1]
    cases m
    rfl
  · exact ⟨rfl, by simp, by simp⟩

theorem checkRegionsBinary32_of_empty (E : Externals) (m : CoverageMap)
    (p : VoxelProjectedPolygon) (box : BoundingBox) (s : Bool)
    (he : ∀ name, (m.getRegion name)._polygons = []) :
    (CoverageMap.checkRegionsBinary32 E m p box s).2.1 = m ∧
      (CoverageMap.checkRegionsBinary32 E m p box s).1 ≠ STORED ∧
      (CoverageMap.checkRegionsBinary32 E m p box s).1 ≠ OCCLUDED := by
  obtain ⟨h1, h2, h3⟩ := checkHalfBinary32_of_empty E m p box s he
  have hm := checkRegionBinary32_of_empty E m._remainder p box s (he REMAINDER)
  have hd : (!(decide ((CoverageMap.checkHalfBinary32 E m p box s).1 = STORED) ||
      decide ((CoverageMap.checkHalfBinary32 E m p box s).1 = OCCLUDED))) = true := by
    simp [h2, h3]
  unfold CoverageMap.checkRegionsBinary32
  simp only [hd, if_true, h1]
  refine ⟨?_, hm.2.1, hm.2.2⟩
  simp only [hm.1]
  cases m
  rfl

theorem checkMapBinary32_eq (E : Externals) (fuel : Nat) (m : CoverageMap)
    (polygon : VoxelProjectedPolygon) (storeIt : Bool) :
    CoverageMap.checkMapBinary32 E fuel m polygon storeIt =
      if !polygon.getAllInView then
        some (DOESNT_FIT, m)
      else
        if m._isRoot || m._myBoundingBox.containsBinary32 polygon.getBoundingBox then
          if (CoverageMap.checkRegionsBinary32 E m polygon polygon.getBoundingBox storeIt).1 =
                STORED ||
              (CoverageMap.checkRegionsBinary32 E m polygon polygon.getBoundingBox storeIt).1 =
                OCCLUDED then
            some ((CoverageMap.checkRegionsBinary32 E m polygon polygon.getBoundingBox storeIt).1,
              (CoverageMap.checkRegionsBinary32 E m polygon polygon.getBoundingBox storeIt).2.1)
          else
            match CoverageMap.findChildBinary32
                (CoverageMap.checkRegionsBinary32 E m polygon polygon.getBoundingBox storeIt).2.1
                polygon.getBoundingBox with
            | some i =>
              match fuel with
              | 0 => none
              | fuel + 1 =>
                match CoverageMap.checkMapBinary32 E fuel
                    ((CoverageMap.checkRegionsBinary32 E m polygon polygon.getBoundingBox
                      storeIt).2.1.childOrNewBinary32 i)
                    polygon storeIt with
                | some (result, child) =>
                  some (result,
                    (CoverageMap.checkRegionsBinary32 E m polygon polygon.getBoundingBox
                      storeIt).2.1.setChild i (some child))
                | none => none
            | none =>
              some (CoverageMap.storeHere E
                (CoverageMap.checkRegionsBinary32 E m polygon polygon.getBoundingBox storeIt).2.1
                (CoverageMap.checkRegionsBinary32 E m polygon polygon.getBoundingBox storeIt).2.2
                polygon storeIt)
        else
          some (DOESNT_FIT, m) := by
  rw [CoverageMap.checkMapBinary32]

/-- At a node whose regions are empty, that passes the guard and one of whose quadrants
contains the rectangle, the call in binary32 is the call on the child of that quadrant. -/
theorem checkMapBinary32_descend (E : Externals) (m : CoverageMap)
    (p : VoxelProjectedPolygon) (s : Bool) (i : Nat) (hv : p.getAllInView = true)
    (hg : (m._isRoot || m._myBoundingBox.containsBinary32 p.getBoundingBox) = true)
    (he : ∀ name, (m.getRegion name)._polygons = [])
    (hc : m.findChildBinary32 p.getBoundingBox = some i) :
    CoverageMap.checkMapBinary32 E 0 m p s = none ∧
    ∀ fuel, CoverageMap.checkMapBinary32 E (fuel + 1) m p s =
      match CoverageMap.checkMapBinary32 E fuel (m.childOrNewBinary32 i) p s with
      | some (result, child) => some (result, m.setChild i (some child))
      | none => none := by
  obtain ⟨hm, h1, h2⟩ := checkRegionsBinary32_of_empty E m p p.getBoundingBox s he
  have hd' : (decide ((CoverageMap.checkRegionsBinary32 E m p p.getBoundingBox s).1 = STORED) ||
      decide ((CoverageMap.checkRegionsBinary32 E m p p.getBoundingBox s).1 = OCCLUDED)) =
      false := by
    simp [h1, h2]
  constructor
  · rw [checkMapBinary32_eq]
    simp only [hv, hg, hd', hm, hc]
    simp
  · intro fuel
    rw [checkMapBinary32_eq]
    simp only [hv, hg, hd', hm, hc]
    simp

/-- A rectangle at the corner (-1,-1) whose far edges are -1 in binary32 is contained, in
binary32, in every rectangle of non-negative size at that corner. -/
theorem containsBinary32_at_corner (box : BoundingBox) (sx sy : ℚ)
    (hc : box.corner = ⟨-1, -1⟩) (hx : binary32 (box.corner.x + box.size.x) = -1)
    (hy : binary32 (box.corner.y + box.size.y) = -1) (hsx : 0 ≤ sx) (hsy : 0 ≤ sy) :
    (BoundingBox.new ⟨-1, -1⟩ ⟨sx, sy⟩).containsBinary32 box = true := by
  have h1 : -1 ≤ binary32 (-1 + sx) := neg_one_le_binary32 (by linarith)
  have h2 : -1 ≤ binary32 (-1 + sy) := neg_one_le_binary32 (by linarith)
  have hcx : box.corner.x = -1 := by rw [hc]
  have hcy : box.corner.y = -1 := by rw [hc]
  unfold BoundingBox.containsBinary32
  rw [hx, hy]
  simp only [BoundingBox.new, hcx, hcy, le_refl, decide_True, Bool.and_self, Bool.true_and,
    Bool.and_eq_true, decide_eq_true_eq]
  exact ⟨h1, h2⟩

/-- The descent in binary32 for a rectangle at the corner (-1,-1) whose far edges are -1 in
binary32 never ends: every freshly constructed node with that corner and non-negative size
passes the polygon on to its quadrant 0, which is again such a node. -/
theorem checkMapBinary32_at_corner_none (E : Externals) (p : VoxelProjectedPolygon)
    (storeIt : Bool) (hv : p.getAllInView = true) (hc : p.getBoundingBox.corner = ⟨-1, -1⟩)
    (hx : binary32 (p.getBoundingBox.corner.x + p.getBoundingBox.size.x) = -1)
    (hy : binary32 (p.getBoundingBox.corner.y + p.getBoundingBox.size.y) = -1) :
    ∀ (fuel : Nat) (sx sy : ℚ) (isRoot manage : Bool), 0 ≤ sx → 0 ≤ sy →
      CoverageMap.checkMapBinary32 E fuel
        (CoverageMap.new (BoundingBox.new ⟨-1, -1⟩ ⟨sx, sy⟩) isRoot manage) p storeIt = none := by
  have key : ∀ (sx sy : ℚ) (isRoot manage : Bool), 0 ≤ sx → 0 ≤ sy →
      ((CoverageMap.new (BoundingBox.new ⟨-1, -1⟩ ⟨sx, sy⟩) isRoot manage)._isRoot ||
        (CoverageMap.new (BoundingBox.new ⟨-1, -1⟩ ⟨sx, sy⟩) isRoot
          manage)._myBoundingBox.containsBinary32 p.getBoundingBox) = true ∧
      (CoverageMap.new (BoundingBox.new ⟨-1, -1⟩ ⟨sx, sy⟩) isRoot manage).findChildBinary32
        p.getBoundingBox = some 0 ∧
      (CoverageMap.new (BoundingBox.new ⟨-1, -1⟩ ⟨sx, sy⟩) isRoot manage).childOrNewBinary32 0 =
        CoverageMap.new (BoundingBox.new ⟨-1, -1⟩ ⟨binary32 (sx / 2), binary32 (sy / 2)⟩)
          false manage := by
    intro sx sy isRoot manage hsx hsy
    have hq : (CoverageMap.new (BoundingBox.new ⟨-1, -1⟩ ⟨sx, sy⟩) isRoot
        manage).getChildBoundingBoxBinary32 0 =
        BoundingBox.new ⟨-1, -1⟩ ⟨binary32 (sx / 2), binary32 (sy / 2)⟩ := by
      rw [getChildBoundingBoxBinary32_zero]
      rfl
    refine ⟨?_, ?_, ?_⟩
    · have : (CoverageMap.new (BoundingBox.new ⟨-1, -1⟩ ⟨sx, sy⟩) isRoot
          manage)._myBoundingBox.containsBinary32 p.getBoundingBox = true :=
        containsBinary32_at_corner _ sx sy hc hx hy hsx hsy
      rw [this]
      simp
    · rw [findChildBinary32_eq, hq,
        containsBinary32_at_corner _ _ _ hc hx hy
          (binary32_nonneg (by linarith)) (binary32_nonneg (by linarith))]
      rfl
    · unfold CoverageMap.childOrNewBinary32
      rw [CoverageMap.getChild_new, hq]
      rfl
  intro fuel
  induction fuel with
  | zero =>
    intro sx sy isRoot manage hsx hsy
    obtain ⟨hg, hf, _⟩ := key sx sy isRoot manage hsx hsy
    exact (checkMapBinary32_descend E _ p storeIt 0 hv hg
      (CoverageMap.getRegion_new_polygons _ _ _) hf).1
  | succ n ih =>
    intro sx sy isRoot manage hsx hsy
    obtain ⟨hg, hf, hch⟩ := key sx sy isRoot manage hsx hsy
    rw [(checkMapBinary32_descend E _ p storeIt 0 hv hg
      (CoverageMap.getRegion_new_polygons _ _ _) hf).2 n, hch,
      ih _ _ false manage (binary32_nonneg (by linarith)) (binary32_nonneg (by linarith))]

/-! ## Evaluation in binary32 at the concrete inputs -/

theorem containsBinary32_self (b : BoundingBox) (h : b.isSet = true) :
    b.containsBinary32 b = true := by
  unfold BoundingBox.containsBinary32
  simp [h]

/-- In binary32 the far edge `-1 + 2^-30` of the speck is -1: the width is lost. -/
theorem binary32_speck : binary32 (-1 + 1 / 2 ^ 30) = -1 := by
  rw [binary32_eq (-1 + 1 / 2 ^ 30) (-1) (-16777216) (by norm_num)
    (by rw [abs_of_neg (by norm_num)]; norm_num) (by rw [abs_of_neg (by norm_num)]; norm_num)
    (roundHalfEven_eq_of_near _ _ (by norm_num) (by norm_num))]
  norm_num

/-- In binary32 the sum `1 + 2^-24` is 1: a tie, which goes to the even neighbour. -/
theorem binary32_deep : binary32 (1 + 1 / 2 ^ 24) = 1 := by
  have ht : (1 + 1 / 2 ^ 24 : ℚ) / 2 ^ ((0 : ℤ) - 23) = ((8388608 : ℤ) : ℚ) + 1 / 2 := by
    norm_num
  rw [binary32_eq (1 + 1 / 2 ^ 24) 0 8388608 (by norm_num)
    (by rw [abs_of_pos (by norm_num)]; norm_num) (by rw [abs_of_pos (by norm_num)]; norm_num)
    (by rw [ht, roundHalfEven_tie_even _ (by norm_num)])]
  norm_num

theorem getChildBoundingBoxBinary32_deepNode (i : Nat) (hi : i < 4) :
    deepNode.getChildBoundingBoxBinary32 i = polygonDeep.getBoundingBox := by
  have hs : binary32 ((1 / 2 ^ 23 : ℚ) / 2) = 1 / 2 ^ 24 := by
    rw [binary32_of_eq _ 1 (-24) (by norm_num) (by norm_num) (by norm_num)]
    norm_num
  have e0 : deepNode.getChildBoundingBoxBinary32 0 = polygonDeep.getBoundingBox := by
    rw [getChildBoundingBoxBinary32_zero]
    show BoundingBox.new ⟨1, 1⟩ ⟨binary32 ((1 / 2 ^ 23 : ℚ) / 2), binary32 ((1 / 2 ^ 23 : ℚ) / 2)⟩ =
      BoundingBox.new ⟨1, 1⟩ ⟨1 / 2 ^ 24, 1 / 2 ^ 24⟩
    rw [hs]
  have e1 : deepNode.getChildBoundingBoxBinary32 1 = polygonDeep.getBoundingBox := by
    rw [getChildBoundingBoxBinary32_one]
    show BoundingBox.new ⟨binary32 (1 + binary32 ((1 / 2 ^ 23 : ℚ) / 2)), 1⟩
      ⟨binary32 ((1 / 2 ^ 23 : ℚ) / 2), binary32 ((1 / 2 ^ 23 : ℚ) / 2)⟩ =
      BoundingBox.new ⟨1, 1⟩ ⟨1 / 2 ^ 24, 1 / 2 ^ 24⟩
    rw [hs, binary32_deep]
  have e2 : deepNode.getChildBoundingBoxBinary32 2 = polygonDeep.getBoundingBox := by
    rw [getChildBoundingBoxBinary32_two]
    show BoundingBox.new ⟨1, binary32 (1 + binary32 ((1 / 2 ^ 23 : ℚ) / 2))⟩
      ⟨binary32 ((1 / 2 ^ 23 : ℚ) / 2), binary32 ((1 / 2 ^ 23 : ℚ) / 2)⟩ =
      BoundingBox.new ⟨1, 1⟩ ⟨1 / 2 ^ 24, 1 / 2 ^ 24⟩
    rw [hs, binary32_deep]
  have e3 : deepNode.getChildBoundingBoxBinary32 3 = polygonDeep.getBoundingBox := by
    rw [getChildBoundingBoxBinary32_three]
    show BoundingBox.new ⟨binary32 (1 + binary32 ((1 / 2 ^ 23 : ℚ) / 2)),
        binary32 (1 + binary32 ((1 / 2 ^ 23 : ℚ) / 2))⟩
      ⟨binary32 ((1 / 2 ^ 23 : ℚ) / 2), binary32 ((1 / 2 ^ 23 : ℚ) / 2)⟩ =
      BoundingBox.new ⟨1, 1⟩ ⟨1 / 2 ^ 24, 1 / 2 ^ 24⟩
    rw [hs, binary32_deep]
  interval_cases i
  · exact e0
  · exact e1
  · exact e2
  · exact e3

theorem quadrantsExact_freshRoot : freshRoot.QuadrantsExact := by
  have h1 : binary32 ((2 : ℚ) / 2) = 2 / 2 :=
    binary32_of_eq _ 1 0 (by norm_num) (by norm_num) (by norm_num)
  have h2 : binary32 (-1 + (2 : ℚ) / 2) = -1 + 2 / 2 :=
    binary32_of_eq _ 0 0 (by norm_num) (by norm_num) (by norm_num)
  exact ⟨h1, h1, h2, h2⟩

theorem farEdgesExact_freshRoot_quadrants (i : Nat) (hi : i < 4) :
    (freshRoot.getChildBoundingBox i).FarEdgesExact := by
  have h0 : binary32 (-1 + (2 : ℚ) / 2) = -1 + 2 / 2 :=
    binary32_of_eq _ 0 0 (by norm_num) (by norm_num) (by norm_num)
  have h1 : binary32 (-1 + (2 : ℚ) / 2 + 2 / 2) = -1 + 2 / 2 + 2 / 2 :=
    binary32_of_eq _ 1 0 (by norm_num) (by norm_num) (by norm_num)
  interval_cases i
  · rw [CoverageMap.getChildBoundingBox_zero]
    exact ⟨h0, h0⟩
  · rw [CoverageMap.getChildBoundingBox_one]
    exact ⟨h1, h0⟩
  · rw [CoverageMap.getChildBoundingBox_two]
    exact ⟨h0, h1⟩
  · rw [CoverageMap.getChildBoundingBox_three]
    exact ⟨h1, h1⟩

theorem farEdgesExact_polygonQ : polygonQ.getBoundingBox.FarEdgesExact := by
  have h1 : binary32 ((0 : ℚ) + 1 / 2) = 0 + 1 / 2 :=
    binary32_of_eq _ 1 (-1) (by norm_num) (by norm_num) (by norm_num)
  have h2 : binary32 ((-1 : ℚ) + 1 / 2) = -1 + 1 / 2 :=
    binary32_of_eq _ (-1) (-1) (by norm_num) (by norm_num) (by norm_num)
  exact ⟨h1, h2⟩

theorem hasExtentBinary32_polygonQ : polygonQ.getBoundingBox.HasExtentBinary32 := by
  obtain ⟨h1, h2⟩ := farEdgesExact_polygonQ
  unfold BoundingBox.HasExtentBinary32
  rw [h1, h2]
  constructor <;> norm_num [polygonQ, square, BoundingBox.new]

theorem farEdgesExact_polygonSliver : polygonSliver.getBoundingBox.FarEdgesExact := by
  have h1 : binary32 ((0 : ℚ) + 0) = 0 + 0 :=
    binary32_of_eq _ 0 0 (by norm_num) (by norm_num) (by norm_num)
  have h2 : binary32 ((-1 / 2 : ℚ) + 1 / 4) = -1 / 2 + 1 / 4 :=
    binary32_of_eq _ (-1) (-2) (by norm_num) (by norm_num) (by norm_num)
  exact ⟨h1, h2⟩

theorem area_polygonGap :
    polygonGap.getBoundingBox.area = 3054199 / 2 ^ 34 ∧
      polygonGap.getBoundingBox.area ≤ MINIMUM_POLYGON_AREA_TO_STORE := by
  have h : polygonGap.getBoundingBox.area = 3054199 / 2 ^ 34 := by
    show binary32 ((1 : ℚ) * (3054199 / 2 ^ 34)) = _
    rw [binary32_of_eq _ 3054199 (-34) (by norm_num) (by norm_num) (by norm_num)]
    norm_num
  refine ⟨h, ?_⟩
  rw [h, MINIMUM_POLYGON_AREA_TO_STORE_eq]

theorem first_occluder_rootWithB_polygonGap :
    rootWithB._remainder._polygons.find? (fun T => boxExternals.occludes T polygonGap) =
      some polygonB := by
  have h1 : rootWithB._remainder._polygons = [polygonB] := polygons_rootWithB
  rw [h1]
  have h2 : boxExternals.occludes polygonB polygonGap = true := by
    norm_num [boxExternals, BoundingBox.contains, polygonB, polygonGap, square, BoundingBox.new]
  simp [h2]

theorem covered_rootWithB_polygonGap :
    rootWithB._remainder._currentCoveredBounds.contains polygonGap.getBoundingBox = true := by
  have h : rootWithB._remainder._currentCoveredBounds = polygonB.getBoundingBox :=
    covered_rootWithB
  rw [h]
  norm_num [BoundingBox.contains, polygonB, polygonGap, square, BoundingBox.new]

theorem area_polygonSpot :
    polygonSpot.getBoundingBox.area ≤ MINIMUM_POLYGON_AREA_TO_STORE := by
  have h : polygonSpot.getBoundingBox.area = 1 / 2 ^ 14 := by
    show binary32 ((1 / 128 : ℚ) * (1 / 128)) = _
    rw [binary32_of_eq _ 1 (-14) (by norm_num) (by norm_num) (by norm_num)]
    norm_num
  rw [h, MINIMUM_POLYGON_AREA_TO_STORE_eq]
  norm_num

theorem findChild_freshRoot_polygonSpot :
    freshRoot.findChild polygonSpot.getBoundingBox = some 1 := by
  rw [CoverageMap.findChild_eq, CoverageMap.getChildBoundingBox_zero,
    CoverageMap.getChildBoundingBox_one, CoverageMap.getChildBoundingBox_two,
    CoverageMap.getChildBoundingBox_three]
  norm_num [freshRoot, CoverageMap.new, ROOT_BOUNDING_BOX, BoundingBox.new,
    BoundingBox.contains, polygonSpot, square]

theorem findChild_quadrantChild_polygonSpot :
    quadrantChild.findChild polygonSpot.getBoundingBox = none := by
  rw [CoverageMap.findChild_eq, CoverageMap.getChildBoundingBox_zero,
    CoverageMap.getChildBoundingBox_one, CoverageMap.getChildBoundingBox_two,
    CoverageMap.getChildBoundingBox_three]
  unfold quadrantChild
  rw [CoverageMap.getChildBoundingBox_one]
  norm_num [freshRoot, CoverageMap.new, ROOT_BOUNDING_BOX, BoundingBox.new,
    BoundingBox.contains, polygonSpot, square]

/-- The small polygon inside quadrant 1 of the fresh root descends into the child of slot 1,
which is created, and is not stored there: its area is not above the minimum. -/
theorem checkMap_freshRoot_polygonSpot (fuel : Nat) :
    CoverageMap.checkMap boxExternals (fuel + 1) freshRoot polygonSpot true =
      some (NOT_STORED, rootAfterSpot) := by
  obtain ⟨h1, h2⟩ := CoverageMap.checkRegions_of_empty boxExternals freshRoot polygonSpot
    polygonSpot.getBoundingBox true (CoverageMap.getRegion_new_polygons _ _ _)
  obtain ⟨h3, h4⟩ := CoverageMap.checkRegions_of_empty boxExternals quadrantChild polygonSpot
    polygonSpot.getBoundingBox true (CoverageMap.getRegion_new_polygons _ _ _)
  have hf : quadrantChild.fits polygonSpot = true := by
    unfold quadrantChild
    rw [CoverageMap.fits_new,
      (CoverageMap.findChild_some _ _ _ findChild_freshRoot_polygonSpot).2]
    rfl
  have e1 : CoverageMap.checkMap boxExternals fuel quadrantChild polygonSpot true =
      some (NOT_STORED, quadrantChild) := by
    rw [CoverageMap.checkMap_here boxExternals fuel quadrantChild polygonSpot true rfl hf h3 h4
      findChild_quadrantChild_polygonSpot]
    unfold CoverageMap.storeHere
    rw [if_pos rfl, if_neg (not_lt.mpr area_polygonSpot)]
  have c0 : freshRoot.childOrNew 1 = quadrantChild := CoverageMap.childOrNew_new _ _ _ _
  rw [CoverageMap.checkMap_descend_succ boxExternals fuel freshRoot polygonSpot true rfl rfl
    h1 h2 1 findChild_freshRoot_polygonSpot, c0, e1]
  rfl

theorem binary32_polygonPoint_far : binary32 ((-1 : ℚ) + 0) = -1 := by
  rw [add_zero, binary32_neg_one]

theorem findChildBinary32_freshRoot_polygonQ :
    freshRoot.findChildBinary32 polygonQ.getBoundingBox = some 1 := by
  rw [findChildBinary32_of_exact freshRoot _ quadrantsExact_freshRoot
    farEdgesExact_freshRoot_quadrants farEdgesExact_polygonQ]
  exact findChild_freshRoot_polygonQ

/-! ## Nodes at which binary32 rounds nothing, and the top half -/

theorem farEdgesExact_topHalf (b : BoundingBox) (hb : b.FarEdgesExact) :
    b.topHalf.FarEdgesExact := by
  obtain ⟨h1, h2⟩ := hb
  have e : b.corner.y + b.size.y / 2 + b.size.y / 2 = b.corner.y + b.size.y := by ring
  refine ⟨h1, ?_⟩
  show binary32 (b.corner.y + b.size.y / 2 + b.size.y / 2) =
    b.corner.y + b.size.y / 2 + b.size.y / 2
  rw [e]
  exact h2

theorem farEdgesExact_quadrants (m : CoverageMap) (hq : m.QuadrantsExact)
    (hb : m._myBoundingBox.FarEdgesExact) (i : Nat) (hi : i < 4) :
    (m.getChildBoundingBox i).FarEdgesExact := by
  obtain ⟨_, _, q3, q4⟩ := hq
  obtain ⟨b1, b2⟩ := hb
  have ex : m._myBoundingBox.corner.x + m._myBoundingBox.size.x / 2 +
      m._myBoundingBox.size.x / 2 = m._myBoundingBox.corner.x + m._myBoundingBox.size.x := by
    ring
  have ey : m._myBoundingBox.corner.y + m._myBoundingBox.size.y / 2 +
      m._myBoundingBox.size.y / 2 = m._myBoundingBox.corner.y + m._myBoundingBox.size.y := by
    ring
  have fx : binary32 (m._myBoundingBox.corner.x + m._myBoundingBox.size.x / 2 +
      m._myBoundingBox.size.x / 2) = m._myBoundingBox.corner.x + m._myBoundingBox.size.x / 2 +
      m._myBoundingBox.size.x / 2 := by
    rw [ex]
    exact b1
  have fy : binary32 (m._myBoundingBox.corner.y + m._myBoundingBox.size.y / 2 +
      m._myBoundingBox.size.y / 2) = m._myBoundingBox.corner.y + m._myBoundingBox.size.y / 2 +
      m._myBoundingBox.size.y / 2 := by
    rw [ey]
    exact b2
  interval_cases i
  · rw [CoverageMap.getChildBoundingBox_zero]
    exact ⟨q3, q4⟩
  · rw [CoverageMap.getChildBoundingBox_one]
    exact ⟨fx, q4⟩
  · rw [CoverageMap.getChildBoundingBox_two]
    exact ⟨q3, fy⟩
  · rw [CoverageMap.getChildBoundingBox_three]
    exact ⟨fx, fy⟩

theorem checkRegionsBinary32_target (E : Externals) (m : CoverageMap)
    (p : VoxelProjectedPolygon) (box : BoundingBox) (s : Bool) :
    (CoverageMap.checkRegionsBinary32 E m p box s).2.2 =
      (CoverageMap.checkHalfBinary32 E m p box s).2.2 := by
  unfold CoverageMap.checkRegionsBinary32
  simp only
  split_ifs <;> rfl

theorem checkHalfBinary32_target_topHalf (E : Externals) (m : CoverageMap)
    (p : VoxelProjectedPolygon) (box : BoundingBox) (s : Bool)
    (h : m._topHalf._myBoundingBox.containsBinary32 box = true) :
    (CoverageMap.checkHalfBinary32 E m p box s).2.2 = TOP_HALF := by
  unfold CoverageMap.checkHalfBinary32
  rw [if_pos h]

/-- At a node whose regions are empty, that passes the guard and none of whose quadrants
contains the rectangle in binary32, the call in binary32 ends at the node, with the store of
lines 273-287 into the region that the tests of the halves selected. -/
theorem checkMapBinary32_here_of_empty (E : Externals) (fuel : Nat) (m : CoverageMap)
    (p : VoxelProjectedPolygon) (s : Bool) (hv : p.getAllInView = true)
    (hg : (m._isRoot || m._myBoundingBox.containsBinary32 p.getBoundingBox) = true)
    (he : ∀ name, (m.getRegion name)._polygons = [])
    (hc : m.findChildBinary32 p.getBoundingBox = none) :
    CoverageMap.checkMapBinary32 E fuel m p s =
      some (CoverageMap.storeHere E m
        (CoverageMap.checkHalfBinary32 E m p p.getBoundingBox s).2.2 p s) := by
  obtain ⟨hm, h1, h2⟩ := checkRegionsBinary32_of_empty E m p p.getBoundingBox s he
  have hd' : (decide ((CoverageMap.checkRegionsBinary32 E m p p.getBoundingBox s).1 = STORED) ||
      decide ((CoverageMap.checkRegionsBinary32 E m p p.getBoundingBox s).1 = OCCLUDED)) =
      false := by
    simp [h1, h2]
  rw [checkMapBinary32_eq]
  simp only [hv, hg, hd', hm, hc, checkRegionsBinary32_target]
  simp

/-- The top half of a node at which nothing is rounded lies, in binary32 as in exact
arithmetic, inside none of the quadrants when the width of the node is positive. -/
theorem topHalf_in_no_quadrant_binary32 (m : CoverageMap) (hq : m.QuadrantsExact)
    (hb : m._myBoundingBox.FarEdgesExact) (hx : 0 < m._myBoundingBox.size.x) :
    ∀ i, i < 4 →
      (m.getChildBoundingBoxBinary32 i).containsBinary32 m._myBoundingBox.topHalf = false := by
  intro i hi
  rw [getChildBoundingBoxBinary32_of_exact m hq,
    containsBinary32_of_exact _ _ (farEdgesExact_quadrants m hq hb i hi)
      (farEdgesExact_topHalf _ hb)]
  exact topHalf_in_no_quadrant m hx i hi

theorem findChildBinary32_none_of_all (m : CoverageMap) (box : BoundingBox)
    (h : ∀ i, i < 4 → (m.getChildBoundingBoxBinary32 i).containsBinary32 box = false) :
    m.findChildBinary32 box = none := by
  rw [findChildBinary32_eq, h 0 (by decide), h 1 (by decide), h 2 (by decide),
    h 3 (by decide)]
  rfl

theorem binary32_thin : binary32 (1 + 1 / 2 ^ 25) = 1 := by
  rw [binary32_eq (1 + 1 / 2 ^ 25) 0 8388608 (by norm_num)
    (by rw [abs_of_pos (by norm_num)]; norm_num) (by rw [abs_of_pos (by norm_num)]; norm_num)
    (roundHalfEven_eq_of_near _ _ (by norm_num) (by norm_num))]
  norm_num

theorem getChildBoundingBoxBinary32_thinNode :
    thinNode.getChildBoundingBoxBinary32 2 =
      BoundingBox.new ⟨1, 1 / 2⟩ ⟨1 / 2 ^ 25, 1 / 2⟩ := by
  have hs : binary32 ((1 / 2 ^ 24 : ℚ) / 2) = 1 / 2 ^ 25 := by
    rw [binary32_of_eq _ 1 (-25) (by norm_num) (by norm_num) (by norm_num)]
    norm_num
  have hh : binary32 ((1 : ℚ) / 2) = 1 / 2 :=
    binary32_of_eq _ 1 (-1) (by norm_num) (by norm_num) (by norm_num)
  have hc : binary32 ((0 : ℚ) + 1 / 2) = 1 / 2 := by
    rw [binary32_of_eq _ 1 (-1) (by norm_num) (by norm_num) (by norm_num)]
    norm_num
  rw [getChildBoundingBoxBinary32_two]
  simp only [thinNode, CoverageMap.new, BoundingBox.new, hs, hh, hc]

theorem containsBinary32_thinNode :
    (thinNode.getChildBoundingBoxBinary32 2).containsBinary32 thinNode._myBoundingBox.topHalf =
      true := by
  have h1 : binary32 ((1 : ℚ) + 1 / 2 ^ 24) = 1 := binary32_deep
  have h2 : binary32 ((1 : ℚ) + 1 / 2 ^ 25) = 1 := binary32_thin
  have h3 : (0 : ℚ) + 1 / 2 + 1 / 2 = 1 / 2 + 1 / 2 := by norm_num
  rw [getChildBoundingBoxBinary32_thinNode]
  simp only [BoundingBox.containsBinary32, BoundingBox.topHalf, thinNode, CoverageMap.new,
    BoundingBox.new, h1, h2, h3]
  norm_num

theorem checkRegionBinary32_ne_doesnt_fit (E : Externals) (r : CoverageRegion)
    (p : VoxelProjectedPolygon) (box : BoundingBox) (s : Bool)
    (h : r._myBoundingBox.containsBinary32 box = true) :
    (r.checkRegionBinary32 E p box s).1 ≠ DOESNT_FIT := by
  unfold CoverageRegion.checkRegionBinary32
  rw [h, Bool.or_true, if_pos rfl]
  split_ifs
  · simp
  · exact CoverageRegion.checkRegionLoop_ne_doesnt_fit E r p s _

theorem binary32_far (w : ℚ) (h0 : 0 ≤ w) (hw : w ≤ 64) : binary32 (2 ^ 30 + w) = 2 ^ 30 := by
  rcases eq_or_lt_of_le hw with h | h
  · have ht : ((2 : ℚ) ^ 30 + 64) / 2 ^ ((30 : ℤ) - 23) = ((8388608 : ℤ) : ℚ) + 1 / 2 := by
      norm_num
    rw [h, binary32_eq (2 ^ 30 + 64) 30 8388608 (by norm_num)
      (by rw [abs_of_pos (by norm_num)]; norm_num) (by rw [abs_of_pos (by norm_num)]; norm_num)
      (by rw [ht, roundHalfEven_tie_even _ (by norm_num)])]
    norm_num
  · rw [binary32_eq (2 ^ 30 + w) 30 8388608 (by norm_num)
      (by rw [abs_of_pos (by positivity)]; norm_num; linarith)
      (by rw [abs_of_pos (by positivity)]; norm_num; linarith)
      (roundHalfEven_eq_of_near _ _ ?_ ?_)]
    · norm_num
    · norm_num
      rw [lt_div_iff₀ (by norm_num)]
      linarith
    · norm_num
      rw [div_lt_iff₀ (by norm_num)]
      linarith

theorem getChildBoundingBoxBinary32_farNode :
    farNode.getChildBoundingBoxBinary32 2 = BoundingBox.new ⟨2 ^ 30, 1 / 2⟩ ⟨32, 1 / 2⟩ := by
  have hs : binary32 ((64 : ℚ) / 2) = 32 := by
    rw [binary32_of_eq _ 1 5 (by norm_num) (by norm_num) (by norm_num)]
    norm_num
  have hh : binary32 ((1 : ℚ) / 2) = 1 / 2 :=
    binary32_of_eq _ 1 (-1) (by norm_num) (by norm_num) (by norm_num)
  have hc : binary32 ((0 : ℚ) + 1 / 2) = 1 / 2 := by
    rw [binary32_of_eq _ 1 (-1) (by norm_num) (by norm_num) (by norm_num)]
    norm_num
  rw [getChildBoundingBoxBinary32_two]
  simp only [farNode, CoverageMap.new, BoundingBox.new, hs, hh, hc]

theorem containsBinary32_farNode :
    (farNode.getChildBoundingBoxBinary32 2).containsBinary32 farNode._myBoundingBox.topHalf =
      true := by
  have h1 : binary32 ((2 : ℚ) ^ 30 + 64) = 2 ^ 30 := binary32_far 64 (by norm_num) (by norm_num)
  have h2 : binary32 ((2 : ℚ) ^ 30 + 32) = 2 ^ 30 := binary32_far 32 (by norm_num) (by norm_num)
  have h3 : (0 : ℚ) + 1 / 2 + 1 / 2 = 1 / 2 + 1 / 2 := by norm_num
  rw [getChildBoundingBoxBinary32_farNode]
  simp only [BoundingBox.containsBinary32, BoundingBox.topHalf, farNode, CoverageMap.new,
    BoundingBox.new, h1, h2, h3]
  norm_num

theorem area_farNode_topHalf :
    MINIMUM_POLYGON_AREA_TO_STORE < farNode._myBoundingBox.topHalf.area := by
  have h : farNode._myBoundingBox.topHalf.area = 32 := by
    show binary32 ((64 : ℚ) * (1 / 2)) = 32
    rw [binary32_of_eq _ 1 5 (by norm_num) (by norm_num) (by norm_num)]
    norm_num
  rw [h, MINIMUM_POLYGON_AREA_TO_STORE_eq]
  norm_num

theorem farEdgesExact_ROOT_BOUNDING_BOX : ROOT_BOUNDING_BOX.FarEdgesExact := by
  have h : binary32 ((-1 : ℚ) + 2) = -1 + 2 :=
    binary32_of_eq _ 1 0 (by norm_num) (by norm_num) (by norm_num)
  exact ⟨h, h⟩

/-! ## The point at the centre of the screen in binary32 -/

/-- Half of the least positive binary32 number is a tie between 0 and that number and is
rounded to 0. -/
theorem binary32_half_least : binary32 ((2 : ℚ) ^ (-149 : ℤ) / 2) = 0 := by
  have hq : ((2 : ℚ) ^ (-149 : ℤ) / 2) = (2 : ℚ) ^ (-150 : ℤ) := by norm_num
  have hk : binary32Exponent ((2 : ℚ) ^ (-149 : ℤ) / 2) = -149 := by
    unfold binary32Exponent
    rw [hq, log_abs_eq ((2 : ℚ) ^ (-150 : ℤ)) (-150)
      (by rw [abs_of_pos (by positivity)]) (by rw [abs_of_pos (by positivity)]; norm_num)]
    norm_num
  have ht : ((2 : ℚ) ^ (-149 : ℤ) / 2) / 2 ^ (-149 : ℤ) = ((0 : ℤ) : ℚ) + 1 / 2 := by
    norm_num
  unfold binary32
  rw [hk, ht, roundHalfEven_tie_even 0 (by norm_num)]
  norm_num

theorem containsBinary32_origin (b : BoundingBox) :
    b.containsBinary32 polygonOrigin.getBoundingBox =
      (b.isSet && decide (b.corner.x ≤ 0) && decide (b.corner.y ≤ 0) &&
        decide (0 ≤ binary32 (b.corner.x + b.size.x)) &&
        decide (0 ≤ binary32 (b.corner.y + b.size.y))) := by
  have h : binary32 ((0 : ℚ) + 0) = 0 := by rw [add_zero, binary32_zero]
  simp only [BoundingBox.containsBinary32, polygonOrigin, square, BoundingBox.new, h]

/-- A node with corner (-s,-s) and size (s,s) whose half size is a binary32 number passes the
point (0,0) on to its quadrant 3, the node with corner (-s/2,-s/2) and size (s/2,s/2). -/
theorem originNode_descend (E : Externals) (s : ℚ) (manage : Bool) (hs : 0 < s)
    (h1 : binary32 (s / 2) = s / 2) (h2 : binary32 (-s + s / 2) = -(s / 2)) :
    CoverageMap.checkMapBinary32 E 0 (originNode s manage) polygonOrigin true = none ∧
    ∀ fuel, CoverageMap.checkMapBinary32 E (fuel + 1) (originNode s manage) polygonOrigin true =
      match CoverageMap.checkMapBinary32 E fuel (originNode (s / 2) manage) polygonOrigin
          true with
      | some (result, child) => some (result, (originNode s manage).setChild 3 (some child))
      | none => none := by
  have h0 : binary32 (-s + s) = 0 := by rw [neg_add_cancel, binary32_zero]
  have h3 : binary32 (-(s / 2) + s / 2) = 0 := by rw [neg_add_cancel, binary32_zero]
  have hg : ((originNode s manage)._isRoot ||
      (originNode s manage)._myBoundingBox.containsBinary32 polygonOrigin.getBoundingBox) =
      true := by
    rw [containsBinary32_origin]
    simp only [originNode, CoverageMap.new, BoundingBox.new, h0]
    simp [hs.le]
  have hc : (originNode s manage).findChildBinary32 polygonOrigin.getBoundingBox = some 3 := by
    rw [findChildBinary32_eq, getChildBoundingBoxBinary32_zero, getChildBoundingBoxBinary32_one,
      getChildBoundingBoxBinary32_two, getChildBoundingBoxBinary32_three]
    simp only [containsBinary32_origin]
    simp only [originNode, CoverageMap.new, BoundingBox.new, h1, h2, h3]
    have hn : ¬ (0 : ℚ) ≤ -(s / 2) := by linarith
    have hp : (0 : ℚ) ≤ s / 2 := by linarith
    simp [hn, hp, hs.le]
  have hch : (originNode s manage).childOrNewBinary32 3 = originNode (s / 2) manage := by
    unfold CoverageMap.childOrNewBinary32
    rw [originNode, CoverageMap.getChild_new, getChildBoundingBoxBinary32_three]
    simp only [CoverageMap.new, BoundingBox.new, h1, h2, originNode]
  have hd := checkMapBinary32_descend E (originNode s manage) polygonOrigin true 3 rfl hg
    (CoverageMap.getRegion_new_polygons _ _ _) hc
  rw [hch] at hd
  exact hd

/-- A node with corner (-s,-s) and size (s,s) whose half size is rounded to 0 has four
quadrants of size 0 at its corner, none of which contains the point (0,0): the call ends
here, and nothing is stored because the area 0 is not above the minimum. -/
theorem originNode_here (E : Externals) (s : ℚ) (manage : Bool) (fuel : Nat) (hs : 0 < s)
    (h1 : binary32 (s / 2) = 0) (h2 : binary32 (-s + 0) = -s) :
    CoverageMap.checkMapBinary32 E fuel (originNode s manage) polygonOrigin true =
      some (NOT_STORED, originNode s manage) := by
  have h0 : binary32 (-s + s) = 0 := by rw [neg_add_cancel, binary32_zero]
  have hg : ((originNode s manage)._isRoot ||
      (originNode s manage)._myBoundingBox.containsBinary32 polygonOrigin.getBoundingBox) =
      true := by
    rw [containsBinary32_origin]
    simp only [originNode, CoverageMap.new, BoundingBox.new, h0]
    simp [hs.le]
  have hc : (originNode s manage).findChildBinary32 polygonOrigin.getBoundingBox = none := by
    rw [findChildBinary32_eq, getChildBoundingBoxBinary32_zero, getChildBoundingBoxBinary32_one,
      getChildBoundingBoxBinary32_two, getChildBoundingBoxBinary32_three]
    simp only [containsBinary32_origin]
    simp only [originNode, CoverageMap.new, BoundingBox.new, h1, h2]
    have hn : ¬ (0 : ℚ) ≤ -s := by linarith
    simp [hn]
  have ha : ¬ polygonOrigin.getBoundingBox.area > MINIMUM_POLYGON_AREA_TO_STORE := by
    have h : polygonOrigin.getBoundingBox.area = 0 := by
      simp [BoundingBox.area, polygonOrigin, square, BoundingBox.new, binary32_zero]
    rw [h]
    exact not_lt.mpr (le_of_lt MINIMUM_POLYGON_AREA_TO_STORE_pos)
  rw [checkMapBinary32_here_of_empty E fuel _ polygonOrigin true rfl hg
    (CoverageMap.getRegion_new_polygons _ _ _) hc]
  unfold CoverageMap.storeHere
  rw [if_pos rfl, if_neg ha]

/-- The descent in binary32 for the point (0,0) from the node with corner (-2^-n,-2^-n) and
size (2^-n,2^-n): it ends at the node of size 2^-149, whose half size is rounded to 0, after
exactly `149 - n` further levels. -/
theorem checkMapBinary32_originNode (E : Externals) (manage : Bool) :
    ∀ (j n : Nat), n + j = 149 →
      (∃ m', CoverageMap.checkMapBinary32 E j (originNode ((2 : ℚ) ^ (-(n : ℤ))) manage)
        polygonOrigin true = some (NOT_STORED, m')) ∧
      ∀ f, f < j → CoverageMap.checkMapBinary32 E f (originNode ((2 : ℚ) ^ (-(n : ℤ))) manage)
        polygonOrigin true = none := by
  intro j
  induction j with
  | zero =>
    intro n hn
    have hn' : n = 149 := by omega
    subst hn'
    refine ⟨⟨_, originNode_here E _ manage 0 (by positivity) binary32_half_least ?_⟩, ?_⟩
    · rw [add_zero]
      have := binary32_dyadic (-1) (-149) (by norm_num) (by norm_num)
      simpa using this
    · intro f hf
      omega
  | succ j ih =>
    intro n hn
    have hs : (0 : ℚ) < 2 ^ (-(n : ℤ)) := by positivity
    have hhalf : (2 : ℚ) ^ (-(n : ℤ)) / 2 = 2 ^ (-((n + 1 : ℕ) : ℤ)) := by
      push_cast
      rw [neg_add, zpow_add₀ (by norm_num)]
      norm_num
      ring
    have h1 : binary32 ((2 : ℚ) ^ (-(n : ℤ)) / 2) = 2 ^ (-(n : ℤ)) / 2 := by
      rw [hhalf]
      have := binary32_dyadic 1 (-((n + 1 : ℕ) : ℤ)) (by norm_num) (by push_cast; omega)
      simpa using this
    have h2 : binary32 (-(2 : ℚ) ^ (-(n : ℤ)) + 2 ^ (-(n : ℤ)) / 2) =
        -(2 ^ (-(n : ℤ)) / 2) := by
      have e : -(2 : ℚ) ^ (-(n : ℤ)) + 2 ^ (-(n : ℤ)) / 2 = -(2 ^ (-(n : ℤ)) / 2) := by ring
      rw [e, hhalf]
      have := binary32_dyadic (-1) (-((n + 1 : ℕ) : ℤ)) (by norm_num) (by push_cast; omega)
      simpa using this
    obtain ⟨hz, hstep⟩ := originNode_descend E _ manage hs h1 h2
    obtain ⟨⟨m', hm'⟩, hnone⟩ := ih (n + 1) (by omega)
    rw [← hhalf] at hm' hnone
    refine ⟨⟨(originNode ((2 : ℚ) ^ (-(n : ℤ))) manage).setChild 3 (some m'), ?_⟩, ?_⟩
    · rw [hstep j, hm']
    · intro f hf
      cases f with
      | zero => exact hz
      | succ f =>
        rw [hstep f, hnone f (by omega)]

theorem checkMapBinary32_freshRoot_polygonOrigin (E : Externals) :
    (∃ m', CoverageMap.checkMapBinary32 E 150 freshRoot polygonOrigin true =
      some (NOT_STORED, m')) ∧
    CoverageMap.checkMapBinary32 E 149 freshRoot polygonOrigin true = none := by
  have h1 : binary32 ((2 : ℚ) / 2) = 1 := by
    rw [binary32_of_eq _ 1 0 (by norm_num) (by norm_num) (by norm_num)]
    norm_num
  have h0 : binary32 ((-1 : ℚ) + 1) = 0 := by
    rw [neg_add_cancel, binary32_zero]
  have hg : (freshRoot._isRoot ||
      freshRoot._myBoundingBox.containsBinary32 polygonOrigin.getBoundingBox) = true := rfl
  have hc : freshRoot.findChildBinary32 polygonOrigin.getBoundingBox = some 0 := by
    rw [findChildBinary32_eq, getChildBoundingBoxBinary32_zero]
    simp only [containsBinary32_origin]
    simp only [freshRoot, CoverageMap.new, ROOT_BOUNDING_BOX, BoundingBox.new, h1, h0]
    simp
  have hch : freshRoot.childOrNewBinary32 0 = originNode ((2 : ℚ) ^ (-((0 : ℕ) : ℤ))) false := by
    unfold CoverageMap.childOrNewBinary32
    rw [freshRoot, CoverageMap.getChild_new, getChildBoundingBoxBinary32_zero]
    simp only [CoverageMap.new, ROOT_BOUNDING_BOX, BoundingBox.new, h1, originNode]
    norm_num
  have hd := checkMapBinary32_descend E freshRoot polygonOrigin true 0 rfl hg
    (CoverageMap.getRegion_new_polygons _ _ _) hc
  rw [hch] at hd
  obtain ⟨⟨m', hm'⟩, hnone⟩ := checkMapBinary32_originNode E false 149 0 (by norm_num)
  refine ⟨⟨freshRoot.setChild 0 (some m'), ?_⟩, ?_⟩
  · rw [hd.2 149, hm']
  · rw [hd.2 148, hnone 148 (by norm_num)]

/-! ## The calls in binary32 -/

namespace CoverageRegion

theorem checkRegionBinary32_unchanged (E : Externals) (r : CoverageRegion)
    (p : VoxelProjectedPolygon) (box : BoundingBox) (s : Bool)
    (h : (checkRegionBinary32 E r p box s).1 ≠ STORED) :
    (checkRegionBinary32 E r p box s).2 = r := by
  unfold checkRegionBinary32 at h ⊢
  split_ifs at h ⊢ <;> first | rfl | exact checkRegionLoop_unchanged E r p s _ h

theorem checkRegionBinary32_stored (E : Externals) (r : CoverageRegion)
    (p : VoxelProjectedPolygon) (box : BoundingBox) (s : Bool)
    (h : (checkRegionBinary32 E r p box s).1 = STORED) :
    (checkRegionBinary32 E r p box s).2 = storeInArray E r p ∧ s = true ∧
      MINIMUM_POLYGON_AREA_TO_STORE < p.getBoundingBox.area := by
  unfold checkRegionBinary32 at h ⊢
  split_ifs at h ⊢
  · exact checkRegionLoop_stored E r p s _ h

end CoverageRegion

namespace CoverageMap

theorem checkHalfBinary32_unchanged (E : Externals) (m : CoverageMap)
    (p : VoxelProjectedPolygon) (box : BoundingBox) (s : Bool)
    (h : (checkHalfBinary32 E m p box s).1 ≠ STORED) :
    (checkHalfBinary32 E m p box s).2.1 = m := by
  unfold checkHalfBinary32 at h ⊢
  split_ifs at h ⊢ <;>
    first
    | rfl
    | (simp only at h ⊢
       rw [CoverageRegion.checkRegionBinary32_unchanged E _ p box s h]
       cases m
       rfl)

theorem checkHalfBinary32_stored (E : Externals) (m : CoverageMap)
    (p : VoxelProjectedPolygon) (box : BoundingBox) (s : Bool)
    (h : (checkHalfBinary32 E m p box s).1 = STORED) :
    (checkHalfBinary32 E m p box s).2.1 =
        m.setRegion (checkHalfBinary32 E m p box s).2.2
          ((m.getRegion (checkHalfBinary32 E m p box s).2.2).storeInArray E p) ∧
      s = true ∧ MINIMUM_POLYGON_AREA_TO_STORE < p.getBoundingBox.area := by
  unfold checkHalfBinary32 at h ⊢
  split_ifs at h ⊢ <;>
    (simp only at h ⊢
     obtain ⟨h1, h2, h3⟩ := CoverageRegion.checkRegionBinary32_stored E _ p box s h
     rw [h1]
     exact ⟨rfl, h2, h3⟩)

theorem checkRegionsBinary32_unchanged (E : Externals) (m : CoverageMap)
    (p : VoxelProjectedPolygon) (box : BoundingBox) (s : Bool)
    (h : (checkRegionsBinary32 E m p box s).1 ≠ STORED) :
    (checkRegionsBinary32 E m p box s).2.1 = m := by
  unfold checkRegionsBinary32 at h ⊢
  simp only at h ⊢
  split_ifs at h ⊢ with hd
  · have hh : (checkHalfBinary32 E m p box s).1 ≠ STORED := by
      intro hs
      simp [hs] at hd
    rw [checkHalfBinary32_unchanged E m p box s hh] at h ⊢
    simp only at h ⊢
    rw [CoverageRegion.checkRegionBinary32_unchanged E _ p box s h]
    cases m
    rfl
  · exact checkHalfBinary32_unchanged E m p box s h

theorem checkRegionsBinary32_stored (E : Externals) (m : CoverageMap)
    (p : VoxelProjectedPolygon) (box : BoundingBox) (s : Bool)
    (h : (checkRegionsBinary32 E m p box s).1 = STORED) :
    (∃ name, (checkRegionsBinary32 E m p box s).2.1 =
        m.setRegion name ((m.getRegion name).storeInArray E p)) ∧
      s = true ∧ MINIMUM_POLYGON_AREA_TO_STORE < p.getBoundingBox.area := by
  unfold checkRegionsBinary32 at h ⊢
  simp only at h ⊢
  split_ifs at h ⊢ with hd
  · have hh : (checkHalfBinary32 E m p box s).1 ≠ STORED := by
      intro hs
      simp [hs] at hd
    rw [checkHalfBinary32_unchanged E m p box s hh] at h ⊢
    simp only at h ⊢
    obtain ⟨h1, h2, h3⟩ := CoverageRegion.checkRegionBinary32_stored E _ p box s h
    rw [h1]
    exact ⟨⟨REMAINDER, rfl⟩, h2, h3⟩
  · obtain ⟨h1, h2, h3⟩ := checkHalfBinary32_stored E m p box s h
    exact ⟨⟨_, h1⟩, h2, h3⟩

theorem checkMapBinary32_not_in_view (E : Externals) (fuel : Nat) (m : CoverageMap)
    (p : VoxelProjectedPolygon) (s : Bool) (h : p.getAllInView = false) :
    checkMapBinary32 E fuel m p s = some (DOESNT_FIT, m) := by
  rw [checkMapBinary32_eq]
  simp [h]

theorem checkMapBinary32_not_fits (E : Externals) (fuel : Nat) (m : CoverageMap)
    (p : VoxelProjectedPolygon) (s : Bool) (h : m.fitsBinary32 p = false) :
    checkMapBinary32 E fuel m p s = some (DOESNT_FIT, m) := by
  simp only [fitsBinary32] at h
  rw [checkMapBinary32_eq]
  simp only [h]
  split_ifs <;> first | rfl | contradiction

theorem checkMapBinary32_decided (E : Externals) (fuel : Nat) (m : CoverageMap)
    (p : VoxelProjectedPolygon) (s : Bool) (hv : p.getAllInView = true)
    (hf : m.fitsBinary32 p = true)
    (hd : (checkRegionsBinary32 E m p p.getBoundingBox s).1 = STORED ∨
      (checkRegionsBinary32 E m p p.getBoundingBox s).1 = OCCLUDED) :
    checkMapBinary32 E fuel m p s = some ((checkRegionsBinary32 E m p p.getBoundingBox s).1,
      (checkRegionsBinary32 E m p p.getBoundingBox s).2.1) := by
  simp only [fitsBinary32] at hf
  have hd' : (decide ((checkRegionsBinary32 E m p p.getBoundingBox s).1 = STORED) ||
      decide ((checkRegionsBinary32 E m p p.getBoundingBox s).1 = OCCLUDED)) = true := by
    simpa using hd
  rw [checkMapBinary32_eq]
  simp only [hv, hf, hd']
  simp

theorem checkMapBinary32_here (E : Externals) (fuel : Nat) (m : CoverageMap)
    (p : VoxelProjectedPolygon) (s : Bool) (hv : p.getAllInView = true)
    (hf : m.fitsBinary32 p = true)
    (h1 : (checkRegionsBinary32 E m p p.getBoundingBox s).1 ≠ STORED)
    (h2 : (checkRegionsBinary32 E m p p.getBoundingBox s).1 ≠ OCCLUDED)
    (hc : m.findChildBinary32 p.getBoundingBox = none) :
    checkMapBinary32 E fuel m p s =
      some (storeHere E m (checkHalfBinary32 E m p p.getBoundingBox s).2.2 p s) := by
  simp only [fitsBinary32] at hf
  have hm := checkRegionsBinary32_unchanged E m p p.getBoundingBox s h1
  have hn := checkRegionsBinary32_target E m p p.getBoundingBox s
  have hd' : (decide ((checkRegionsBinary32 E m p p.getBoundingBox s).1 = STORED) ||
      decide ((checkRegionsBinary32 E m p p.getBoundingBox s).1 = OCCLUDED)) = false := by
    simp [h1, h2]
  rw [checkMapBinary32_eq]
  simp only [hv, hf, hd', hm, hn, hc]
  simp

theorem checkMapBinary32_descend_zero (E : Externals) (m : CoverageMap)
    (p : VoxelProjectedPolygon) (s : Bool) (hv : p.getAllInView = true)
    (hf : m.fitsBinary32 p = true)
    (h1 : (checkRegionsBinary32 E m p p.getBoundingBox s).1 ≠ STORED)
    (h2 : (checkRegionsBinary32 E m p p.getBoundingBox s).1 ≠ OCCLUDED)
    (i : Nat) (hc : m.findChildBinary32 p.getBoundingBox = some i) :
    checkMapBinary32 E 0 m p s = none := by
  simp only [fitsBinary32] at hf
  have hm := checkRegionsBinary32_unchanged E m p p.getBoundingBox s h1
  have hd' : (decide ((checkRegionsBinary32 E m p p.getBoundingBox s).1 = STORED) ||
      decide ((checkRegionsBinary32 E m p p.getBoundingBox s).1 = OCCLUDED)) = false := by
    simp [h1, h2]
  rw [checkMapBinary32_eq]
  simp only [hv, hf, hd', hm, hc]
  simp

theorem checkMapBinary32_descend_succ (E : Externals) (fuel : Nat) (m : CoverageMap)
    (p : VoxelProjectedPolygon) (s : Bool) (hv : p.getAllInView = true)
    (hf : m.fitsBinary32 p = true)
    (h1 : (checkRegionsBinary32 E m p p.getBoundingBox s).1 ≠ STORED)
    (h2 : (checkRegionsBinary32 E m p p.getBoundingBox s).1 ≠ OCCLUDED)
    (i : Nat) (hc : m.findChildBinary32 p.getBoundingBox = some i) :
    checkMapBinary32 E (fuel + 1) m p s =
      match checkMapBinary32 E fuel (m.childOrNewBinary32 i) p s with
      | some (result, child) => some (result, m.setChild i (some child))
      | none => none := by
  simp only [fitsBinary32] at hf
  have hm := checkRegionsBinary32_unchanged E m p p.getBoundingBox s h1
  have hd' : (decide ((checkRegionsBinary32 E m p p.getBoundingBox s).1 = STORED) ||
      decide ((checkRegionsBinary32 E m p p.getBoundingBox s).1 = OCCLUDED)) = false := by
    simp [h1, h2]
  rw [checkMapBinary32_eq]
  simp only [hv, hf, hd', hm, hc]
  rfl

/-- The ways a call of `checkMap` in binary32 returns: rejected before any check; decided by
the regions of the node; passed on to a child; or settled here because no quadrant contains
the polygon. -/
theorem checkMapBinary32_cases (E : Externals) (fuel : Nat) (m m' : CoverageMap)
    (p : VoxelProjectedPolygon) (s : Bool) (r : CoverageMapStorageResult)
    (h : checkMapBinary32 E fuel m p s = some (r, m')) :
    (r = DOESNT_FIT ∧ m' = m ∧ (p.getAllInView = false ∨ m.fitsBinary32 p = false)) ∨
    (p.getAllInView = true ∧ m.fitsBinary32 p = true ∧ (r = STORED ∨ r = OCCLUDED) ∧
      (checkRegionsBinary32 E m p p.getBoundingBox s).1 = r ∧
      (checkRegionsBinary32 E m p p.getBoundingBox s).2.1 = m') ∨
    (p.getAllInView = true ∧ m.fitsBinary32 p = true ∧
      (checkRegionsBinary32 E m p p.getBoundingBox s).1 ≠ STORED ∧
      (checkRegionsBinary32 E m p p.getBoundingBox s).1 ≠ OCCLUDED ∧
      ∃ i n child, m.findChildBinary32 p.getBoundingBox = some i ∧ fuel = n + 1 ∧
        checkMapBinary32 E n (m.childOrNewBinary32 i) p s = some (r, child) ∧
        m' = m.setChild i (some child)) ∨
    (p.getAllInView = true ∧ m.fitsBinary32 p = true ∧
      (checkRegionsBinary32 E m p p.getBoundingBox s).1 ≠ STORED ∧
      (checkRegionsBinary32 E m p p.getBoundingBox s).1 ≠ OCCLUDED ∧
      m.findChildBinary32 p.getBoundingBox = none ∧
      storeHere E m (checkHalfBinary32 E m p p.getBoundingBox s).2.2 p s = (r, m')) := by
  by_cases hv : p.getAllInView = true
  swap
  · have hv' : p.getAllInView = false := by simpa using hv
    rw [checkMapBinary32_not_in_view E fuel m p s hv'] at h
    simp only [Option.some.injEq, Prod.mk.injEq] at h
    exact Or.inl ⟨h.1.symm, h.2.symm, Or.inl hv'⟩
  by_cases hf : m.fitsBinary32 p = true
  swap
  · have hf' : m.fitsBinary32 p = false := by simpa using hf
    rw [checkMapBinary32_not_fits E fuel m p s hf'] at h
    simp only [Option.some.injEq, Prod.mk.injEq] at h
    exact Or.inl ⟨h.1.symm, h.2.symm, Or.inr hf'⟩
  by_cases hd : (checkRegionsBinary32 E m p p.getBoundingBox s).1 = STORED ∨
      (checkRegionsBinary32 E m p p.getBoundingBox s).1 = OCCLUDED
  · rw [checkMapBinary32_decided E fuel m p s hv hf hd] at h
    simp only [Option.some.injEq, Prod.mk.injEq] at h
    refine Or.inr (Or.inl ⟨hv, hf, ?_, h.1, h.2⟩)
    rw [← h.1]
    exact hd
  have h1 : (checkRegionsBinary32 E m p p.getBoundingBox s).1 ≠ STORED :=
    fun hh => hd (Or.inl hh)
  have h2 : (checkRegionsBinary32 E m p p.getBoundingBox s).1 ≠ OCCLUDED :=
    fun hh => hd (Or.inr hh)
  cases hc : m.findChildBinary32 p.getBoundingBox with
  | none =>
    rw [checkMapBinary32_here E fuel m p s hv hf h1 h2 hc] at h
    simp only [Option.some.injEq] at h
    exact Or.inr (Or.inr (Or.inr ⟨hv, hf, h1, h2, rfl, h⟩))
  | some i =>
    cases fuel with
    | zero =>
      rw [checkMapBinary32_descend_zero E m p s hv hf h1 h2 i hc] at h
      cases h
    | succ n =>
      rw [checkMapBinary32_descend_succ E n m p s hv hf h1 h2 i hc] at h
      cases hr : checkMapBinary32 E n (m.childOrNewBinary32 i) p s with
      | none =>
        rw [hr] at h
        cases h
      | some x =>
        obtain ⟨r0, child⟩ := x
        rw [hr] at h
        simp only [Option.some.injEq, Prod.mk.injEq] at h
        refine Or.inr (Or.inr (Or.inl ⟨hv, hf, h1, h2, i, n, child, rfl, rfl, ?_, h.2.symm⟩))
        rw [← h.1]
        exact hr

/-- Induction along the descent of `checkMap` in binary32. -/
theorem checkMapBinary32_induction (E : Externals) (p : VoxelProjectedPolygon) (s : Bool)
    (P : Nat → CoverageMap → CoverageMapStorageResult → CoverageMap → Prop)
    (reject : ∀ fuel m, (p.getAllInView = false ∨ m.fitsBinary32 p = false) →
      P fuel m DOESNT_FIT m)
    (decided : ∀ fuel m, p.getAllInView = true → m.fitsBinary32 p = true →
      ((checkRegionsBinary32 E m p p.getBoundingBox s).1 = STORED ∨
        (checkRegionsBinary32 E m p p.getBoundingBox s).1 = OCCLUDED) →
      P fuel m (checkRegionsBinary32 E m p p.getBoundingBox s).1
        (checkRegionsBinary32 E m p p.getBoundingBox s).2.1)
    (descend : ∀ fuel m i r child, p.getAllInView = true → m.fitsBinary32 p = true →
      (checkRegionsBinary32 E m p p.getBoundingBox s).1 ≠ STORED →
      (checkRegionsBinary32 E m p p.getBoundingBox s).1 ≠ OCCLUDED →
      m.findChildBinary32 p.getBoundingBox = some i →
      checkMapBinary32 E fuel (m.childOrNewBinary32 i) p s = some (r, child) →
      P fuel (m.childOrNewBinary32 i) r child → P (fuel + 1) m r (m.setChild i (some child)))
    (here : ∀ fuel m, p.getAllInView = true → m.fitsBinary32 p = true →
      (checkRegionsBinary32 E m p p.getBoundingBox s).1 ≠ STORED →
      (checkRegionsBinary32 E m p p.getBoundingBox s).1 ≠ OCCLUDED →
      m.findChildBinary32 p.getBoundingBox = none →
      P fuel m (storeHere E m (checkHalfBinary32 E m p p.getBoundingBox s).2.2 p s).1
        (storeHere E m (checkHalfBinary32 E m p p.getBoundingBox s).2.2 p s).2) :
    ∀ (fuel : Nat) (m m' : CoverageMap) (r : CoverageMapStorageResult),
      checkMapBinary32 E fuel m p s = some (r, m') → P fuel m r m' := by
  intro fuel
  induction fuel with
  | zero =>
    intro m m' r h
    rcases checkMapBinary32_cases E 0 m m' p s r h with
      ⟨h0, hm, h1⟩ | ⟨hv, hf, hd, h1, h2⟩ | ⟨_, _, _, _, i, n, child, _, hn, _, _⟩ |
      ⟨hv, hf, h1, h2, hc, h6⟩
    · rw [h0, hm]
      exact reject 0 m h1
    · rw [← h1, ← h2]
      refine decided 0 m hv hf ?_
      rw [h1]
      exact hd
    · cases hn
    · have := here 0 m hv hf h1 h2 hc
      rw [h6] at this
      exact this
  | succ k ih =>
    intro m m' r h
    rcases checkMapBinary32_cases E (k + 1) m m' p s r h with
      ⟨h0, hm, h1⟩ | ⟨hv, hf, hd, h1, h2⟩ | ⟨hv, hf, h1, h2, i, n, child, hc, hn, hrec, hm⟩ |
      ⟨hv, hf, h1, h2, hc, h6⟩
    · rw [h0, hm]
      exact reject (k + 1) m h1
    · rw [← h1, ← h2]
      refine decided (k + 1) m hv hf ?_
      rw [h1]
      exact hd
    · have hn' : n = k := by omega
      subst hn'
      rw [hm]
      exact descend n m i r child hv hf h1 h2 hc hrec (ih _ _ _ hrec)
    · have := here (k + 1) m hv hf h1 h2 hc
      rw [h6] at this
      exact this

end CoverageMap

/-! ## What a call in binary32 leaves unchanged -/

namespace CoverageMap

theorem storedAt_childOrNewBinary32 (m : CoverageMap) (i : Nat) (rest : List Nat)
    (name : RegionName) :
    (m.childOrNewBinary32 i).storedAt rest name = m.storedAt (i :: rest) name := by
  rw [storedAt_cons]
  unfold childOrNewBinary32
  cases m.getChild i with
  | none => exact storedAt_new _ _ _ _ _
  | some c => rfl

theorem totalPolygonCount_childOrNewBinary32 (m : CoverageMap) (i : Nat) :
    (m.childOrNewBinary32 i).totalPolygonCount = m.childTotal i := by
  unfold childOrNewBinary32 childTotal
  cases m.getChild i with
  | none =>
    rw [totalPolygonCountOpt_none]
    exact totalPolygonCount_new _ _ _
  | some c => rw [totalPolygonCountOpt_some]

/-- A call in binary32 that does not return `STORED` leaves the stored polygons of every
region as they were; the nodes it creates hold none. -/
theorem checkMapBinary32_storedAt_of_ne_stored (E : Externals) (p : VoxelProjectedPolygon)
    (s : Bool) (fuel : Nat) (m m' : CoverageMap) (r : CoverageMapStorageResult)
    (h : checkMapBinary32 E fuel m p s = some (r, m')) :
    r ≠ STORED → ∀ path name, m'.storedAt path name = m.storedAt path name := by
  refine checkMapBinary32_induction E p s
    (fun _ m r m' => r ≠ STORED → ∀ path name, m'.storedAt path name = m.storedAt path name)
    ?_ ?_ ?_ ?_ fuel m m' r h
  · intro _ m _ _ path name
    rfl
  · intro _ m _ _ _ hr path name
    rw [checkRegionsBinary32_unchanged E m p _ s hr]
  · intro _ m i r child _ _ _ _ hc _ ih hr path name
    have hi := (findChildBinary32_some m _ i hc).1
    rw [storedAt_setChild m i hi child path name]
    cases path with
    | nil => rfl
    | cons j rest =>
      simp only
      split_ifs with hj
      · rw [ih hr rest name, storedAt_childOrNewBinary32, hj]
      · rfl
  · intro _ m _ _ _ _ _ hr path name
    rw [storeHere_unchanged E m _ p s hr]

/-- A call in binary32 adds one to the number of polygons stored in the tree when it returns
`STORED` and leaves that number as it was otherwise. -/
theorem checkMapBinary32_totalPolygonCount (E : Externals) (p : VoxelProjectedPolygon)
    (s : Bool) (fuel : Nat) (m m' : CoverageMap) (r : CoverageMapStorageResult)
    (h : checkMapBinary32 E fuel m p s = some (r, m')) :
    m'.totalPolygonCount = m.totalPolygonCount + (if r = STORED then 1 else 0) := by
  refine checkMapBinary32_induction E p s
    (fun _ m r m' =>
      m'.totalPolygonCount = m.totalPolygonCount + (if r = STORED then 1 else 0))
    ?_ ?_ ?_ ?_ fuel m m' r h
  · intro _ m _
    simp
  · intro _ m _ _ hd
    by_cases hs : (checkRegionsBinary32 E m p p.getBoundingBox s).1 = STORED
    · obtain ⟨⟨name, hm⟩, _, _⟩ := checkRegionsBinary32_stored E m p _ s hs
      rw [hm, hs, totalPolygonCount_store]
      simp
    · rw [checkRegionsBinary32_unchanged E m p _ s hs]
      simp [hs]
  · intro _ m i r child _ _ _ _ hc _ ih
    have hi := (findChildBinary32_some m _ i hc).1
    have h1 := totalPolygonCount_setChild m i hi child
    rw [ih, totalPolygonCount_childOrNewBinary32] at h1
    omega
  · intro _ m _ _ _ _ _
    by_cases hs : (storeHere E m (checkHalfBinary32 E m p p.getBoundingBox s).2.2 p s).1 = STORED
    · rw [(storeHere_stored E m _ p s hs).1, hs, totalPolygonCount_store]
      simp
    · rw [storeHere_unchanged E m _ p s hs]
      simp [hs]

/-- A call in binary32 returns `STORED` only when `storeIt` is set and the area is above the
minimum. -/
theorem checkMapBinary32_stored (E : Externals) (p : VoxelProjectedPolygon)
    (s : Bool) (fuel : Nat) (m m' : CoverageMap) (r : CoverageMapStorageResult)
    (h : checkMapBinary32 E fuel m p s = some (r, m')) :
    r = STORED → s = true ∧ MINIMUM_POLYGON_AREA_TO_STORE < p.getBoundingBox.area := by
  refine checkMapBinary32_induction E p s
    (fun _ _ r _ => r = STORED → s = true ∧
      MINIMUM_POLYGON_AREA_TO_STORE < p.getBoundingBox.area)
    ?_ ?_ ?_ ?_ fuel m m' r h
  · intro _ m _ h0
    cases h0
  · intro _ m _ _ _ hs
    exact (checkRegionsBinary32_stored E m p _ s hs).2
  · intro _ m i r child _ _ _ _ _ _ ih hs
    exact ih hs
  · intro _ m _ _ _ _ _ hs
    exact (storeHere_stored E m _ p s hs).2

theorem wellFormedBinary32_here {m : CoverageMap} (h : m.WellFormedBinary32) :
    ∀ i c, m.getChild i = some c → c._myBoundingBox = m.getChildBoundingBoxBinary32 i :=
  h [] m rfl

theorem wellFormedBinary32_child {m c : CoverageMap} {i : Nat} (h : m.WellFormedBinary32)
    (hg : m.getChild i = some c) : c.WellFormedBinary32 := by
  intro path n hn
  refine h (i :: path) n ?_
  rw [nodeAt_cons, hg]
  exact hn

theorem wellFormedBinary32_intro {m : CoverageMap}
    (h : ∀ i c, m.getChild i = some c → c._myBoundingBox = m.getChildBoundingBoxBinary32 i)
    (hc : ∀ i c, m.getChild i = some c → c.WellFormedBinary32) : m.WellFormedBinary32 := by
  intro path n hn
  cases path with
  | nil =>
    simp only [nodeAt, Option.some.injEq] at hn
    rw [← hn]
    exact h
  | cons i rest =>
    rw [nodeAt_cons] at hn
    cases hg : m.getChild i with
    | none => rw [hg] at hn; cases hn
    | some c =>
      rw [hg] at hn
      exact hc i c hg rest n hn

theorem wellFormedBinary32_new (box : BoundingBox) (isRoot manage : Bool) :
    (CoverageMap.new box isRoot manage).WellFormedBinary32 := by
  refine wellFormedBinary32_intro ?_ ?_ <;>
  · intro i c hg
    rw [getChild_new] at hg
    cases hg

theorem wellFormedBinary32_childOrNew {m : CoverageMap} (h : m.WellFormedBinary32) (i : Nat) :
    (m.childOrNewBinary32 i).WellFormedBinary32 ∧
      (m.childOrNewBinary32 i)._myBoundingBox = m.getChildBoundingBoxBinary32 i := by
  unfold childOrNewBinary32
  cases hg : m.getChild i with
  | none => exact ⟨wellFormedBinary32_new _ _ _, rfl⟩
  | some c => exact ⟨wellFormedBinary32_child h hg, wellFormedBinary32_here h i c hg⟩

theorem getChildBoundingBoxBinary32_congr (m m' : CoverageMap)
    (h : m'._myBoundingBox = m._myBoundingBox) (i : Nat) :
    m'.getChildBoundingBoxBinary32 i = m.getChildBoundingBoxBinary32 i := by
  unfold getChildBoundingBoxBinary32
  rw [h]

theorem wellFormedBinary32_setRegion {m : CoverageMap} (h : m.WellFormedBinary32)
    (name : RegionName) (r : CoverageRegion) : (m.setRegion name r).WellFormedBinary32 := by
  refine wellFormedBinary32_intro ?_ ?_
  · intro i c hg
    rw [getChild_setRegion] at hg
    rw [getChildBoundingBoxBinary32_congr m _ (myBoundingBox_setRegion m name r)]
    exact wellFormedBinary32_here h i c hg
  · intro i c hg
    rw [getChild_setRegion] at hg
    exact wellFormedBinary32_child h hg

theorem wellFormedBinary32_setChild {m c : CoverageMap} (h : m.WellFormedBinary32)
    (hc : c.WellFormedBinary32) (i : Nat) (hi : i < 4)
    (hb : c._myBoundingBox = m.getChildBoundingBoxBinary32 i) :
    (m.setChild i (some c)).WellFormedBinary32 := by
  refine wellFormedBinary32_intro ?_ ?_
  · intro j c' hg
    rw [getChild_setChild m i j (some c) hi] at hg
    rw [getChildBoundingBoxBinary32_congr m _ (myBoundingBox_setChild m i (some c))]
    split_ifs at hg with hj
    · simp only [Option.some.injEq] at hg
      rw [← hg, hj]
      exact hb
    · exact wellFormedBinary32_here h j c' hg
  · intro j c' hg
    rw [getChild_setChild m i j (some c) hi] at hg
    split_ifs at hg with hj
    · simp only [Option.some.injEq] at hg
      rw [← hg]
      exact hc
    · exact wellFormedBinary32_child h hg

/-- A call in binary32 on a tree whose children have the bounds that `getChildBoundingBox`
computes in binary32 returns such a tree, with the same root flag and the same bounds. -/
theorem checkMapBinary32_wellFormed (E : Externals) (p : VoxelProjectedPolygon) (s : Bool)
    (fuel : Nat) (m m' : CoverageMap) (r : CoverageMapStorageResult)
    (h : checkMapBinary32 E fuel m p s = some (r, m')) :
    m.WellFormedBinary32 →
      m'.WellFormedBinary32 ∧ m'._isRoot = m._isRoot ∧ m'._myBoundingBox = m._myBoundingBox := by
  refine checkMapBinary32_induction E p s
    (fun _ m _ m' => m.WellFormedBinary32 →
      m'.WellFormedBinary32 ∧ m'._isRoot = m._isRoot ∧ m'._myBoundingBox = m._myBoundingBox)
    ?_ ?_ ?_ ?_ fuel m m' r h
  · intro _ m _ hw
    exact ⟨hw, rfl, rfl⟩
  · intro _ m _ _ _ hw
    by_cases hs : (checkRegionsBinary32 E m p p.getBoundingBox s).1 = STORED
    · obtain ⟨⟨name, hm⟩, _, _⟩ := checkRegionsBinary32_stored E m p _ s hs
      rw [hm]
      exact ⟨wellFormedBinary32_setRegion hw name _, isRoot_setRegion _ _ _,
        myBoundingBox_setRegion _ _ _⟩
    · rw [checkRegionsBinary32_unchanged E m p _ s hs]
      exact ⟨hw, rfl, rfl⟩
  · intro _ m i r child _ _ _ _ hc _ ih hw
    have hi := (findChildBinary32_some m _ i hc).1
    obtain ⟨hw1, hb1⟩ := wellFormedBinary32_childOrNew hw i
    obtain ⟨hw2, _, hb2⟩ := ih hw1
    exact ⟨wellFormedBinary32_setChild hw hw2 i hi (hb2.trans hb1),
      isRoot_setChild _ _ _, myBoundingBox_setChild _ _ _⟩
  · intro _ m _ _ _ _ _ hw
    by_cases hs : (storeHere E m (checkHalfBinary32 E m p p.getBoundingBox s).2.2 p s).1 = STORED
    · rw [(storeHere_stored E m _ p s hs).1]
      exact ⟨wellFormedBinary32_setRegion hw _ _, isRoot_setRegion _ _ _,
        myBoundingBox_setRegion _ _ _⟩
    · rw [storeHere_unchanged E m _ p s hs]
      exact ⟨hw, rfl, rfl⟩

/-- On a tree whose children have the bounds that `getChildBoundingBox` computes in binary32,
a polygon that is in view and passes the guard of the node is never answered `DOESNT_FIT` in
binary32. -/
theorem checkMapBinary32_ne_doesnt_fit (E : Externals) (p : VoxelProjectedPolygon) (s : Bool)
    (fuel : Nat) (m m' : CoverageMap) (r : CoverageMapStorageResult)
    (h : checkMapBinary32 E fuel m p s = some (r, m')) :
    m.WellFormedBinary32 → p.getAllInView = true → m.fitsBinary32 p = true →
      r ≠ DOESNT_FIT := by
  refine checkMapBinary32_induction E p s
    (fun _ m r _ => m.WellFormedBinary32 → p.getAllInView = true → m.fitsBinary32 p = true →
      r ≠ DOESNT_FIT)
    ?_ ?_ ?_ ?_ fuel m m' r h
  · intro _ m h1 _ hv hf
    rcases h1 with h1 | h1
    · rw [h1] at hv; cases hv
    · rw [h1] at hf; cases hf
  · intro _ m _ _ hd _ _ _
    rcases hd with hd | hd <;> rw [hd] <;> decide
  · intro _ m i r child _ _ _ _ hc _ ih hw hv _
    obtain ⟨hw1, hb1⟩ := wellFormedBinary32_childOrNew hw i
    refine ih hw1 hv ?_
    unfold fitsBinary32
    rw [hb1, (findChildBinary32_some m _ i hc).2]
    simp
  · intro _ m _ _ _ _ _ _ _ _
    unfold storeHere
    split_ifs <;> simp

end CoverageMap

/-! ## The end of the descent in binary32 -/

theorem abs_roundHalfEven_le (x : ℚ) (N : ℤ) (h1 : -(N : ℚ) ≤ x) (h2 : x ≤ N) :
    |roundHalfEven x| ≤ N := by
  rw [abs_le]
  constructor
  · apply le_roundHalfEven
    push_cast
    exact h1
  · exact roundHalfEven_le h2

/-- Rounding to binary32 is idempotent: the value of `binary32` is a binary32 number. -/
theorem binary32_idem (q : ℚ) : binary32 (binary32 q) = binary32 q := by
  by_cases h0 : q = 0
  · rw [h0, binary32_zero, binary32_zero]
  have hpos : 0 < |q| := abs_pos.mpr h0
  have hk : -149 ≤ binary32Exponent q := by
    unfold binary32Exponent
    have := le_max_right (Int.log 2 |q|) (-126)
    omega
  have hlt : |q| < (2 : ℚ) ^ (binary32Exponent q + 24) := by
    have h1 : |q| < (2 : ℚ) ^ (Int.log 2 |q| + 1) := Int.lt_zpow_succ_log_self (by norm_num) _
    have h2 : Int.log 2 |q| + 1 ≤ binary32Exponent q + 24 := by
      unfold binary32Exponent
      have := le_max_left (Int.log 2 |q|) (-126)
      omega
    exact lt_of_lt_of_le h1 (zpow_le_zpow_right₀ (by norm_num) h2)
  have h2e : (0 : ℚ) < 2 ^ binary32Exponent q := zpow_pos (by norm_num) _
  have hdiv : |q / 2 ^ binary32Exponent q| < (2 : ℚ) ^ (24 : ℕ) := by
    rw [abs_div, abs_of_pos h2e, div_lt_iff₀ h2e]
    have : (2 : ℚ) ^ (binary32Exponent q + 24) = 2 ^ (24 : ℕ) * 2 ^ binary32Exponent q := by
      rw [zpow_add₀ (by norm_num)]
      norm_num
      ring
    rw [← this]
    exact hlt
  have hn : |roundHalfEven (q / 2 ^ binary32Exponent q)| ≤ (2 : ℤ) ^ (24 : ℕ) := by
    apply abs_roundHalfEven_le
    · push_cast
      linarith [(abs_lt.mp hdiv).1]
    · push_cast
      linarith [(abs_lt.mp hdiv).2]
  show binary32 ((roundHalfEven (q / 2 ^ binary32Exponent q) : ℚ) * 2 ^ binary32Exponent q) =
    (roundHalfEven (q / 2 ^ binary32Exponent q) : ℚ) * 2 ^ binary32Exponent q
  rcases lt_or_eq_of_le hn with hlt' | heq
  · exact binary32_dyadic _ _ (by simpa using hlt') hk
  · rcases abs_eq (by norm_num : (0 : ℤ) ≤ 2 ^ (24 : ℕ)) |>.mp heq with h | h
    · have e : ((roundHalfEven (q / 2 ^ binary32Exponent q) : ℤ) : ℚ) *
          2 ^ binary32Exponent q = ((1 : ℤ) : ℚ) * 2 ^ (binary32Exponent q + 24) := by
        rw [h, zpow_add₀ (by norm_num)]
        push_cast
        ring
      rw [e]
      exact binary32_dyadic 1 _ (by norm_num) (by omega)
    · have e : ((roundHalfEven (q / 2 ^ binary32Exponent q) : ℤ) : ℚ) *
          2 ^ binary32Exponent q = ((-1 : ℤ) : ℚ) * 2 ^ (binary32Exponent q + 24) := by
        rw [h, zpow_add₀ (by norm_num)]
        push_cast
        ring
      rw [e]
      exact binary32_dyadic (-1) _ (by norm_num) (by omega)

theorem levelSize_zero : levelSize 0 = 2 := by
  norm_num [levelSize]

/-- Halving in binary32 takes the size of one level to the size of the next. -/
theorem binary32_levelSize_half (d : Nat) : binary32 (levelSize d / 2) = levelSize (d + 1) := by
  rcases Nat.lt_or_ge d 150 with h | h
  · have e : levelSize d / 2 = ((1 : ℤ) : ℚ) * 2 ^ (-(d : ℤ)) := by
      unfold levelSize
      rw [if_pos (by omega), sub_eq_add_neg, zpow_add₀ (by norm_num)]
      push_cast
      ring
    have e' : levelSize (d + 1) = ((1 : ℤ) : ℚ) * 2 ^ (-(d : ℤ)) := by
      unfold levelSize
      rw [if_pos (by omega)]
      push_cast
      rw [show (1 : ℤ) - ((d : ℤ) + 1) = -(d : ℤ) by ring]
      ring
    rw [e, e']
    exact binary32_dyadic 1 _ (by norm_num) (by omega)
  · rcases Nat.eq_or_lt_of_le h with h1 | h1
    · have e : levelSize d / 2 = (2 : ℚ) ^ (-149 : ℤ) / 2 := by
        unfold levelSize
        rw [if_pos (by omega), ← h1]
        norm_num
      have e' : levelSize (d + 1) = 0 := by
        unfold levelSize
        rw [if_neg (by omega)]
      rw [e, e']
      exact binary32_half_least
    · have e : levelSize d = 0 := by
        unfold levelSize
        rw [if_neg (by omega)]
      have e' : levelSize (d + 1) = 0 := by
        unfold levelSize
        rw [if_neg (by omega)]
      rw [e, e', zero_div, binary32_zero]

theorem levelSize_of_gt (d : Nat) (h : 150 < d) : levelSize d = 0 := by
  unfold levelSize
  rw [if_neg (by omega)]

/-- The quadrants of a node of level `d` are rectangles of level `d + 1`. -/
theorem atLevel_getChildBoundingBoxBinary32 (m : CoverageMap) (d i : Nat)
    (h : m._myBoundingBox.AtLevel d) : (m.getChildBoundingBoxBinary32 i).AtLevel (d + 1) := by
  obtain ⟨hs, hx, hy⟩ := h
  have hsx : m._myBoundingBox.size.x = levelSize d := by rw [hs]
  have hsy : m._myBoundingBox.size.y = levelSize d := by rw [hs]
  unfold CoverageMap.getChildBoundingBoxBinary32 BoundingBox.AtLevel
  simp only [BoundingBox.new, hsx, hsy, binary32_levelSize_half]
  split_ifs <;> simp only [binary32_idem, hx, hy, and_self]

/-- A rectangle of size 0 whose corner is a pair of binary32 numbers contains, in binary32, no
rectangle whose width or height is kept in binary32. -/
theorem not_containsBinary32_of_size_zero (b box : BoundingBox)
    (hs : b.size = ⟨0, 0⟩) (hx : binary32 b.corner.x = b.corner.x)
    (hy : binary32 b.corner.y = b.corner.y) (hext : box.KeepsWidthOrHeight) :
    b.containsBinary32 box = false := by
  by_contra hcon
  simp only [Bool.not_eq_false] at hcon
  have hsx : b.size.x = 0 := by rw [hs]
  have hsy : b.size.y = 0 := by rw [hs]
  simp only [BoundingBox.containsBinary32, Bool.and_eq_true, decide_eq_true_eq, hsx, hsy,
    add_zero, hx, hy] at hcon
  obtain ⟨⟨⟨⟨_, h1⟩, h2⟩, h3⟩, h4⟩ := hcon
  rcases hext with h | h <;> linarith

/-- The descent in binary32 for a rectangle whose width or height is kept in binary32 ends:
on a tree whose children have the bounds that `getChildBoundingBox` computes in binary32, at
a node of level `d`, the call returns when its fuel reaches `150 - d`. -/
theorem checkMapBinary32_returns_level (E : Externals) (p : VoxelProjectedPolygon) (s : Bool)
    (hext : p.getBoundingBox.KeepsWidthOrHeight) :
    ∀ (fuel d : Nat) (m : CoverageMap), 150 ≤ d + fuel → m.WellFormedBinary32 →
      m._myBoundingBox.AtLevel d →
      ∃ r m', CoverageMap.checkMapBinary32 E fuel m p s = some (r, m') := by
  intro fuel
  induction fuel with
  | zero =>
    intro d m hd hw hl
    by_cases hv : p.getAllInView = true
    swap
    · exact ⟨_, _, CoverageMap.checkMapBinary32_not_in_view E 0 m p s (by simpa using hv)⟩
    by_cases hf : m.fitsBinary32 p = true
    swap
    · exact ⟨_, _, CoverageMap.checkMapBinary32_not_fits E 0 m p s (by simpa using hf)⟩
    by_cases hdec : (CoverageMap.checkRegionsBinary32 E m p p.getBoundingBox s).1 = STORED ∨
        (CoverageMap.checkRegionsBinary32 E m p p.getBoundingBox s).1 = OCCLUDED
    · exact ⟨_, _, CoverageMap.checkMapBinary32_decided E 0 m p s hv hf hdec⟩
    have h1 : (CoverageMap.checkRegionsBinary32 E m p p.getBoundingBox s).1 ≠ STORED :=
      fun hh => hdec (Or.inl hh)
    have h2 : (CoverageMap.checkRegionsBinary32 E m p p.getBoundingBox s).1 ≠ OCCLUDED :=
      fun hh => hdec (Or.inr hh)
    cases hc : m.findChildBinary32 p.getBoundingBox with
    | none => exact ⟨_, _, CoverageMap.checkMapBinary32_here E 0 m p s hv hf h1 h2 hc⟩
    | some i =>
      exfalso
      obtain ⟨hcs, hcx, hcy⟩ := atLevel_getChildBoundingBoxBinary32 m d i hl
      rw [levelSize_of_gt (d + 1) (by omega)] at hcs
      have := not_containsBinary32_of_size_zero _ _ hcs hcx hcy hext
      rw [(findChildBinary32_some m _ i hc).2] at this
      cases this
  | succ n ih =>
    intro d m hd hw hl
    by_cases hv : p.getAllInView = true
    swap
    · exact ⟨_, _, CoverageMap.checkMapBinary32_not_in_view E _ m p s (by simpa using hv)⟩
    by_cases hf : m.fitsBinary32 p = true
    swap
    · exact ⟨_, _, CoverageMap.checkMapBinary32_not_fits E _ m p s (by simpa using hf)⟩
    by_cases hdec : (CoverageMap.checkRegionsBinary32 E m p p.getBoundingBox s).1 = STORED ∨
        (CoverageMap.checkRegionsBinary32 E m p p.getBoundingBox s).1 = OCCLUDED
    · exact ⟨_, _, CoverageMap.checkMapBinary32_decided E _ m p s hv hf hdec⟩
    have h1 : (CoverageMap.checkRegionsBinary32 E m p p.getBoundingBox s).1 ≠ STORED :=
      fun hh => hdec (Or.inl hh)
    have h2 : (CoverageMap.checkRegionsBinary32 E m p p.getBoundingBox s).1 ≠ OCCLUDED :=
      fun hh => hdec (Or.inr hh)
    cases hc : m.findChildBinary32 p.getBoundingBox with
    | none => exact ⟨_, _, CoverageMap.checkMapBinary32_here E _ m p s hv hf h1 h2 hc⟩
    | some i =>
      obtain ⟨hw1, hb1⟩ := CoverageMap.wellFormedBinary32_childOrNew hw i
      have hl1 : (m.childOrNewBinary32 i)._myBoundingBox.AtLevel (d + 1) := by
        rw [hb1]
        exact atLevel_getChildBoundingBoxBinary32 m d i hl
      obtain ⟨r, c', hrec⟩ := ih (d + 1) (m.childOrNewBinary32 i) (by omega) hw1 hl1
      rw [CoverageMap.checkMapBinary32_descend_succ E n m p s hv hf h1 h2 i hc, hrec]
      exact ⟨_, _, rfl⟩

theorem atLevel_ROOT_BOUNDING_BOX : ROOT_BOUNDING_BOX.AtLevel 0 := by
  refine ⟨?_, binary32_neg_one, binary32_neg_one⟩
  rw [levelSize_zero]
  rfl

/-! ## Nodes at which binary32 rounds nothing -/

theorem fitsBinary32_of_exact (m : CoverageMap) (p : VoxelProjectedPolygon)
    (hb : m._myBoundingBox.FarEdgesExact) (hp : p.getBoundingBox.FarEdgesExact) :
    m.fitsBinary32 p = m.fits p := by
  unfold CoverageMap.fitsBinary32 CoverageMap.fits
  rw [containsBinary32_of_exact _ _ hb hp]

theorem childOrNewBinary32_of_exact (m : CoverageMap) (hq : m.QuadrantsExact) (i : Nat) :
    m.childOrNewBinary32 i = m.childOrNew i := by
  unfold CoverageMap.childOrNewBinary32 CoverageMap.childOrNew
  rw [getChildBoundingBoxBinary32_of_exact m hq]

theorem quadrantsExact_quadrantChild : quadrantChild.QuadrantsExact := by
  have h1 : binary32 ((1 : ℚ) / 2) = 1 / 2 :=
    binary32_of_eq _ 1 (-1) (by norm_num) (by norm_num) (by norm_num)
  have h2 : binary32 ((0 : ℚ) + 1 / 2) = 0 + 1 / 2 :=
    binary32_of_eq _ 1 (-1) (by norm_num) (by norm_num) (by norm_num)
  have h3 : binary32 ((-1 : ℚ) + 1 / 2) = -1 + 1 / 2 :=
    binary32_of_eq _ (-1) (-1) (by norm_num) (by norm_num) (by norm_num)
  have e : quadrantChild._myBoundingBox = BoundingBox.new ⟨0, -1⟩ ⟨1, 1⟩ := by
    show freshRoot.getChildBoundingBox 1 = _
    rw [CoverageMap.getChildBoundingBox_one]
    norm_num [freshRoot, CoverageMap.new, ROOT_BOUNDING_BOX, BoundingBox.new]
  unfold CoverageMap.QuadrantsExact
  rw [e]
  exact ⟨h1, h1, h2, h3⟩

theorem farEdgesExact_quadrantChild : quadrantChild._myBoundingBox.FarEdgesExact :=
  farEdgesExact_freshRoot_quadrants 1 (by decide)

theorem quadrantsExact_quadrantGrandchild : quadrantGrandchild.QuadrantsExact := by
  have h1 : binary32 ((1 / 2 : ℚ) / 2) = 1 / 2 / 2 :=
    binary32_of_eq _ 1 (-2) (by norm_num) (by norm_num) (by norm_num)
  have h2 : binary32 ((0 : ℚ) + 1 / 2 / 2) = 0 + 1 / 2 / 2 :=
    binary32_of_eq _ 1 (-2) (by norm_num) (by norm_num) (by norm_num)
  have h3 : binary32 ((-1 : ℚ) + 1 / 2 / 2) = -1 + 1 / 2 / 2 :=
    binary32_of_eq _ (-3) (-2) (by norm_num) (by norm_num) (by norm_num)
  have e : quadrantGrandchild._myBoundingBox = BoundingBox.new ⟨0, -1⟩ ⟨1 / 2, 1 / 2⟩ := by
    show quadrantChild.getChildBoundingBox 0 = _
    rw [CoverageMap.getChildBoundingBox_zero]
    show BoundingBox.new (freshRoot.getChildBoundingBox 1).corner _ = _
    rw [CoverageMap.getChildBoundingBox_one]
    norm_num [quadrantChild, freshRoot, CoverageMap.new, ROOT_BOUNDING_BOX, BoundingBox.new,
      CoverageMap.getChildBoundingBox_one]
  unfold CoverageMap.QuadrantsExact
  rw [e]
  exact ⟨h1, h1, h2, h3⟩

theorem farEdgesExact_quadrantGrandchild :
    quadrantGrandchild._myBoundingBox.FarEdgesExact :=
  farEdgesExact_quadrants quadrantChild quadrantsExact_quadrantChild
    farEdgesExact_quadrantChild 0 (by decide)

theorem farEdgesExact_polygonSpot : polygonSpot.getBoundingBox.FarEdgesExact := by
  have h1 : binary32 ((127 / 256 : ℚ) + 1 / 128) = 127 / 256 + 1 / 128 :=
    binary32_of_eq _ 129 (-8) (by norm_num) (by norm_num) (by norm_num)
  have h2 : binary32 ((-129 / 256 : ℚ) + 1 / 128) = -129 / 256 + 1 / 128 :=
    binary32_of_eq _ (-127) (-8) (by norm_num) (by norm_num) (by norm_num)
  exact ⟨h1, h2⟩

/-- A query for polygon Q on the fresh root in binary32 descends two levels, as in exact
arithmetic, and answers `NOT_STORED`; with fuel for one level it does not return. -/
theorem checkMapBinary32_freshRoot_polygonQ (fuel : Nat) :
    CoverageMap.checkMapBinary32 boxExternals (fuel + 2) freshRoot polygonQ false =
      some (NOT_STORED, rootAfterQ) ∧
    CoverageMap.checkMapBinary32 boxExternals 1 freshRoot polygonQ false = none := by
  have hg1 : (quadrantChild._isRoot ||
      quadrantChild._myBoundingBox.containsBinary32 polygonQ.getBoundingBox) = true := by
    have := fitsBinary32_of_exact quadrantChild polygonQ farEdgesExact_quadrantChild
      farEdgesExact_polygonQ
    rw [fits_quadrantChild_polygonQ] at this
    exact this
  have hg2 : (quadrantGrandchild._isRoot ||
      quadrantGrandchild._myBoundingBox.containsBinary32 polygonQ.getBoundingBox) = true := by
    have := fitsBinary32_of_exact quadrantGrandchild polygonQ farEdgesExact_quadrantGrandchild
      farEdgesExact_polygonQ
    rw [fits_quadrantGrandchild_polygonQ] at this
    exact this
  have hc1 : quadrantChild.findChildBinary32 polygonQ.getBoundingBox = some 0 := by
    rw [findChildBinary32_of_exact quadrantChild _ quadrantsExact_quadrantChild
      (farEdgesExact_quadrants quadrantChild quadrantsExact_quadrantChild
        farEdgesExact_quadrantChild) farEdgesExact_polygonQ]
    exact findChild_quadrantChild_polygonQ
  have hc2 : quadrantGrandchild.findChildBinary32 polygonQ.getBoundingBox = none := by
    rw [findChildBinary32_of_exact quadrantGrandchild _ quadrantsExact_quadrantGrandchild
      (farEdgesExact_quadrants quadrantGrandchild quadrantsExact_quadrantGrandchild
        farEdgesExact_quadrantGrandchild) farEdgesExact_polygonQ]
    exact findChild_quadrantGrandchild_polygonQ
  have c0 : freshRoot.childOrNewBinary32 1 = quadrantChild := by
    rw [childOrNewBinary32_of_exact freshRoot quadrantsExact_freshRoot]
    exact CoverageMap.childOrNew_new _ _ _ _
  have c1 : quadrantChild.childOrNewBinary32 0 = quadrantGrandchild := by
    rw [childOrNewBinary32_of_exact quadrantChild quadrantsExact_quadrantChild]
    exact CoverageMap.childOrNew_new _ _ _ _
  have d0 := checkMapBinary32_descend boxExternals freshRoot polygonQ false 1 rfl rfl
    (CoverageMap.getRegion_new_polygons _ _ _) findChildBinary32_freshRoot_polygonQ
  have d1 := checkMapBinary32_descend boxExternals quadrantChild polygonQ false 0 rfl hg1
    (CoverageMap.getRegion_new_polygons _ _ _) hc1
  rw [c0] at d0
  rw [c1] at d1
  have e2 : ∀ f, CoverageMap.checkMapBinary32 boxExternals f quadrantGrandchild polygonQ false =
      some (NOT_STORED, quadrantGrandchild) := by
    intro f
    rw [checkMapBinary32_here_of_empty boxExternals f quadrantGrandchild polygonQ false rfl hg2
      (CoverageMap.getRegion_new_polygons _ _ _) hc2]
    rfl
  constructor
  · rw [d0.2 (fuel + 1), d1.2 fuel, e2 fuel]
    rfl
  · rw [d0.2 0, d1.1]

/-- Polygon `polygonSpot` on the fresh root in binary32: the call descends into the child of
slot 1, which it creates, and answers `NOT_STORED`, as in exact arithmetic. -/
theorem checkMapBinary32_freshRoot_polygonSpot (fuel : Nat) :
    CoverageMap.checkMapBinary32 boxExternals (fuel + 1) freshRoot polygonSpot true =
      some (NOT_STORED, rootAfterSpot) := by
  have hf : quadrantChild.fits polygonSpot = true := by
    unfold quadrantChild
    rw [CoverageMap.fits_new,
      (CoverageMap.findChild_some _ _ _ findChild_freshRoot_polygonSpot).2]
    rfl
  have hg1 : (quadrantChild._isRoot ||
      quadrantChild._myBoundingBox.containsBinary32 polygonSpot.getBoundingBox) = true := by
    have := fitsBinary32_of_exact quadrantChild polygonSpot farEdgesExact_quadrantChild
      farEdgesExact_polygonSpot
    rw [hf] at this
    exact this
  have hc0 : freshRoot.findChildBinary32 polygonSpot.getBoundingBox = some 1 := by
    rw [findChildBinary32_of_exact freshRoot _ quadrantsExact_freshRoot
      farEdgesExact_freshRoot_quadrants farEdgesExact_polygonSpot]
    exact findChild_freshRoot_polygonSpot
  have hc1 : quadrantChild.findChildBinary32 polygonSpot.getBoundingBox = none := by
    rw [findChildBinary32_of_exact quadrantChild _ quadrantsExact_quadrantChild
      (farEdgesExact_quadrants quadrantChild quadrantsExact_quadrantChild
        farEdgesExact_quadrantChild) farEdgesExact_polygonSpot]
    exact findChild_quadrantChild_polygonSpot
  have c0 : freshRoot.childOrNewBinary32 1 = quadrantChild := by
    rw [childOrNewBinary32_of_exact freshRoot quadrantsExact_freshRoot]
    exact CoverageMap.childOrNew_new _ _ _ _
  have d0 := checkMapBinary32_descend boxExternals freshRoot polygonSpot true 1 rfl rfl
    (CoverageMap.getRegion_new_polygons _ _ _) hc0
  rw [c0] at d0
  have e1 : CoverageMap.checkMapBinary32 boxExternals fuel quadrantChild polygonSpot true =
      some (NOT_STORED, quadrantChild) := by
    rw [checkMapBinary32_here_of_empty boxExternals fuel quadrantChild polygonSpot true rfl hg1
      (CoverageMap.getRegion_new_polygons _ _ _) hc1]
    unfold CoverageMap.storeHere
    rw [if_pos rfl, if_neg (not_lt.mpr area_polygonSpot)]
  rw [d0.2 fuel, e1]
  rfl

theorem keepsWidthOrHeight_of_hasExtent (box : BoundingBox) (h : box.HasExtentBinary32) :
    box.KeepsWidthOrHeight := Or.inl h.1

theorem hasExtentBinary32_polygonSpot : polygonSpot.getBoundingBox.HasExtentBinary32 := by
  obtain ⟨h1, h2⟩ := farEdgesExact_polygonSpot
  unfold BoundingBox.HasExtentBinary32
  rw [h1, h2]
  constructor <;> norm_num [polygonSpot, square, BoundingBox.new]

/-- A call returns `STORED` only when `storeIt` is set and the area is above the minimum. -/
theorem CoverageMap.checkMap_stored (E : Externals) (p : VoxelProjectedPolygon)
    (s : Bool) (fuel : Nat) (m m' : CoverageMap) (r : CoverageMapStorageResult)
    (h : CoverageMap.checkMap E fuel m p s = some (r, m')) :
    r = STORED → s = true ∧ MINIMUM_POLYGON_AREA_TO_STORE < p.getBoundingBox.area := by
  refine CoverageMap.checkMap_induction E p s
    (fun _ _ r _ => r = STORED → s = true ∧
      MINIMUM_POLYGON_AREA_TO_STORE < p.getBoundingBox.area)
    ?_ ?_ ?_ ?_ fuel m m' r h
  · intro _ m _ h0
    cases h0
  · intro _ m _ _ _ hs
    exact (CoverageMap.checkRegions_stored E m p _ s hs).2
  · intro _ m i r child _ _ _ _ _ _ ih hs
    exact ih hs
  · intro _ m _ _ _ _ _ hs
    exact (CoverageMap.storeHere_stored E m _ p s hs).2

theorem not_keepsWidthOrHeight_polygonSpeck :
    ¬ polygonSpeck.getBoundingBox.KeepsWidthOrHeight := by
  have hfar : binary32 (polygonSpeck.getBoundingBox.corner.x +
      polygonSpeck.getBoundingBox.size.x) = -1 := binary32_speck
  have hfar' : binary32 (polygonSpeck.getBoundingBox.corner.y +
      polygonSpeck.getBoundingBox.size.y) = -1 := binary32_speck
  unfold BoundingBox.KeepsWidthOrHeight
  rw [hfar, hfar']
  norm_num [polygonSpeck, square, BoundingBox.new]

/-! ## The order of the binary32 numbers -/

/-- Rounding does not pass, from above, a multiple of a spacing that is at least the binary32
spacing at the rounded number. -/
theorem le_binary32_of_multiple (q : ℚ) (n k : ℤ) (he : binary32Exponent q ≤ k)
    (h : (n : ℚ) * 2 ^ k ≤ q) : (n : ℚ) * 2 ^ k ≤ binary32 q := by
  obtain ⟨d, hd⟩ := Int.eq_ofNat_of_zero_le (sub_nonneg.mpr he)
  have hkd : k = binary32Exponent q + d := by omega
  have hpos : (0 : ℚ) < 2 ^ binary32Exponent q := zpow_pos (by norm_num) _
  have h2 : (2 : ℚ) ^ k = 2 ^ binary32Exponent q * 2 ^ d := by
    conv_lhs => rw [hkd]
    rw [zpow_add₀ (by norm_num), zpow_natCast]
  have hm : ((n * 2 ^ d : ℤ) : ℚ) ≤ q / 2 ^ binary32Exponent q := by
    rw [le_div_iff₀ hpos]
    push_cast
    calc (n : ℚ) * 2 ^ d * 2 ^ binary32Exponent q = (n : ℚ) * 2 ^ k := by rw [h2]; ring
      _ ≤ q := h
  have hr := le_roundHalfEven hm
  unfold binary32
  calc (n : ℚ) * 2 ^ k = ((n * 2 ^ d : ℤ) : ℚ) * 2 ^ binary32Exponent q := by
        rw [h2]; push_cast; ring
    _ ≤ (roundHalfEven (q / 2 ^ binary32Exponent q) : ℚ) * 2 ^ binary32Exponent q := by
        apply mul_le_mul_of_nonneg_right _ hpos.le
        exact_mod_cast hr

/-- Rounding does not pass, from below, a multiple of a spacing that is at least the binary32
spacing at the rounded number. -/
theorem binary32_le_of_multiple (q : ℚ) (n k : ℤ) (he : binary32Exponent q ≤ k)
    (h : q ≤ (n : ℚ) * 2 ^ k) : binary32 q ≤ (n : ℚ) * 2 ^ k := by
  obtain ⟨d, hd⟩ := Int.eq_ofNat_of_zero_le (sub_nonneg.mpr he)
  have hkd : k = binary32Exponent q + d := by omega
  have hpos : (0 : ℚ) < 2 ^ binary32Exponent q := zpow_pos (by norm_num) _
  have h2 : (2 : ℚ) ^ k = 2 ^ binary32Exponent q * 2 ^ d := by
    conv_lhs => rw [hkd]
    rw [zpow_add₀ (by norm_num), zpow_natCast]
  have hm : q / 2 ^ binary32Exponent q ≤ ((n * 2 ^ d : ℤ) : ℚ) := by
    rw [div_le_iff₀ hpos]
    push_cast
    calc q ≤ (n : ℚ) * 2 ^ k := h
      _ = (n : ℚ) * 2 ^ d * 2 ^ binary32Exponent q := by rw [h2]; ring
  have hr := roundHalfEven_le hm
  unfold binary32
  calc (roundHalfEven (q / 2 ^ binary32Exponent q) : ℚ) * 2 ^ binary32Exponent q
      ≤ ((n * 2 ^ d : ℤ) : ℚ) * 2 ^ binary32Exponent q := by
        apply mul_le_mul_of_nonneg_right _ hpos.le
        exact_mod_cast hr
    _ = (n : ℚ) * 2 ^ k := by rw [h2]; push_cast; ring

theorem abs_lt_of_binary32Exponent (q : ℚ) :
    |q| < (2 : ℚ) ^ (binary32Exponent q + 24) := by
  have h1 : |q| < (2 : ℚ) ^ (Int.log 2 |q| + 1) := Int.lt_zpow_succ_log_self (by norm_num) _
  have h2 : Int.log 2 |q| + 1 ≤ binary32Exponent q + 24 := by
    unfold binary32Exponent
    have := le_max_left (Int.log 2 |q|) (-126)
    omega
  exact lt_of_lt_of_le h1 (zpow_le_zpow_right₀ (by norm_num) h2)

theorem le_abs_of_binary32Exponent (q : ℚ) (h0 : q ≠ 0) (he : -149 < binary32Exponent q) :
    (2 : ℚ) ^ (binary32Exponent q + 23) ≤ |q| := by
  have hL : binary32Exponent q + 23 = Int.log 2 |q| := by
    unfold binary32Exponent at he ⊢
    rcases max_cases (Int.log 2 |q|) (-126) with ⟨h, _⟩ | ⟨h, _⟩
    · rw [h]
      omega
    · rw [h] at he
      omega
  rw [hL]
  exact Int.zpow_log_le_self (by norm_num) (abs_pos.mpr h0)

theorem binary32Exponent_ge (q : ℚ) : -149 ≤ binary32Exponent q := by
  unfold binary32Exponent
  have := le_max_right (Int.log 2 |q|) (-126)
  omega

/-- Rounding to binary32 is monotone. -/
theorem binary32_mono {x y : ℚ} (h : x ≤ y) : binary32 x ≤ binary32 y := by
  by_cases hx0 : x = 0
  · rw [hx0, binary32_zero]
    exact binary32_nonneg (by rw [← hx0]; exact h)
  by_cases hy0 : y = 0
  · rw [hy0, binary32_zero]
    exact binary32_nonpos (by rw [← hy0]; exact h)
  rcases lt_trichotomy (binary32Exponent x) (binary32Exponent y) with hlt | heq | hgt
  · -- y lies in a higher binade than x, so that y is positive
    have hxB := abs_lt_of_binary32Exponent x
    have hyB := le_abs_of_binary32Exponent y hy0 (by have := binary32Exponent_ge x; omega)
    have hle : (2 : ℚ) ^ (binary32Exponent x + 24) ≤ 2 ^ (binary32Exponent y + 23) :=
      zpow_le_zpow_right₀ (by norm_num) (by omega)
    have hypos : 0 < y := by
      by_contra hneg
      have hy' : y ≤ 0 := not_lt.mp hneg
      rw [abs_of_nonpos hy'] at hyB
      have : -|x| ≤ x := neg_abs_le x
      linarith
    rw [abs_of_pos hypos] at hyB
    have e1 : (2 : ℚ) ^ (binary32Exponent y + 23) =
        ((2 ^ 23 : ℤ) : ℚ) * 2 ^ binary32Exponent y := by
      rw [zpow_add₀ (by norm_num)]
      push_cast
      ring
    have hy' : (2 : ℚ) ^ (binary32Exponent y + 23) ≤ binary32 y := by
      rw [e1]
      exact le_binary32_of_multiple y _ _ (le_refl _) (by rw [← e1]; exact hyB)
    have hx' : binary32 x ≤ (2 : ℚ) ^ (binary32Exponent y + 23) := by
      rw [e1]
      apply binary32_le_of_multiple x _ _ (le_of_lt hlt)
      rw [← e1]
      have : x ≤ |x| := le_abs_self x
      linarith
    exact le_trans hx' hy'
  · unfold binary32
    rw [heq]
    apply mul_le_mul_of_nonneg_right _ (le_of_lt (zpow_pos (by norm_num) _))
    have : roundHalfEven (x / 2 ^ binary32Exponent y) ≤
        roundHalfEven (y / 2 ^ binary32Exponent y) :=
      roundHalfEven_mono (div_le_div_of_nonneg_right h (le_of_lt (zpow_pos (by norm_num) _)))
    exact_mod_cast this
  · -- x lies in a higher binade than y, so that x is negative
    have hyB := abs_lt_of_binary32Exponent y
    have hxB := le_abs_of_binary32Exponent x hx0 (by have := binary32Exponent_ge y; omega)
    have hle : (2 : ℚ) ^ (binary32Exponent y + 24) ≤ 2 ^ (binary32Exponent x + 23) :=
      zpow_le_zpow_right₀ (by norm_num) (by omega)
    have hxneg : x < 0 := by
      by_contra hpos
      have hx' : 0 ≤ x := not_lt.mp hpos
      rw [abs_of_nonneg hx'] at hxB
      have : y ≤ |y| := le_abs_self y
      linarith
    rw [abs_of_neg hxneg] at hxB
    have e1 : -(2 : ℚ) ^ (binary32Exponent x + 23) =
        ((-(2 ^ 23) : ℤ) : ℚ) * 2 ^ binary32Exponent x := by
      rw [zpow_add₀ (by norm_num)]
      push_cast
      ring
    have hx' : binary32 x ≤ -(2 : ℚ) ^ (binary32Exponent x + 23) := by
      rw [e1]
      exact binary32_le_of_multiple x _ _ (le_refl _) (by rw [← e1]; linarith)
    have hy' : -(2 : ℚ) ^ (binary32Exponent x + 23) ≤ binary32 y := by
      rw [e1]
      apply le_binary32_of_multiple y _ _ (le_of_lt hgt)
      rw [← e1]
      have : -|y| ≤ y := neg_abs_le y
      linarith
    exact le_trans hx' hy'

/-! ## A stored polygon and a farther one of the same rectangle in binary32 -/

theorem explandToInclude_containsBinary32 (b box : BoundingBox) :
    (b.explandToInclude box).containsBinary32 box = true := by
  unfold BoundingBox.explandToInclude BoundingBox.containsBinary32
  split_ifs
  · simp only [Bool.true_and, Bool.and_eq_true, decide_eq_true_eq]
    refine ⟨⟨⟨min_le_left _ _, min_le_left _ _⟩, binary32_mono ?_⟩, binary32_mono ?_⟩
    · have e : min box.corner.x b.corner.x +
          (max (box.corner.x + box.size.x) (b.corner.x + b.size.x) -
            min box.corner.x b.corner.x) =
          max (box.corner.x + box.size.x) (b.corner.x + b.size.x) := by ring
      rw [e]
      exact le_max_left _ _
    · have e : min box.corner.y b.corner.y +
          (max (box.corner.y + box.size.y) (b.corner.y + b.size.y) -
            min box.corner.y b.corner.y) =
          max (box.corner.y + box.size.y) (b.corner.y + b.size.y) := by ring
      rw [e]
      exact le_max_left _ _
  · simp

namespace CoverageRegion

theorem checkRegionBinary32_occluded (E : Externals) (r : CoverageRegion)
    (p : VoxelProjectedPolygon) (box : BoundingBox) (s : Bool)
    (h : (checkRegionBinary32 E r p box s).1 = OCCLUDED) :
    ∃ S ∈ r._polygons, E.occludes S p = true ∧ S.getDistance < p.getDistance := by
  unfold checkRegionBinary32 at h
  split_ifs at h
  · exact checkRegionLoop_occluded E r p s _ h

end CoverageRegion

namespace CoverageMap

theorem checkRegionBinary32_store_then_occluded (E : Externals) (r : CoverageRegion)
    (A B : VoxelProjectedPolygon) (sB : Bool) (hr : r._polygons = [])
    (hfit : (r._isRoot || r._myBoundingBox.containsBinary32 B.getBoundingBox) = true)
    (hbox : B.getBoundingBox = A.getBoundingBox) (hocc : E.occludes A B = true)
    (hlt : A.getDistance < B.getDistance) :
    CoverageRegion.checkRegionBinary32 E (CoverageRegion.storeInArray E r A) B B.getBoundingBox
        sB = (OCCLUDED, CoverageRegion.storeInArray E r A) := by
  unfold CoverageRegion.checkRegionBinary32
  rw [CoverageRegion.storeInArray_isRoot, CoverageRegion.storeInArray_myBoundingBox, if_pos hfit,
    CoverageRegion.storeInArray_currentCoveredBounds, hbox, explandToInclude_containsBinary32,
    CoverageRegion.storeInArray_polygons, hr, insertAt_nil]
  simp [CoverageRegion.checkRegionLoop, hocc, not_le.mpr hlt]

theorem checkHalfBinary32_storeIn_eq (E E' : Externals) (m : CoverageMap)
    (p p' : VoxelProjectedPolygon) (box : BoundingBox) (s s' : Bool) :
    (checkHalfBinary32 E m p box s).2.2 = (checkHalfBinary32 E' m p' box s').2.2 := by
  unfold checkHalfBinary32
  split_ifs <;> rfl

/-- The guard of the region the tests of the halves select holds in binary32 for a polygon
that passes the guard of the node, when the remainder has the bounds and the root flag of the
node. -/
theorem storeInBinary32_fits (E : Externals) (m : CoverageMap) (p : VoxelProjectedPolygon)
    (s : Bool) (hf : m.fitsBinary32 p = true)
    (hb : m._remainder._myBoundingBox = m._myBoundingBox)
    (hr : m._remainder._isRoot = m._isRoot) :
    ((m.getRegion (checkHalfBinary32 E m p p.getBoundingBox s).2.2)._isRoot ||
      (m.getRegion (checkHalfBinary32 E m p p.getBoundingBox s).2.2)._myBoundingBox.containsBinary32
        p.getBoundingBox) = true := by
  unfold checkHalfBinary32
  split_ifs with h1 h2 h3 h4
  · simp [getRegion, h1]
  · simp [getRegion, h2]
  · simp [getRegion, h3]
  · simp [getRegion, h4]
  · simp only [getRegion, hb, hr]
    exact hf

theorem checkRegionsBinary32_after_store (E : Externals) (m : CoverageMap)
    (B : VoxelProjectedPolygon) (sB : Bool) (r' : CoverageRegion)
    (hb : r'._myBoundingBox =
      (m.getRegion (checkHalfBinary32 E m B B.getBoundingBox sB).2.2)._myBoundingBox)
    (hocc : CoverageRegion.checkRegionBinary32 E r' B B.getBoundingBox sB = (OCCLUDED, r')) :
    (checkRegionsBinary32 E (m.setRegion (checkHalfBinary32 E m B B.getBoundingBox sB).2.2 r') B
        B.getBoundingBox sB).1 = OCCLUDED ∧
    (checkRegionsBinary32 E (m.setRegion (checkHalfBinary32 E m B B.getBoundingBox sB).2.2 r') B
        B.getBoundingBox sB).2.1 =
      m.setRegion (checkHalfBinary32 E m B B.getBoundingBox sB).2.2 r' := by
  have hfst : (checkRegionsBinary32 E
      (m.setRegion (checkHalfBinary32 E m B B.getBoundingBox sB).2.2 r') B
        B.getBoundingBox sB).1 = OCCLUDED := by
    unfold checkHalfBinary32 at hb ⊢
    split_ifs at hb ⊢ with h1 h2 h3 h4
    · simp only [getRegion] at hb
      simp [checkRegionsBinary32, checkHalfBinary32, setRegion, hb, h1, hocc]
    · simp only [getRegion] at hb
      simp [checkRegionsBinary32, checkHalfBinary32, setRegion, hb, h1, h2, hocc]
    · simp only [getRegion] at hb
      simp [checkRegionsBinary32, checkHalfBinary32, setRegion, hb, h1, h2, h3, hocc]
    · simp only [getRegion] at hb
      simp [checkRegionsBinary32, checkHalfBinary32, setRegion, hb, h1, h2, h3, h4, hocc]
    · simp [checkRegionsBinary32, checkHalfBinary32, setRegion, h1, h2, h3, h4, hocc]
  refine ⟨hfst, ?_⟩
  apply checkRegionsBinary32_unchanged
  rw [hfst]
  simp

theorem fitsBinary32_setRegion (m : CoverageMap) (name : RegionName) (r : CoverageRegion)
    (p : VoxelProjectedPolygon) : (m.setRegion name r).fitsBinary32 p = m.fitsBinary32 p := by
  cases name <;> rfl

theorem fitsBinary32_congr (m : CoverageMap) (p q : VoxelProjectedPolygon)
    (h : q.getBoundingBox = p.getBoundingBox) : m.fitsBinary32 q = m.fitsBinary32 p := by
  unfold fitsBinary32
  rw [h]

/-- In binary32 a polygon stored at a node whose regions are empty, because no quadrant
contains it, occludes every farther polygon of the same bounding rectangle that it
occludes. -/
theorem checkMapBinary32_store_here_then_occluded (E : Externals) (A : VoxelProjectedPolygon)
    (fuel : Nat) (m : CoverageMap)
    (hv : A.getAllInView = true) (ha : MINIMUM_POLYGON_AREA_TO_STORE < A.getBoundingBox.area)
    (hf : m.fitsBinary32 A = true) (he : ∀ name, (m.getRegion name)._polygons = [])
    (hb : m._remainder._myBoundingBox = m._myBoundingBox)
    (hr : m._remainder._isRoot = m._isRoot)
    (hc : m.findChildBinary32 A.getBoundingBox = none) :
    ∃ m1, checkMapBinary32 E fuel m A true = some (STORED, m1) ∧
      ∀ B sB fuelB, B.getBoundingBox = A.getBoundingBox → B.getAllInView = true →
        E.occludes A B = true → A.getDistance < B.getDistance →
        checkMapBinary32 E fuelB m1 B sB = some (OCCLUDED, m1) := by
  obtain ⟨_, h1, h2⟩ := checkRegionsBinary32_of_empty E m A A.getBoundingBox true he
  refine ⟨m.setRegion (checkHalfBinary32 E m A A.getBoundingBox true).2.2
    ((m.getRegion (checkHalfBinary32 E m A A.getBoundingBox true).2.2).storeInArray E A), ?_, ?_⟩
  · rw [checkMapBinary32_here E fuel m A true hv hf h1 h2 hc]
    simp [storeHere, ha]
  · intro B sB fuelB hbox hvB hocc hlt
    have hn : (checkHalfBinary32 E m A A.getBoundingBox true).2.2 =
        (checkHalfBinary32 E m B B.getBoundingBox sB).2.2 := by
      rw [hbox]
      exact checkHalfBinary32_storeIn_eq E E m A B _ true sB
    have hfit := storeInBinary32_fits E m A true hf hb hr
    rw [hn, ← hbox] at hfit
    have hreg := checkRegionBinary32_store_then_occluded E
      (m.getRegion (checkHalfBinary32 E m B B.getBoundingBox sB).2.2) A B sB (he _) hfit hbox
      hocc hlt
    have hcr := checkRegionsBinary32_after_store E m B sB _
      (CoverageRegion.storeInArray_myBoundingBox E _ A) hreg
    rw [hn]
    have hfB : (m.setRegion (checkHalfBinary32 E m B B.getBoundingBox sB).2.2
        ((m.getRegion (checkHalfBinary32 E m B B.getBoundingBox sB).2.2).storeInArray E
          A)).fitsBinary32 B = true := by
      rw [fitsBinary32_setRegion, fitsBinary32_congr m A B hbox]
      exact hf
    rw [checkMapBinary32_decided E fuelB _ B sB hvB hfB (Or.inr hcr.1), hcr.1, hcr.2]

theorem fitsBinary32_new (box : BoundingBox) (isRoot manage : Bool) (p : VoxelProjectedPolygon) :
    (CoverageMap.new box isRoot manage).fitsBinary32 p =
      (isRoot || box.containsBinary32 p.getBoundingBox) := rfl

theorem childOrNewBinary32_new (box : BoundingBox) (isRoot manage : Bool) (i : Nat) :
    (CoverageMap.new box isRoot manage).childOrNewBinary32 i =
      CoverageMap.new ((CoverageMap.new box isRoot manage).getChildBoundingBoxBinary32 i) false
        manage := by
  unfold childOrNewBinary32
  rw [getChild_new]
  rfl

theorem fitsBinary32_setChild (m : CoverageMap) (i : Nat) (c : Option CoverageMap)
    (p : VoxelProjectedPolygon) : (m.setChild i c).fitsBinary32 p = m.fitsBinary32 p := by
  match i with
  | 0 | 1 | 2 | 3 => rfl
  | (k + 4) => rfl

theorem checkRegionsBinary32_setChild_fst (E : Externals) (m : CoverageMap) (i : Nat)
    (c : Option CoverageMap) (p : VoxelProjectedPolygon) (box : BoundingBox) (s : Bool) :
    (checkRegionsBinary32 E (m.setChild i c) p box s).1 =
      (checkRegionsBinary32 E m p box s).1 := by
  match i with
  | 0 | 1 | 2 | 3 =>
    simp only [checkRegionsBinary32, checkHalfBinary32, setChild]
    split_ifs <;> rfl
  | (k + 4) => rfl

theorem getChildBoundingBoxBinary32_setChild (m : CoverageMap) (i : Nat)
    (c : Option CoverageMap) (j : Nat) :
    (m.setChild i c).getChildBoundingBoxBinary32 j = m.getChildBoundingBoxBinary32 j := by
  match i with
  | 0 | 1 | 2 | 3 => rfl
  | (k + 4) => rfl

theorem findChildBinary32_setChild (m : CoverageMap) (i : Nat) (c : Option CoverageMap)
    (box : BoundingBox) : (m.setChild i c).findChildBinary32 box = m.findChildBinary32 box := by
  unfold findChildBinary32
  simp only [getChildBoundingBoxBinary32_setChild]

theorem childOrNewBinary32_setChild (m : CoverageMap) (i : Nat) (hi : i < 4)
    (c : CoverageMap) : (m.setChild i (some c)).childOrNewBinary32 i = c := by
  unfold childOrNewBinary32
  rw [getChild_setChild m i i (some c) hi]
  simp

/-! ### More fuel changes nothing in binary32 -/

theorem checkMapBinary32_add (E : Externals) (p : VoxelProjectedPolygon) (s : Bool)
    (fuel : Nat) (m m' : CoverageMap) (r : CoverageMapStorageResult)
    (h : checkMapBinary32 E fuel m p s = some (r, m')) :
    ∀ k, checkMapBinary32 E (fuel + k) m p s = some (r, m') := by
  refine checkMapBinary32_induction E p s
    (fun fuel m r m' => ∀ k, checkMapBinary32 E (fuel + k) m p s = some (r, m'))
    ?_ ?_ ?_ ?_ fuel m m' r h
  · intro fuel m h1 k
    rcases h1 with h1 | h1
    · exact checkMapBinary32_not_in_view E _ m p s h1
    · exact checkMapBinary32_not_fits E _ m p s h1
  · intro fuel m hv hf hd k
    exact checkMapBinary32_decided E _ m p s hv hf hd
  · intro fuel m i r child hv hf h1 h2 hc _ ih k
    have e : fuel + 1 + k = (fuel + k) + 1 := by omega
    rw [e, checkMapBinary32_descend_succ E (fuel + k) m p s hv hf h1 h2 i hc, ih k]
  · intro fuel m hv hf h1 h2 hc k
    exact checkMapBinary32_here E _ m p s hv hf h1 h2 hc

theorem checkMapBinary32_mono (E : Externals) (p : VoxelProjectedPolygon) (s : Bool)
    (fuel fuel' : Nat) (m m' : CoverageMap) (r : CoverageMapStorageResult)
    (h : checkMapBinary32 E fuel m p s = some (r, m')) (hle : fuel ≤ fuel') :
    checkMapBinary32 E fuel' m p s = some (r, m') := by
  have := checkMapBinary32_add E p s fuel m m' r h (fuel' - fuel)
  rwa [Nat.add_sub_cancel' hle] at this

end CoverageMap

namespace CoverageMap

/-- In binary32, on a freshly constructed node of level `d`, a polygon with area above the
minimum whose width or height is kept is stored when the fuel reaches `150 - d`, and in the
tree this leaves every farther polygon of the same bounding rectangle that the stored one
occludes is answered `OCCLUDED`, the tree staying as it is. -/
theorem checkMapBinary32_new_store_then_occluded (E : Externals) (A : VoxelProjectedPolygon)
    (hv : A.getAllInView = true) (ha : MINIMUM_POLYGON_AREA_TO_STORE < A.getBoundingBox.area)
    (hext : A.getBoundingBox.KeepsWidthOrHeight) :
    ∀ (fuel d : Nat) (box : BoundingBox) (isRoot manage : Bool),
      (isRoot || box.containsBinary32 A.getBoundingBox) = true →
      box.AtLevel d → 150 ≤ d + fuel →
      ∃ m1, checkMapBinary32 E fuel (CoverageMap.new box isRoot manage) A true =
          some (STORED, m1) ∧
        ∀ B sB, B.getBoundingBox = A.getBoundingBox → B.getAllInView = true →
          E.occludes A B = true → A.getDistance < B.getDistance →
          checkMapBinary32 E fuel m1 B sB = some (OCCLUDED, m1) := by
  intro fuel
  induction fuel with
  | zero =>
    intro d box isRoot manage hfit0 hl hd
    have hfit : (CoverageMap.new box isRoot manage).fitsBinary32 A = true := hfit0
    cases hc : (CoverageMap.new box isRoot manage).findChildBinary32 A.getBoundingBox with
    | none =>
      obtain ⟨m1, h1, h2⟩ := checkMapBinary32_store_here_then_occluded E A 0 _ hv ha hfit
        (getRegion_new_polygons box isRoot manage) rfl rfl hc
      exact ⟨m1, h1, fun B sB => h2 B sB 0⟩
    | some i =>
      exfalso
      obtain ⟨hcs, hcx, hcy⟩ :=
        atLevel_getChildBoundingBoxBinary32 (CoverageMap.new box isRoot manage) d i hl
      rw [levelSize_of_gt (d + 1) (by omega)] at hcs
      have := not_containsBinary32_of_size_zero _ _ hcs hcx hcy hext
      rw [(findChildBinary32_some _ _ i hc).2] at this
      cases this
  | succ n ih =>
    intro d box isRoot manage hfit0 hl hd
    have hfit : (CoverageMap.new box isRoot manage).fitsBinary32 A = true := hfit0
    cases hc : (CoverageMap.new box isRoot manage).findChildBinary32 A.getBoundingBox with
    | none =>
      obtain ⟨m1, h1, h2⟩ := checkMapBinary32_store_here_then_occluded E A (n + 1) _ hv ha hfit
        (getRegion_new_polygons box isRoot manage) rfl rfl hc
      exact ⟨m1, h1, fun B sB => h2 B sB (n + 1)⟩
    | some i =>
      obtain ⟨hi, hcon⟩ := findChildBinary32_some _ _ i hc
      have he := getRegion_new_polygons box isRoot manage
      obtain ⟨_, h1, h2⟩ := checkRegionsBinary32_of_empty E (CoverageMap.new box isRoot manage)
        A A.getBoundingBox true he
      obtain ⟨c1, hc1, hc2⟩ :=
        ih (d + 1) ((CoverageMap.new box isRoot manage).getChildBoundingBoxBinary32 i)
          false manage (by rw [hcon]; rfl)
          (atLevel_getChildBoundingBoxBinary32 (CoverageMap.new box isRoot manage) d i hl)
          (by omega)
      refine ⟨(CoverageMap.new box isRoot manage).setChild i (some c1), ?_, ?_⟩
      · rw [checkMapBinary32_descend_succ E n _ A true hv hfit h1 h2 i hc,
          childOrNewBinary32_new, hc1]
      · intro B sB hbox hvB hocc hlt
        obtain ⟨_, h1B, h2B⟩ := checkRegionsBinary32_of_empty E
          (CoverageMap.new box isRoot manage) B B.getBoundingBox sB he
        rw [checkMapBinary32_descend_succ E n _ B sB hvB
          (by rw [fitsBinary32_setChild, fitsBinary32_congr _ A B hbox]; exact hfit)
          (by rw [checkRegionsBinary32_setChild_fst]; exact h1B)
          (by rw [checkRegionsBinary32_setChild_fst]; exact h2B)
          i (by rw [findChildBinary32_setChild, hbox]; exact hc),
          childOrNewBinary32_setChild _ i hi c1, hc2 B sB hbox hvB hocc hlt]
        simp only [setChild_setChild]

theorem checkHalfBinary32_occluded (E : Externals) (m : CoverageMap)
    (p : VoxelProjectedPolygon) (box : BoundingBox) (s : Bool)
    (h : (checkHalfBinary32 E m p box s).1 = OCCLUDED) :
    ∃ name, ∃ S ∈ (m.getRegion name)._polygons,
      E.occludes S p = true ∧ S.getDistance < p.getDistance := by
  unfold checkHalfBinary32 at h
  split_ifs at h
  · exact ⟨TOP_HALF, CoverageRegion.checkRegionBinary32_occluded E _ p box s h⟩
  · exact ⟨BOTTOM_HALF, CoverageRegion.checkRegionBinary32_occluded E _ p box s h⟩
  · exact ⟨LEFT_HALF, CoverageRegion.checkRegionBinary32_occluded E _ p box s h⟩
  · exact ⟨RIGHT_HALF, CoverageRegion.checkRegionBinary32_occluded E _ p box s h⟩

theorem checkRegionsBinary32_occluded (E : Externals) (m : CoverageMap)
    (p : VoxelProjectedPolygon) (box : BoundingBox) (s : Bool)
    (h : (checkRegionsBinary32 E m p box s).1 = OCCLUDED) :
    ∃ name, ∃ S ∈ (m.getRegion name)._polygons,
      E.occludes S p = true ∧ S.getDistance < p.getDistance := by
  unfold checkRegionsBinary32 at h
  simp only at h
  split_ifs at h with hd
  · have hh : (checkHalfBinary32 E m p box s).1 ≠ STORED := by
      intro hs
      simp [hs] at hd
    rw [checkHalfBinary32_unchanged E m p box s hh] at h
    exact ⟨REMAINDER, CoverageRegion.checkRegionBinary32_occluded E _ p box s h⟩
  · exact checkHalfBinary32_occluded E m p box s h

/-- In binary32 an `OCCLUDED` verdict comes from a polygon stored in the tree that occludes
the submitted one and is strictly nearer. -/
theorem checkMapBinary32_occluded_stored (E : Externals) (p : VoxelProjectedPolygon)
    (s : Bool) (fuel : Nat) (m m' : CoverageMap) (r : CoverageMapStorageResult)
    (h : checkMapBinary32 E fuel m p s = some (r, m')) :
    r = OCCLUDED →
      ∃ path name S, S ∈ m.storedAt path name ∧ E.occludes S p = true ∧
        S.getDistance < p.getDistance := by
  refine checkMapBinary32_induction E p s
    (fun _ m r _ => r = OCCLUDED →
      ∃ path name S, S ∈ m.storedAt path name ∧ E.occludes S p = true ∧
        S.getDistance < p.getDistance)
    ?_ ?_ ?_ ?_ fuel m m' r h
  · intro _ m _ h0
    cases h0
  · intro _ m _ _ _ h1
    obtain ⟨name, S, hS, hocc⟩ := checkRegionsBinary32_occluded E m p _ s h1
    exact ⟨[], name, S, hS, hocc⟩
  · intro _ m i r child _ _ _ _ _ _ ih hr
    obtain ⟨path, name, S, hS, hocc⟩ := ih hr
    rw [storedAt_childOrNewBinary32] at hS
    exact ⟨i :: path, name, S, hS, hocc⟩
  · intro _ m _ _ _ _ _ h7
    rcases storeHere_fst E m (checkHalfBinary32 E m p p.getBoundingBox s).2.2 p s with h8 | h8 <;>
      rw [h7] at h8 <;> cases h8

/-- The polygons stored in the tree after a call in binary32 are the submitted one and those
stored before. -/
theorem checkMapBinary32_mem_storedAt (E : Externals) (p : VoxelProjectedPolygon) (s : Bool)
    (fuel : Nat) (m m' : CoverageMap) (r : CoverageMapStorageResult)
    (h : checkMapBinary32 E fuel m p s = some (r, m')) :
    ∀ path name S, S ∈ m'.storedAt path name → S = p ∨ S ∈ m.storedAt path name := by
  refine checkMapBinary32_induction E p s
    (fun _ m _ m' =>
      ∀ path name S, S ∈ m'.storedAt path name → S = p ∨ S ∈ m.storedAt path name)
    ?_ ?_ ?_ ?_ fuel m m' r h
  · intro _ m _ path name S hS
    exact Or.inr hS
  · intro _ m _ _ hd path name S hS
    by_cases hs : (checkRegionsBinary32 E m p p.getBoundingBox s).1 = STORED
    · obtain ⟨⟨n0, hm⟩, _, _⟩ := checkRegionsBinary32_stored E m p _ s hs
      rw [hm] at hS
      cases path with
      | nil =>
        rw [storedAt_nil, getRegion_setRegion] at hS
        split_ifs at hS with hn
        · rw [CoverageRegion.mem_storeInArray] at hS
          rw [storedAt_nil, hn]
          exact hS
        · exact Or.inr hS
      | cons j rest =>
        rw [storedAt_cons, getChild_setRegion] at hS
        rw [storedAt_cons]
        exact Or.inr hS
    · rw [checkRegionsBinary32_unchanged E m p _ s hs] at hS
      exact Or.inr hS
  · intro _ m i r child _ _ _ _ hc _ ih path name S hS
    have hi := (findChildBinary32_some m _ i hc).1
    rw [storedAt_setChild m i hi child path name] at hS
    cases path with
    | nil => exact Or.inr hS
    | cons j rest =>
      simp only at hS
      split_ifs at hS with hj
      · rcases ih rest name S hS with h1 | h1
        · exact Or.inl h1
        · rw [storedAt_childOrNewBinary32] at h1
          rw [hj]
          exact Or.inr h1
      · exact Or.inr hS
  · intro _ m _ _ _ _ _ path name S hS
    by_cases hs :
        (storeHere E m (checkHalfBinary32 E m p p.getBoundingBox s).2.2 p s).1 = STORED
    · rw [(storeHere_stored E m _ p s hs).1] at hS
      cases path with
      | nil =>
        rw [storedAt_nil, getRegion_setRegion] at hS
        split_ifs at hS with hn
        · rw [CoverageRegion.mem_storeInArray] at hS
          rw [storedAt_nil, hn]
          exact hS
        · exact Or.inr hS
      | cons j rest =>
        rw [storedAt_cons, getChild_setRegion] at hS
        rw [storedAt_cons]
        exact Or.inr hS
    · rw [storeHere_unchanged E m _ p s hs] at hS
      exact Or.inr hS

/-- In binary32, on a tree whose children have the bounds that `getChildBoundingBox` computes,
a polygon that is in view, passes the guard of the node, is submitted for storing and has
area above the minimum is answered `STORED` or `OCCLUDED`. -/
theorem checkMapBinary32_stored_or_occluded (E : Externals) (p : VoxelProjectedPolygon)
    (fuel : Nat) (m m' : CoverageMap) (r : CoverageMapStorageResult)
    (h : checkMapBinary32 E fuel m p true = some (r, m'))
    (ha : MINIMUM_POLYGON_AREA_TO_STORE < p.getBoundingBox.area) :
    m.WellFormedBinary32 → p.getAllInView = true → m.fitsBinary32 p = true →
      r = STORED ∨ r = OCCLUDED := by
  refine checkMapBinary32_induction E p true
    (fun _ m r _ => m.WellFormedBinary32 → p.getAllInView = true → m.fitsBinary32 p = true →
      r = STORED ∨ r = OCCLUDED)
    ?_ ?_ ?_ ?_ fuel m m' r h
  · intro _ m h1 _ hv hf
    rcases h1 with h1 | h1
    · rw [h1] at hv; cases hv
    · rw [h1] at hf; cases hf
  · intro _ m _ _ hd _ _ _
    exact hd
  · intro _ m i r child _ _ _ _ hc _ ih hw hv _
    obtain ⟨hw1, hb1⟩ := wellFormedBinary32_childOrNew hw i
    refine ih hw1 hv ?_
    unfold fitsBinary32
    rw [hb1, (findChildBinary32_some m _ i hc).2]
    simp
  · intro _ m _ _ _ _ _ _ _ _
    unfold storeHere
    rw [if_pos rfl, if_pos ha]
    exact Or.inl rfl

end CoverageMap

/-! ## Rectangles above the minimum area in the quadrants of the root -/

/-- On an axis on which a rectangle starts at -1 or beyond and ends, in binary32, at 1 or
before, a length of `2^-8` or more is kept when it is added to the start. -/
theorem lt_binary32_add_of_length (c w : ℚ) (h1 : -1 ≤ c) (h2 : binary32 (c + w) ≤ 1)
    (hw : 1 / 2 ^ 8 ≤ w) : c < binary32 (c + w) := by
  have h22 : binary32 2 = 2 := binary32_of_eq 2 1 1 (by norm_num) (by norm_num) (by norm_num)
  have hlt : c + w < 2 := by
    by_contra hge
    have := binary32_mono (not_lt.mp hge)
    rw [h22] at this
    linarith
  have hf1 : (⌊c * 2 ^ 8⌋ : ℚ) ≤ c * 2 ^ 8 := Int.floor_le _
  have hf2 : c * 2 ^ 8 < (⌊c * 2 ^ 8⌋ : ℚ) + 1 := Int.lt_floor_add_one _
  have hlo : (-256 : ℤ) ≤ ⌊c * 2 ^ 8⌋ := by
    apply Int.le_floor.mpr
    push_cast
    linarith
  have hhi : ⌊c * 2 ^ 8⌋ < (512 : ℤ) := by
    apply Int.floor_lt.mpr
    push_cast
    have hw0 : (0 : ℚ) < w := lt_of_lt_of_le (by norm_num) hw
    linarith
  have hg : binary32 (((⌊c * 2 ^ 8⌋ + 1 : ℤ) : ℚ) * 2 ^ (-8 : ℤ)) =
      ((⌊c * 2 ^ 8⌋ + 1 : ℤ) : ℚ) * 2 ^ (-8 : ℤ) :=
    binary32_dyadic _ (-8) (by rw [abs_lt]; constructor <;> omega) (by norm_num)
  have e8 : (2 : ℚ) ^ (-8 : ℤ) = 1 / 2 ^ 8 := by norm_num
  have hle : ((⌊c * 2 ^ 8⌋ + 1 : ℤ) : ℚ) * 2 ^ (-8 : ℤ) ≤ c + w := by
    rw [e8]
    push_cast
    have : ((⌊c * 2 ^ 8⌋ : ℚ) + 1) * (1 / 2 ^ 8) ≤ c + 1 / 2 ^ 8 := by
      have := mul_le_mul_of_nonneg_right hf1 (by norm_num : (0 : ℚ) ≤ 1 / 2 ^ 8)
      linarith
    linarith
  have hgt : c < ((⌊c * 2 ^ 8⌋ + 1 : ℤ) : ℚ) * 2 ^ (-8 : ℤ) := by
    rw [e8]
    push_cast
    have := mul_lt_mul_of_pos_right hf2 (by norm_num : (0 : ℚ) < 1 / 2 ^ 8)
    linarith
  have := binary32_mono hle
  rw [hg] at this
  linarith

/-- A rectangle of non-negative height with area above the minimum that starts at -1 or beyond
and ends, in binary32, at 1 or before on both axes keeps its width or its height. -/
theorem keepsWidthOrHeight_of_area (box : BoundingBox) (hy : 0 ≤ box.size.y)
    (ha : MINIMUM_POLYGON_AREA_TO_STORE < box.area)
    (h1 : -1 ≤ box.corner.x) (h2 : -1 ≤ box.corner.y)
    (h3 : binary32 (box.corner.x + box.size.x) ≤ 1)
    (h4 : binary32 (box.corner.y + box.size.y) ≤ 1) : box.KeepsWidthOrHeight := by
  by_contra hk
  unfold BoundingBox.KeepsWidthOrHeight at hk
  push_neg at hk
  have hw : box.size.x < 1 / 2 ^ 8 := by
    by_contra hge
    exact absurd (lt_binary32_add_of_length _ _ h1 h3 (not_lt.mp hge)) (not_lt.mpr hk.1)
  have hh : box.size.y < 1 / 2 ^ 8 := by
    by_contra hge
    exact absurd (lt_binary32_add_of_length _ _ h2 h4 (not_lt.mp hge)) (not_lt.mpr hk.2)
  have hprod : box.size.x * box.size.y ≤ 1 / 2 ^ 16 := by
    have := mul_le_mul hw.le hh.le hy (by norm_num : (0 : ℚ) ≤ 1 / 2 ^ 8)
    calc box.size.x * box.size.y ≤ 1 / 2 ^ 8 * (1 / 2 ^ 8) := this
      _ = 1 / 2 ^ 16 := by norm_num
  have h16 : binary32 ((1 : ℚ) / 2 ^ 16) = 1 / 2 ^ 16 :=
    binary32_of_eq _ 1 (-16) (by norm_num) (by norm_num) (by norm_num)
  have := binary32_mono hprod
  rw [h16] at this
  unfold BoundingBox.area at ha
  rw [MINIMUM_POLYGON_AREA_TO_STORE_eq] at ha
  have : (1 : ℚ) / 2 ^ 16 < 3054199 / 2 ^ 34 := by norm_num
  linarith

/-- A rectangle that a quadrant of a node over `ROOT_BOUNDING_BOX` contains in binary32 starts
at -1 or beyond and ends, in binary32, at 1 or before on both axes. -/
theorem containsBinary32_root_quadrant (m : CoverageMap)
    (hb : m._myBoundingBox = ROOT_BOUNDING_BOX) (box : BoundingBox) (i : Nat) (hi : i < 4)
    (hc : (m.getChildBoundingBoxBinary32 i).containsBinary32 box = true) :
    -1 ≤ box.corner.x ∧ -1 ≤ box.corner.y ∧ binary32 (box.corner.x + box.size.x) ≤ 1 ∧
      binary32 (box.corner.y + box.size.y) ≤ 1 := by
  have e1 : binary32 ((2 : ℚ) / 2) = 1 :=
    (binary32_of_eq _ 1 0 (by norm_num) (by norm_num) (by norm_num)).trans (by norm_num)
  have e2 : binary32 ((-1 : ℚ) + 1) = 0 :=
    (binary32_of_eq _ 0 0 (by norm_num) (by norm_num) (by norm_num)).trans (by norm_num)
  have e3 : binary32 ((0 : ℚ) + 1) = 1 :=
    (binary32_of_eq _ 1 0 (by norm_num) (by norm_num) (by norm_num)).trans (by norm_num)
  interval_cases i <;>
    (simp only [getChildBoundingBoxBinary32_zero, getChildBoundingBoxBinary32_one,
       getChildBoundingBoxBinary32_two, getChildBoundingBoxBinary32_three, hb,
       ROOT_BOUNDING_BOX, BoundingBox.containsBinary32, BoundingBox.new, Bool.and_eq_true,
       decide_eq_true_eq, true_and, e1, e2, e3] at hc
     obtain ⟨⟨⟨a1, a2⟩, a3⟩, a4⟩ := hc
     refine ⟨?_, ?_, ?_, ?_⟩ <;> linarith)

/-- No quadrant of a node over `ROOT_BOUNDING_BOX` contains, in binary32, a rectangle of
non-negative height with area above the minimum that keeps neither its width nor its height. -/
theorem findChildBinary32_root_of_not_keeps (m : CoverageMap)
    (hb : m._myBoundingBox = ROOT_BOUNDING_BOX) (box : BoundingBox) (hy : 0 ≤ box.size.y)
    (ha : MINIMUM_POLYGON_AREA_TO_STORE < box.area) (hk : ¬ box.KeepsWidthOrHeight) :
    m.findChildBinary32 box = none := by
  cases hc : m.findChildBinary32 box with
  | none => rfl
  | some i =>
    exfalso
    obtain ⟨hi, hcon⟩ := findChildBinary32_some m box i hc
    obtain ⟨h1, h2, h3, h4⟩ := containsBinary32_root_quadrant m hb box i hi hcon
    exact hk (keepsWidthOrHeight_of_area box hy ha h1 h2 h3 h4)

/-- The call in binary32 returns within 150 levels for every polygon of non-negative height with
area above the minimum, on a tree over `ROOT_BOUNDING_BOX` whose children have the bounds
that `getChildBoundingBox` computes in binary32. -/
theorem checkMapBinary32_returns_of_area (E : Externals) (p : VoxelProjectedPolygon) (s : Bool)
    (hy : 0 ≤ p.getBoundingBox.size.y)
    (ha : MINIMUM_POLYGON_AREA_TO_STORE < p.getBoundingBox.area)
    (fuel : Nat) (m : CoverageMap) (hfuel : 150 ≤ fuel) (hw : m.WellFormedBinary32)
    (hb : m._myBoundingBox = ROOT_BOUNDING_BOX) :
    ∃ r m', CoverageMap.checkMapBinary32 E fuel m p s = some (r, m') := by
  by_cases hext : p.getBoundingBox.KeepsWidthOrHeight
  · exact checkMapBinary32_returns_level E p s hext fuel 0 m (by omega) hw
      (by rw [hb]; exact atLevel_ROOT_BOUNDING_BOX)
  by_cases hv : p.getAllInView = true
  swap
  · exact ⟨_, _, CoverageMap.checkMapBinary32_not_in_view E _ m p s (by simpa using hv)⟩
  by_cases hf : m.fitsBinary32 p = true
  swap
  · exact ⟨_, _, CoverageMap.checkMapBinary32_not_fits E _ m p s (by simpa using hf)⟩
  by_cases hdec : (CoverageMap.checkRegionsBinary32 E m p p.getBoundingBox s).1 = STORED ∨
      (CoverageMap.checkRegionsBinary32 E m p p.getBoundingBox s).1 = OCCLUDED
  · exact ⟨_, _, CoverageMap.checkMapBinary32_decided E _ m p s hv hf hdec⟩
  have h1 : (CoverageMap.checkRegionsBinary32 E m p p.getBoundingBox s).1 ≠ STORED :=
    fun hh => hdec (Or.inl hh)
  have h2 : (CoverageMap.checkRegionsBinary32 E m p p.getBoundingBox s).1 ≠ OCCLUDED :=
    fun hh => hdec (Or.inr hh)
  exact ⟨_, _, CoverageMap.checkMapBinary32_here E _ m p s hv hf h1 h2
    (findChildBinary32_root_of_not_keeps m hb _ hy ha hext)⟩

/-! ## Polygons A and B of the spec in binary32 -/

theorem binary32_half : binary32 (1 / 2) = 1 / 2 :=
  binary32_of_eq _ 1 (-1) (by norm_num) (by norm_num) (by norm_num)

theorem findChildBinary32_freshRoot_polygonA :
    freshRoot.findChildBinary32 polygonA.getBoundingBox = none := by
  rw [findChildBinary32_eq, getChildBoundingBoxBinary32_zero, getChildBoundingBoxBinary32_one,
    getChildBoundingBoxBinary32_two, getChildBoundingBoxBinary32_three]
  norm_num [freshRoot, CoverageMap.new, ROOT_BOUNDING_BOX, BoundingBox.new,
    BoundingBox.containsBinary32, polygonA, square, binary32_one, binary32_zero, binary32_half]

theorem storeInBinary32_freshRoot_polygonA (s : Bool) :
    (CoverageMap.checkHalfBinary32 boxExternals freshRoot polygonA polygonA.getBoundingBox
      s).2.2 = REMAINDER := by
  norm_num [CoverageMap.checkHalfBinary32, freshRoot, CoverageMap.new,
    CoverageRegion.new, ROOT_BOUNDING_BOX, BoundingBox.new, BoundingBox.containsBinary32,
    BoundingBox.topHalf, BoundingBox.bottomHalf, BoundingBox.leftHalf, BoundingBox.rightHalf,
    polygonA, square, binary32_one, binary32_zero, binary32_half]

/-- Polygon A is stored in the remainder of the fresh root in binary32, as in exact
arithmetic. -/
theorem checkMapBinary32_freshRoot_polygonA (fuel : Nat) :
    CoverageMap.checkMapBinary32 boxExternals fuel freshRoot polygonA true =
      some (STORED, rootWithA) := by
  rw [checkMapBinary32_here_of_empty boxExternals fuel freshRoot polygonA true rfl rfl
    (CoverageMap.getRegion_new_polygons _ _ _) findChildBinary32_freshRoot_polygonA,
    storeInBinary32_freshRoot_polygonA]
  simp [CoverageMap.storeHere, area_polygonA, rootWithA]

/-- Polygon B is stored in the remainder of the fresh root in binary32, as in exact
arithmetic. -/
theorem checkMapBinary32_freshRoot_polygonB (fuel : Nat) :
    CoverageMap.checkMapBinary32 boxExternals fuel freshRoot polygonB true =
      some (STORED, rootWithB) := by
  have hc : freshRoot.findChildBinary32 polygonB.getBoundingBox = none :=
    findChildBinary32_freshRoot_polygonA
  have hs : (CoverageMap.checkHalfBinary32 boxExternals freshRoot polygonB
      polygonB.getBoundingBox true).2.2 = REMAINDER :=
    (CoverageMap.checkHalfBinary32_storeIn_eq _ _ _ _ _ _ _ _).trans
      (storeInBinary32_freshRoot_polygonA true)
  have ha : MINIMUM_POLYGON_AREA_TO_STORE < polygonB.getBoundingBox.area := area_polygonA
  rw [checkMapBinary32_here_of_empty boxExternals fuel freshRoot polygonB true rfl rfl
    (CoverageMap.getRegion_new_polygons _ _ _) hc, hs]
  simp [CoverageMap.storeHere, ha, rootWithB]

/-- The nearer polygon A, submitted after the farther polygon B that occludes it, is stored in
binary32 by the out-of-order branch of the remainder's `checkRegion`. -/
theorem checkMapBinary32_rootWithB_polygonA (fuel : Nat) :
    CoverageMap.checkMapBinary32 boxExternals fuel rootWithB polygonA true =
      some (STORED, rootWithAB) := by
  have h0 : (freshRoot.getRegion REMAINDER)._polygons = [] := rfl
  have h1 : rootWithB._remainder._polygons = [polygonB] := by
    show (CoverageRegion.storeInArray boxExternals (freshRoot.getRegion REMAINDER)
      polygonB)._polygons = _
    rw [CoverageRegion.storeInArray_polygons, h0, insertAt_nil]
  have h2 : rootWithB._remainder._currentCoveredBounds = polygonB.getBoundingBox := by
    show (CoverageRegion.storeInArray boxExternals (freshRoot.getRegion REMAINDER)
      polygonB)._currentCoveredBounds = _
    rw [CoverageRegion.storeInArray_currentCoveredBounds]
    rfl
  have h3 : rootWithB._remainder._isRoot = true := rfl
  have e : CoverageRegion.checkRegionBinary32 boxExternals rootWithB._remainder polygonA
      polygonA.getBoundingBox true =
      (STORED, CoverageRegion.storeInArray boxExternals rootWithB._remainder polygonA) := by
    unfold CoverageRegion.checkRegionBinary32
    rw [h3, h2, h1]
    norm_num [CoverageRegion.checkRegionLoop, boxExternals, BoundingBox.contains,
      BoundingBox.containsBinary32, polygonA, polygonB, square, BoundingBox.new,
      MINIMUM_POLYGON_AREA_TO_STORE_eq, BoundingBox.area, binary32_one]
  have hh : CoverageMap.checkHalfBinary32 boxExternals rootWithB polygonA
      polygonA.getBoundingBox true = (NOT_STORED, rootWithB, REMAINDER) := by
    norm_num [CoverageMap.checkHalfBinary32, rootWithB, CoverageMap.setRegion,
      freshRoot, CoverageMap.new, CoverageRegion.new, ROOT_BOUNDING_BOX, BoundingBox.new,
      BoundingBox.containsBinary32, BoundingBox.topHalf, BoundingBox.bottomHalf,
      BoundingBox.leftHalf, BoundingBox.rightHalf, polygonA, square, binary32_one,
      binary32_zero, binary32_half]
  have hr : CoverageMap.checkRegionsBinary32 boxExternals rootWithB polygonA
      polygonA.getBoundingBox true = (STORED, rootWithAB, REMAINDER) := by
    unfold CoverageMap.checkRegionsBinary32
    simp only [hh, e]
    rfl
  rw [CoverageMap.checkMapBinary32_decided boxExternals fuel rootWithB polygonA true rfl rfl
    (Or.inl (by rw [hr])), hr]

/-! ## The claims -/

/-- C1. Soundness of the `OCCLUDED` verdict: when `checkMap` returns `OCCLUDED`, some polygon
stored in the tree before the call occludes the submitted polygon and is strictly nearer, and
the submitted polygon is inserted nowhere: the stored polygons of every region and the total
count are as before. -/
theorem C1_occluded_sound (E : Externals) (fuel : Nat) (m m' : CoverageMap)
    (p : VoxelProjectedPolygon) (storeIt : Bool)
    (h : CoverageMap.checkMap E fuel m p storeIt = some (OCCLUDED, m')) :
    (∃ path name S, S ∈ m.storedAt path name ∧ E.occludes S p = true ∧
      S.getDistance < p.getDistance) ∧
    (∀ path name, m'.storedAt path name = m.storedAt path name) ∧
    m'.totalPolygonCount = m.totalPolygonCount := by
  refine ⟨CoverageMap.checkMap_occluded_stored E p storeIt fuel m m' _ h rfl,
    CoverageMap.checkMap_storedAt_of_ne_stored E p storeIt fuel m m' _ h (by decide), ?_⟩
  have := CoverageMap.checkMap_totalPolygonCount E p storeIt fuel m m' _ h
  simpa using this

/-- C1 at polygon B submitted to the root that holds polygon A. -/
theorem C1_occluded_sound_witness :
    CoverageMap.checkMap boxExternals 0 rootWithA polygonB true = some (OCCLUDED, rootWithA) ∧
    (∃ path name S, S ∈ rootWithA.storedAt path name ∧
      boxExternals.occludes S polygonB = true ∧ S.getDistance < polygonB.getDistance) ∧
    rootWithA.storedAt [] REMAINDER = rootWithA.storedAt [] REMAINDER ∧
    rootWithA.totalPolygonCount = rootWithA.totalPolygonCount :=
  have h := C1_occluded_sound boxExternals 0 rootWithA rootWithA polygonB true
    (checkMap_rootWithA_polygonB 0 true)
  ⟨checkMap_rootWithA_polygonB 0 true, h.1, h.2.1 [] REMAINDER, h.2.2⟩

/-- C2. A polygon that is not fully in view is answered `DOESNT_FIT` by every node, root or
not, for both values of `storeIt`, and the node is left exactly as it was. -/
theorem C2_not_in_view (E : Externals) (fuel : Nat) (m : CoverageMap)
    (p : VoxelProjectedPolygon) (storeIt : Bool) (h : p.getAllInView = false) :
    CoverageMap.checkMap E fuel m p storeIt = some (DOESNT_FIT, m) :=
  CoverageMap.checkMap_not_in_view E fuel m p storeIt h

/-- C2 at polygon A with the in-view flag cleared, submitted to the root that holds A. -/
theorem C2_not_in_view_witness :
    polygonOut.getAllInView = false ∧
    CoverageMap.checkMap boxExternals 0 rootWithA polygonOut true =
      some (DOESNT_FIT, rootWithA) :=
  ⟨rfl, C2_not_in_view boxExternals 0 rootWithA polygonOut true rfl⟩

/-- C3. Query-only repeatability: when `checkMap(P, false)` returns, a second
`checkMap(P, false)` on the tree it left returns the same result and leaves that tree as it
is, and every region holds as many polygons after the calls as before them (a region of a
node that did not exist before holds none); on a well-formed tree, for a polygon of positive
width or height, the call does return once the fuel reaches `descentBound`. -/
theorem C3_query_repeatable (E : Externals) (fuel : Nat) (m : CoverageMap)
    (p : VoxelProjectedPolygon) :
    (∀ r m', CoverageMap.checkMap E fuel m p false = some (r, m') →
      CoverageMap.checkMap E fuel m' p false = some (r, m') ∧
      ∀ path name, (m'.storedAt path name).length = (m.storedAt path name).length) ∧
    (m.WellFormed → (0 < p.getBoundingBox.size.x ∨ 0 < p.getBoundingBox.size.y) →
      CoverageMap.descentBound m._myBoundingBox p.getBoundingBox ≤ fuel →
      ∃ r m', CoverageMap.checkMap E fuel m p false = some (r, m')) := by
  constructor
  · intro r m' h
    refine ⟨CoverageMap.checkMap_query_fixpoint E p fuel m m' r h, ?_⟩
    intro path name
    have hr : r ≠ STORED := by
      intro hs
      have := (CoverageMap.checkMap_stored_storeIt E p false fuel m m' r h hs).1
      cases this
    rw [CoverageMap.checkMap_storedAt_of_ne_stored E p false fuel m m' r h hr path name]
  · intro hw hpos hb
    exact CoverageMap.checkMap_terminates E p false fuel m hw
      (CoverageMap.shrinks_of_descentBound fuel _ _ hpos hb)

/-- C3 at two queries for polygon Q on the fresh root. -/
theorem C3_query_repeatable_witness :
    CoverageMap.checkMap boxExternals 2 freshRoot polygonQ false =
      some (NOT_STORED, rootAfterQ) ∧
    CoverageMap.checkMap boxExternals 2 rootAfterQ polygonQ false =
      some (NOT_STORED, rootAfterQ) ∧
    (rootAfterQ.storedAt [1, 0] REMAINDER).length = (freshRoot.storedAt [1, 0] REMAINDER).length :=
  have h := (C3_query_repeatable boxExternals 2 freshRoot polygonQ).1 NOT_STORED rootAfterQ
    (checkMap_freshRoot_polygonQ 0)
  ⟨checkMap_freshRoot_polygonQ 0, h.1, h.2 [1, 0] REMAINDER⟩

/-- C4, refuted as stated: a query for polygon Q on the fresh root answers `NOT_STORED` and
leaves a tree that differs from the fresh root: child slot 1, empty before the call, holds a
node afterwards (which in turn holds a child in its slot 0). -/
theorem C4_counterexample :
    CoverageMap.checkMap boxExternals 2 freshRoot polygonQ false =
      some (NOT_STORED, rootAfterQ) ∧
    freshRoot.getChild 1 = none ∧
    rootAfterQ.getChild 1 = some (quadrantChild.setChild 0 (some quadrantGrandchild)) ∧
    rootAfterQ ≠ freshRoot := by
  have h1 : freshRoot.getChild 1 = none := CoverageMap.getChild_new _ _ _ _
  have h2 : rootAfterQ.getChild 1 = some (quadrantChild.setChild 0 (some quadrantGrandchild)) :=
    rfl
  refine ⟨checkMap_freshRoot_polygonQ 0, h1, h2, ?_⟩
  intro h
  rw [h, h1] at h2
  cases h2

/-- C4, amended: a query (`storeIt` false) that returns leaves every region of every node
that was in the tree exactly as it was, stores no polygon anywhere (the regions of the nodes
it instantiates are empty) and so keeps the total count; on a well-formed tree, for a
polygon of positive width or height, it does return once the fuel reaches `descentBound`. -/
theorem C4_query_keeps_regions (E : Externals) (fuel : Nat) (m : CoverageMap)
    (p : VoxelProjectedPolygon) :
    (∀ r m', CoverageMap.checkMap E fuel m p false = some (r, m') →
      (∀ path name reg, m.regionAt path name = some reg → m'.regionAt path name = some reg) ∧
      (∀ path, (m.nodeAt path).isSome = true → (m'.nodeAt path).isSome = true) ∧
      (∀ path name, m'.storedAt path name = m.storedAt path name) ∧
      m'.totalPolygonCount = m.totalPolygonCount) ∧
    (m.WellFormed → (0 < p.getBoundingBox.size.x ∨ 0 < p.getBoundingBox.size.y) →
      CoverageMap.descentBound m._myBoundingBox p.getBoundingBox ≤ fuel →
      ∃ r m', CoverageMap.checkMap E fuel m p false = some (r, m')) := by
  constructor
  · intro r m' h
    have hr : r ≠ STORED := by
      intro hs
      have := (CoverageMap.checkMap_stored_storeIt E p false fuel m m' r h hs).1
      cases this
    have hreg := CoverageMap.checkMap_regionAt_of_ne_stored E p false fuel m m' r h hr
    refine ⟨hreg, ?_, CoverageMap.checkMap_storedAt_of_ne_stored E p false fuel m m' r h hr, ?_⟩
    · intro path hn
      cases hm : m.nodeAt path with
      | none =>
        rw [hm] at hn
        cases hn
      | some n =>
        have h1 : m.regionAt path REMAINDER = some n._remainder := by
          unfold CoverageMap.regionAt
          rw [hm]
          rfl
        have h2 := hreg path REMAINDER _ h1
        unfold CoverageMap.regionAt at h2
        cases hm' : m'.nodeAt path with
        | none =>
          rw [hm'] at h2
          cases h2
        | some n' => rfl
    · have := CoverageMap.checkMap_totalPolygonCount E p false fuel m m' r h
      simpa [hr] using this
  · intro hw hpos hb
    exact CoverageMap.checkMap_terminates E p false fuel m hw
      (CoverageMap.shrinks_of_descentBound fuel _ _ hpos hb)

/-- C4 (amended) at the query for polygon Q on the fresh root. -/
theorem C4_query_keeps_regions_witness :
    CoverageMap.checkMap boxExternals 2 freshRoot polygonQ false =
      some (NOT_STORED, rootAfterQ) ∧
    rootAfterQ.regionAt [] REMAINDER = some freshRoot._remainder ∧
    rootAfterQ.storedAt [1] BOTTOM_HALF = freshRoot.storedAt [1] BOTTOM_HALF ∧
    rootAfterQ.totalPolygonCount = freshRoot.totalPolygonCount :=
  have h := (C4_query_keeps_regions boxExternals 2 freshRoot polygonQ).1 NOT_STORED rootAfterQ
    (checkMap_freshRoot_polygonQ 0)
  ⟨checkMap_freshRoot_polygonQ 0, h.1 [] REMAINDER _ rfl, h.2.2.1 [1] BOTTOM_HALF, h.2.2.2⟩

/-- C5, as the code behaves.  Take a root and a polygon that is fully in view and whose
bounding rectangle has area at most `MINIMUM_POLYGON_AREA_TO_STORE`.  Whatever
`checkMap(P, true)` returns, in binary32 and in exact arithmetic alike, is not `STORED`; on a
tree whose children have the bounds that `getChildBoundingBox` computes (`WellFormedBinary32`
in binary32, `WellFormed` in exact arithmetic) it is `NOT_STORED` unless it is `OCCLUDED`; and
every region then holds the polygons it held before, so that its count and the total count
are unchanged.  On a tree over
`ROOT_BOUNDING_BOX` whose children have the bounds that `getChildBoundingBox` computes, the
call in binary32 does return, within 150 levels, when the width or the height of the rectangle
is kept in the binary32 sum `corner + size`.  But the call need not return: the polygon that
is the single point (-1,-1) is fully in view and has area 0, the fresh root holds no polygon
that could occlude it, and `checkMap(P, true)` returns for no bound on the depth of the
descent, in binary32 and in exact arithmetic, because quadrant 0 of every node on the way
contains the point.  The point (0,0), in contrast, is answered `NOT_STORED` in binary32, by
the node 150 levels below the root, whose quadrants have size 0. -/
theorem C5_minimum_area (E : Externals) (fuel : Nat) (m : CoverageMap)
    (p : VoxelProjectedPolygon) (hroot : m._isRoot = true) (hv : p.getAllInView = true)
    (ha : p.getBoundingBox.area ≤ MINIMUM_POLYGON_AREA_TO_STORE) :
    (∀ r m', CoverageMap.checkMapBinary32 E fuel m p true = some (r, m') →
      r ≠ STORED ∧ (m.WellFormedBinary32 → r ≠ OCCLUDED → r = NOT_STORED) ∧
      (∀ path name, m'.storedAt path name = m.storedAt path name) ∧
      m'.totalPolygonCount = m.totalPolygonCount) ∧
    (∀ r m', CoverageMap.checkMap E fuel m p true = some (r, m') →
      r ≠ STORED ∧ (m.WellFormed → r ≠ OCCLUDED → r = NOT_STORED) ∧
      (∀ path name, m'.storedAt path name = m.storedAt path name) ∧
      m'.totalPolygonCount = m.totalPolygonCount) ∧
    (m.WellFormedBinary32 → m._myBoundingBox = ROOT_BOUNDING_BOX →
      p.getBoundingBox.KeepsWidthOrHeight → 150 ≤ fuel →
      ∃ r m', CoverageMap.checkMapBinary32 E fuel m p true = some (r, m') ∧
        (r = NOT_STORED ∨ r = OCCLUDED)) ∧
    polygonPoint.getAllInView = true ∧
    polygonPoint.getBoundingBox.area ≤ MINIMUM_POLYGON_AREA_TO_STORE ∧
    (∀ name, (freshRoot.getRegion name)._polygons = []) ∧
    (∀ fuel', CoverageMap.checkMapBinary32 E fuel' freshRoot polygonPoint true = none) ∧
    (∀ fuel', CoverageMap.checkMap E fuel' freshRoot polygonPoint true = none) ∧
    polygonOrigin.getBoundingBox.area ≤ MINIMUM_POLYGON_AREA_TO_STORE ∧
    (∃ m', CoverageMap.checkMapBinary32 E 150 freshRoot polygonOrigin true =
      some (NOT_STORED, m')) ∧
    CoverageMap.checkMapBinary32 E 149 freshRoot polygonOrigin true = none := by
  have hfb : m.fitsBinary32 p = true := by
    unfold CoverageMap.fitsBinary32
    rw [hroot]
    rfl
  have hf : m.fits p = true := by
    unfold CoverageMap.fits
    rw [hroot]
    rfl
  have hcase : ∀ r : CoverageMapStorageResult, r ≠ STORED → r ≠ DOESNT_FIT → r ≠ OCCLUDED →
      r = NOT_STORED := by
    intro r h1 h2 h3
    cases r
    · exact absurd rfl h1
    · exact absurd rfl h3
    · exact absurd rfl h2
    · rfl
  have hzero : ∀ q : VoxelProjectedPolygon, q.getBoundingBox.size = ⟨0, 0⟩ →
      q.getBoundingBox.area ≤ MINIMUM_POLYGON_AREA_TO_STORE := by
    intro q hq
    have h : q.getBoundingBox.area = 0 := by
      simp [BoundingBox.area, hq, binary32_zero]
    rw [h]
    exact le_of_lt MINIMUM_POLYGON_AREA_TO_STORE_pos
  have key : ∀ r m', CoverageMap.checkMapBinary32 E fuel m p true = some (r, m') →
      r ≠ STORED ∧ (m.WellFormedBinary32 → r ≠ OCCLUDED → r = NOT_STORED) ∧
      (∀ path name, m'.storedAt path name = m.storedAt path name) ∧
      m'.totalPolygonCount = m.totalPolygonCount := by
    intro r m' h
    have hr : r ≠ STORED := fun hs =>
      absurd (CoverageMap.checkMapBinary32_stored E p true fuel m m' r h hs).2 (not_lt.mpr ha)
    refine ⟨hr, ?_, ?_, ?_⟩
    · intro hw hocc
      exact hcase r hr (CoverageMap.checkMapBinary32_ne_doesnt_fit E p true fuel m m' r h hw hv
        hfb) hocc
    · exact CoverageMap.checkMapBinary32_storedAt_of_ne_stored E p true fuel m m' r h hr
    · have := CoverageMap.checkMapBinary32_totalPolygonCount E p true fuel m m' r h
      simpa [hr] using this
  refine ⟨key, ?_, ?_, rfl, hzero _ rfl, CoverageMap.getRegion_new_polygons _ _ _, ?_, ?_,
    hzero _ rfl, (checkMapBinary32_freshRoot_polygonOrigin E).1,
    (checkMapBinary32_freshRoot_polygonOrigin E).2⟩
  · intro r m' h
    have hr : r ≠ STORED := fun hs =>
      absurd (CoverageMap.checkMap_stored E p true fuel m m' r h hs).2 (not_lt.mpr ha)
    refine ⟨hr, ?_, ?_, ?_⟩
    · intro hw hocc
      exact hcase r hr (CoverageMap.checkMap_result E p true fuel m m' r h hw hv hf).1 hocc
    · exact CoverageMap.checkMap_storedAt_of_ne_stored E p true fuel m m' r h hr
    · have := CoverageMap.checkMap_totalPolygonCount E p true fuel m m' r h
      simpa [hr] using this
  · intro hw hb hext hfuel
    have hl : m._myBoundingBox.AtLevel 0 := by
      rw [hb]
      exact atLevel_ROOT_BOUNDING_BOX
    obtain ⟨r, m', h⟩ := checkMapBinary32_returns_level E p true hext fuel 0 m (by omega) hw hl
    obtain ⟨hr, hn, _⟩ := key r m' h
    refine ⟨r, m', h, ?_⟩
    by_cases hocc : r = OCCLUDED
    · exact Or.inr hocc
    · exact Or.inl (hn hw hocc)
  · intro fuel'
    exact checkMapBinary32_at_corner_none E polygonPoint true rfl rfl
      binary32_polygonPoint_far binary32_polygonPoint_far fuel' 2 2 true false (by norm_num)
      (by norm_num)
  · intro fuel'
    exact checkMap_polygonPoint_none E true fuel' 2 true false (by norm_num)

/-- C5 at the polygon of 2^-7 by 2^-7 across the centre of quadrant 1 of the fresh root: in
binary32 and in exact arithmetic the call descends into the child of slot 1, which it creates,
answers `NOT_STORED` and stores nothing; the width of the polygon is kept in binary32, and the
call returns with fuel for 150 levels. -/
theorem C5_minimum_area_witness :
    polygonSpot.getBoundingBox.area ≤ MINIMUM_POLYGON_AREA_TO_STORE ∧
    CoverageMap.checkMapBinary32 boxExternals 1 freshRoot polygonSpot true =
      some (NOT_STORED, rootAfterSpot) ∧
    CoverageMap.checkMap boxExternals 1 freshRoot polygonSpot true =
      some (NOT_STORED, rootAfterSpot) ∧
    freshRoot.getChild 1 = none ∧ rootAfterSpot.getChild 1 = some quadrantChild ∧
    (∀ path name, rootAfterSpot.storedAt path name = freshRoot.storedAt path name) ∧
    rootAfterSpot.totalPolygonCount = freshRoot.totalPolygonCount ∧
    freshRoot.WellFormedBinary32 ∧ polygonSpot.getBoundingBox.KeepsWidthOrHeight ∧
    ∃ r m', CoverageMap.checkMapBinary32 boxExternals 150 freshRoot polygonSpot true =
      some (r, m') ∧ (r = NOT_STORED ∨ r = OCCLUDED) :=
  have h := (C5_minimum_area boxExternals 1 freshRoot polygonSpot rfl rfl area_polygonSpot).1 NOT_STORED
    rootAfterSpot (checkMapBinary32_freshRoot_polygonSpot 0)
  ⟨area_polygonSpot, checkMapBinary32_freshRoot_polygonSpot 0, checkMap_freshRoot_polygonSpot 0,
    rfl, rfl, h.2.2.1, h.2.2.2, CoverageMap.wellFormedBinary32_new _ _ _,
    keepsWidthOrHeight_of_hasExtent _ hasExtentBinary32_polygonSpot,
    (C5_minimum_area boxExternals 150 freshRoot polygonSpot rfl rfl area_polygonSpot).2.2.1
      (CoverageMap.wellFormedBinary32_new _ _ _) rfl
      (keepsWidthOrHeight_of_hasExtent _ hasExtentBinary32_polygonSpot) (le_refl _)⟩

/-- C6. Basic occlusion: on a freshly constructed root over `ROOT_BOUNDING_BOX`, a polygon A
that is fully in view, whose bounding rectangle has non-negative size and area above the
minimum, is answered `STORED`, and the tree then holds one polygon; every polygon B that is
fully in view, has the bounding rectangle of A, is strictly farther than A and is occluded by
A, is then answered `OCCLUDED`, the tree stays as it is and still holds one polygon.  This
holds of the code in binary32, `checkMapBinary32`, where both calls return within 150 levels
of recursion, and of `checkMap` in exact arithmetic, with fuel from `descentBound` on. -/
theorem C6_basic_occlusion (E : Externals) (managePolygons : Bool) (A : VoxelProjectedPolygon)
    (hv : A.getAllInView = true)
    (hsize : 0 ≤ A.getBoundingBox.size.x ∧ 0 ≤ A.getBoundingBox.size.y)
    (ha : MINIMUM_POLYGON_AREA_TO_STORE < A.getBoundingBox.area) :
    (∃ m1, (∀ fuel, 150 ≤ fuel →
        CoverageMap.checkMapBinary32 E fuel
          (CoverageMap.new ROOT_BOUNDING_BOX true managePolygons) A true = some (STORED, m1)) ∧
      m1.totalPolygonCount = 1 ∧
      ∀ B fuelB, B.getAllInView = true → B.getBoundingBox = A.getBoundingBox →
        A.getDistance < B.getDistance → E.occludes A B = true → 150 ≤ fuelB →
        CoverageMap.checkMapBinary32 E fuelB m1 B true = some (OCCLUDED, m1) ∧
          m1.totalPolygonCount = 1) ∧
    (∀ fuel, CoverageMap.descentBound ROOT_BOUNDING_BOX A.getBoundingBox ≤ fuel →
      ∃ m1, CoverageMap.checkMap E fuel (CoverageMap.new ROOT_BOUNDING_BOX true managePolygons)
          A true = some (STORED, m1) ∧
        m1.totalPolygonCount = 1 ∧
        ∀ B fuelB, B.getAllInView = true → B.getBoundingBox = A.getBoundingBox →
          A.getDistance < B.getDistance → E.occludes A B = true →
          CoverageMap.descentBound ROOT_BOUNDING_BOX B.getBoundingBox ≤ fuelB →
          CoverageMap.checkMap E fuelB m1 B true = some (OCCLUDED, m1) ∧
            m1.totalPolygonCount = 1) := by
  constructor
  · have key : ∃ m1, CoverageMap.checkMapBinary32 E 150
          (CoverageMap.new ROOT_BOUNDING_BOX true managePolygons) A true = some (STORED, m1) ∧
        ∀ B sB, B.getBoundingBox = A.getBoundingBox → B.getAllInView = true →
          E.occludes A B = true → A.getDistance < B.getDistance →
          CoverageMap.checkMapBinary32 E 150 m1 B sB = some (OCCLUDED, m1) := by
      by_cases hext : A.getBoundingBox.KeepsWidthOrHeight
      · exact CoverageMap.checkMapBinary32_new_store_then_occluded E A hv ha hext 150 0
          ROOT_BOUNDING_BOX true managePolygons rfl atLevel_ROOT_BOUNDING_BOX (by omega)
      · obtain ⟨m1, h1, h2⟩ := CoverageMap.checkMapBinary32_store_here_then_occluded E A 150
          (CoverageMap.new ROOT_BOUNDING_BOX true managePolygons) hv ha rfl
          (CoverageMap.getRegion_new_polygons _ _ _) rfl rfl
          (findChildBinary32_root_of_not_keeps _ rfl _ hsize.2 ha hext)
        exact ⟨m1, h1, fun B sB => h2 B sB 150⟩
    obtain ⟨m1, h1, h2⟩ := key
    have ht : m1.totalPolygonCount = 1 := by
      have := CoverageMap.checkMapBinary32_totalPolygonCount E A true _ _ m1 _ h1
      rw [CoverageMap.totalPolygonCount_new] at this
      simpa using this
    refine ⟨m1, fun fuel hfuel =>
      CoverageMap.checkMapBinary32_mono E A true 150 fuel _ m1 _ h1 hfuel, ht, ?_⟩
    intro B fuelB hvB hbox hlt hocc hfuelB
    exact ⟨CoverageMap.checkMapBinary32_mono E B true 150 fuelB m1 m1 _
      (h2 B true hbox hvB hocc hlt) hfuelB, ht⟩
  · intro fuel hfuel
    have hpos := width_pos_of_area _ hsize.1 ha
    have hs := CoverageMap.shrinks_of_descentBound
      (CoverageMap.descentBound ROOT_BOUNDING_BOX A.getBoundingBox) ROOT_BOUNDING_BOX
      A.getBoundingBox (Or.inl hpos) (le_refl _)
    obtain ⟨m1, h1, h2⟩ := CoverageMap.checkMap_new_store_then_occluded E A hv ha _
      ROOT_BOUNDING_BOX true managePolygons rfl hs
    have ht : m1.totalPolygonCount = 1 := by
      have := CoverageMap.checkMap_totalPolygonCount E A true _ _ m1 _ h1
      rw [CoverageMap.totalPolygonCount_new] at this
      simpa using this
    refine ⟨m1, CoverageMap.checkMap_mono E A true _ fuel _ m1 _ h1 hfuel, ht, ?_⟩
    intro B fuelB hvB hbox hlt hocc hfuelB
    rw [hbox] at hfuelB
    exact ⟨CoverageMap.checkMap_mono E B true _ fuelB m1 m1 _ (h2 B true hbox hvB hocc hlt)
      hfuelB, ht⟩

/-- C6 at the polygons A (distance 10) and B (distance 20) of the spec, in binary32 and in
exact arithmetic. -/
theorem C6_basic_occlusion_witness :
    CoverageMap.checkMapBinary32 boxExternals 150 freshRoot polygonA true =
      some (STORED, rootWithA) ∧
    CoverageMap.checkMapBinary32 boxExternals 150 rootWithA polygonB true =
      some (OCCLUDED, rootWithA) ∧
    CoverageMap.checkMap boxExternals 2 freshRoot polygonA true = some (STORED, rootWithA) ∧
    rootWithA.totalPolygonCount = 1 ∧
    CoverageMap.checkMap boxExternals 2 rootWithA polygonB true = some (OCCLUDED, rootWithA) := by
  obtain ⟨⟨mb, b1, _, b3⟩, hex⟩ := C6_basic_occlusion boxExternals false polygonA rfl
    (by norm_num [polygonA, square, BoundingBox.new]) area_polygonA
  obtain ⟨m1, h1, h2, h3⟩ := hex 2 descentBound_root_polygonA
  have eb : mb = rootWithA := by
    have := (checkMapBinary32_freshRoot_polygonA 150).symm.trans (b1 150 (le_refl _))
    simp only [Option.some.injEq, Prod.mk.injEq, true_and] at this
    exact this.symm
  have e : m1 = rootWithA := by
    have := (checkMap_freshRoot_polygonA 2).symm.trans h1
    simp only [Option.some.injEq, Prod.mk.injEq, true_and] at this
    exact this.symm
  rw [eb] at b1 b3
  rw [e] at h1 h2 h3
  exact ⟨b1 150 (le_refl _),
    (b3 polygonB 150 rfl rfl distance_polygonA_polygonB occludes_polygonA_polygonB
      (le_refl _)).1,
    h1, h2, (h3 polygonB 2 rfl rfl distance_polygonA_polygonB occludes_polygonA_polygonB
      descentBound_root_polygonA).1⟩

/-- C7. Out-of-order correction: when `checkMap(C, true)` has answered `STORED` on a freshly
constructed root over `ROOT_BOUNDING_BOX`, a polygon D that is fully in view, whose bounding
rectangle has non-negative size and area above the minimum, and that is not farther than C
(`C.distance() >= D.distance()`) is answered `STORED`, never `OCCLUDED`, and the tree holds
one polygon more; this holds whether or not C occludes D.  It holds of the code in binary32,
`checkMapBinary32`, where the call for D returns within 150 levels of recursion, and of
`checkMap` in exact arithmetic, with fuel from `descentBound` on. -/
theorem C7_out_of_order (E : Externals) (managePolygons : Bool) (C D : VoxelProjectedPolygon)
    (hv : D.getAllInView = true)
    (hsize : 0 ≤ D.getBoundingBox.size.x ∧ 0 ≤ D.getBoundingBox.size.y)
    (ha : MINIMUM_POLYGON_AREA_TO_STORE < D.getBoundingBox.area)
    (hdist : C.getDistance ≥ D.getDistance) :
    (∀ fuelC m1, CoverageMap.checkMapBinary32 E fuelC
        (CoverageMap.new ROOT_BOUNDING_BOX true managePolygons) C true = some (STORED, m1) →
      ∀ fuelD, 150 ≤ fuelD →
        ∃ m2, CoverageMap.checkMapBinary32 E fuelD m1 D true = some (STORED, m2) ∧
          m2.totalPolygonCount = m1.totalPolygonCount + 1) ∧
    (∀ fuelC m1, CoverageMap.checkMap E fuelC
        (CoverageMap.new ROOT_BOUNDING_BOX true managePolygons) C true = some (STORED, m1) →
      ∀ fuelD, CoverageMap.descentBound ROOT_BOUNDING_BOX D.getBoundingBox ≤ fuelD →
        ∃ m2, CoverageMap.checkMap E fuelD m1 D true = some (STORED, m2) ∧
          m2.totalPolygonCount = m1.totalPolygonCount + 1) := by
  constructor
  · intro fuelC m1 hC fuelD hfuel
    obtain ⟨hw, hroot, hbox⟩ := CoverageMap.checkMapBinary32_wellFormed E C true fuelC _ m1 _
      hC (CoverageMap.wellFormedBinary32_new _ _ _)
    have hroot' : m1._isRoot = true := hroot
    have hbox' : m1._myBoundingBox = ROOT_BOUNDING_BOX := hbox
    have hf : m1.fitsBinary32 D = true := by
      unfold CoverageMap.fitsBinary32
      rw [hroot']
      rfl
    obtain ⟨r, m2, h⟩ := checkMapBinary32_returns_of_area E D true hsize.2 ha fuelD m1 hfuel
      hw hbox'
    have hr : r = STORED := by
      rcases CoverageMap.checkMapBinary32_stored_or_occluded E D fuelD m1 m2 r h ha hw hv
        hf with h4 | h4
      · exact h4
      · exfalso
        obtain ⟨path, name, S, hS, _, hlt⟩ :=
          CoverageMap.checkMapBinary32_occluded_stored E D true fuelD m1 m2 r h h4
        rcases CoverageMap.checkMapBinary32_mem_storedAt E C true fuelC _ m1 _ hC path name S
          hS with h5 | h5
        · rw [h5] at hlt
          exact absurd hlt (not_lt.mpr hdist)
        · rw [CoverageMap.storedAt_new] at h5
          cases h5
    rw [hr] at h
    refine ⟨m2, h, ?_⟩
    have := CoverageMap.checkMapBinary32_totalPolygonCount E D true fuelD m1 m2 _ h
    simpa using this
  · intro fuelC m1 hC fuelD hfuel
    obtain ⟨hw, hroot, hbox, _⟩ := CoverageMap.checkMap_wellFormed E C true fuelC _ m1 _ hC
      (CoverageMap.wellFormed_new _ _ _)
    have hroot' : m1._isRoot = true := hroot
    have hbox' : m1._myBoundingBox = ROOT_BOUNDING_BOX := hbox
    have hf : m1.fits D = true := by
      unfold CoverageMap.fits
      rw [hroot']
      rfl
    have hs : CoverageMap.Shrinks fuelD m1._myBoundingBox D.getBoundingBox := by
      rw [hbox']
      exact CoverageMap.shrinks_of_descentBound fuelD _ _
        (Or.inl (width_pos_of_area _ hsize.1 ha)) hfuel
    obtain ⟨r, m2, h⟩ := CoverageMap.checkMap_terminates E D true fuelD m1 hw hs
    obtain ⟨_, _, h3⟩ := CoverageMap.checkMap_result E D true fuelD m1 m2 r h hw hv hf
    have hr : r = STORED := by
      rcases h3 rfl ha with h4 | h4
      · exact h4
      · exfalso
        obtain ⟨path, name, S, hS, _, hlt⟩ :=
          CoverageMap.checkMap_occluded_stored E D true fuelD m1 m2 r h h4
        rcases CoverageMap.checkMap_mem_storedAt E C true fuelC _ m1 _ hC path name S hS with
          h5 | h5
        · rw [h5] at hlt
          exact absurd hlt (not_lt.mpr hdist)
        · rw [CoverageMap.storedAt_new] at h5
          cases h5
    rw [hr] at h
    refine ⟨m2, h, ?_⟩
    have := CoverageMap.checkMap_totalPolygonCount E D true fuelD m1 m2 _ h
    simpa using this

/-- C7 at C = polygon B (distance 20) stored first and D = polygon A (distance 10), which B
occludes: A is stored in front of B in the remainder of the root, in binary32 and in exact
arithmetic. -/
theorem C7_out_of_order_witness :
    CoverageMap.checkMapBinary32 boxExternals 0 freshRoot polygonB true =
      some (STORED, rootWithB) ∧
    CoverageMap.checkMapBinary32 boxExternals 150 rootWithB polygonA true =
      some (STORED, rootWithAB) ∧
    CoverageMap.checkMap boxExternals 0 freshRoot polygonB true = some (STORED, rootWithB) ∧
    boxExternals.occludes polygonB polygonA = true ∧
    CoverageMap.checkMap boxExternals 2 rootWithB polygonA true = some (STORED, rootWithAB) ∧
    rootWithAB.totalPolygonCount = rootWithB.totalPolygonCount + 1 ∧
    rootWithAB.storedAt [] REMAINDER = [polygonA, polygonB] := by
  obtain ⟨hb, hex⟩ := C7_out_of_order boxExternals false polygonB polygonA rfl
    (by norm_num [polygonA, square, BoundingBox.new]) area_polygonA
    (by norm_num [polygonA, polygonB, square])
  obtain ⟨mb, b1, _⟩ := hb 0 rootWithB (checkMapBinary32_freshRoot_polygonB 0) 150 (le_refl _)
  obtain ⟨m2, h1, h2⟩ := hex 0 rootWithB (checkMap_freshRoot_polygonB 0) 2
    descentBound_root_polygonA
  have eb : mb = rootWithAB := by
    have := (checkMapBinary32_rootWithB_polygonA 150).symm.trans b1
    simp only [Option.some.injEq, Prod.mk.injEq, true_and] at this
    exact this.symm
  have e : m2 = rootWithAB := by
    have := (checkMap_rootWithB_polygonA 2).symm.trans h1
    simp only [Option.some.injEq, Prod.mk.injEq, true_and] at this
    exact this.symm
  rw [eb] at b1
  rw [e] at h1 h2
  exact ⟨checkMapBinary32_freshRoot_polygonB 0, b1, checkMap_freshRoot_polygonB 0,
    occludes_polygonA_polygonB, h1, h2, storedAt_rootWithAB⟩

/-- C9. `erase` (the spec's `clear()`) is idempotent, and the state it leaves is the empty
state of a freshly constructed tree of the same bounds: no region of the node holds a polygon
and all four child slots are empty, in the erased tree as in the fresh one, which have the
same bounds and flags, the same stored polygons (none) at every place, and the total count
zero; on a well-formed tree each erased region is the fresh region up to
`_currentCoveredBounds`, the one field `erase` does not reset. -/
theorem C9_erase_idempotent (m : CoverageMap) :
    m.erase.erase = m.erase ∧
    (∀ name, (m.erase.getRegion name).getPolygonCount = 0) ∧
    (∀ i, m.erase.getChild i = none) ∧
    (∀ name, ((CoverageMap.new m._myBoundingBox m._isRoot m._managePolygons).getRegion
      name).getPolygonCount = 0) ∧
    (∀ i, (CoverageMap.new m._myBoundingBox m._isRoot m._managePolygons).getChild i = none) ∧
    m.erase._myBoundingBox =
      (CoverageMap.new m._myBoundingBox m._isRoot m._managePolygons)._myBoundingBox ∧
    m.erase._isRoot = (CoverageMap.new m._myBoundingBox m._isRoot m._managePolygons)._isRoot ∧
    m.erase._managePolygons =
      (CoverageMap.new m._myBoundingBox m._isRoot m._managePolygons)._managePolygons ∧
    (∀ path name, m.erase.storedAt path name =
      (CoverageMap.new m._myBoundingBox m._isRoot m._managePolygons).storedAt path name) ∧
    m.erase.totalPolygonCount = 0 ∧
    (CoverageMap.new m._myBoundingBox m._isRoot m._managePolygons).totalPolygonCount = 0 ∧
    (m.WellFormed → ∀ name,
      { m.erase.getRegion name with _currentCoveredBounds := BoundingBox.unset } =
        (CoverageMap.new m._myBoundingBox m._isRoot m._managePolygons).getRegion name) := by
  have hreg : ∀ name, (m.erase.getRegion name)._polygons = [] := by
    intro name
    rw [CoverageMap.getRegion_erase]
    rfl
  refine ⟨rfl, ?_, CoverageMap.getChild_erase m, ?_, CoverageMap.getChild_new _ _ _, rfl, rfl,
    rfl, ?_, ?_, CoverageMap.totalPolygonCount_new _ _ _, ?_⟩
  · intro name
    unfold CoverageRegion.getPolygonCount
    rw [hreg name]
    rfl
  · intro name
    unfold CoverageRegion.getPolygonCount
    rw [CoverageMap.getRegion_new_polygons]
    rfl
  · intro path name
    rw [CoverageMap.storedAt_new]
    cases path with
    | nil => exact hreg name
    | cons i rest => rw [CoverageMap.storedAt_cons, CoverageMap.getChild_erase]
  · rw [CoverageMap.totalPolygonCount_eq]
    simp only [CoverageMap.childTotal, CoverageMap.getChild_erase,
      CoverageMap.totalPolygonCountOpt_none]
    have h := hreg
    have h1 := h TOP_HALF
    have h2 := h BOTTOM_HALF
    have h3 := h LEFT_HALF
    have h4 := h RIGHT_HALF
    have h5 := h REMAINDER
    simp only [CoverageMap.getRegion] at h1 h2 h3 h4 h5
    simp only [CoverageMap.getPolygonCount, CoverageRegion.getPolygonCount, h1, h2, h3, h4, h5]
    rfl
  · intro hw name
    obtain ⟨h1, h2, h3, h4, h5, _⟩ := CoverageMap.wellFormed_here hw
    rw [CoverageMap.getRegion_erase]
    cases name
    · exact erase_eq_new_of_built _ _ _ _ _ h1
    · exact erase_eq_new_of_built _ _ _ _ _ h2
    · exact erase_eq_new_of_built _ _ _ _ _ h3
    · exact erase_eq_new_of_built _ _ _ _ _ h4
    · exact erase_eq_new_of_built _ _ _ _ _ h5

/-- C9 at the root that holds polygon A: erasing it twice is erasing it once, no polygon and
no child are left, and the remainder is the fresh remainder once its covered bounds, still
the rectangle of A, are reset. -/
theorem C9_erase_idempotent_witness :
    rootWithA.erase.erase = rootWithA.erase ∧
    rootWithA.erase.totalPolygonCount = 0 ∧
    (rootWithA.erase.getRegion REMAINDER)._currentCoveredBounds = polygonA.getBoundingBox ∧
    { rootWithA.erase.getRegion REMAINDER with _currentCoveredBounds := BoundingBox.unset } =
      freshRoot.getRegion REMAINDER :=
  have h := C9_erase_idempotent rootWithA
  ⟨h.1, h.2.2.2.2.2.2.2.2.2.1, rfl,
    h.2.2.2.2.2.2.2.2.2.2.2
      (CoverageMap.wellFormed_store boxExternals (CoverageMap.wellFormed_new _ _ _) _ _)
      REMAINDER⟩

/-- C10. Sortedness invariant: in every tree state reachable from a freshly constructed root
by `checkMap` and `erase` calls, the stored polygons of every region of every node are in
ascending order of `getDistance()`. -/
theorem C10_sorted_invariant (E : Externals) (m : CoverageMap) (h : CoverageMap.Reachable E m) :
    ∀ path name,
      ((m.storedAt path name).map VoxelProjectedPolygon.getDistance).Sorted (· ≤ ·) :=
  fun path name => CoverageMap.allSorted_storedAt (CoverageMap.reachable_allSorted h) path name

/-- C10 at the root after polygon B (distance 20) and then polygon A (distance 10) were
stored: the remainder holds A before B. -/
theorem C10_sorted_invariant_witness :
    CoverageMap.Reachable boxExternals rootWithAB ∧
    rootWithAB.storedAt [] REMAINDER = [polygonA, polygonB] ∧
    ((rootWithAB.storedAt [] REMAINDER).map VoxelProjectedPolygon.getDistance).Sorted (· ≤ ·) :=
  have h : CoverageMap.Reachable boxExternals rootWithAB :=
    CoverageMap.Reachable.checkMap rootWithB rootWithAB 0 polygonA true STORED
      (CoverageMap.Reachable.checkMap freshRoot rootWithB 0 polygonB true STORED
        (CoverageMap.Reachable.fresh ROOT_BOUNDING_BOX false) (checkMap_freshRoot_polygonB 0))
      (checkMap_rootWithB_polygonA 0)
  ⟨h, storedAt_rootWithAB, C10_sorted_invariant boxExternals rootWithAB h [] REMAINDER⟩

/-- C11. `checkRegion(polygon, polygonBounds, shouldStore)` returns `DOESNT_FIT` if and only
if the region is not root and its bounds do not contain `polygonBounds`; in that case the
region is left as it was. -/
theorem C11_checkRegion_doesnt_fit (E : Externals) (r : CoverageRegion)
    (p : VoxelProjectedPolygon) (polygonBox : BoundingBox) (storeIt : Bool) :
    ((CoverageRegion.checkRegion E r p polygonBox storeIt).1 = DOESNT_FIT ↔
      (r._isRoot = false ∧ r._myBoundingBox.contains polygonBox = false)) ∧
    ((CoverageRegion.checkRegion E r p polygonBox storeIt).1 = DOESNT_FIT →
      (CoverageRegion.checkRegion E r p polygonBox storeIt).2 = r) := by
  refine ⟨checkRegion_doesnt_fit_iff E r p polygonBox storeIt, ?_⟩
  intro h
  apply CoverageRegion.checkRegion_unchanged
  rw [h]
  decide

/-- C11 at the top half of the fresh root, whose bounds do not contain the rectangle of
polygon A, and at the remainder of the root, which is root and answers `NOT_STORED` for the
polygon that reaches beyond its bounds. -/
theorem C11_checkRegion_doesnt_fit_witness :
    CoverageRegion.checkRegion boxExternals freshRoot._topHalf polygonA polygonA.getBoundingBox
      true = (DOESNT_FIT, freshRoot._topHalf) ∧
    freshRoot._remainder._myBoundingBox.contains polygonWide.getBoundingBox = false ∧
    (CoverageRegion.checkRegion boxExternals freshRoot._remainder polygonWide
      polygonWide.getBoundingBox true).1 ≠ DOESNT_FIT := by
  have h := C11_checkRegion_doesnt_fit boxExternals freshRoot._topHalf polygonA
    polygonA.getBoundingBox true
  have h1 := h.1.mpr ⟨rfl, by
    norm_num [freshRoot, CoverageMap.new, CoverageRegion.new, ROOT_BOUNDING_BOX,
      BoundingBox.new, BoundingBox.topHalf, BoundingBox.contains, polygonA, square]⟩
  refine ⟨Prod.ext h1 (h.2 h1), not_contains_root_polygonWide, ?_⟩
  intro h2
  have h3 := (C11_checkRegion_doesnt_fit boxExternals freshRoot._remainder polygonWide
    polygonWide.getBoundingBox true).1.mp h2
  cases h3.1

/-- C14. A single `checkMap` call changes the storage of at most one region of the whole
tree: when it returns `STORED`, there is one region (of one node, at `path`) whose stored
sequence is the one before the call with the submitted polygon inserted at one position, and
every other region of every node has the stored sequence it had (in particular never both a
half-region and the remainder gain a polygon), and the tree holds one polygon more; when it
returns `NOT_STORED`, `OCCLUDED` or `DOESNT_FIT`, every region has the stored sequence it had
and the tree holds as many polygons as before. -/
theorem C14_one_region (E : Externals) (fuel : Nat) (m m' : CoverageMap)
    (p : VoxelProjectedPolygon) (storeIt : Bool) (r : CoverageMapStorageResult)
    (h : CoverageMap.checkMap E fuel m p storeIt = some (r, m')) :
    (r = STORED →
      (∃ path name, (∃ i, i ≤ (m.storedAt path name).length ∧
          m'.storedAt path name = insertAt i p (m.storedAt path name)) ∧
        ∀ path' name', (path' ≠ path ∨ name' ≠ name) →
          m'.storedAt path' name' = m.storedAt path' name') ∧
      m'.totalPolygonCount = m.totalPolygonCount + 1) ∧
    ((r = NOT_STORED ∨ r = OCCLUDED ∨ r = DOESNT_FIT) →
      (∀ path name, m'.storedAt path name = m.storedAt path name) ∧
      m'.totalPolygonCount = m.totalPolygonCount) := by
  have ht := CoverageMap.checkMap_totalPolygonCount E p storeIt fuel m m' r h
  constructor
  · intro hs
    refine ⟨checkMap_stored_one_region E p storeIt fuel m m' r h hs, ?_⟩
    rw [ht, if_pos hs]
  · intro hr
    have hne : r ≠ STORED := by
      rcases hr with h1 | h1 | h1 <;> rw [h1] <;> decide
    refine ⟨CoverageMap.checkMap_storedAt_of_ne_stored E p storeIt fuel m m' r h hne, ?_⟩
    rw [ht, if_neg hne]
    rfl

/-- C14 at polygon A stored into the root that holds polygon B, and at polygon B submitted to
the root that holds polygon A (answered `OCCLUDED`). -/
theorem C14_one_region_witness :
    CoverageMap.checkMap boxExternals 0 rootWithB polygonA true = some (STORED, rootWithAB) ∧
    (∃ path name, (∃ i, i ≤ (rootWithB.storedAt path name).length ∧
        rootWithAB.storedAt path name = insertAt i polygonA (rootWithB.storedAt path name)) ∧
      ∀ path' name', (path' ≠ path ∨ name' ≠ name) →
        rootWithAB.storedAt path' name' = rootWithB.storedAt path' name') ∧
    rootWithAB.totalPolygonCount = rootWithB.totalPolygonCount + 1 ∧
    CoverageMap.checkMap boxExternals 0 rootWithA polygonB true = some (OCCLUDED, rootWithA) ∧
    rootWithA.totalPolygonCount = rootWithA.totalPolygonCount :=
  have h1 := (C14_one_region boxExternals 0 rootWithB rootWithAB polygonA true STORED
    (checkMap_rootWithB_polygonA 0)).1 rfl
  have h2 := (C14_one_region boxExternals 0 rootWithA rootWithA polygonB true OCCLUDED
    (checkMap_rootWithA_polygonB 0 true)).2 (Or.inr (Or.inl rfl))
  ⟨checkMap_rootWithB_polygonA 0, h1.1, h1.2, checkMap_rootWithA_polygonB 0 true, h2.2⟩

/-- C15. `checkMap(P, storeIt)` returns `STORED` only if `storeIt` is set and the area of the
bounding rectangle of P is strictly above `MINIMUM_POLYGON_AREA_TO_STORE`; in particular what
`checkMap(P, false)` returns is one of `NOT_STORED`, `OCCLUDED`, `DOESNT_FIT`.  On a
well-formed tree the call returns once the fuel reaches `descentBound`, for a polygon of
positive width or height. -/
theorem C15_stored_only_if (E : Externals) (fuel : Nat) (m : CoverageMap)
    (p : VoxelProjectedPolygon) (storeIt : Bool) :
    (∀ r m', CoverageMap.checkMap E fuel m p storeIt = some (r, m') → r = STORED →
      storeIt = true ∧ MINIMUM_POLYGON_AREA_TO_STORE < p.getBoundingBox.area) ∧
    (∀ r m', CoverageMap.checkMap E fuel m p false = some (r, m') →
      r = NOT_STORED ∨ r = OCCLUDED ∨ r = DOESNT_FIT) ∧
    (m.WellFormed → (0 < p.getBoundingBox.size.x ∨ 0 < p.getBoundingBox.size.y) →
      CoverageMap.descentBound m._myBoundingBox p.getBoundingBox ≤ fuel →
      ∃ r m', CoverageMap.checkMap E fuel m p storeIt = some (r, m')) := by
  refine ⟨?_, ?_, ?_⟩
  · intro r m' h hs
    exact CoverageMap.checkMap_stored_storeIt E p storeIt fuel m m' r h hs
  · intro r m' h
    cases r
    · have := (CoverageMap.checkMap_stored_storeIt E p false fuel m m' _ h rfl).1
      cases this
    · exact Or.inr (Or.inl rfl)
    · exact Or.inr (Or.inr rfl)
    · exact Or.inl rfl
  · intro hw hpos hfuel
    exact CoverageMap.checkMap_terminates E p storeIt fuel m hw
      (CoverageMap.shrinks_of_descentBound fuel _ _ hpos hfuel)

/-- C15 at polygon A stored into the fresh root (its area 1 is above the minimum), at the
tiny polygon, which is not stored although `storeIt` is set, and at the query for polygon Q. -/
theorem C15_stored_only_if_witness :
    CoverageMap.checkMap boxExternals 2 freshRoot polygonA true = some (STORED, rootWithA) ∧
    MINIMUM_POLYGON_AREA_TO_STORE < polygonA.getBoundingBox.area ∧
    CoverageMap.checkMap boxExternals 2 freshRoot polygonTiny true =
      some (NOT_STORED, freshRoot) ∧
    CoverageMap.checkMap boxExternals 2 freshRoot polygonQ false =
      some (NOT_STORED, rootAfterQ) ∧
    (NOT_STORED = NOT_STORED ∨ NOT_STORED = OCCLUDED ∨ NOT_STORED = DOESNT_FIT) :=
  have h := C15_stored_only_if boxExternals 2 freshRoot polygonA true
  have hq := (C15_stored_only_if boxExternals 2 freshRoot polygonQ false).2.1 _ _
    (checkMap_freshRoot_polygonQ 0)
  ⟨checkMap_freshRoot_polygonA 2, (h.1 _ _ (checkMap_freshRoot_polygonA 2) rfl).2,
    checkMap_freshRoot_polygonTiny 2, checkMap_freshRoot_polygonQ 0, hq⟩

/-- C16. Enumeration accessors: `getPolygonCount()` is the sum of the stored counts of the
five regions of the node, which is the length of the concatenation of their stored sequences
in the order top, bottom, left, right, remainder; for every index `0 <= i < getPolygonCount()`
`getPolygon(i)` is the `i`-th element of that concatenation, and for every
`i >= getPolygonCount()` it is `NULL`.  Both accessors are `const` methods: functions of the
node that return a value and no node. -/
theorem C16_enumeration (m : CoverageMap) :
    m.getPolygonCount =
      (m.getRegion TOP_HALF)._polygons.length + (m.getRegion BOTTOM_HALF)._polygons.length +
        (m.getRegion LEFT_HALF)._polygons.length + (m.getRegion RIGHT_HALF)._polygons.length +
        (m.getRegion REMAINDER)._polygons.length ∧
    m.allPolygons =
      (m.getRegion TOP_HALF)._polygons ++ (m.getRegion BOTTOM_HALF)._polygons ++
        (m.getRegion LEFT_HALF)._polygons ++ (m.getRegion RIGHT_HALF)._polygons ++
        (m.getRegion REMAINDER)._polygons ∧
    (∀ index : Int, 0 ≤ index → index < m.getPolygonCount →
      ∃ hi : index.toNat < m.allPolygons.length,
        m.getPolygon index = some (m.allPolygons.get ⟨index.toNat, hi⟩)) ∧
    (∀ index : Int, (m.getPolygonCount : Int) ≤ index → m.getPolygon index = none) :=
  ⟨rfl, rfl, getPolygon_of_lt m, getPolygon_of_ge m⟩

/-- C16 at the root that holds polygon A and polygon B in its remainder: the count is 2,
index 0 gives A, index 1 gives B, index 2 gives `NULL`. -/
theorem C16_enumeration_witness :
    rootWithAB.getPolygonCount = 2 ∧
    rootWithAB.getPolygon 0 = some polygonA ∧
    rootWithAB.getPolygon 1 = some polygonB ∧
    rootWithAB.getPolygon 2 = none := by
  have h := C16_enumeration rootWithAB
  have hc : rootWithAB.getPolygonCount = 2 := by
    rw [getPolygonCount_eq_length, allPolygons_rootWithAB]
    rfl
  obtain ⟨_, _, h3, h4⟩ := h
  rw [hc] at h3 h4
  obtain ⟨_, e0⟩ := h3 0 (by decide) (by decide)
  obtain ⟨_, e1⟩ := h3 1 (by decide) (by decide)
  refine ⟨hc, ?_, ?_, h4 2 (by decide)⟩
  · rw [e0]
    simp [allPolygons_rootWithAB]
  · rw [e1]
    simp [allPolygons_rootWithAB]

/-- C18. In every tree reachable from a freshly constructed root, at every node: the child
that `checkMap` creates for an empty slot `i` is the node the constructor builds as non-root
over the quadrant rectangle `getChildBoundingBox(i)` with the `_managePolygons` flag of the
root; every occupied child slot `i` holds a non-root node whose bounds are exactly
`getChildBoundingBox(i)` of its parent and whose flag is that of the root; the node and its
five regions carry the `_managePolygons` value of the root; and every node below the root is
non-root. -/
theorem C18_lazy_children (E : Externals) (m : CoverageMap) (h : CoverageMap.Reachable E m) :
    ∀ path n, m.nodeAt path = some n →
      (∀ i, n.getChild i = none →
        n.childOrNew i = CoverageMap.new (n.getChildBoundingBox i) false m._managePolygons ∧
        (n.childOrNew i)._isRoot = false ∧
        (n.childOrNew i)._myBoundingBox = n.getChildBoundingBox i ∧
        (n.childOrNew i)._managePolygons = m._managePolygons) ∧
      (∀ i c, n.getChild i = some c →
        c._isRoot = false ∧ c._myBoundingBox = n.getChildBoundingBox i ∧
          c._managePolygons = m._managePolygons) ∧
      n._managePolygons = m._managePolygons ∧
      (∀ name, (n.getRegion name)._managePolygons = m._managePolygons) ∧
      (path ≠ [] → n._isRoot = false) := by
  intro path n hn
  obtain ⟨hw, _⟩ := reachable_wellFormed h
  obtain ⟨hm, hr⟩ := nodeAt_nonroot hw path n hn
  have hok := hw path n hn
  refine ⟨?_, ?_, hm, ?_, hr⟩
  · intro i hg
    have e : n.childOrNew i =
        CoverageMap.new (n.getChildBoundingBox i) false m._managePolygons := by
      unfold CoverageMap.childOrNew
      rw [hg, hm]
    rw [e]
    exact ⟨rfl, rfl, rfl, rfl⟩
  · intro i c hg
    obtain ⟨h1, h2, h3⟩ := hok.2.2.2.2.2 i c hg
    exact ⟨h1, h2, h3.trans hm⟩
  · intro name
    rw [region_managePolygons_of_nodeOK hok name, hm]

/-- C18 at the tree a query for polygon Q leaves: the node in slot 1 of the root and the
node in its slot 0 are non-root, have the quadrant rectangles as bounds and the flag of the
root. -/
theorem C18_lazy_children_witness :
    CoverageMap.Reachable boxExternals rootAfterQ ∧
    rootAfterQ.nodeAt [1] = some (quadrantChild.setChild 0 (some quadrantGrandchild)) ∧
    quadrantGrandchild._isRoot = false ∧
    quadrantGrandchild._myBoundingBox =
      (quadrantChild.setChild 0 (some quadrantGrandchild)).getChildBoundingBox 0 ∧
    quadrantGrandchild._managePolygons = rootAfterQ._managePolygons ∧
    (∀ name, ((quadrantChild.setChild 0 (some quadrantGrandchild)).getRegion
      name)._managePolygons = rootAfterQ._managePolygons) :=
  have h := C18_lazy_children boxExternals rootAfterQ reachable_rootAfterQ [1]
    (quadrantChild.setChild 0 (some quadrantGrandchild)) rfl
  have hc := h.2.1 0 quadrantGrandchild rfl
  ⟨reachable_rootAfterQ, rfl, hc.1, hc.2.1, hc.2.2, h.2.2.2.1⟩

/-- C19, as the code computes it: `getChildBoundingBox(i)` is a rectangle of size `size/2`;
bit 1 of `i` adds `size.y/2` to `corner.y` and so selects the top half (larger `y`); bit 0 of
`i`, the `LEFT_BIT`, adds `size.x/2` to `corner.x` and so selects the half with the larger `x`,
which in the screen mapping of the source is the right half.  At the root bounds, corner
(-1,-1) and size (2,2), index 0 is the rectangle at corner (-1,-1), the bottom-left quadrant,
index 1 the one at (0,-1), bottom-right, index 2 the one at (-1,0), top-left, and index 3 the
one at (0,0), top-right; quadrant 1 lies in the right half and not in the left half of the
bounds, quadrant 0 in the left half and not in the right half. -/
theorem C19_quadrant_encoding (m : CoverageMap) :
    (∀ i, (m.getChildBoundingBox i).size =
      ⟨m._myBoundingBox.size.x / 2, m._myBoundingBox.size.y / 2⟩) ∧
    (m.getChildBoundingBox 0).corner = m._myBoundingBox.corner ∧
    (m.getChildBoundingBox 1).corner =
      ⟨m._myBoundingBox.corner.x + m._myBoundingBox.size.x / 2, m._myBoundingBox.corner.y⟩ ∧
    (m.getChildBoundingBox 2).corner =
      ⟨m._myBoundingBox.corner.x, m._myBoundingBox.corner.y + m._myBoundingBox.size.y / 2⟩ ∧
    (m.getChildBoundingBox 3).corner =
      ⟨m._myBoundingBox.corner.x + m._myBoundingBox.size.x / 2,
        m._myBoundingBox.corner.y + m._myBoundingBox.size.y / 2⟩ ∧
    freshRoot.getChildBoundingBox 0 = BoundingBox.new ⟨-1, -1⟩ ⟨1, 1⟩ ∧
    freshRoot.getChildBoundingBox 1 = BoundingBox.new ⟨0, -1⟩ ⟨1, 1⟩ ∧
    freshRoot.getChildBoundingBox 2 = BoundingBox.new ⟨-1, 0⟩ ⟨1, 1⟩ ∧
    freshRoot.getChildBoundingBox 3 = BoundingBox.new ⟨0, 0⟩ ⟨1, 1⟩ ∧
    ROOT_BOUNDING_BOX.rightHalf.contains (freshRoot.getChildBoundingBox 1) = true ∧
    ROOT_BOUNDING_BOX.leftHalf.contains (freshRoot.getChildBoundingBox 1) = false ∧
    ROOT_BOUNDING_BOX.leftHalf.contains (freshRoot.getChildBoundingBox 0) = true ∧
    ROOT_BOUNDING_BOX.rightHalf.contains (freshRoot.getChildBoundingBox 0) = false := by
  have e0 : freshRoot.getChildBoundingBox 0 = BoundingBox.new ⟨-1, -1⟩ ⟨1, 1⟩ := by
    rw [CoverageMap.getChildBoundingBox_zero]
    norm_num [freshRoot, CoverageMap.new, ROOT_BOUNDING_BOX, BoundingBox.new]
  have e1 : freshRoot.getChildBoundingBox 1 = BoundingBox.new ⟨0, -1⟩ ⟨1, 1⟩ := by
    rw [CoverageMap.getChildBoundingBox_one]
    norm_num [freshRoot, CoverageMap.new, ROOT_BOUNDING_BOX, BoundingBox.new]
  have e2 : freshRoot.getChildBoundingBox 2 = BoundingBox.new ⟨-1, 0⟩ ⟨1, 1⟩ := by
    rw [CoverageMap.getChildBoundingBox_two]
    norm_num [freshRoot, CoverageMap.new, ROOT_BOUNDING_BOX, BoundingBox.new]
  have e3 : freshRoot.getChildBoundingBox 3 = BoundingBox.new ⟨0, 0⟩ ⟨1, 1⟩ := by
    rw [CoverageMap.getChildBoundingBox_three]
    norm_num [freshRoot, CoverageMap.new, ROOT_BOUNDING_BOX, BoundingBox.new]
  refine ⟨CoverageMap.getChildBoundingBox_size m, ?_, ?_, ?_, ?_, e0, e1, e2, e3, ?_, ?_, ?_, ?_⟩
  · rw [CoverageMap.getChildBoundingBox_zero]
    rfl
  · rw [CoverageMap.getChildBoundingBox_one]
    rfl
  · rw [CoverageMap.getChildBoundingBox_two]
    rfl
  · rw [CoverageMap.getChildBoundingBox_three]
    rfl
  · rw [e1]
    norm_num [ROOT_BOUNDING_BOX, BoundingBox.new, BoundingBox.rightHalf, BoundingBox.contains]
  · rw [e1]
    norm_num [ROOT_BOUNDING_BOX, BoundingBox.new, BoundingBox.leftHalf, BoundingBox.contains]
  · rw [e0]
    norm_num [ROOT_BOUNDING_BOX, BoundingBox.new, BoundingBox.leftHalf, BoundingBox.contains]
  · rw [e0]
    norm_num [ROOT_BOUNDING_BOX, BoundingBox.new, BoundingBox.rightHalf, BoundingBox.contains]

/-- C20, refuted as stated: the rectangle of width zero on the vertical midline of the root,
corner (0,-0.5) and size (0,0.25), is contained in quadrant 0 and in quadrant 1, in exact
arithmetic and in binary32, and the rectangle of height zero on the horizontal midline, corner
(-0.5,0) and size (0.25,0), in quadrant 0 and in quadrant 2; for both the scan selects
quadrant 0, which is not the only matching one.  And in binary32 the node with corner (1,1)
and size (2^-23,2^-23) has four equal quadrants, corner (1,1) and size (2^-24,2^-24), because
the sum `1 + 2^-24` is rounded to 1; the square of side 2^-24 at (1,1), of positive width and
height, is contained in all four, and the scan selects quadrant 0. -/
theorem C20_counterexample :
    (freshRoot.getChildBoundingBox 0).contains polygonSliver.getBoundingBox = true ∧
    (freshRoot.getChildBoundingBox 1).contains polygonSliver.getBoundingBox = true ∧
    freshRoot.findChild polygonSliver.getBoundingBox = some 0 ∧
    (freshRoot.getChildBoundingBox 0).contains polygonFlat.getBoundingBox = true ∧
    (freshRoot.getChildBoundingBox 2).contains polygonFlat.getBoundingBox = true ∧
    freshRoot.findChild polygonFlat.getBoundingBox = some 0 ∧
    ¬ (∀ i j, i < 4 → j < 4 →
      (freshRoot.getChildBoundingBox i).contains polygonSliver.getBoundingBox = true →
      (freshRoot.getChildBoundingBox j).contains polygonSliver.getBoundingBox = true →
      i = j) ∧
    (freshRoot.getChildBoundingBoxBinary32 0).containsBinary32 polygonSliver.getBoundingBox =
      true ∧
    (freshRoot.getChildBoundingBoxBinary32 1).containsBinary32 polygonSliver.getBoundingBox =
      true ∧
    0 < polygonDeep.getBoundingBox.size.x ∧ 0 < polygonDeep.getBoundingBox.size.y ∧
    (∀ i, i < 4 → deepNode.getChildBoundingBoxBinary32 i = polygonDeep.getBoundingBox) ∧
    (∀ i, i < 4 →
      (deepNode.getChildBoundingBoxBinary32 i).containsBinary32 polygonDeep.getBoundingBox =
        true ∧
      (deepNode.getChildBoundingBoxBinary32 i).contains polygonDeep.getBoundingBox = true) ∧
    ¬ (∀ i j, i < 4 → j < 4 →
      (deepNode.getChildBoundingBoxBinary32 i).containsBinary32 polygonDeep.getBoundingBox =
        true →
      (deepNode.getChildBoundingBoxBinary32 j).containsBinary32 polygonDeep.getBoundingBox =
        true → i = j) ∧
    deepNode.findChildBinary32 polygonDeep.getBoundingBox = some 0 := by
  have s0 : (freshRoot.getChildBoundingBox 0).contains polygonSliver.getBoundingBox = true := by
    rw [CoverageMap.getChildBoundingBox_zero]
    norm_num [freshRoot, CoverageMap.new, ROOT_BOUNDING_BOX, BoundingBox.new,
      BoundingBox.contains, polygonSliver]
  have s1 : (freshRoot.getChildBoundingBox 1).contains polygonSliver.getBoundingBox = true := by
    rw [CoverageMap.getChildBoundingBox_one]
    norm_num [freshRoot, CoverageMap.new, ROOT_BOUNDING_BOX, BoundingBox.new,
      BoundingBox.contains, polygonSliver]
  have f0 : (freshRoot.getChildBoundingBox 0).contains polygonFlat.getBoundingBox = true := by
    rw [CoverageMap.getChildBoundingBox_zero]
    norm_num [freshRoot, CoverageMap.new, ROOT_BOUNDING_BOX, BoundingBox.new,
      BoundingBox.contains, polygonFlat]
  have f2 : (freshRoot.getChildBoundingBox 2).contains polygonFlat.getBoundingBox = true := by
    rw [CoverageMap.getChildBoundingBox_two]
    norm_num [freshRoot, CoverageMap.new, ROOT_BOUNDING_BOX, BoundingBox.new,
      BoundingBox.contains, polygonFlat]
  have b0 : (freshRoot.getChildBoundingBoxBinary32 0).containsBinary32
      polygonSliver.getBoundingBox = true := by
    rw [getChildBoundingBoxBinary32_of_exact _ quadrantsExact_freshRoot,
      containsBinary32_of_exact _ _ (farEdgesExact_freshRoot_quadrants 0 (by decide))
        farEdgesExact_polygonSliver]
    exact s0
  have b1 : (freshRoot.getChildBoundingBoxBinary32 1).containsBinary32
      polygonSliver.getBoundingBox = true := by
    rw [getChildBoundingBoxBinary32_of_exact _ quadrantsExact_freshRoot,
      containsBinary32_of_exact _ _ (farEdgesExact_freshRoot_quadrants 1 (by decide))
        farEdgesExact_polygonSliver]
    exact s1
  have hd : ∀ i, i < 4 →
      (deepNode.getChildBoundingBoxBinary32 i).containsBinary32 polygonDeep.getBoundingBox =
        true ∧
      (deepNode.getChildBoundingBoxBinary32 i).contains polygonDeep.getBoundingBox = true := by
    intro i hi
    rw [getChildBoundingBoxBinary32_deepNode i hi]
    exact ⟨containsBinary32_self _ rfl, contains_self _ rfl⟩
  refine ⟨s0, s1, ?_, f0, f2, ?_, ?_, b0, b1, ?_, ?_, getChildBoundingBoxBinary32_deepNode,
    hd, ?_, ?_⟩
  · exact CoverageMap.findChild_of_first _ _ 0 (by decide) s0 (fun i hi => by omega)
  · exact CoverageMap.findChild_of_first _ _ 0 (by decide) f0 (fun i hi => by omega)
  · intro h
    have := h 0 1 (by decide) (by decide) s0 s1
    cases this
  · norm_num [polygonDeep, square, BoundingBox.new]
  · norm_num [polygonDeep, square, BoundingBox.new]
  · intro h
    have := h 0 1 (by decide) (by decide) (hd 0 (by decide)).1 (hd 1 (by decide)).1
    cases this
  · rw [findChildBinary32_eq, (hd 0 (by decide)).1]
    rfl

/-- C20, amended.  For every node and every rectangle whose far edges `corner + size`, as
binary32 computes them, lie beyond its corner on both axes (its width and height are positive
and are not lost in the sum), at most one of the four quadrant rectangles that
`getChildBoundingBox(0..3)` computes contains the rectangle, so that the quadrant the scan of
`checkMap` selects is the only matching one.  At a node where `getChildBoundingBox` rounds
nothing, the quadrants are the exact quarters of the bounds: two of them share no rectangle of
positive width and height, and when the bounds are a rectangle of non-negative size they lie
inside the bounds and cover them (a point lies in the bounds exactly when it lies in one of
the quadrants). -/
theorem C20_quadrant_unique (m : CoverageMap) (box : BoundingBox)
    (hext : box.HasExtentBinary32) :
    (∀ i j, i < 4 → j < 4 → (m.getChildBoundingBoxBinary32 i).containsBinary32 box = true →
      (m.getChildBoundingBoxBinary32 j).containsBinary32 box = true → i = j) ∧
    (∀ i, m.findChildBinary32 box = some i →
      ∀ j, j < 4 → (m.getChildBoundingBoxBinary32 j).containsBinary32 box = true → j = i) ∧
    (m.QuadrantsExact →
      (∀ i, m.getChildBoundingBoxBinary32 i = m.getChildBoundingBox i) ∧
      (∀ other : BoundingBox, 0 < other.size.x → 0 < other.size.y →
        ∀ i j, i < 4 → j < 4 → (m.getChildBoundingBoxBinary32 i).contains other = true →
          (m.getChildBoundingBoxBinary32 j).contains other = true → i = j) ∧
      (m._myBoundingBox.IsRectangle →
        (∀ i, i < 4 → m._myBoundingBox.contains (m.getChildBoundingBoxBinary32 i) = true) ∧
        (∀ pt, m._myBoundingBox.contains (BoundingBox.point pt) = true ↔
          ∃ i, i < 4 ∧
            (m.getChildBoundingBoxBinary32 i).contains (BoundingBox.point pt) = true))) := by
  refine ⟨fun i j hi hj h1 h2 => quadrant_unique_binary32 m box hext i j hi hj h1 h2, ?_, ?_⟩
  · intro i hc j hj h2
    obtain ⟨hi, h1⟩ := findChildBinary32_some m box i hc
    exact quadrant_unique_binary32 m box hext j i hj hi h2 h1
  · intro hq
    have he := getChildBoundingBoxBinary32_of_exact m hq
    refine ⟨he, ?_, ?_⟩
    · intro other hw hh i j hi hj h1 h2
      rw [he] at h1 h2
      exact quadrant_unique m other hw hh i j hi hj h1 h2
    · intro hrect
      simp only [he]
      exact ⟨fun i hi => (contains_getChildBoundingBox m i hi hrect).1,
        quadrants_cover m hrect⟩

/-- C20 (amended) at polygon Q on the fresh root: the far edges of its rectangle lie beyond
its corner, the scan in binary32 selects quadrant 1, and quadrant 1 is the only quadrant that
contains the rectangle of Q; the root rounds nothing, and its quadrants lie inside its
bounds. -/
theorem C20_quadrant_unique_witness :
    polygonQ.getBoundingBox.HasExtentBinary32 ∧
    freshRoot.findChildBinary32 polygonQ.getBoundingBox = some 1 ∧
    (∀ j, j < 4 →
      (freshRoot.getChildBoundingBoxBinary32 j).containsBinary32 polygonQ.getBoundingBox =
        true → j = 1) ∧
    freshRoot.QuadrantsExact ∧
    (∀ i, i < 4 →
      freshRoot._myBoundingBox.contains (freshRoot.getChildBoundingBoxBinary32 i) = true) :=
  have h := C20_quadrant_unique freshRoot polygonQ.getBoundingBox hasExtentBinary32_polygonQ
  ⟨hasExtentBinary32_polygonQ, findChildBinary32_freshRoot_polygonQ,
    h.2.1 1 findChildBinary32_freshRoot_polygonQ, quadrantsExact_freshRoot,
    ((h.2.2 quadrantsExact_freshRoot).2.2 isRectangle_ROOT_BOUNDING_BOX).1⟩

/-- C21. Out-of-order branch of `checkRegion`: when the polygon passes the guard of the
region, the covered bounds contain `polygonBox`, and the first stored polygon S, in stored
order, that occludes the polygon has `S.getDistance() >= polygon.getDistance()` (ties
included), then `checkRegion` returns `STORED` with the polygon inserted into the region if
`storeIt` is set and the area is above the minimum, and otherwise returns `NOT_STORED` with
the region as it was; it does not return `OCCLUDED`, whatever the stored polygons after S
are. -/
theorem C21_out_of_order_branch (E : Externals) (r : CoverageRegion)
    (p : VoxelProjectedPolygon) (polygonBox : BoundingBox) (storeIt : Bool)
    (S : VoxelProjectedPolygon)
    (hfit : (r._isRoot || r._myBoundingBox.contains polygonBox) = true)
    (hcov : r._currentCoveredBounds.contains polygonBox = true)
    (hfirst : r._polygons.find? (fun T => E.occludes T p) = some S)
    (hdist : S.getDistance ≥ p.getDistance) :
    (storeIt = true → MINIMUM_POLYGON_AREA_TO_STORE < p.getBoundingBox.area →
      CoverageRegion.checkRegion E r p polygonBox storeIt =
        (STORED, CoverageRegion.storeInArray E r p) ∧
      p ∈ (CoverageRegion.storeInArray E r p)._polygons) ∧
    ((storeIt = false ∨ p.getBoundingBox.area ≤ MINIMUM_POLYGON_AREA_TO_STORE) →
      CoverageRegion.checkRegion E r p polygonBox storeIt = (NOT_STORED, r)) ∧
    (CoverageRegion.checkRegion E r p polygonBox storeIt).1 ≠ OCCLUDED := by
  have e := (checkRegion_scan E r p polygonBox storeIt hfit hcov).trans
    (checkRegionLoop_of_find E r p storeIt _ S hfirst)
  rw [if_pos hdist] at e
  refine ⟨?_, ?_, ?_⟩
  · intro hs ha
    rw [e, if_pos hs, if_pos ha]
    exact ⟨rfl, (CoverageRegion.mem_storeInArray E r p p).mpr (Or.inl rfl)⟩
  · intro hno
    rw [e]
    rcases hno with h | h
    · rw [h]
      rfl
    · rw [if_neg (not_lt.mpr h)]
      split_ifs <;> rfl
  · rw [e]
    split_ifs <;> simp

/-- C21 at the remainder of the root that holds polygon B (distance 20) and the nearer
polygon A (distance 10), which B occludes: A is stored, and as a query it is answered
`NOT_STORED`.  And at the nearer polygon whose rectangle has exactly the area
`3054199 / 2 ^ 34` of the constant, which B occludes too: with `storeIt` set it is answered
`NOT_STORED` and the region is as it was. -/
theorem C21_out_of_order_branch_witness :
    CoverageRegion.checkRegion boxExternals rootWithB._remainder polygonA
      polygonA.getBoundingBox true =
      (STORED, CoverageRegion.storeInArray boxExternals rootWithB._remainder polygonA) ∧
    CoverageRegion.checkRegion boxExternals rootWithB._remainder polygonA
      polygonA.getBoundingBox false = (NOT_STORED, rootWithB._remainder) ∧
    (CoverageRegion.checkRegion boxExternals rootWithB._remainder polygonA
      polygonA.getBoundingBox true).1 ≠ OCCLUDED ∧
    polygonGap.getBoundingBox.area = 3054199 / 2 ^ 34 ∧
    CoverageRegion.checkRegion boxExternals rootWithB._remainder polygonGap
      polygonGap.getBoundingBox true = (NOT_STORED, rootWithB._remainder) := by
  have hcov : rootWithB._remainder._currentCoveredBounds.contains polygonA.getBoundingBox =
      true := by
    rw [covered_rootWithB]
    exact occludes_polygonA_polygonB
  have hd : polygonB.getDistance ≥ polygonA.getDistance := le_of_lt distance_polygonA_polygonB
  have h1 := C21_out_of_order_branch boxExternals rootWithB._remainder polygonA
    polygonA.getBoundingBox true polygonB rfl hcov first_occluder_rootWithB hd
  have h2 := C21_out_of_order_branch boxExternals rootWithB._remainder polygonA
    polygonA.getBoundingBox false polygonB rfl hcov first_occluder_rootWithB hd
  have hg : polygonB.getDistance ≥ polygonGap.getDistance := by
    norm_num [polygonB, polygonGap, square]
  have h3 := C21_out_of_order_branch boxExternals rootWithB._remainder polygonGap
    polygonGap.getBoundingBox true polygonB rfl covered_rootWithB_polygonGap
    first_occluder_rootWithB_polygonGap hg
  exact ⟨(h1.1 rfl area_polygonA).1, h2.2.1 (Or.inl rfl), h1.2.2, area_polygonGap.1,
    h3.2.1 (Or.inr area_polygonGap.2)⟩

/-- C22. Stopping at the first occluder loses nothing.  For every region whose stored
sequence is in ascending order of distance, whose guard the rectangle passes and whose covered
bounds contain the rectangle, `checkRegion` returns `OCCLUDED` if and only if some stored
polygon S of the region occludes the polygon and is strictly nearer.  For every region of a
tree reachable from a freshly constructed root whose covered bounds contain the rectangle,
the stored sequence is in ascending order, the rectangle passes the guard, and so the same
equivalence holds. -/
theorem C22_first_occluder (E : Externals) (p : VoxelProjectedPolygon)
    (polygonBox : BoundingBox) (storeIt : Bool) :
    (∀ r : CoverageRegion,
      (r._polygons.map VoxelProjectedPolygon.getDistance).Sorted (· ≤ ·) →
      (r._isRoot || r._myBoundingBox.contains polygonBox) = true →
      r._currentCoveredBounds.contains polygonBox = true →
      ((CoverageRegion.checkRegion E r p polygonBox storeIt).1 = OCCLUDED ↔
        ∃ S ∈ r._polygons, E.occludes S p = true ∧ S.getDistance < p.getDistance)) ∧
    (∀ m path n name, CoverageMap.Reachable E m → m.nodeAt path = some n →
      (n.getRegion name)._currentCoveredBounds.contains polygonBox = true →
      ((n.getRegion name)._polygons.map VoxelProjectedPolygon.getDistance).Sorted (· ≤ ·) ∧
      ((n.getRegion name)._isRoot || (n.getRegion name)._myBoundingBox.contains polygonBox) =
        true ∧
      ((CoverageRegion.checkRegion E (n.getRegion name) p polygonBox storeIt).1 = OCCLUDED ↔
        ∃ S ∈ (n.getRegion name)._polygons,
          E.occludes S p = true ∧ S.getDistance < p.getDistance)) := by
  constructor
  · intro r hs hfit hcov
    exact checkRegion_occluded_iff E r p polygonBox storeIt hs hfit hcov
  · intro m path n name hreach hn hcov
    have hsorted : ((n.getRegion name)._polygons.map
        VoxelProjectedPolygon.getDistance).Sorted (· ≤ ·) := by
      obtain ⟨h1, h2⟩ := CoverageMap.reachable_allSorted hreach path n hn name
      rw [← h1]
      exact h2
    have hfit : ((n.getRegion name)._isRoot ||
        (n.getRegion name)._myBoundingBox.contains polygonBox) = true := by
      cases hr : (n.getRegion name)._isRoot with
      | true => rfl
      | false =>
        rw [reachable_coveredInside hreach path n hn name hr polygonBox hcov]
        rfl
    exact ⟨hsorted, hfit,
      checkRegion_occluded_iff E (n.getRegion name) p polygonBox storeIt hsorted hfit hcov⟩

/-- C22 at the remainder of the root that holds polygon A: polygon B, which A occludes and
which is farther than A, is answered `OCCLUDED`. -/
theorem C22_first_occluder_witness :
    (rootWithA.getRegion REMAINDER)._polygons = [polygonA] ∧
    (CoverageRegion.checkRegion boxExternals (rootWithA.getRegion REMAINDER) polygonB
      polygonB.getBoundingBox true).1 = OCCLUDED := by
  have hcov : (rootWithA.getRegion REMAINDER)._currentCoveredBounds.contains
      polygonB.getBoundingBox = true := by
    rw [covered_rootWithA]
    exact occludes_polygonA_polygonB
  have h := (C22_first_occluder boxExternals polygonB polygonB.getBoundingBox true).2
    rootWithA [] rootWithA REMAINDER reachable_rootWithA rfl hcov
  refine ⟨polygons_rootWithA, h.2.2.mpr ⟨polygonA, ?_, occludes_polygonA_polygonB,
    distance_polygonA_polygonB⟩⟩
  rw [polygons_rootWithA]
  exact List.mem_singleton_self _

/-- C23. The cheap reject is sound.  Assume that every stored polygon of the region that
occludes the polygon has a bounding rectangle that contains the rectangle of the polygon, and
that the covered bounds of the region contain the bounding rectangle of every stored polygon.
Then `checkRegion`, called with the rectangle of the polygon as `checkMap` calls it, returns
the same result and the same region as the variant that always scans the stored polygons; and
when the covered bounds do not contain the rectangle, no stored polygon occludes the polygon
and a region whose guard the rectangle passes answers `NOT_STORED` and stays as it was. -/
theorem C23_cheap_reject_sound (E : Externals) (r : CoverageRegion)
    (p : VoxelProjectedPolygon) (storeIt : Bool)
    (hocc : ∀ S ∈ r._polygons, E.occludes S p = true →
      S.getBoundingBox.contains p.getBoundingBox = true)
    (hcov : ∀ S ∈ r._polygons, r._currentCoveredBounds.contains S.getBoundingBox = true) :
    CoverageRegion.checkRegion E r p p.getBoundingBox storeIt =
      CoverageRegion.checkRegionAlwaysScan E r p p.getBoundingBox storeIt ∧
    (r._currentCoveredBounds.contains p.getBoundingBox = false →
      (∀ S ∈ r._polygons, E.occludes S p = false) ∧
      ((r._isRoot || r._myBoundingBox.contains p.getBoundingBox) = true →
        CoverageRegion.checkRegion E r p p.getBoundingBox storeIt = (NOT_STORED, r))) := by
  have hnone : r._currentCoveredBounds.contains p.getBoundingBox = false →
      ∀ S ∈ r._polygons, E.occludes S p = false := by
    intro hc S hS
    by_contra ho
    have ho' : E.occludes S p = true := by simpa using ho
    rw [contains_trans _ _ _ (hcov S hS) (hocc S hS ho')] at hc
    cases hc
  constructor
  · unfold CoverageRegion.checkRegion CoverageRegion.checkRegionAlwaysScan
    by_cases hg : (r._isRoot || r._myBoundingBox.contains p.getBoundingBox) = true
    · rw [if_pos hg, if_pos hg]
      cases hc : r._currentCoveredBounds.contains p.getBoundingBox with
      | true => rfl
      | false =>
        rw [checkRegionLoop_of_none E r p storeIt _ (hnone hc)]
        rfl
    · rw [if_neg hg, if_neg hg]
  · intro hc
    refine ⟨hnone hc, fun hg => ?_⟩
    unfold CoverageRegion.checkRegion
    rw [if_pos hg, hc]
    rfl

/-- C23 at the remainder of the root that holds polygon A and polygon Q, whose rectangle is
not inside the covered bounds (the rectangle of A): the scan is skipped, the result is
`NOT_STORED`, as it is with the scan. -/
theorem C23_cheap_reject_sound_witness :
    (rootWithA.getRegion REMAINDER)._currentCoveredBounds.contains polygonQ.getBoundingBox =
      false ∧
    CoverageRegion.checkRegion boxExternals (rootWithA.getRegion REMAINDER) polygonQ
      polygonQ.getBoundingBox true = (NOT_STORED, rootWithA.getRegion REMAINDER) ∧
    CoverageRegion.checkRegionAlwaysScan boxExternals (rootWithA.getRegion REMAINDER) polygonQ
      polygonQ.getBoundingBox true = (NOT_STORED, rootWithA.getRegion REMAINDER) := by
  have h := C23_cheap_reject_sound boxExternals (rootWithA.getRegion REMAINDER) polygonQ true
    (fun S _ ho => ho)
    (reachable_coveredOK reachable_rootWithA [] rootWithA rfl REMAINDER)
  have h2 := (h.2 not_covered_rootWithA_polygonQ).2 rfl
  exact ⟨not_covered_rootWithA_polygonQ, h2, h.1.symm.trans h2⟩

/-- C24. Covered-bounds invariant: in every tree reachable from a freshly constructed root,
the covered bounds of each region contain the bounding rectangle of every polygon stored in
that region; `storeInArray` expands the covered bounds, which afterwards contain the
rectangle of the stored polygon and all that they contained before; and after a `checkMap`
call every region that was in the tree is still at its place, with covered bounds that
contain all that they contained before the call. -/
theorem C24_covered_bounds (E : Externals) :
    (∀ m, CoverageMap.Reachable E m → ∀ path n name, m.nodeAt path = some n →
      ∀ S ∈ (n.getRegion name)._polygons,
        (n.getRegion name)._currentCoveredBounds.contains S.getBoundingBox = true) ∧
    (∀ (r : CoverageRegion) (p : VoxelProjectedPolygon),
      r._currentCoveredBounds.Within (r.storeInArray E p)._currentCoveredBounds ∧
      (r.storeInArray E p)._currentCoveredBounds.contains p.getBoundingBox = true) ∧
    (∀ fuel m m' p storeIt res, CoverageMap.checkMap E fuel m p storeIt = some (res, m') →
      ∀ path name reg, m.regionAt path name = some reg →
        ∃ reg', m'.regionAt path name = some reg' ∧
          reg._currentCoveredBounds.Within reg'._currentCoveredBounds) := by
  have hstore : ∀ (r : CoverageRegion) (p : VoxelProjectedPolygon),
      r._currentCoveredBounds.Within (r.storeInArray E p)._currentCoveredBounds := by
    intro r p
    rw [CoverageRegion.storeInArray_currentCoveredBounds]
    exact explandToInclude_within _ _
  refine ⟨?_, ?_, ?_⟩
  · intro m hreach path n name hn
    exact reachable_coveredOK hreach path n hn name
  · intro r p
    refine ⟨hstore r p, ?_⟩
    rw [CoverageRegion.storeInArray_currentCoveredBounds]
    exact CoverageMap.explandToInclude_contains _ _
  · intro fuel m m' p storeIt res h
    exact checkMap_regionAt_rel E p storeIt
      (fun reg reg' => reg._currentCoveredBounds.Within reg'._currentCoveredBounds)
      (fun _ _ hb => hb) (fun r => hstore r p) fuel m m' res h

/-- C24 at the root that holds polygon A and polygon B: the covered bounds of its remainder
contain the rectangle of A, and they contain all that the covered bounds of the remainder
contained before the call that stored A. -/
theorem C24_covered_bounds_witness :
    polygonA ∈ (rootWithAB.getRegion REMAINDER)._polygons ∧
    (rootWithAB.getRegion REMAINDER)._currentCoveredBounds.contains polygonA.getBoundingBox =
      true ∧
    ∃ reg', rootWithAB.regionAt [] REMAINDER = some reg' ∧
      (rootWithB.getRegion REMAINDER)._currentCoveredBounds.Within
        reg'._currentCoveredBounds := by
  have hmem : polygonA ∈ (rootWithAB.getRegion REMAINDER)._polygons := by
    have h : (rootWithAB.getRegion REMAINDER)._polygons = [polygonA, polygonB] :=
      storedAt_rootWithAB
    rw [h]
    exact List.mem_cons_self _ _
  have h := C24_covered_bounds boxExternals
  exact ⟨hmem, h.1 rootWithAB reachable_rootWithAB [] rootWithAB REMAINDER rfl polygonA hmem,
    h.2.2 0 rootWithB rootWithAB polygonA true STORED (checkMap_rootWithB_polygonA 0) []
      REMAINDER _ rfl⟩

/-- C25. Postcondition of `storeInArray`: for every region whose cached keys are the
distances of its stored polygons in ascending order, and every polygon, after the store the
stored count is one larger, the stored sequence is the old one with the polygon inserted at
one position (the polygons stored before keep their identity and their relative order), and
the new sequence is again in ascending order of distance, with the cached keys in step. -/
theorem C25_store_postcondition (E : Externals) (r : CoverageRegion)
    (p : VoxelProjectedPolygon) (hs : r.Sorted) :
    (r.storeInArray E p).getPolygonCount = r.getPolygonCount + 1 ∧
    (∃ i, i ≤ r._polygons.length ∧
      (r.storeInArray E p)._polygons = r._polygons.take i ++ p :: r._polygons.drop i) ∧
    ((r.storeInArray E p)._polygons.map VoxelProjectedPolygon.getDistance).Sorted (· ≤ ·) ∧
    (r.storeInArray E p).Sorted := by
  have hs' := CoverageMap.sorted_storeInArray E r p hs
  refine ⟨CoverageRegion.storeInArray_getPolygonCount E r p, ?_, ?_, hs'⟩
  · refine ⟨insertionIndex p.getDistance r._polygonDistances, ?_,
      CoverageRegion.storeInArray_polygons E r p⟩
    have h := insertionIndex_le p.getDistance r._polygonDistances
    have hl : r._polygonDistances.length = r._polygons.length := by
      rw [hs.1, List.length_map]
    rw [hl] at h
    exact h
  · rw [← hs'.1]
    exact hs'.2

/-- C25 at polygon A (distance 10) stored into the remainder of the root that holds polygon
B (distance 20): the count goes from 1 to 2 and the sequence becomes A, B. -/
theorem C25_store_postcondition_witness :
    (rootWithB.getRegion REMAINDER)._polygons = [polygonB] ∧
    ((rootWithB.getRegion REMAINDER).storeInArray boxExternals polygonA).getPolygonCount =
      (rootWithB.getRegion REMAINDER).getPolygonCount + 1 ∧
    ((rootWithB.getRegion REMAINDER).storeInArray boxExternals polygonA)._polygons =
      [polygonA, polygonB] ∧
    (((rootWithB.getRegion REMAINDER).storeInArray boxExternals polygonA)._polygons.map
      VoxelProjectedPolygon.getDistance).Sorted (· ≤ ·) :=
  have h := C25_store_postcondition boxExternals (rootWithB.getRegion REMAINDER) polygonA
    (CoverageMap.reachable_allSorted reachable_rootWithB [] rootWithB rfl REMAINDER)
  ⟨polygons_rootWithB, h.1, storedAt_rootWithAB, h.2.2.1⟩


/-- C26. No further descent after a decision of the regions: for every node and every
polygon that is fully in view and passes the guard of the node, if the check of the regions
of the node (a half, then the remainder) yields `STORED` or `OCCLUDED`, then `checkMap`
returns that result, whatever the fuel and whether or not a quadrant contains the rectangle
of the polygon; the node afterwards is the node the region check left, and every child slot
holds what it held: no child is created and no child subtree is changed. -/
theorem C26_no_descent (E : Externals) (fuel : Nat) (m : CoverageMap)
    (p : VoxelProjectedPolygon) (storeIt : Bool)
    (hv : p.getAllInView = true) (hf : m.fits p = true)
    (hd : (CoverageMap.checkRegions E m p p.getBoundingBox storeIt).1 = STORED ∨
      (CoverageMap.checkRegions E m p p.getBoundingBox storeIt).1 = OCCLUDED) :
    ∃ m', CoverageMap.checkMap E fuel m p storeIt =
        some ((CoverageMap.checkRegions E m p p.getBoundingBox storeIt).1, m') ∧
      m' = (CoverageMap.checkRegions E m p p.getBoundingBox storeIt).2.1 ∧
      (∀ i, m'.getChild i = m.getChild i) ∧
      (∀ i rest name, m'.storedAt (i :: rest) name = m.storedAt (i :: rest) name) :=
  ⟨_, CoverageMap.checkMap_decided E fuel m p storeIt hv hf hd, rfl,
    getChild_checkRegions E m p _ storeIt,
    fun i rest name => by
      rw [CoverageMap.storedAt_cons, CoverageMap.storedAt_cons,
        getChild_checkRegions E m p _ storeIt i]⟩

/-- C26 at the root that holds polygon A and the small polygon inside A, which lies inside
quadrant 3 of the root: the answer is `OCCLUDED`, the root stays as it is and slot 3 stays
empty. -/
theorem C26_no_descent_witness :
    rootWithA.findChild polygonSmall.getBoundingBox = some 3 ∧
    CoverageMap.checkMap boxExternals 0 rootWithA polygonSmall true =
      some (OCCLUDED, rootWithA) ∧
    rootWithA.getChild 3 = none := by
  obtain ⟨m', h1, h2, h3, _⟩ := C26_no_descent boxExternals 0 rootWithA polygonSmall true rfl
    rfl (Or.inr (checkRegions_rootWithA_polygonSmall true))
  have e : m' = rootWithA := by
    rw [h2]
    apply CoverageMap.checkRegions_unchanged
    rw [checkRegions_rootWithA_polygonSmall true]
    decide
  rw [checkRegions_rootWithA_polygonSmall true, e] at h1
  exact ⟨findChild_freshRoot_polygonSmall, h1, rfl⟩

/-- C27, refuted as stated: the freshly constructed, empty node with corner (0,0) and size
(1/64,1/64) and the polygon, fully in view, whose bounding rectangle is exactly the top half
of the bounds of that node: with `storeIt` set, `checkMap` answers `NOT_STORED` and stores
nothing, because the area 1/8192 of the rectangle is not above the minimum, 3054199/2^34.  And
the top half of a node of width zero, here the node with corner (0,0) and size (0,1), is
contained in quadrant 2 of that node.  In binary32 the same happens at nodes of positive width
whose width is lost in the sum `corner + size`: the top half of the node with corner (1,0) and
size (2^-24,1), and the top half, of area 32, of the node with corner (2^30,0) and size
(64,1), are contained in quadrant 2 as `getChildBoundingBox` computes it. -/
theorem C27_counterexample :
    polygonSmallTop.getAllInView = true ∧
    polygonSmallTop.getBoundingBox = smallNode._myBoundingBox.topHalf ∧
    (∀ name, (smallNode.getRegion name)._polygons = []) ∧
    CoverageMap.checkMap boxExternals 0 smallNode polygonSmallTop true =
      some (NOT_STORED, smallNode) ∧
    ((CoverageMap.new (BoundingBox.new ⟨0, 0⟩ ⟨0, 1⟩) false false).getChildBoundingBox
      2).contains (BoundingBox.new ⟨0, 0⟩ ⟨0, 1⟩).topHalf = true ∧
    0 < thinNode._myBoundingBox.size.x ∧
    (thinNode.getChildBoundingBoxBinary32 2).containsBinary32 thinNode._myBoundingBox.topHalf =
      true ∧
    0 < farNode._myBoundingBox.size.x ∧
    MINIMUM_POLYGON_AREA_TO_STORE < farNode._myBoundingBox.topHalf.area ∧
    (farNode.getChildBoundingBoxBinary32 2).containsBinary32 farNode._myBoundingBox.topHalf =
      true := by
  refine ⟨rfl, rfl, CoverageMap.getRegion_new_polygons _ _ _, ?_, ?_, ?_,
    containsBinary32_thinNode, ?_, area_farNode_topHalf, containsBinary32_farNode⟩
  rotate_left
  · rw [CoverageMap.getChildBoundingBox_two]
    norm_num [CoverageMap.new, BoundingBox.new, BoundingBox.topHalf, BoundingBox.contains]
  · norm_num [thinNode, CoverageMap.new, BoundingBox.new]
  · norm_num [farNode, CoverageMap.new, BoundingBox.new]
  have hf : smallNode.fits polygonSmallTop = true := by
    unfold CoverageMap.fits
    have : smallNode._myBoundingBox.contains polygonSmallTop.getBoundingBox = true :=
      contains_topHalf _ isRectangle_smallNode
    rw [this]
    rfl
  have hc : smallNode.findChild polygonSmallTop.getBoundingBox = none :=
    findChild_none_of_all smallNode _
      (topHalf_in_no_quadrant smallNode (by norm_num [smallNode, CoverageMap.new,
        BoundingBox.new]))
  obtain ⟨h1, h2⟩ := CoverageMap.checkRegions_of_empty boxExternals smallNode polygonSmallTop
    polygonSmallTop.getBoundingBox true (CoverageMap.getRegion_new_polygons _ _ _)
  rw [CoverageMap.checkMap_here boxExternals 0 smallNode polygonSmallTop true rfl hf h1 h2 hc]
  unfold CoverageMap.storeHere
  rw [if_pos rfl, if_neg (not_lt.mpr area_polygonSmallTop)]

/-- C27, amended: boundary-inclusive fit.  Take a node built as by the constructor, whose
bounds are a rectangle of non-negative size, and a polygon that is fully in view and whose
bounding rectangle is exactly the top half of the bounds.  In exact arithmetic and in binary32
the top-half region accepts the polygon (`checkRegion` does not return `DOESNT_FIT`) and is
the storage target.  In exact arithmetic, when the width of the node is positive, no quadrant
contains the rectangle; and when no region of the node holds a polygon and `storeIt` is set,
`checkMap` returns `STORED` with the polygon as the one stored polygon of the top half if the
area of the rectangle is above the minimum, and, if the area is not above the minimum and the
width of the node is positive, `NOT_STORED` with the node as it was.  In binary32 the same
holds at every node of positive width at which `getChildBoundingBox` and the far edges
`corner + size` of the bounds round nothing. -/
theorem C27_boundary_inclusive (E : Externals) (fuel : Nat) (m : CoverageMap)
    (p : VoxelProjectedPolygon) (hok : m.NodeOK) (hrect : m._myBoundingBox.IsRectangle)
    (hv : p.getAllInView = true) (hbox : p.getBoundingBox = m._myBoundingBox.topHalf) :
    (∀ storeIt,
      (CoverageRegion.checkRegion E m._topHalf p p.getBoundingBox storeIt).1 ≠ DOESNT_FIT) ∧
    m.storageTarget p.getBoundingBox = TOP_HALF ∧
    (0 < m._myBoundingBox.size.x →
      ∀ i, i < 4 → (m.getChildBoundingBox i).contains p.getBoundingBox = false) ∧
    ((∀ name, (m.getRegion name)._polygons = []) →
      (MINIMUM_POLYGON_AREA_TO_STORE < p.getBoundingBox.area →
        CoverageMap.checkMap E fuel m p true =
          some (STORED, m.setRegion TOP_HALF ((m.getRegion TOP_HALF).storeInArray E p)) ∧
        ((m.getRegion TOP_HALF).storeInArray E p)._polygons = [p]) ∧
      (p.getBoundingBox.area ≤ MINIMUM_POLYGON_AREA_TO_STORE → 0 < m._myBoundingBox.size.x →
        CoverageMap.checkMap E fuel m p true = some (NOT_STORED, m))) ∧
    (∀ storeIt,
      (CoverageRegion.checkRegionBinary32 E m._topHalf p p.getBoundingBox storeIt).1 ≠
        DOESNT_FIT) ∧
    (∀ storeIt, (CoverageMap.checkHalfBinary32 E m p p.getBoundingBox storeIt).2.2 = TOP_HALF) ∧
    (m.QuadrantsExact → m._myBoundingBox.FarEdgesExact → 0 < m._myBoundingBox.size.x →
      (∀ i, i < 4 →
        (m.getChildBoundingBoxBinary32 i).containsBinary32 p.getBoundingBox = false) ∧
      ((∀ name, (m.getRegion name)._polygons = []) →
        (MINIMUM_POLYGON_AREA_TO_STORE < p.getBoundingBox.area →
          CoverageMap.checkMapBinary32 E fuel m p true =
            some (STORED, m.setRegion TOP_HALF ((m.getRegion TOP_HALF).storeInArray E p))) ∧
        (p.getBoundingBox.area ≤ MINIMUM_POLYGON_AREA_TO_STORE →
          CoverageMap.checkMapBinary32 E fuel m p true = some (NOT_STORED, m)))) := by
  have htop : m._topHalf._myBoundingBox.contains p.getBoundingBox = true := by
    rw [hok.1.1, hbox]
    exact contains_self _ (topHalf_isSet _)
  have htopb : m._topHalf._myBoundingBox.containsBinary32 p.getBoundingBox = true := by
    rw [hok.1.1, hbox]
    exact containsBinary32_self _ (topHalf_isSet _)
  have htarget := storageTarget_topHalf m _ htop
  have hquad : 0 < m._myBoundingBox.size.x →
      ∀ i, i < 4 → (m.getChildBoundingBox i).contains p.getBoundingBox = false := by
    intro hx
    rw [hbox]
    exact topHalf_in_no_quadrant m hx
  refine ⟨?_, htarget, hquad, ?_,
    fun storeIt => checkRegionBinary32_ne_doesnt_fit E _ p _ storeIt htopb,
    fun storeIt => checkHalfBinary32_target_topHalf E m p _ storeIt htopb, ?_⟩
  · intro storeIt hdf
    have := ((checkRegion_doesnt_fit_iff E m._topHalf p p.getBoundingBox storeIt).mp hdf).2
    rw [htop] at this
    cases this
  · intro he
    have hf : m.fits p = true := by
      unfold CoverageMap.fits
      rw [hbox, contains_topHalf _ hrect]
      simp
    obtain ⟨h1, h2⟩ := CoverageMap.checkRegions_of_empty E m p p.getBoundingBox true he
    have hhere : 0 < m._myBoundingBox.size.x →
        CoverageMap.checkMap E fuel m p true =
          some (CoverageMap.storeHere E m TOP_HALF p true) := by
      intro hx
      rw [CoverageMap.checkMap_here E fuel m p true hv hf h1 h2
        (findChild_none_of_all m _ (hquad hx)), checkHalf_storeIn_storageTarget, htarget]
    constructor
    · intro ha
      have hx : 0 < m._myBoundingBox.size.x := by
        have h3 := width_pos_of_area p.getBoundingBox (by rw [hbox]; exact hrect.2.1) ha
        rw [hbox] at h3
        exact h3
      refine ⟨?_, ?_⟩
      · rw [hhere hx]
        unfold CoverageMap.storeHere
        rw [if_pos rfl, if_pos ha]
      · rw [CoverageRegion.storeInArray_polygons, he TOP_HALF, insertAt_nil]
    · intro ha hx
      rw [hhere hx]
      unfold CoverageMap.storeHere
      rw [if_pos rfl, if_neg (not_lt.mpr ha)]
  · intro hq hb hx
    have hnone : ∀ i, i < 4 →
        (m.getChildBoundingBoxBinary32 i).containsBinary32 p.getBoundingBox = false := by
      rw [hbox]
      exact topHalf_in_no_quadrant_binary32 m hq hb hx
    refine ⟨hnone, ?_⟩
    intro he
    have hg : (m._isRoot || m._myBoundingBox.containsBinary32 p.getBoundingBox) = true := by
      rw [hbox, containsBinary32_of_exact _ _ hb (farEdgesExact_topHalf _ hb),
        contains_topHalf _ hrect]
      simp
    have hhere := checkMapBinary32_here_of_empty E fuel m p true hv hg he
      (findChildBinary32_none_of_all m _ hnone)
    rw [checkHalfBinary32_target_topHalf E m p _ true htopb] at hhere
    constructor
    · intro ha
      rw [hhere]
      unfold CoverageMap.storeHere
      rw [if_pos rfl, if_pos ha]
    · intro ha
      rw [hhere]
      unfold CoverageMap.storeHere
      rw [if_pos rfl, if_neg (not_lt.mpr ha)]

/-- C27 (amended) at the fresh root and the polygon whose rectangle is the top half of the
screen, corner (-1,0) and size (2,1): it is stored in the top half of the root, in exact
arithmetic and in binary32; at the root nothing is rounded. -/
theorem C27_boundary_inclusive_witness :
    polygonTopHalf.getBoundingBox = freshRoot._myBoundingBox.topHalf ∧
    CoverageMap.checkMap boxExternals 0 freshRoot polygonTopHalf true =
      some (STORED, rootWithTopHalf) ∧
    (rootWithTopHalf.getRegion TOP_HALF)._polygons = [polygonTopHalf] ∧
    (∀ i, i < 4 →
      (freshRoot.getChildBoundingBox i).contains polygonTopHalf.getBoundingBox = false) ∧
    freshRoot.QuadrantsExact ∧ freshRoot._myBoundingBox.FarEdgesExact ∧
    CoverageMap.checkMapBinary32 boxExternals 0 freshRoot polygonTopHalf true =
      some (STORED, rootWithTopHalf) := by
  have h := C27_boundary_inclusive boxExternals 0 freshRoot polygonTopHalf (nodeOK_new _ _ _)
    isRectangle_ROOT_BOUNDING_BOX rfl rfl
  have hx : 0 < freshRoot._myBoundingBox.size.x := by
    norm_num [freshRoot, CoverageMap.new, ROOT_BOUNDING_BOX, BoundingBox.new]
  have h4 := (h.2.2.2.1 (CoverageMap.getRegion_new_polygons _ _ _)).1 area_polygonTopHalf
  have h5 := ((h.2.2.2.2.2.2 quadrantsExact_freshRoot farEdgesExact_ROOT_BOUNDING_BOX hx).2
    (CoverageMap.getRegion_new_polygons _ _ _)).1 area_polygonTopHalf
  refine ⟨rfl, h4.1, ?_, h.2.2.1 hx, quadrantsExact_freshRoot,
    farEdgesExact_ROOT_BOUNDING_BOX, h5⟩
  rw [rootWithTopHalf, CoverageMap.getRegion_setRegion, if_pos rfl]
  exact h4.2

/-- C28. On the root of every tree reachable from a freshly constructed root, for every
polygon that is fully in view, `checkMap` never returns `DOESNT_FIT`: whatever it returns is
one of `STORED`, `NOT_STORED`, `OCCLUDED`.  The root passes its own guard, and at every node
of the tree the child that the scan of the quadrants selects passes its guard too, because
its bounds are the quadrant that contains the rectangle.  The call returns once the fuel
reaches `descentBound`, for a polygon of positive width or height. -/
theorem C28_root_never_doesnt_fit (E : Externals) (fuel : Nat) (m : CoverageMap)
    (p : VoxelProjectedPolygon) (storeIt : Bool) (hreach : CoverageMap.Reachable E m)
    (hv : p.getAllInView = true) :
    (∀ r m', CoverageMap.checkMap E fuel m p storeIt = some (r, m') →
      r ≠ DOESNT_FIT ∧ (r = STORED ∨ r = NOT_STORED ∨ r = OCCLUDED)) ∧
    m.fits p = true ∧
    (∀ path n i, m.nodeAt path = some n → n.findChild p.getBoundingBox = some i →
      (n.childOrNew i).fits p = true) ∧
    ((0 < p.getBoundingBox.size.x ∨ 0 < p.getBoundingBox.size.y) →
      CoverageMap.descentBound m._myBoundingBox p.getBoundingBox ≤ fuel →
      ∃ r m', CoverageMap.checkMap E fuel m p storeIt = some (r, m') ∧
        (r = STORED ∨ r = NOT_STORED ∨ r = OCCLUDED)) := by
  obtain ⟨hw, hroot⟩ := reachable_wellFormed hreach
  have hf : m.fits p = true := by
    unfold CoverageMap.fits
    rw [hroot]
    rfl
  have key : ∀ r m', CoverageMap.checkMap E fuel m p storeIt = some (r, m') →
      r ≠ DOESNT_FIT ∧ (r = STORED ∨ r = NOT_STORED ∨ r = OCCLUDED) := by
    intro r m' h
    have hne := (CoverageMap.checkMap_result E p storeIt fuel m m' r h hw hv hf).1
    refine ⟨hne, ?_⟩
    cases r
    · exact Or.inl rfl
    · exact Or.inr (Or.inr rfl)
    · exact absurd rfl hne
    · exact Or.inr (Or.inl rfl)
  refine ⟨key, hf, ?_, ?_⟩
  · intro path n i hn hc
    have hwn : n.WellFormed := wellFormed_nodeAt hw path n hn
    obtain ⟨_, _, hb, _⟩ := CoverageMap.wellFormed_childOrNew hwn i
    unfold CoverageMap.fits
    rw [hb, (CoverageMap.findChild_some n _ i hc).2]
    simp
  · intro hpos hfuel
    obtain ⟨r, m', h⟩ := CoverageMap.checkMap_terminates E p storeIt fuel m hw
      (CoverageMap.shrinks_of_descentBound fuel _ _ hpos hfuel)
    exact ⟨r, m', h, (key r m' h).2⟩

/-- C28 at the fresh root and the polygon that reaches beyond the root bounds: the answer is
`STORED`, not `DOESNT_FIT`. -/
theorem C28_root_never_doesnt_fit_witness :
    freshRoot._myBoundingBox.contains polygonWide.getBoundingBox = false ∧
    CoverageMap.checkMap boxExternals 0 freshRoot polygonWide true =
      some (STORED, rootWithWide) ∧
    STORED ≠ DOESNT_FIT :=
  have h := (C28_root_never_doesnt_fit boxExternals 0 freshRoot polygonWide true
    (CoverageMap.Reachable.fresh ROOT_BOUNDING_BOX false) rfl).1 STORED rootWithWide
    (checkMap_freshRoot_polygonWide 0)
  ⟨not_contains_root_polygonWide, checkMap_freshRoot_polygonWide 0, h.1⟩

/-- C29, as the code behaves: in binary32 the descent does not end for every rectangle of
positive width or height.  The square of side 2^-30 at the corner (-1,-1) of the screen is
fully in view and has positive width and height, and the root has positive width and height;
but the far edges `-1 + 2^-30` of the square are -1 in binary32, the corner itself.  For this
polygon `checkMap` in binary32 returns for no bound on the depth of the descent, on the fresh
root and for both values of `storeIt`.  Every level does halve the size of the node (to the
binary32 value of the half), and a child is only entered when its rectangle contains the
rectangle of the polygon in binary32; it is this containment that holds at every depth.  What
the halving does guarantee: for a rectangle whose width or height is kept in the binary32 sum
`corner + size`, on every tree whose children have the bounds that `getChildBoundingBox`
computes (the fresh root is such a tree, and every call returns such a tree), at the root over
`ROOT_BOUNDING_BOX` and at every node `d` levels below it (whose size is `2^(1-d)`, and 0 from
level 151 on), the call returns once its fuel reaches `150 - d`, for both values of `storeIt`
and whatever the area of the rectangle. -/
theorem C29_descent_binary32 (E : Externals) (storeIt : Bool) :
    polygonSpeck.getAllInView = true ∧
    0 < polygonSpeck.getBoundingBox.size.x ∧ 0 < polygonSpeck.getBoundingBox.size.y ∧
    0 < freshRoot._myBoundingBox.size.x ∧ 0 < freshRoot._myBoundingBox.size.y ∧
    binary32 (polygonSpeck.getBoundingBox.corner.x + polygonSpeck.getBoundingBox.size.x) =
      polygonSpeck.getBoundingBox.corner.x ∧
    binary32 (polygonSpeck.getBoundingBox.corner.y + polygonSpeck.getBoundingBox.size.y) =
      polygonSpeck.getBoundingBox.corner.y ∧
    ¬ polygonSpeck.getBoundingBox.KeepsWidthOrHeight ∧
    (∀ fuel, CoverageMap.checkMapBinary32 E fuel freshRoot polygonSpeck storeIt = none) ∧
    (∀ (m : CoverageMap) (i : Nat), (m.getChildBoundingBoxBinary32 i).size =
      ⟨binary32 (m._myBoundingBox.size.x / 2), binary32 (m._myBoundingBox.size.y / 2)⟩) ∧
    (∀ (m : CoverageMap) (box : BoundingBox) (i : Nat), m.findChildBinary32 box = some i →
      (m.getChildBoundingBoxBinary32 i).containsBinary32 box = true) ∧
    (∀ (m : CoverageMap) (p : VoxelProjectedPolygon) (fuel d : Nat), m.WellFormedBinary32 →
      m._myBoundingBox.AtLevel d → p.getBoundingBox.KeepsWidthOrHeight → 150 ≤ d + fuel →
      ∃ r m', CoverageMap.checkMapBinary32 E fuel m p storeIt = some (r, m')) ∧
    ROOT_BOUNDING_BOX.AtLevel 0 ∧
    (∀ (m : CoverageMap) (d i : Nat), m._myBoundingBox.AtLevel d →
      (m.getChildBoundingBoxBinary32 i).AtLevel (d + 1)) ∧
    (∀ managePolygons,
      (CoverageMap.new ROOT_BOUNDING_BOX true managePolygons).WellFormedBinary32) ∧
    (∀ (m m' : CoverageMap) (p : VoxelProjectedPolygon) (fuel : Nat)
      (r : CoverageMapStorageResult),
      CoverageMap.checkMapBinary32 E fuel m p storeIt = some (r, m') → m.WellFormedBinary32 →
      m'.WellFormedBinary32 ∧ m'._myBoundingBox = m._myBoundingBox) := by
  have hfar : binary32 (polygonSpeck.getBoundingBox.corner.x +
      polygonSpeck.getBoundingBox.size.x) = -1 := binary32_speck
  refine ⟨rfl, ?_, ?_, ?_, ?_, hfar, hfar, not_keepsWidthOrHeight_polygonSpeck, ?_, ?_, ?_, ?_,
    atLevel_ROOT_BOUNDING_BOX, fun m d i h => atLevel_getChildBoundingBoxBinary32 m d i h,
    fun mp => CoverageMap.wellFormedBinary32_new _ _ mp, ?_⟩
  · norm_num [polygonSpeck, square, BoundingBox.new]
  · norm_num [polygonSpeck, square, BoundingBox.new]
  · norm_num [freshRoot, CoverageMap.new, ROOT_BOUNDING_BOX, BoundingBox.new]
  · norm_num [freshRoot, CoverageMap.new, ROOT_BOUNDING_BOX, BoundingBox.new]
  · intro fuel
    exact checkMapBinary32_at_corner_none E polygonSpeck storeIt rfl rfl hfar hfar fuel 2 2
      true false (by norm_num) (by norm_num)
  · intro m i
    unfold CoverageMap.getChildBoundingBoxBinary32
    simp only [BoundingBox.new]
    split_ifs <;> rfl
  · intro m box i h
    exact (findChildBinary32_some m box i h).2
  · intro m p fuel d hw hl hext hfuel
    exact checkMapBinary32_returns_level E p storeIt hext fuel d m hfuel hw hl
  · intro m m' p fuel r h hw
    obtain ⟨h1, _, h3⟩ := CoverageMap.checkMapBinary32_wellFormed E p storeIt fuel m m' r h hw
    exact ⟨h1, h3⟩

/-- C29 at polygon Q on the fresh root: the width of Q is kept in binary32; the query in
binary32 descends two levels and answers `NOT_STORED`, with fuel for one level it does not
return, and with fuel for 150 levels it returns; the tree it leaves is again one whose
children have the bounds that `getChildBoundingBox` computes. -/
theorem C29_descent_binary32_witness :
    freshRoot.WellFormedBinary32 ∧ polygonQ.getBoundingBox.KeepsWidthOrHeight ∧
    (∃ r m', CoverageMap.checkMapBinary32 boxExternals 150 freshRoot polygonQ false =
      some (r, m')) ∧
    CoverageMap.checkMapBinary32 boxExternals 2 freshRoot polygonQ false =
      some (NOT_STORED, rootAfterQ) ∧
    CoverageMap.checkMapBinary32 boxExternals 1 freshRoot polygonQ false = none ∧
    rootAfterQ.WellFormedBinary32 :=
  have h := C29_descent_binary32 boxExternals false
  ⟨CoverageMap.wellFormedBinary32_new _ _ _,
    keepsWidthOrHeight_of_hasExtent _ hasExtentBinary32_polygonQ,
    h.2.2.2.2.2.2.2.2.2.2.2.1 freshRoot polygonQ 150 0 (CoverageMap.wellFormedBinary32_new _ _ _)
      h.2.2.2.2.2.2.2.2.2.2.2.2.1
      (keepsWidthOrHeight_of_hasExtent _ hasExtentBinary32_polygonQ) (le_refl _),
    (checkMapBinary32_freshRoot_polygonQ 0).1, (checkMapBinary32_freshRoot_polygonQ 0).2,
    (h.2.2.2.2.2.2.2.2.2.2.2.2.2.2.2 freshRoot rootAfterQ polygonQ 2 NOT_STORED
      (checkMapBinary32_freshRoot_polygonQ 0).1 (CoverageMap.wellFormedBinary32_new _ _ _)).1⟩

/-- C30. In every tree reachable from a freshly constructed root, every polygon stored in
any region of any node is fully in view and has a bounding rectangle of area strictly above
`MINIMUM_POLYGON_AREA_TO_STORE`. -/
theorem C30_stored_admissible (E : Externals) (m : CoverageMap)
    (h : CoverageMap.Reachable E m) :
    ∀ path name S, S ∈ m.storedAt path name →
      S.getAllInView = true ∧ MINIMUM_POLYGON_AREA_TO_STORE < S.getBoundingBox.area := by
  intro path name S hS
  obtain ⟨n, hn, hmem⟩ := mem_storedAt m path name S hS
  exact reachable_storedAdmissible h path n hn name S hmem

/-- C30 at the root that holds polygon A and polygon B: polygon B, stored in the remainder,
is in view and has area above the minimum. -/
theorem C30_stored_admissible_witness :
    polygonB ∈ rootWithAB.storedAt [] REMAINDER ∧
    polygonB.getAllInView = true ∧
    MINIMUM_POLYGON_AREA_TO_STORE < polygonB.getBoundingBox.area := by
  have hmem : polygonB ∈ rootWithAB.storedAt [] REMAINDER := by
    rw [storedAt_rootWithAB]
    exact List.mem_cons_of_mem _ (List.mem_singleton_self _)
  exact ⟨hmem, C30_stored_admissible boxExternals rootWithAB reachable_rootWithAB [] REMAINDER
    polygonB hmem⟩

/-- C31. A cleared tree behaves like a fresh one.  Assume that `occludes S P` implies that the
bounding rectangle of `S` contains that of `P`.  For every reachable tree `m` and every sequence
of `checkMap` calls, run with the same bound on the depth of descent on `m.erase` and on a
freshly constructed tree of the same bounds: the runs return together and with the same sequence
of results; the trees they leave hold the same stored polygons in every region of every node;
and the run on the cleared tree returns when every polygon has a rectangle of positive width or
height and the bound covers its depth of descent.  This holds although `erase` empties the
stored arrays and the child slots and leaves the covered bounds of the regions as they were. -/
theorem C31_cleared_like_fresh (E : Externals) (hE : E.OccludesWithinBounds)
    (m : CoverageMap) (hm : CoverageMap.Reachable E m) (fuel : Nat)
    (calls : List (VoxelProjectedPolygon × Bool)) :
    (checkMapSeq E fuel m.erase calls).map Prod.fst =
        (checkMapSeq E fuel (CoverageMap.new m._myBoundingBox m._isRoot m._managePolygons)
          calls).map Prod.fst ∧
      (∀ rs cleared, checkMapSeq E fuel m.erase calls = some (rs, cleared) →
        ∃ fresh,
          checkMapSeq E fuel (CoverageMap.new m._myBoundingBox m._isRoot m._managePolygons)
            calls = some (rs, fresh) ∧
          ∀ path name, cleared.storedAt path name = fresh.storedAt path name) ∧
      ((∀ c ∈ calls, (0 < c.1.getBoundingBox.size.x ∨ 0 < c.1.getBoundingBox.size.y) ∧
          CoverageMap.descentBound m._myBoundingBox c.1.getBoundingBox ≤ fuel) →
        ∃ rs cleared, checkMapSeq E fuel m.erase calls = some (rs, cleared)) ∧
      (∀ name, (m.erase.getRegion name)._polygons = [] ∧
        (m.erase.getRegion name)._currentCoveredBounds =
          (m.getRegion name)._currentCoveredBounds) ∧
      ∀ i, m.erase.getChild i = none := by
  have hw := (reachable_wellFormed hm).1
  have hal := alike_erase_new hw
  refine ⟨?_, ?_, ?_, ?_, CoverageMap.getChild_erase m⟩
  · cases h1 : checkMapSeq E fuel m.erase calls with
    | none =>
      cases h2 : checkMapSeq E fuel
          (CoverageMap.new m._myBoundingBox m._isRoot m._managePolygons) calls with
      | none => rfl
      | some y =>
        obtain ⟨rs, fresh⟩ := y
        obtain ⟨cleared, hrun, _⟩ :=
          alike_checkMapSeq E hE fuel calls _ _ (alike_symm hal) rs fresh h2
        rw [h1] at hrun
        cases hrun
    | some x =>
      obtain ⟨rs, cleared⟩ := x
      obtain ⟨fresh, hrun, _⟩ := alike_checkMapSeq E hE fuel calls _ _ hal rs cleared h1
      rw [hrun]
      rfl
  · intro rs cleared h1
    obtain ⟨fresh, hrun, hlast⟩ := alike_checkMapSeq E hE fuel calls _ _ hal rs cleared h1
    exact ⟨fresh, hrun, fun path name => alike_storedAt hlast path name⟩
  · intro hc
    exact checkMapSeq_terminates E fuel calls m.erase (wellFormed_erase hw) hc
  · intro name
    rw [CoverageMap.getRegion_erase]
    exact ⟨rfl, rfl⟩

/-- C31 at the root that holds polygon A, cleared, and the calls that submit polygon B and then
the nearer polygon A: the remainder of the cleared root still has the rectangle of A as covered
bounds where the fresh root has none, both runs answer `STORED` twice, and the run on the
cleared root returns with a bound of 2. -/
theorem C31_cleared_like_fresh_witness :
    boxExternals.OccludesWithinBounds ∧ CoverageMap.Reachable boxExternals rootWithA ∧
    (rootWithA.erase.getRegion REMAINDER)._currentCoveredBounds = polygonA.getBoundingBox ∧
    (freshRoot.getRegion REMAINDER)._currentCoveredBounds = BoundingBox.unset ∧
    (checkMapSeq boxExternals 2 rootWithA.erase [(polygonB, true), (polygonA, true)]).map
      Prod.fst = some [STORED, STORED] ∧
    ∃ rs cleared, checkMapSeq boxExternals 2 rootWithA.erase
      [(polygonB, true), (polygonA, true)] = some (rs, cleared) :=
  ⟨occludesWithinBounds_boxExternals, reachable_rootWithA,
    ((C31_cleared_like_fresh boxExternals occludesWithinBounds_boxExternals rootWithA
      reachable_rootWithA 2 []).2.2.2.1 REMAINDER).2.trans covered_rootWithA,
    rfl,
    (C31_cleared_like_fresh boxExternals occludesWithinBounds_boxExternals rootWithA
      reachable_rootWithA 2 [(polygonB, true), (polygonA, true)]).1.trans
      (congrArg (Option.map Prod.fst) (checkMapSeq_freshRoot_B_A 2)),
    (C31_cleared_like_fresh boxExternals occludesWithinBounds_boxExternals rootWithA
      reachable_rootWithA 2 [(polygonB, true), (polygonA, true)]).2.2.1 (by
        intro c hc
        simp only [List.mem_cons, List.mem_singleton, List.not_mem_nil, or_false] at hc
        rcases hc with hc | hc
        · rw [hc]
          exact ⟨Or.inl (by norm_num [polygonB, square, BoundingBox.new]),
            descentBound_root_polygonA⟩
        · rw [hc]
          exact ⟨Or.inl (by norm_num [polygonA, square, BoundingBox.new]),
            descentBound_root_polygonA⟩)⟩

/-- C32, refuted as stated: with `DEFAULT_GROW_SIZE` 100, a store into the full region of
capacity 100 grows the capacity to 200, and a store into the full region of capacity 200 grows
it to 300; and whatever the value of `DEFAULT_GROW_SIZE`, no constant factor greater than one
takes the old capacity to the new one at every growth. -/
theorem C32_counterexample :
    (fullRegion 100)._polygonArraySize < (fullRegion 100).getPolygonCount + 1 ∧
    (CoverageRegion.storeInArray boxExternals (fullRegion 100) polygonA)._polygonArraySize =
      200 ∧
    (fullRegion 200)._polygonArraySize < (fullRegion 200).getPolygonCount + 1 ∧
    (CoverageRegion.storeInArray boxExternals (fullRegion 200) polygonA)._polygonArraySize =
      300 ∧
    ∀ E : Externals, ¬ ∃ c : ℚ, 1 < c ∧ ∀ (r : CoverageRegion) (p : VoxelProjectedPolygon),
      r._polygonArraySize < r.getPolygonCount + 1 →
      ((CoverageRegion.storeInArray E r p)._polygonArraySize : ℚ) =
        c * (r._polygonArraySize : ℚ) := by
  refine ⟨fullRegion_full 100, storeInArray_fullRegion 100 polygonA, fullRegion_full 200,
    storeInArray_fullRegion 200 polygonA, ?_⟩
  rintro E ⟨c, hc, h⟩
  have h1 := h (fullRegion 100) polygonA (fullRegion_full 100)
  have h2 := h (fullRegion 200) polygonA (fullRegion_full 200)
  rw [storeInArray_polygonArraySize, if_pos (fullRegion_full 100)] at h1
  rw [storeInArray_polygonArraySize, if_pos (fullRegion_full 200)] at h2
  have e1 : (fullRegion 100)._polygonArraySize = 100 := rfl
  have e2 : (fullRegion 200)._polygonArraySize = 200 := rfl
  rw [e1] at h1
  rw [e2] at h2
  push_cast at h1 h2
  linarith

/-- C32, amended: whenever `storeInArray` finds the arrays full (`_polygonArraySize <
_polygonCount + 1`) it grows the capacity by the constant `DEFAULT_GROW_SIZE` before
inserting (the new capacity is the old capacity plus `DEFAULT_GROW_SIZE`), and otherwise it
leaves the capacity as it is; the polygon is then inserted among the entries held before.
`growPolygonArray` adds `DEFAULT_GROW_SIZE` to the array size, keeps the count, and leaves
every one of the first `_polygonCount` slots of the polygon array and of the distance array
with its contents; for the arrays of a region of the model the used slots after the growth are
the lists of the region. -/
theorem C32_additive_growth (E : Externals) (r : CoverageRegion)
    (p : VoxelProjectedPolygon) (st : PolygonStorage)
    (newPolygons : List VoxelProjectedPolygon) (newDistances : List ℚ) :
    (r._polygonArraySize < r.getPolygonCount + 1 →
      (CoverageRegion.storeInArray E r p)._polygonArraySize =
        r._polygonArraySize + E.DEFAULT_GROW_SIZE) ∧
    (¬ r._polygonArraySize < r.getPolygonCount + 1 →
      (CoverageRegion.storeInArray E r p)._polygonArraySize = r._polygonArraySize) ∧
    (CoverageRegion.storeInArray E r p)._polygons =
      insertAt (insertionIndex p.getDistance r._polygonDistances) p r._polygons ∧
    (st.growPolygonArray E newPolygons newDistances)._polygonArraySize =
      st._polygonArraySize + E.DEFAULT_GROW_SIZE ∧
    (st.growPolygonArray E newPolygons newDistances)._polygonCount = st._polygonCount ∧
    (∀ polygons distances, st._polygons = some polygons →
      st._polygonDistances = some distances →
      st._polygonCount ≤ polygons.length → st._polygonCount ≤ distances.length →
      ∀ i, i < st._polygonCount →
        ((st.growPolygonArray E newPolygons newDistances)._polygons.getD [])[i]? =
            polygons[i]? ∧
          ((st.growPolygonArray E newPolygons newDistances)._polygonDistances.getD [])[i]? =
            distances[i]?) ∧
    (∀ fill, r.getPolygonCount ≤ r._polygonArraySize →
      r._polygonDistances.length = r._polygons.length →
      ((r.storage fill).growPolygonArray E newPolygons newDistances).storedPolygons =
          (CoverageRegion.growPolygonArray E r)._polygons ∧
        ((r.storage fill).growPolygonArray E newPolygons newDistances).storedDistances =
          (CoverageRegion.growPolygonArray E r)._polygonDistances ∧
        ((r.storage fill).growPolygonArray E newPolygons newDistances)._polygonArraySize =
          (CoverageRegion.growPolygonArray E r)._polygonArraySize) := by
  refine ⟨?_, ?_, CoverageRegion.storeInArray_polygons E r p,
    growPolygonArray_polygonArraySize E st _ _, growPolygonArray_polygonCount E st _ _, ?_, ?_⟩
  · intro h
    rw [storeInArray_polygonArraySize, if_pos h]
  · intro h
    rw [storeInArray_polygonArraySize, if_neg h]
  · intro polygons distances hp hd hcp hcd i hi
    obtain ⟨e1, e2⟩ := growPolygonArray_polygons_some E st newPolygons newDistances polygons hp
    rw [e1, e2, hd]
    exact ⟨memcpy_getElem? _ _ _ i hi hcp, memcpy_getElem? _ _ _ i hi hcd⟩
  · intro fill hc hl
    exact storage_growPolygonArray E r fill newPolygons newDistances hc hl

/-- C32 (amended) at the first store into the remainder of the fresh root, where the capacity
goes from 0 to 100, and at the growth of the arrays of two slots that hold polygons A and B,
whose slot 1 still holds polygon B and its distance 20 in the new arrays of 102 slots. -/
theorem C32_additive_growth_witness :
    freshRoot._remainder._polygonArraySize = 0 ∧
    (CoverageRegion.storeInArray boxExternals freshRoot._remainder polygonA)._polygonArraySize =
      0 + 100 ∧
    ((storageAB.growPolygonArray boxExternals (List.replicate 102 polygonQ)
      (List.replicate 102 0))._polygons.getD [])[1]? = some polygonB ∧
    ((storageAB.growPolygonArray boxExternals (List.replicate 102 polygonQ)
      (List.replicate 102 0))._polygonDistances.getD [])[1]? = some 20 ∧
    (storageAB.growPolygonArray boxExternals (List.replicate 102 polygonQ)
      (List.replicate 102 0))._polygonArraySize = 2 + 100 :=
  ⟨rfl,
    (C32_additive_growth boxExternals freshRoot._remainder polygonA storageAB
      (List.replicate 102 polygonQ) (List.replicate 102 0)).1 (by decide),
    ((C32_additive_growth boxExternals freshRoot._remainder polygonA storageAB
      (List.replicate 102 polygonQ) (List.replicate 102 0)).2.2.2.2.2.1
      [polygonA, polygonB] [10, 20] rfl rfl (by decide) (by decide) 1 (by decide)).1,
    ((C32_additive_growth boxExternals freshRoot._remainder polygonA storageAB
      (List.replicate 102 polygonQ) (List.replicate 102 0)).2.2.2.2.2.1
      [polygonA, polygonB] [10, 20] rfl rfl (by decide) (by decide) 1 (by decide)).2,
    (C32_additive_growth boxExternals freshRoot._remainder polygonA storageAB
      (List.replicate 102 polygonQ) (List.replicate 102 0)).2.2.2.1⟩


/-- C33. In exact rational arithmetic the initialiser of `MINIMUM_POLYGON_AREA_TO_STORE`
(lines 43-47) is the area, in the units in which the screen is 2 wide, of a square of 10 by 10
pixels on a screen 1500 pixels wide: `(10 * 2/1500)^2 = 1/5625`.  The constant itself is a
`const float`: in binary32 arithmetic its initialiser has the value `3054199 / 2^34`, which is
above `1/5625`. -/
theorem C33_minimum_area_value :
    screenPixelWidth id = 2 / 1500 ∧
    minimumPolygonArea id = (10 * (2 / 1500)) ^ 2 ∧
    minimumPolygonArea id = 1 / 5625 ∧
    (BoundingBox.new ⟨0, 0⟩ ⟨10 * (2 / 1500), 10 * (2 / 1500)⟩).exactArea =
      minimumPolygonArea id ∧
    MINIMUM_POLYGON_AREA_TO_STORE = 3054199 / 2 ^ 34 ∧
    minimumPolygonArea id < MINIMUM_POLYGON_AREA_TO_STORE := by
  refine ⟨?_, ?_, minimumPolygonArea_exact, ?_, MINIMUM_POLYGON_AREA_TO_STORE_eq,
    minimumPolygonArea_exact_lt⟩ <;>
    norm_num [minimumPolygonArea, screenPixelWidth, TYPICAL_SCREEN_WIDTH_IN_PIXELS,
      MINIMUM_POLYGON_AREA_SIDE_IN_PIXELS, BoundingBox.exactArea, BoundingBox.new]

end Hifi
